import Mathlib

/-!
# Remmina SSH core: session authentication, host trust and tunnel relay

A shallow embedding of `src/remmina_ssh.c`.

* The C structs become Lean structures; pointers that may be NULL become `Option`.
* Every call into a collaborator (the libssh transport, the GTK panels, the profile
  store, POSIX sockets) is answered by an oracle of `Env`.  An oracle receives the
  history of calls made so far, so an answer may depend on everything that happened
  before (for example the host key is known after it has been written).
* Each such call is appended to a trace of `Event`s, which is how "primitive X is
  never invoked" is stated.
* `gint`/`ssize_t` values are `Int`; no arithmetic in the modelled code can overflow.
-/

namespace Remmina

/-! ## Constants of libssh, GTK and POSIX -/

abbrev SSH_OK : Int := 0
abbrev SSH_AUTH_SUCCESS : Int := 0
abbrev SSH_AUTH_DENIED : Int := 1
abbrev SSH_AUTH_INFO : Int := 3
abbrev SSH_AUTH_ERROR : Int := -1

abbrev SSH_AUTH_METHOD_PASSWORD : Nat := 0x0002
abbrev SSH_AUTH_METHOD_PUBLICKEY : Nat := 0x0004
abbrev SSH_AUTH_METHOD_INTERACTIVE : Nat := 0x0010
abbrev SSH_AUTH_METHOD_GSSAPI_MIC : Nat := 0x0020

abbrev SSH_SERVER_ERROR : Int := -1
abbrev SSH_SERVER_NOT_KNOWN : Int := 0
abbrev SSH_SERVER_KNOWN_OK : Int := 1
abbrev SSH_SERVER_KNOWN_CHANGED : Int := 2
abbrev SSH_SERVER_FOUND_OTHER : Int := 3
abbrev SSH_SERVER_FILE_NOT_FOUND : Int := 4

abbrev GTK_RESPONSE_OK : Int := -5
abbrev GTK_RESPONSE_YES : Int := -8

abbrev EAGAIN : Int := 11

abbrev SSH_ERROR : Int := -1
abbrev SSH_EOF : Int := -127
abbrev SSH_EINTR : Int := 3

/-! ## Data model -/

/-- Modelled from the spec: the auth-method selector of a session, an enum declared in
`remmina_ssh.h` (absent).  `other` stands for every selector value that has no `case`
label in the two `switch (ssh->auth)` statements (keyboard-interactive included). -/
inductive AuthMethod where
  | SSH_AUTH_PASSWORD
  | SSH_AUTH_PUBLICKEY
  | SSH_AUTH_AGENT
  | SSH_AUTH_AUTO_PUBLICKEY
  | SSH_AUTH_GSSAPI
  | other
deriving DecidableEq, Repr

/-- The text produced by `g_strdup_printf (fmt, args...)`, kept as template and
arguments. -/
structure ErrorText where
  fmt : String
  args : List String
deriving DecidableEq, Repr

/-- The fields of `RemminaSSH`.  `session` and `callback` only record whether the
pointer is set; a string field that is NULL is `none`. -/
structure RemminaSSH where
  auth : AuthMethod
  authenticated : Bool
  password : Option String
  passphrase : Option String
  privkeyfile : Option String
  error : Option ErrorText
  session : Bool := false
  callback : Bool := false
  server : Option String := none
  port : Int := 0
  user : Option String := none
  charset : Option String := none
  kex_algorithms : Option String := none
  ciphers : Option String := none
  hostkeytypes : Option String := none
  proxycommand : Option String := none
  stricthostkeycheck : Int := 0
  compression : Option String := none
deriving DecidableEq, Repr

/-- A remote channel handle (`ssh_channel`); NULL is `none` where it can occur. -/
abbrev Channel := Nat

/-- Bytes. -/
abbrev Byte := Nat

/-- `struct _RemminaSSHTunnelBuffer`: `data` is the allocated block, `ptr` the offset
of the read cursor from `data`, `len` the remaining length. -/
structure RemminaSSHTunnelBuffer where
  data : List Byte
  ptr : Nat
  len : Int
deriving DecidableEq, Repr

/-- Tunnel topology tag. -/
inductive TunnelType where
  | REMMINA_SSH_TUNNEL_OPEN
  | REMMINA_SSH_TUNNEL_X11
  | REMMINA_SSH_TUNNEL_XPORT
  | REMMINA_SSH_TUNNEL_REVERSE
deriving DecidableEq, Repr

/-- The fields of `RemminaSSHTunnel` used by the modelled code.  The three callbacks
are function pointers; here only whether each is set is kept, their effect is an
oracle of `Env`. -/
structure RemminaSSHTunnel where
  ssh : RemminaSSH
  tunnel_type : TunnelType
  channels : List (Option Channel)
  sockets : List Int
  socketbuffers : List (Option RemminaSSHTunnelBuffer)
  num_channels : Int
  max_channels : Int
  thread : Nat
  running : Bool
  bindlocalhost : Bool
  port : Int
  remotedisplay : Int
  init_func : Bool
  connect_func : Bool
  disconnect_func : Bool
  server_sock : Int := -1
  dest : Option String := none
  localport : Int := 0
  localdisplay : Option String := none
  x11_channel : Option Channel := none
  buffer_len : Int := 0
deriving DecidableEq, Repr

/-- The fields of `RemminaSSHShell`.  `exit_callback` only records whether the
function pointer is set. -/
structure RemminaSSHShell where
  ssh : RemminaSSH
  master : Int := -1
  slave : Int := -1
  exec : Option String := none
  channel : Option Channel := none
  closed : Bool := false
  thread : Nat := 0
  exit_callback : Bool := false
deriving DecidableEq, Repr

/-- One call into a collaborator, with its arguments.  The two byte-transfer calls
also record the count they returned, that is how many of the offered bytes the peer
took. -/
inductive Event where
  | ssh_is_server_known
  | ssh_userauth_list
  | ssh_userauth_password (password : String)
  | ssh_userauth_kbdint
  | ssh_userauth_kbdint_getnprompts
  | ssh_userauth_kbdint_setanswer (i : Nat) (answer : String)
  | g_file_test (path : String)
  | ssh_pki_import_pubkey_file (path : String)
  | ssh_pki_import_privkey_file (path : String) (passphrase : String)
  | ssh_userauth_publickey
  | ssh_userauth_agent
  | ssh_userauth_publickey_auto (passphrase : Option String)
  | ssh_userauth_gssapi
  | ssh_get_server_publickey
  | ssh_get_publickey_hash
  | panel_question_yesno (message : String)
  | ssh_write_knownhost
  | remmina_file_get_string (key : String)
  | remmina_file_get_int (key : String)
  | remmina_file_set_string (key : String) (value : Option String)
  | panel_authpwd (allow_save : Bool)
  | panel_authuserpwd_ssh_tunnel (allow_save : Bool)
  | panel_authuserpwd (allow_save : Bool)
  | get_savepassword
  | get_password
  | ssh_channel_listen_forward (localhost : Bool) (port : Int)
  | init_func (tunnel : RemminaSSHTunnel)
  | disconnect_func (tunnel : RemminaSSHTunnel)
  | ssh_channel_close (channel : Option Channel)
  | ssh_channel_send_eof (channel : Option Channel)
  | ssh_channel_free (channel : Option Channel)
  | close (fd : Int)
  | remmina_ssh_tunnel_buffer_free (buffer : Option RemminaSSHTunnelBuffer)
  | write (fd : Int) (bytes : List Byte) (ret : Int)
  | ssh_channel_write (channel : Option Channel) (bytes : List Byte) (ret : Int)
  | ssh_new
  | ssh_options_set (option : String) (value : Option String)
  | ssh_options_set_int (option : String) (value : Int)
  | ssh_callbacks_init
  | remmina_log_running
  | ssh_set_log_userdata
  | ssh_set_callbacks
  | ssh_options_parse_config
  | ssh_connect
  | ssh_get_fd
  | setsockopt (fd : Int) (name : String) (value : Int)
  | ssh_userauth_none
  | remmina_public_get_server_port (server : Option String) (defaultport : Int)
  | g_get_user_name
  | g_get_home_dir
  | pthread_mutex_lock
  | pthread_mutex_unlock
  | ssh_channel_new
  | ssh_channel_open_session (channel : Option Channel)
  | ssh_channel_request_pty (channel : Option Channel)
  | ssh_channel_request_exec (channel : Option Channel) (cmd : Option String)
  | ssh_channel_request_shell (channel : Option Channel)
  | ssh_channel_change_pty_size (channel : Option Channel) (columns rows : Int)
  | ssh_select (channels : List (Option Channel)) (fds : List Int)
  | read (fd : Int) (count : Int)
  | ssh_channel_poll (channel : Option Channel) (is_stderr : Int)
  | ssh_channel_read_nonblocking (channel : Option Channel) (count : Int) (is_stderr : Int)
  | idle_add_exit_callback
  | accept (server_sock : Int) (blocking : Bool)
  | ssh_channel_open_forward (channel : Option Channel) (dest : Option String) (port : Int)
  | ssh_channel_accept_x11 (x11_channel : Option Channel) (timeout : Int)
  | ssh_channel_accept_forward (timeout : Int)
  | ssh_channel_cancel_forward (port : Int)
  | connect_func (tunnel : RemminaSSHTunnel)
  | connect_local_port (port : Int)
  | remmina_public_open_xdisplay (display : Option String)
  | fcntl_nonblock (fd : Int)
  | g_get_current_time
  | remmina_public_get_xauth_cookie (display : Option String)
  | ssh_channel_request_x11 (channel : Option Channel) (cookie : String)
deriving Repr

/-- The collaborators.  Every oracle takes the history of calls made so far. -/
structure Env where
  ssh_get_error : List Event → String
  ssh_is_server_known : List Event → Int
  ssh_userauth_list : List Event → Nat
  ssh_userauth_password : List Event → String → Int
  ssh_userauth_kbdint : List Event → Int
  ssh_userauth_kbdint_getnprompts : List Event → Int
  g_file_test : List Event → String → Bool
  ssh_pki_import_pubkey_file : List Event → String → Int
  ssh_pki_import_privkey_file : List Event → String → String → Int
  ssh_userauth_publickey : List Event → Int
  ssh_userauth_agent : List Event → Int
  ssh_userauth_publickey_auto : List Event → Option String → Int
  ssh_userauth_gssapi : List Event → Int
  ssh_get_server_publickey : List Event → Int
  /-- Return code of `ssh_get_publickey_hash` and the `ssh_get_hexa` text of the hash. -/
  ssh_get_publickey_hash : List Event → Int × String
  panel_question_yesno : List Event → String → Int
  remmina_file_get_string : List Event → String → Option String
  remmina_file_get_int : List Event → String → Int
  panel_authpwd : List Event → Bool → Int
  panel_authuserpwd_ssh_tunnel : List Event → Bool → Int
  panel_authuserpwd : List Event → Bool → Int
  get_savepassword : List Event → Bool
  get_password : List Event → Option String
  ssh_channel_listen_forward : List Event → Bool → Int → Int
  init_func : List Event → RemminaSSHTunnel → Bool
  /-- Result of `write (fd, ptr, len)` and the `errno` it leaves. -/
  write : List Event → Int → List Byte → Int × Int
  ssh_channel_write : List Event → Option Channel → List Byte → Int
  remmina_log_running : List Event → Bool
  /-- The preferences `remmina_pref.ssh_loglevel`, `ssh_parseconfig`, `ssh_tcp_keepidle`,
  `ssh_tcp_keepcnt`, `ssh_tcp_keepintvl` and `ssh_tcp_usrtimeout`. -/
  pref_ssh_loglevel : Int
  pref_ssh_parseconfig : Bool
  pref_ssh_tcp_keepidle : Int
  pref_ssh_tcp_keepcnt : Int
  pref_ssh_tcp_keepintvl : Int
  pref_ssh_tcp_usrtimeout : Int
  ssh_connect : List Event → Int
  ssh_get_fd : List Event → Int
  ssh_userauth_none : List Event → Int
  /-- The host and port that `remmina_public_get_server_port` (defined outside this
  file) extracts from a server string. -/
  remmina_public_get_server_port : List Event → Option String → Int → String × Int
  g_get_user_name : List Event → String
  g_get_home_dir : List Event → String
  /-- The value of the auth-method enum that an integer of the profile stands for; the
  enum is declared outside this file. -/
  auth_of_int : Int → AuthMethod
  /-- Character-set conversion `g_convert (from, -1, to_codeset, from_codeset, ...)`;
  `none` is a failed conversion. -/
  g_convert : List Byte → String → String → Option (List Byte)
  ssh_channel_new : List Event → Option Channel
  ssh_channel_open_session : List Event → Option Channel → Int
  ssh_channel_request_exec : List Event → Option Channel → Option String → Int
  ssh_channel_request_shell : List Event → Option Channel → Int
  /-- Return code of `ssh_select` and the descriptors left set in the `fd_set`. -/
  ssh_select : List Event → List (Option Channel) → List Int → Int × List Int
  /-- Return value of `read (fd, buf, count)` and the bytes it stored. -/
  read : List Event → Int → Int → Int × List Byte
  ssh_channel_poll : List Event → Option Channel → Int → Int
  /-- Return value of `ssh_channel_read_nonblocking` and the bytes it stored. -/
  ssh_channel_read_nonblocking : List Event → Option Channel → Int → Int → Int × List Byte
  accept : List Event → Int → Bool → Int
  ssh_channel_open_forward : List Event → Option Channel → Option String → Int → Int
  ssh_channel_accept_x11 : List Event → Option Channel → Int → Option Channel
  /-- The channel accepted by `ssh_channel_accept_forward` and the port it stored
  through its last argument, or `none` when no connection came in. -/
  ssh_channel_accept_forward : List Event → Int → Option (Channel × Int)
  /-- The socket made by `socket` and `connect` to 127.0.0.1 on the given port; a
  negative value is a failed `connect`. -/
  connect_local_port : List Event → Int → Int
  remmina_public_open_xdisplay : List Event → Option String → Int
  /-- Seconds and microseconds of `g_get_current_time`. -/
  g_get_current_time : List Event → Int × Int
  /-- Result of `remmina_public_get_xauth_cookie` and the string it stored (the cookie,
  or an error text). -/
  remmina_public_get_xauth_cookie : List Event → Option String → Bool × String
  ssh_channel_request_x11 : List Event → Option Channel → String → Int

/-- A session together with the trace of collaborator calls. -/
structure St where
  ssh : RemminaSSH
  trace : List Event
deriving Repr

/-- Record one collaborator call. -/
def St.emit (st : St) (e : Event) : St :=
  { st with trace := st.trace ++ [e] }

/-! ## Session: errors and authentication -/

/-- `remmina_ssh_set_error`: the transport error text substituted into `fmt`. -/
def remmina_ssh_set_error (env : Env) (st : St) (fmt : String) : St :=
  { st with ssh := { st.ssh with error := some ⟨fmt, [env.ssh_get_error st.trace]⟩ } }

/-- `remmina_ssh_set_application_error` with a template and its arguments. -/
def remmina_ssh_set_application_error (st : St) (fmt : String) (args : List String) : St :=
  { st with ssh := { st.ssh with error := some ⟨fmt, args⟩ } }

/-- The `while ((ret = ssh_userauth_kbdint (...)) == SSH_AUTH_INFO)` loop of
`remmina_ssh_auth_interactive`; every prompt is answered with the password.
The result is `none` when the fuel runs out before the server stops asking. -/
def kbdint_loop (env : Env) (password : String) : Nat → List Event → Option Int × List Event
  | 0, tr => (none, tr)
  | fuel + 1, tr =>
    let ret := env.ssh_userauth_kbdint tr
    let tr1 := tr ++ [Event.ssh_userauth_kbdint]
    if ret = SSH_AUTH_INFO then
      let n := env.ssh_userauth_kbdint_getnprompts tr1
      let tr2 := tr1 ++ [Event.ssh_userauth_kbdint_getnprompts]
      let tr3 := tr2 ++ (List.range n.toNat).map
        (fun i => Event.ssh_userauth_kbdint_setanswer i password)
      kbdint_loop env password fuel tr3
    else (some ret, tr1)

/-- `remmina_ssh_auth_interactive`. -/
def remmina_ssh_auth_interactive (env : Env) (fuel : Nat) (st : St) : Option Int × St :=
  if st.ssh.authenticated then (some 1, st)
  else
    match st.ssh.password with
    | none => (some (-1), st)
    | some pw =>
      match kbdint_loop env pw fuel st.trace with
      | (none, tr) => (none, { st with trace := tr })
      | (some ret, tr) =>
        if ret ≠ SSH_AUTH_SUCCESS then (some 0, { st with trace := tr })
        else (some 1, { ssh := { st.ssh with authenticated := true }, trace := tr })

/-- `remmina_ssh_auth_password`. -/
def remmina_ssh_auth_password (env : Env) (st : St) : Int × St :=
  if st.ssh.authenticated then (1, st)
  else
    match st.ssh.password with
    | none => (-1, st)
    | some pw =>
      let ret := env.ssh_userauth_password st.trace pw
      let st1 := st.emit (Event.ssh_userauth_password pw)
      if ret ≠ SSH_AUTH_SUCCESS then
        (0, remmina_ssh_set_error env st1 "SSH password authentication failed: %s")
      else (1, { st1 with ssh := { st1.ssh with authenticated := true } })

/-- The name built by `g_snprintf (pubkey, sizeof (pubkey), "%s.pub", privkeyfile)`
into a buffer of 132 bytes. -/
def pubkey_path (privkeyfile : String) : String :=
  (privkeyfile ++ ".pub").take 131

/-- The part of `remmina_ssh_auth_pubkey` from the private-key import on. -/
def remmina_ssh_auth_pubkey_privkey (env : Env) (keyfile : String) (st : St) : Int × St :=
  let pp := st.ssh.passphrase.getD ""
  let priv_ret := env.ssh_pki_import_privkey_file st.trace keyfile pp
  let st1 := st.emit (Event.ssh_pki_import_privkey_file keyfile pp)
  if priv_ret ≠ SSH_OK then
    if st1.ssh.passphrase = none ∨ st1.ssh.passphrase = some "" then (-1, st1)
    else (0, remmina_ssh_set_error env st1 "SSH public key authentication failed: %s")
  else
    let ret := env.ssh_userauth_publickey st1.trace
    let st2 := st1.emit Event.ssh_userauth_publickey
    if ret ≠ SSH_AUTH_SUCCESS then
      (0, remmina_ssh_set_error env st2 "SSH public key authentication failed: %s")
    else (1, { st2 with ssh := { st2.ssh with authenticated := true } })

/-- `remmina_ssh_auth_pubkey`. -/
def remmina_ssh_auth_pubkey (env : Env) (st : St) : Int × St :=
  if st.ssh.authenticated then (1, st)
  else
    match st.ssh.privkeyfile with
    | none =>
      (0, remmina_ssh_set_application_error st "SSH public key authentication failed: %s"
            ["SSH Key file not yet set."])
    | some keyfile =>
      let pubkey := pubkey_path keyfile
      let pub_exists := env.g_file_test st.trace pubkey
      let st1 := st.emit (Event.g_file_test pubkey)
      if pub_exists then
        let ret := env.ssh_pki_import_pubkey_file st1.trace pubkey
        let st2 := st1.emit (Event.ssh_pki_import_pubkey_file pubkey)
        if ret ≠ SSH_OK then
          (0, remmina_ssh_set_error env st2 "SSH public key cannot be imported: %s")
        else remmina_ssh_auth_pubkey_privkey env keyfile st2
      else remmina_ssh_auth_pubkey_privkey env keyfile st1

/-- The part of `remmina_ssh_auth_auto_pubkey` after the passphrase is available. -/
def remmina_ssh_auth_auto_pubkey_userauth (env : Env) (st : St) : Int × St :=
  let ret := env.ssh_userauth_publickey_auto st.trace st.ssh.passphrase
  let st1 := st.emit (Event.ssh_userauth_publickey_auto st.ssh.passphrase)
  if ret ≠ SSH_AUTH_SUCCESS then
    (-1, remmina_ssh_set_error env st1 "SSH automatic public key authentication failed: %s")
  else (1, { st1 with ssh := { st1.ssh with authenticated := true } })

/-- `remmina_ssh_auth_auto_pubkey`. -/
def remmina_ssh_auth_auto_pubkey (env : Env) (st : St) : Int × St :=
  let pwdtype := "ssh_passphrase"
  match st.ssh.passphrase with
  | some _ => remmina_ssh_auth_auto_pubkey_userauth env st
  | none =>
    let disablepasswordstoring := env.remmina_file_get_int st.trace "disablepasswordstoring"
    let st1 := st.emit (Event.remmina_file_get_int "disablepasswordstoring")
    let allow := decide (disablepasswordstoring = 0)
    let ret := env.panel_authpwd st1.trace allow
    let st2 := st1.emit (Event.panel_authpwd allow)
    let save_password := env.get_savepassword st2.trace
    let st3 := st2.emit Event.get_savepassword
    if ret = GTK_RESPONSE_OK then
      let st4 :=
        if save_password then
          (st3.emit Event.get_password).emit
            (Event.remmina_file_set_string pwdtype (env.get_password st3.trace))
        else st3
      let pwd := env.get_password st4.trace
      let st5 := st4.emit Event.get_password
      remmina_ssh_auth_auto_pubkey_userauth env
        { st5 with ssh := { st5.ssh with passphrase := pwd } }
    else (-1, st3)

/-- `remmina_ssh_auth_agent`. -/
def remmina_ssh_auth_agent (env : Env) (st : St) : Int × St :=
  let ret := env.ssh_userauth_agent st.trace
  let st1 := st.emit Event.ssh_userauth_agent
  if ret ≠ SSH_AUTH_SUCCESS then
    (0, remmina_ssh_set_error env st1
          "SSH public key authentication with SSH agent failed: %s")
  else (1, { st1 with ssh := { st1.ssh with authenticated := true } })

/-- `remmina_ssh_auth_gssapi`. -/
def remmina_ssh_auth_gssapi (env : Env) (st : St) : Int × St :=
  if st.ssh.authenticated then (1, st)
  else
    let ret := env.ssh_userauth_gssapi st.trace
    let st1 := st.emit Event.ssh_userauth_gssapi
    if ret ≠ SSH_AUTH_SUCCESS then
      (0, remmina_ssh_set_error env st1 "SSH Kerberos/GSSAPI authentication failed: %s")
    else (1, { st1 with ssh := { st1.ssh with authenticated := true } })

/-- A result that always returns. -/
def returned (r : Int × St) : Option Int × St := (some r.1, r.2)

/-- The keyboard-interactive half of `case SSH_AUTH_PASSWORD` in `remmina_ssh_auth`
and the `return 1` that ends the case. -/
def remmina_ssh_auth_case_password_interactive (env : Env) (fuel : Nat) (method : Nat)
    (st : St) : Option Int × St :=
  if method &&& SSH_AUTH_METHOD_INTERACTIVE ≠ 0 then
    match remmina_ssh_auth_interactive env fuel st with
    | (none, st1) => (none, st1)
    | (some r, st1) => if r ≤ 0 then (some (-1), st1) else (some 1, st1)
  else (some 1, st)

/-- The `if (password)` block of `remmina_ssh_auth`: a supplied secret is stored as
both password and passphrase. -/
def store_secret (st : St) (password : Option String) : St :=
  match password with
  | some p => { st with ssh := { st.ssh with password := some p, passphrase := some p } }
  | none => st

/-- The `switch (ssh->auth)` of `remmina_ssh_auth`; `method` is the result of
`ssh_userauth_list`.  The cases that do not end in `return` fall through to the next
one, as in C. -/
def remmina_ssh_auth_switch (env : Env) (fuel : Nat) (method : Nat) (st : St) :
    Option Int × St :=
  match st.ssh.auth with
  | AuthMethod.SSH_AUTH_PASSWORD =>
    if st.ssh.authenticated then (some 1, st)
    else if method &&& SSH_AUTH_METHOD_PASSWORD ≠ 0 then
      if (remmina_ssh_auth_password env st).1 ≤ 0 then
        (some (-1), (remmina_ssh_auth_password env st).2)
      else
        remmina_ssh_auth_case_password_interactive env fuel method
          (remmina_ssh_auth_password env st).2
    else remmina_ssh_auth_case_password_interactive env fuel method st
  | AuthMethod.SSH_AUTH_PUBLICKEY =>
    if method &&& SSH_AUTH_METHOD_PUBLICKEY ≠ 0 then
      returned (remmina_ssh_auth_pubkey env st)
    else returned (remmina_ssh_auth_agent env st)
  | AuthMethod.SSH_AUTH_AGENT => returned (remmina_ssh_auth_agent env st)
  | AuthMethod.SSH_AUTH_AUTO_PUBLICKEY => returned (remmina_ssh_auth_auto_pubkey env st)
  | AuthMethod.SSH_AUTH_GSSAPI =>
    if method &&& SSH_AUTH_METHOD_GSSAPI_MIC ≠ 0 then
      returned (remmina_ssh_auth_gssapi env st)
    else (some 0, st)
  | AuthMethod.other => (some 0, st)

/-- `remmina_ssh_auth`. -/
def remmina_ssh_auth (env : Env) (fuel : Nat) (st : St) (password : Option String) :
    Option Int × St :=
  let known := env.ssh_is_server_known st.trace
  let st1 := st.emit Event.ssh_is_server_known
  if known ≠ SSH_SERVER_KNOWN_OK then
    (some 0, remmina_ssh_set_application_error st1 "SSH public key has changed!" [])
  else
    let st2 := store_secret st1 password
    let method := env.ssh_userauth_list st2.trace
    remmina_ssh_auth_switch env fuel method (st2.emit Event.ssh_userauth_list)

/-- The text of the trust question in `remmina_ssh_auth_gui`,
`g_strdup_printf ("%s\n%s\n\n%s", ...)`. -/
def trust_message (known : Int) (keyname : String) : String :=
  (if known = SSH_SERVER_NOT_KNOWN ∨ known = SSH_SERVER_FILE_NOT_FOUND then
    "The server is unknown. The public key fingerprint is:"
  else
    "WARNING: The server has changed its public key. This means either you are under attack,\nor the administrator has changed the key. The new public key fingerprint is:")
  ++ "\n" ++ keyname ++ "\n\n" ++ "Do you trust the new public key?"

/-- The first `switch` of `remmina_ssh_auth_gui`, the host-trust check.  `Except.error r`
is `return r`; `Except.ok` is leaving the switch by `break`. -/
def remmina_ssh_auth_gui_trust (env : Env) (st : St) : Except (Int × St) St :=
  let known := env.ssh_is_server_known st.trace
  let st1 := st.emit Event.ssh_is_server_known
  if known = SSH_SERVER_KNOWN_OK then Except.ok st1
  else if known = SSH_SERVER_FILE_NOT_FOUND ∨ known = SSH_SERVER_NOT_KNOWN ∨
      known = SSH_SERVER_KNOWN_CHANGED ∨ known = SSH_SERVER_FOUND_OTHER then
    let key_ret := env.ssh_get_server_publickey st1.trace
    let st2 := st1.emit Event.ssh_get_server_publickey
    if key_ret ≠ SSH_OK then
      Except.error (0, remmina_ssh_set_error env st2 "ssh_get_server_publickey() has failed: %s")
    else
      let hash := env.ssh_get_publickey_hash st2.trace
      let st3 := st2.emit Event.ssh_get_publickey_hash
      if hash.1 ≠ 0 then
        Except.error (0, remmina_ssh_set_error env st3 "ssh_get_publickey_hash() has failed: %s")
      else
        let message := trust_message known hash.2
        let answer := env.panel_question_yesno st3.trace message
        let st4 := st3.emit (Event.panel_question_yesno message)
        if answer ≠ GTK_RESPONSE_YES then Except.error (-1, st4)
        else Except.ok (st4.emit Event.ssh_write_knownhost)
  else
    Except.error (0, remmina_ssh_set_error env st1 "SSH known host checking failed: %s")

/-- The second `switch` of `remmina_ssh_auth_gui`: the profile key of the stored
secret, or `none` for `default: return FALSE`. -/
def pwdtype_of (auth : AuthMethod) : Option String :=
  match auth with
  | AuthMethod.SSH_AUTH_PASSWORD => some "ssh_password"
  | AuthMethod.SSH_AUTH_PUBLICKEY => some "ssh_passphrase"
  | AuthMethod.SSH_AUTH_AGENT => some "ssh_passphrase"
  | AuthMethod.SSH_AUTH_AUTO_PUBLICKEY => some "ssh_passphrase"
  | AuthMethod.SSH_AUTH_GSSAPI => some "kerberos_token"
  | AuthMethod.other => none

/-- The credential prompt of `remmina_ssh_auth_gui`, chosen by `pwdtype`. -/
def remmina_ssh_auth_gui_prompt (env : Env) (pwdtype : String) (allow : Bool) (st : St) :
    Int × St :=
  if pwdtype = "ssh_passphrase" then
    (env.panel_authpwd st.trace allow, st.emit (Event.panel_authpwd allow))
  else if pwdtype = "ssh_password" then
    (env.panel_authuserpwd_ssh_tunnel st.trace allow,
      st.emit (Event.panel_authuserpwd_ssh_tunnel allow))
  else
    (env.panel_authuserpwd st.trace allow, st.emit (Event.panel_authuserpwd allow))

/-- The last lines of `remmina_ssh_auth_gui`: `if (ret <= 0) return 0; return 1;`. -/
def remmina_ssh_auth_gui_result (r : Option Int × St) : Option Int × St :=
  match r with
  | (none, st) => (none, st)
  | (some ret, st) => if ret ≤ 0 then (some 0, st) else (some 1, st)

/-- The part of `remmina_ssh_auth_gui` after the host-trust check: the stored secret
is tried first, then the user is asked once for another one. -/
def remmina_ssh_auth_gui_credentials (env : Env) (fuel : Nat) (st1 : St) : Option Int × St :=
  match pwdtype_of st1.ssh.auth with
  | none => (some 0, st1)
  | some pwdtype =>
    let stored := env.remmina_file_get_string st1.trace pwdtype
    let st2 := st1.emit (Event.remmina_file_get_string pwdtype)
    let first := remmina_ssh_auth env fuel st2 stored
    let st3 := first.2
    match first.1 with
    | none => (none, st3)
    | some ret =>
      if ret > 0 then (some 1, st3)
      else if ret < 0 then
        let disablepasswordstoring :=
          env.remmina_file_get_int st3.trace "disablepasswordstoring"
        let st4 := st3.emit (Event.remmina_file_get_int "disablepasswordstoring")
        let allow := decide (disablepasswordstoring = 0)
        let asked := remmina_ssh_auth_gui_prompt env pwdtype allow st4
        let st5 := asked.2
        let save_password := env.get_savepassword st5.trace
        let st6 := st5.emit Event.get_savepassword
        if asked.1 = GTK_RESPONSE_OK then
          let st7 :=
            if save_password then
              (st6.emit Event.get_password).emit
                (Event.remmina_file_set_string pwdtype (env.get_password st6.trace))
            else st6
          let pwd := env.get_password st7.trace
          let st8 := st7.emit Event.get_password
          remmina_ssh_auth_gui_result (remmina_ssh_auth env fuel st8 pwd)
        else (some (-1), st6)
      else (some 0, st3)

/-- `remmina_ssh_auth_gui`. -/
def remmina_ssh_auth_gui (env : Env) (fuel : Nat) (st : St) : Option Int × St :=
  match remmina_ssh_auth_gui_trust env st with
  | Except.error r => returned r
  | Except.ok st1 => remmina_ssh_auth_gui_credentials env fuel st1

/-- The two calls of the host-trust decision: asking the collaborator and writing the
known-hosts store. -/
def Event.is_host_trust : Event → Bool
  | Event.panel_question_yesno _ => true
  | Event.ssh_write_knownhost => true
  | _ => false

/-- The calls made between two points of a run. -/
def new_events (before after : List Event) : List Event :=
  after.drop before.length

/-- The trace `tr1` extends `tr` by calls that are not part of the trust decision. -/
def AddsNoTrust (tr tr1 : List Event) : Prop :=
  ∃ l, tr1 = tr ++ l ∧ ∀ e ∈ l, Event.is_host_trust e = false

/-- The trace `tr1` extends `tr` by calls none of which is of the kind `p`. -/
def AddsNone (p : Event → Bool) (tr tr1 : List Event) : Prop :=
  ∃ l, tr1 = tr ++ l ∧ ∀ e ∈ l, p e = false

/-! ## Session: set-up from the profile, connection, text conversion

Calls of `remmina_log_printf` are not modelled: they write to the log window and
change nothing else. -/

/-- The fixed list `common_identities`. -/
def common_identities : List String :=
  [".ssh/id_ed25519", ".ssh/id_rsa", ".ssh/id_dsa", ".ssh/identity"]

/-- `remmina_ssh_identity_path` for a name that is not NULL: an absolute name is
copied, any other is put under the home directory. -/
def remmina_ssh_identity_path (env : Env) (st : St) (id : String) : String × St :=
  if id.data.head? = some '/' then (id, st)
  else (env.g_get_home_dir st.trace ++ "/" ++ id, st.emit Event.g_get_home_dir)

/-- The loop of `remmina_ssh_find_identity` over the names still to try.
`g_file_test` with `G_FILE_TEST_IS_REGULAR | G_FILE_TEST_EXISTS` is true when either
test is, that is when the file exists. -/
def remmina_ssh_find_identity_from (env : Env) : List String → St → Option String × St
  | [], st => (none, st)
  | id :: rest, st =>
    let path := remmina_ssh_identity_path env st id
    let found := env.g_file_test path.2.trace path.1
    let st1 := path.2.emit (Event.g_file_test path.1)
    if found then (some path.1, st1)
    else remmina_ssh_find_identity_from env rest st1

/-- `remmina_ssh_find_identity`. -/
def remmina_ssh_find_identity (env : Env) (st : St) : Option String × St :=
  remmina_ssh_find_identity_from env common_identities st

/-- The address and port of `remmina_ssh_init_from_file`: from `ssh_server` (default
port 22), falling back on `server` for the host. -/
def remmina_ssh_init_from_file_address (env : Env) (ssh_server server : Option String)
    (st : St) : (Option String × Int) × St :=
  match ssh_server with
  | some s =>
    let hp := env.remmina_public_get_server_port st.trace (some s) 22
    let st1 := st.emit (Event.remmina_public_get_server_port (some s) 22)
    if hp.1 = "" then
      ((some (env.remmina_public_get_server_port st1.trace server 0).1, hp.2),
        st1.emit (Event.remmina_public_get_server_port server 0))
    else ((some hp.1, hp.2), st1)
  | none =>
    match server with
    | none => ((some "localhost", 22), st)
    | some _ =>
      ((some (env.remmina_public_get_server_port st.trace server 0).1, 22),
        st.emit (Event.remmina_public_get_server_port server 0))

/-- The user of `remmina_ssh_init_from_file`:
`ssh_username ? ssh_username : g_get_user_name ()`. -/
def remmina_ssh_init_from_file_user (env : Env) (ssh_username : Option String) (st : St) :
    String × St :=
  match ssh_username with
  | some u => (u, st)
  | none => (env.g_get_user_name st.trace, st.emit Event.g_get_user_name)

/-- The private key of `remmina_ssh_init_from_file`: the configured name, else the
first conventional identity that exists, resolved by `remmina_ssh_identity_path`. -/
def remmina_ssh_init_from_file_privkey (env : Env) (ssh_privatekey : Option String)
    (st : St) : Option String × St :=
  let s : Option String × St :=
    match ssh_privatekey with
    | some k => (some k, st)
    | none => remmina_ssh_find_identity env st
  match s.1 with
  | some name =>
    (some (remmina_ssh_identity_path env s.2 name).1, (remmina_ssh_identity_path env s.2 name).2)
  | none => (none, s.2)

/-- The option strings and numbers that `remmina_ssh_init_from_file` reads after the
user, in the order read: auth, charset, key exchange, ciphers, host key types, proxy
command, strict host key check, compression. -/
def remmina_ssh_init_from_file_options (env : Env) (st : St) :
    (Int × Option String × Option String × Option String × Option String × Option String
      × Int × Int) × St :=
  let auth := env.remmina_file_get_int st.trace "ssh_auth"
  let st1 := st.emit (Event.remmina_file_get_int "ssh_auth")
  let charset := env.remmina_file_get_string st1.trace "ssh_charset"
  let st2 := st1.emit (Event.remmina_file_get_string "ssh_charset")
  let kex_algorithms := env.remmina_file_get_string st2.trace "ssh_kex_algorithms"
  let st3 := st2.emit (Event.remmina_file_get_string "ssh_kex_algorithms")
  let ciphers := env.remmina_file_get_string st3.trace "ssh_ciphers"
  let st4 := st3.emit (Event.remmina_file_get_string "ssh_ciphers")
  let hostkeytypes := env.remmina_file_get_string st4.trace "ssh_hostkeytypes"
  let st5 := st4.emit (Event.remmina_file_get_string "ssh_hostkeytypes")
  let proxycommand := env.remmina_file_get_string st5.trace "ssh_proxycommand"
  let st6 := st5.emit (Event.remmina_file_get_string "ssh_proxycommand")
  let stricthostkeycheck := env.remmina_file_get_int st6.trace "ssh_stricthostkeycheck"
  let st7 := st6.emit (Event.remmina_file_get_int "ssh_stricthostkeycheck")
  let c := env.remmina_file_get_int st7.trace "ssh_compression"
  let st8 := st7.emit (Event.remmina_file_get_int "ssh_compression")
  ((auth, charset, kex_algorithms, ciphers, hostkeytypes, proxycommand, stricthostkeycheck, c),
    st8)

/-- `remmina_ssh_init_from_file`. -/
def remmina_ssh_init_from_file (env : Env) (st : St) : Bool × St :=
  let ssh_server := env.remmina_file_get_string st.trace "ssh_server"
  let st1 := st.emit (Event.remmina_file_get_string "ssh_server")
  let ssh_username := env.remmina_file_get_string st1.trace "ssh_username"
  let st2 := st1.emit (Event.remmina_file_get_string "ssh_username")
  let ssh_privatekey := env.remmina_file_get_string st2.trace "ssh_privatekey"
  let st3 := st2.emit (Event.remmina_file_get_string "ssh_privatekey")
  let server := env.remmina_file_get_string st3.trace "server"
  let st4 := st3.emit (Event.remmina_file_get_string "server")
  let addr := remmina_ssh_init_from_file_address env ssh_server server st4
  let usr := remmina_ssh_init_from_file_user env ssh_username addr.2
  let opt := remmina_ssh_init_from_file_options env usr.2
  let key := remmina_ssh_init_from_file_privkey env ssh_privatekey opt.2
  (true,
    { ssh :=
        { auth := env.auth_of_int opt.1.1, authenticated := false, password := none,
          passphrase := none, privkeyfile := key.1, error := none, session := false,
          callback := false, server := addr.1.1, port := addr.1.2, user := some usr.1,
          charset := opt.1.2.1, kex_algorithms := opt.1.2.2.1, ciphers := opt.1.2.2.2.1,
          hostkeytypes := opt.1.2.2.2.2.1, proxycommand := opt.1.2.2.2.2.2.1,
          stricthostkeycheck := opt.1.2.2.2.2.2.2.1,
          compression := some (if opt.1.2.2.2.2.2.2.2 = 1 then "yes" else "no") },
      trace := key.2.trace })

/-- `remmina_ssh_init_session`, first options: a new transport handle with host, port,
user (when not empty) and identity file (when set and not empty). -/
def remmina_ssh_init_session_identity (st : St) : St :=
  let st1 := st.emit Event.ssh_new
  let st2 := st1.emit (Event.ssh_options_set "SSH_OPTIONS_HOST" st.ssh.server)
  let st3 := st2.emit (Event.ssh_options_set_int "SSH_OPTIONS_PORT" st.ssh.port)
  let st4 :=
    match st.ssh.user with
    | some u => if u ≠ "" then st3.emit (Event.ssh_options_set "SSH_OPTIONS_USER" (some u)) else st3
    | none => st3
  match st.ssh.privkeyfile with
  | some k =>
    if k ≠ "" then st4.emit (Event.ssh_options_set "SSH_OPTIONS_IDENTITY" (some k)) else st4
  | none => st4

/-- `remmina_ssh_init_session`, the negotiable transport options. -/
def remmina_ssh_init_session_algorithms (st : St) : St :=
  let st6 := st.emit (Event.ssh_options_set "SSH_OPTIONS_KEY_EXCHANGE" st.ssh.kex_algorithms)
  let st7 := st6.emit (Event.ssh_options_set "SSH_OPTIONS_CIPHERS_C_S" st.ssh.ciphers)
  let st8 := st7.emit (Event.ssh_options_set "SSH_OPTIONS_HOSTKEYS" st.ssh.hostkeytypes)
  let st9 := st8.emit (Event.ssh_options_set "SSH_OPTIONS_PROXYCOMMAND" st.ssh.proxycommand)
  let st10 := st9.emit
    (Event.ssh_options_set_int "SSH_OPTIONS_STRICTHOSTKEYCHECK" st.ssh.stricthostkeycheck)
  st10.emit (Event.ssh_options_set "SSH_OPTIONS_COMPRESSION" st.ssh.compression)

/-- `remmina_ssh_init_session`, the callbacks, the log level when logging is active, and
the system client configuration when the preference asks for it. -/
def remmina_ssh_init_session_callbacks (env : Env) (st : St) : St :=
  let st12 := st.emit Event.ssh_callbacks_init
  let logging := env.remmina_log_running st12.trace
  let st13 := st12.emit Event.remmina_log_running
  let st14 :=
    if logging then
      (st13.emit (Event.ssh_options_set_int "SSH_OPTIONS_LOG_VERBOSITY"
        env.pref_ssh_loglevel)).emit Event.ssh_set_log_userdata
    else st13
  let st15 := st14.emit Event.ssh_set_callbacks
  if env.pref_ssh_parseconfig then st15.emit Event.ssh_options_parse_config else st15

/-- The part of `remmina_ssh_init_session` before `ssh_connect`. -/
def remmina_ssh_init_session_options (env : Env) (st : St) : St :=
  let st16 := remmina_ssh_init_session_callbacks env
    (remmina_ssh_init_session_algorithms (remmina_ssh_init_session_identity st))
  { st16 with ssh := { st16.ssh with session := true, callback := true } }

/-- The keepalive tuning of the transport socket in `remmina_ssh_init_session` (the
block under `HAVE_NETINET_TCP_H`, with the four TCP options defined). -/
def remmina_ssh_init_session_keepalive (env : Env) (st : St) : St :=
  let sshsock := env.ssh_get_fd st.trace
  let st1 := st.emit Event.ssh_get_fd
  if sshsock ≥ 0 then
    ((((st1.emit (Event.setsockopt sshsock "SO_KEEPALIVE" 1)).emit
      (Event.setsockopt sshsock "TCP_KEEPIDLE" env.pref_ssh_tcp_keepidle)).emit
      (Event.setsockopt sshsock "TCP_KEEPCNT" env.pref_ssh_tcp_keepcnt)).emit
      (Event.setsockopt sshsock "TCP_KEEPINTVL" env.pref_ssh_tcp_keepintvl)).emit
      (Event.setsockopt sshsock "TCP_USER_TIMEOUT" env.pref_ssh_tcp_usrtimeout)
  else st1

/-- `remmina_ssh_init_session`. -/
def remmina_ssh_init_session (env : Env) (st : St) : Bool × St :=
  let st1 := remmina_ssh_init_session_options env st
  let rc := env.ssh_connect st1.trace
  let st2 := st1.emit Event.ssh_connect
  if rc ≠ 0 then
    (false, remmina_ssh_set_error env st2 "Failed to startup SSH session: %s")
  else
    let st3 := remmina_ssh_init_session_keepalive env st2
    let none_ret := env.ssh_userauth_none st3.trace
    let st4 := st3.emit Event.ssh_userauth_none
    if none_ret = SSH_AUTH_SUCCESS then
      (true, { st4 with ssh := { st4.ssh with authenticated := true } })
    else (true, st4)

/-- The authentication primitives of the transport. -/
def Event.is_auth_primitive : Event → Bool
  | Event.ssh_userauth_none => true
  | Event.ssh_userauth_password _ => true
  | Event.ssh_userauth_kbdint => true
  | Event.ssh_userauth_publickey => true
  | Event.ssh_userauth_agent => true
  | Event.ssh_userauth_publickey_auto _ => true
  | Event.ssh_userauth_gssapi => true
  | _ => false

/-- `remmina_ssh_convert`: to UTF-8 from the character set of the session.
`g_strdup (from)` of NULL is NULL. -/
def remmina_ssh_convert (env : Env) (ssh : RemminaSSH) (src : Option (List Byte)) :
    Option (List Byte) :=
  let converted : Option (List Byte) :=
    match ssh.charset, src with
    | some charset, some bytes => env.g_convert bytes "UTF-8" charset
    | _, _ => none
  match converted with
  | some t => some t
  | none => src

/-- `remmina_ssh_unconvert`: from UTF-8 to the character set of the session. -/
def remmina_ssh_unconvert (env : Env) (ssh : RemminaSSH) (src : Option (List Byte)) :
    Option (List Byte) :=
  let converted : Option (List Byte) :=
    match ssh.charset, src with
    | some charset, some bytes => env.g_convert bytes charset "UTF-8"
    | _, _ => none
  match converted with
  | some t => some t
  | none => src

/-! ## Tunnel multiplexer -/

/-- A tunnel together with the trace of collaborator calls. -/
structure TSt where
  tunnel : RemminaSSHTunnel
  trace : List Event
deriving Repr

/-- Record one collaborator call made by the tunnel worker. -/
def TSt.emit (ts : TSt) (e : Event) : TSt :=
  { ts with trace := ts.trace ++ [e] }

/-- `remmina_ssh_set_error (REMMINA_SSH (tunnel), fmt)`. -/
def remmina_ssh_tunnel_set_error (env : Env) (ts : TSt) (fmt : String) : TSt :=
  { ts with tunnel := { ts.tunnel with
      ssh := { ts.tunnel.ssh with error := some ⟨fmt, [env.ssh_get_error ts.trace]⟩ } } }

/-- `if (tunnel->disconnect_func) (*tunnel->disconnect_func)(tunnel, ...)`. -/
def call_disconnect_func (ts : TSt) : TSt :=
  if ts.tunnel.disconnect_func then ts.emit (Event.disconnect_func ts.tunnel) else ts

/-- The port scan of `case REMMINA_SSH_TUNNEL_XPORT`:
`for (i = 10; i <= MAX_X_DISPLAY_NUMBER; i++)` with a remote listen request on port
`6000 + i`; a non-zero answer continues, zero stores `i` and breaks.  The first
argument counts the iterations still available. -/
def xport_listen_loop (env : Env) (max_display : Int) : Nat → Int → TSt → TSt
  | 0, _, ts => ts
  | fuel + 1, i, ts =>
    if i ≤ max_display then
      let r := env.ssh_channel_listen_forward ts.trace ts.tunnel.bindlocalhost (6000 + i)
      let ts1 := ts.emit (Event.ssh_channel_listen_forward ts.tunnel.bindlocalhost (6000 + i))
      if r ≠ 0 then xport_listen_loop env max_display fuel (i + 1) ts1
      else { ts1 with tunnel := { ts1.tunnel with remotedisplay := i } }
    else ts

/-- The `if (tunnel->init_func && !(*tunnel->init_func)(...))` block that ends a setup
case of `remmina_ssh_tunnel_main_thread_proc`.  The flag is `true` when the worker
goes on to the relay loop and `false` when it has returned. -/
def call_init_func (env : Env) (ts : TSt) : Bool × TSt :=
  if ts.tunnel.init_func then
    let ok := env.init_func ts.trace ts.tunnel
    let ts1 := ts.emit (Event.init_func ts.tunnel)
    if ok then (true, ts1)
    else
      let ts2 := call_disconnect_func ts1
      (false, { ts2 with tunnel := { ts2.tunnel with thread := 0 } })
  else (true, ts)

/-- `case REMMINA_SSH_TUNNEL_XPORT` of the setup `switch` in
`remmina_ssh_tunnel_main_thread_proc`; `max_display` is the constant
`MAX_X_DISPLAY_NUMBER`, defined outside this file. -/
def remmina_ssh_tunnel_setup_xport (env : Env) (max_display : Int) (ts : TSt) : Bool × TSt :=
  let ts1 := xport_listen_loop env max_display (max_display - 10 + 1).toNat 10 ts
  if ts1.tunnel.remotedisplay < 1 then
    let ts2 := remmina_ssh_tunnel_set_error env ts1 "Failed to request port forwarding: %s"
    let ts3 := call_disconnect_func ts2
    (false, { ts3 with tunnel := { ts3.tunnel with thread := 0 } })
  else call_init_func env ts1

/-- `remmina_ssh_tunnel_remove_channel`. -/
def remmina_ssh_tunnel_remove_channel (ts : TSt) (n : Nat) : TSt :=
  let t := ts.tunnel
  let ts1 := ts.emit (Event.ssh_channel_close (t.channels.getD n none))
  let ts2 := ts1.emit (Event.ssh_channel_send_eof (t.channels.getD n none))
  let ts3 := ts2.emit (Event.ssh_channel_free (t.channels.getD n none))
  let ts4 := ts3.emit (Event.close (t.sockets.getD n 0))
  let ts5 := ts4.emit (Event.remmina_ssh_tunnel_buffer_free (t.socketbuffers.getD n none))
  let num := t.num_channels - 1
  let last := num.toNat
  let channels1 := t.channels.set n (t.channels.getD last none)
  let channels2 := channels1.set last none
  let sockets1 := t.sockets.set n (t.sockets.getD last 0)
  let socketbuffers1 := t.socketbuffers.set n (t.socketbuffers.getD last none)
  { ts5 with tunnel := { t with
      num_channels := num, channels := channels2, sockets := sockets1,
      socketbuffers := socketbuffers1 } }

/-- The (channel, socket, pending buffer) triple stored at index `i`. -/
def pair_at (t : RemminaSSHTunnel) (i : Nat) :
    Option Channel × Int × Option RemminaSSHTunnelBuffer :=
  (t.channels.getD i none, t.sockets.getD i 0, t.socketbuffers.getD i none)

/-- The live pairs, indices `0 .. num_channels - 1`, in index order. -/
def live_pairs (t : RemminaSSHTunnel) :
    List (Option Channel × Int × Option RemminaSSHTunnelBuffer) :=
  (List.range t.num_channels.toNat).map (pair_at t)

/-- `remmina_ssh_tunnel_buffer_new (len)` filled by a channel read that returned the
bytes `bytes`: the cursor is at the start and `len` is the count read. -/
def remmina_ssh_tunnel_buffer_new (bytes : List Byte) : RemminaSSHTunnelBuffer :=
  { data := bytes, ptr := 0, len := bytes.length }

/-- The bytes passed to `write`: `len` bytes starting at `ptr`. -/
def RemminaSSHTunnelBuffer.pending (b : RemminaSSHTunnelBuffer) : List Byte :=
  (b.data.drop b.ptr).take b.len.toNat

/-- Channel to socket, the `for (lenw = 0; buffer->len > 0; buffer->len -= lenw,
buffer->ptr += lenw)` loop.  The flag returned is `disconnected`.  The first argument
bounds the iterations; each one lowers `len` by at least 1, so `len` is enough. -/
def socketbuffer_write_loop (env : Env) (running : Bool) (sock : Int) :
    Nat → RemminaSSHTunnelBuffer → List Event → RemminaSSHTunnelBuffer × Bool × List Event
  | 0, b, tr => (b, false, tr)
  | fuel + 1, b, tr =>
    if b.len > 0 then
      let r := env.write tr sock b.pending
      let lenw := r.1
      let errno := r.2
      let tr1 := tr ++ [Event.write sock b.pending lenw]
      if lenw = -1 ∧ errno = EAGAIN ∧ running = true then (b, false, tr1)
      else if lenw ≤ 0 then (b, true, tr1)
      else
        socketbuffer_write_loop env running sock fuel
          { b with len := b.len - lenw, ptr := b.ptr + lenw.toNat } tr1
    else (b, false, tr)

/-- Channel to socket for one pair with a pending buffer in one relay iteration: the
write loop, then `if (buffer->len <= 0)` the buffer is freed and the slot set to NULL. -/
def socketbuffer_flush (env : Env) (running : Bool) (sock : Int)
    (b : RemminaSSHTunnelBuffer) (tr : List Event) :
    Option RemminaSSHTunnelBuffer × Bool × List Event :=
  match socketbuffer_write_loop env running sock b.len.toNat b tr with
  | (b1, disconnected, tr1) =>
    if b1.len ≤ 0 then
      (none, disconnected, tr1 ++ [Event.remmina_ssh_tunnel_buffer_free (some b1)])
    else (some b1, disconnected, tr1)

/-- Socket to channel, the `for (ptr = tunnel->buffer, lenw = 0; len > 0; len -= lenw,
ptr += lenw)` loop over one chunk read from the socket.  It returns the final `len`
and `disconnected`.  The first argument bounds the iterations. -/
def channel_write_loop (env : Env) (channel : Option Channel) (buffer : List Byte) :
    Nat → Nat → Int → List Event → Int × Bool × List Event
  | 0, _, len, tr => (len, false, tr)
  | fuel + 1, ptr, len, tr =>
    if len > 0 then
      let offered := (buffer.drop ptr).take len.toNat
      let lenw := env.ssh_channel_write tr channel offered
      let tr1 := tr ++ [Event.ssh_channel_write channel offered lenw]
      if lenw ≤ 0 then (len, true, tr1)
      else channel_write_loop env channel buffer fuel (ptr + lenw.toNat) (len - lenw) tr1
    else (len, false, tr)

/-- Forwarding one chunk of `len` bytes, read into `tunnel->buffer`, to the channel. -/
def forward_chunk (env : Env) (channel : Option Channel) (buffer : List Byte) (len : Int)
    (tr : List Event) : Int × Bool × List Event :=
  channel_write_loop env channel buffer len.toNat 0 len tr

/-! ### What the peers of a pair have been handed, read off the trace -/

/-- The (slice offered, count returned) of every `write` on the socket `fd`, in order. -/
def socket_writes (fd : Int) (tr : List Event) : List (List Byte × Int) :=
  tr.filterMap fun e =>
    match e with
    | Event.write fd1 offered ret => if fd1 = fd then some (offered, ret) else none
    | _ => none

/-- The (slice offered, count returned) of every `ssh_channel_write` on `channel`, in
order. -/
def channel_writes (channel : Option Channel) (tr : List Event) : List (List Byte × Int) :=
  tr.filterMap fun e =>
    match e with
    | Event.ssh_channel_write c offered ret => if c = channel then some (offered, ret) else none
    | _ => none

/-- The bytes taken by the peer over a sequence of writes: of each slice offered, as
many bytes as the count returned (none for a count that is not positive). -/
def taken (ws : List (List Byte × Int)) : List Byte :=
  (ws.map fun w => w.1.take w.2.toNat).flatten

/-- The sum of the counts returned by a sequence of writes, a count that is not
positive adding nothing. -/
def advance (ws : List (List Byte × Int)) : Nat :=
  (ws.map fun w => w.2.toNat).sum

/-- The bytes a local socket has taken. -/
def socket_received (fd : Int) (tr : List Event) : List Byte :=
  taken (socket_writes fd tr)

/-- The bytes a channel has taken. -/
def channel_received (channel : Option Channel) (tr : List Event) : List Byte :=
  taken (channel_writes channel tr)

/-- Each write of the sequence offers `bytes` from the first byte not yet counted as
written up to the end: with `pos` bytes written before, the slice offered is
`bytes.drop pos`, and `pos` then advances by the count returned. -/
def resumes (bytes : List Byte) : Nat → List (List Byte × Int) → Prop
  | _, [] => True
  | pos, w :: rest => w.1 = bytes.drop pos ∧ resumes bytes (pos + w.2.toNat) rest

/-- The remote listen requests for the displays `i, i + 1, ..., i + n - 1`, in
increasing order. -/
def listen_events (localhost : Bool) : Int → Nat → List Event
  | _, 0 => []
  | i, n + 1 =>
    Event.ssh_channel_listen_forward localhost (6000 + i) :: listen_events localhost (i + 1) n

/-! ### The tunnel worker: set-up, relay loop, tear-down

The worker is modelled as one sequential run: `tunnel->running` changes only where
the worker itself writes it. -/

/-- `remmina_ssh_set_application_error (REMMINA_SSH (tunnel), fmt, ...)`. -/
def remmina_ssh_tunnel_set_application_error (ts : TSt) (fmt : String)
    (args : List String) : TSt :=
  { ts with tunnel := { ts.tunnel with ssh := { ts.tunnel.ssh with error := some ⟨fmt, args⟩ } } }

/-- `if (tunnel->connect_func) (*tunnel->connect_func)(tunnel, ...)`. -/
def call_connect_func (ts : TSt) : TSt :=
  if ts.tunnel.connect_func then ts.emit (Event.connect_func ts.tunnel) else ts

/-- `g_realloc` of an array to `n` cells: the cells kept are unchanged; the new ones,
which the code writes before it reads them, hold `d`. -/
def realloc_cells {α : Type} (l : List α) (n : Nat) (d : α) : List α :=
  l.take n ++ List.replicate (n - l.length) d

/-- The calls of one round of the loop in `remmina_ssh_tunnel_close_all_channels`. -/
def close_pair_events (t : RemminaSSHTunnel) (i : Nat) : List Event :=
  [Event.close (t.sockets.getD i 0),
   Event.remmina_ssh_tunnel_buffer_free (t.socketbuffers.getD i none),
   Event.ssh_channel_close (t.channels.getD i none),
   Event.ssh_channel_send_eof (t.channels.getD i none),
   Event.ssh_channel_free (t.channels.getD i none)]

/-- `remmina_ssh_tunnel_close_all_channels`. -/
def remmina_ssh_tunnel_close_all_channels (ts : TSt) : TSt :=
  let t := ts.tunnel
  let ts1 : TSt :=
    { tunnel := { t with channels := [], sockets := [], socketbuffers := [],
                         num_channels := 0, max_channels := 0 }
      trace := ts.trace ++ ((List.range t.num_channels.toNat).map (close_pair_events t)).flatten }
  match t.x11_channel with
  | some c =>
    let ts2 := ((ts1.emit (Event.ssh_channel_close (some c))).emit
      (Event.ssh_channel_send_eof (some c))).emit (Event.ssh_channel_free (some c))
    { ts2 with tunnel := { ts2.tunnel with x11_channel := none } }
  | none => ts1

/-- `remmina_ssh_tunnel_add_channel`; the two `fcntl` calls are one event. -/
def remmina_ssh_tunnel_add_channel (ts : TSt) (channel : Option Channel) (sock : Int) : TSt :=
  let t := ts.tunnel
  let i := t.num_channels.toNat
  let num := t.num_channels + 1
  let grow := decide (num > t.max_channels)
  let channels0 := if grow then realloc_cells t.channels (num.toNat + 1) none else t.channels
  let sockets0 := if grow then realloc_cells t.sockets num.toNat 0 else t.sockets
  let socketbuffers0 :=
    if grow then realloc_cells t.socketbuffers num.toNat none else t.socketbuffers
  let ts1 : TSt := { ts with tunnel := { t with
      num_channels := num
      max_channels := if grow then num else t.max_channels
      channels := (channels0.set i channel).set (i + 1) none
      sockets := sockets0.set i sock
      socketbuffers := socketbuffers0.set i none } }
  ts1.emit (Event.fcntl_nonblock sock)

/-- `remmina_ssh_tunnel_accept_local_connection`; the `fcntl` calls that set the
blocking mode of the listening socket are part of the `accept` event. -/
def remmina_ssh_tunnel_accept_local_connection (env : Env) (ts : TSt) (blocking : Bool) :
    Int × TSt :=
  let sock := env.accept ts.trace ts.tunnel.server_sock blocking
  let ts1 := ts.emit (Event.accept ts.tunnel.server_sock blocking)
  if sock < 0 then
    (sock, remmina_ssh_tunnel_set_application_error ts1 "Failed to accept local socket" [])
  else (sock, ts1)

/-- `remmina_ssh_tunnel_create_forward_channel`. -/
def remmina_ssh_tunnel_create_forward_channel (env : Env) (ts : TSt) : Option Channel × TSt :=
  let channel := env.ssh_channel_new ts.trace
  let ts1 := ts.emit Event.ssh_channel_new
  match channel with
  | none => (none, remmina_ssh_tunnel_set_error env ts1 "Failed to create channel: %s")
  | some ch =>
    let rc := env.ssh_channel_open_forward ts1.trace (some ch) ts.tunnel.dest ts.tunnel.port
    let ts2 := ts1.emit (Event.ssh_channel_open_forward (some ch) ts.tunnel.dest ts.tunnel.port)
    if rc ≠ SSH_OK then
      let ts3 := ((ts2.emit (Event.ssh_channel_close (some ch))).emit
        (Event.ssh_channel_send_eof (some ch))).emit (Event.ssh_channel_free (some ch))
      (none, remmina_ssh_tunnel_set_error env ts3
        "Failed to connect to the SSH tunnel destination: %s")
    else (some ch, ts2)

/-- A set-up case that ends in `tunnel->thread = 0; return NULL;`. -/
def setup_returns (ts : TSt) : TSt :=
  { ts with tunnel := { ts.tunnel with thread := 0 } }

/-- `case REMMINA_SSH_TUNNEL_OPEN` of the set-up `switch`.  The result is `none` when
the worker has returned, and otherwise the local variable `channel`.  The test after
the forward channel is created reads `if (!tunnel)`, which is never true here. -/
def remmina_ssh_tunnel_setup_open (env : Env) (ts : TSt) : Option (Option Channel) × TSt :=
  let a := remmina_ssh_tunnel_accept_local_connection env ts true
  if a.1 < 0 then (none, setup_returns a.2)
  else
    let c := remmina_ssh_tunnel_create_forward_channel env a.2
    (some c.1, remmina_ssh_tunnel_add_channel c.2 c.1 a.1)

/-- `case REMMINA_SSH_TUNNEL_X11` of the set-up `switch`.  The flag is `true` when the
worker goes on to the relay loop. -/
def remmina_ssh_tunnel_setup_x11 (env : Env) (ts : TSt) : Bool × TSt :=
  let x11 := env.ssh_channel_new ts.trace
  let ts0 := ts.emit Event.ssh_channel_new
  let ts1 : TSt := { ts0 with tunnel := { ts0.tunnel with x11_channel := x11 } }
  match x11 with
  | none => (false, setup_returns (remmina_ssh_tunnel_set_error env ts1
      "Failed to create channel: %s"))
  | some _ =>
    let cookie := env.remmina_public_get_xauth_cookie ts1.trace ts.tunnel.localdisplay
    let ts2 := ts1.emit (Event.remmina_public_get_xauth_cookie ts.tunnel.localdisplay)
    if cookie.1 = false then
      (false, setup_returns (remmina_ssh_tunnel_set_application_error ts2 "%s" [cookie.2]))
    else
      let rc := env.ssh_channel_open_session ts2.trace x11
      let ts3 := ts2.emit (Event.ssh_channel_open_session x11)
      let rx := env.ssh_channel_request_x11 ts3.trace x11 cookie.2
      let ts4 := if rc ≠ 0 then ts3 else ts3.emit (Event.ssh_channel_request_x11 x11 cookie.2)
      if rc ≠ 0 ∨ rx ≠ 0 then
        (false, setup_returns (remmina_ssh_tunnel_set_error env ts4
          "Failed to open channel: %s"))
      else
        let re := env.ssh_channel_request_exec ts4.trace x11 ts.tunnel.dest
        let ts5 := ts4.emit (Event.ssh_channel_request_exec x11 ts.tunnel.dest)
        if re ≠ 0 then
          (false, setup_returns (remmina_ssh_tunnel_set_error env ts5
            ("Failed to execute " ++ ts.tunnel.dest.getD "" ++ " on SSH server: %s")))
        else call_init_func env ts5

/-- `case REMMINA_SSH_TUNNEL_REVERSE` of the set-up `switch`.  The flag is `true` when
the worker goes on to the relay loop. -/
def remmina_ssh_tunnel_setup_reverse (env : Env) (ts : TSt) : Bool × TSt :=
  let r := env.ssh_channel_listen_forward ts.trace false ts.tunnel.port
  let ts1 := ts.emit (Event.ssh_channel_listen_forward false ts.tunnel.port)
  if r ≠ 0 then
    let ts2 := remmina_ssh_tunnel_set_error env ts1 "Failed to request port forwarding: %s"
    (false, setup_returns (call_disconnect_func ts2))
  else call_init_func env ts1

/-- The (channel, socket, pending buffer) of one pair. -/
abbrev Pair := Option Channel × Int × Option RemminaSSHTunnelBuffer

/-- What one round of a relay pass leaves for the pair it handled: the pending buffer,
the flag `disconnected`, the last-error, the trace, and whether the fuel ran out. -/
structure PairOut where
  buffer : Option RemminaSSHTunnelBuffer
  disconnected : Bool
  error : Option ErrorText
  trace : List Event
  stalled : Bool
deriving Repr

/-- Socket to channel for one pair: `while (!disconnected && (len = read (...)) > 0)`
around the chunk loop.  The result is `len` and `disconnected` when the loop has
ended, `none` when the fuel ran out first. -/
def socket_read_loop (env : Env) (channel : Option Channel) (sock : Int) (buffer_len : Int) :
    Nat → List Event → Option (Int × Bool) × List Event
  | 0, tr => (none, tr)
  | fuel + 1, tr =>
    let rd := env.read tr sock buffer_len
    let tr1 := tr ++ [Event.read sock buffer_len]
    if rd.1 > 0 then
      let r := forward_chunk env channel rd.2 rd.1 tr1
      if r.2.1 then (some (r.1, true), r.2.2)
      else socket_read_loop env channel sock buffer_len fuel r.2.2
    else (some (rd.1, false), tr1)

/-- The body of the first relay pass for one pair, up to `if (disconnected)`; `ready`
are the descriptors `ssh_select` left set. -/
def sock_to_chan_pair (env : Env) (ready : List Int) (buffer_len : Int) (fuel : Nat)
    (p : Pair) (err : Option ErrorText) (tr : List Event) : PairOut :=
  if p.2.1 ∈ ready then
    match socket_read_loop env p.1 p.2.1 buffer_len fuel tr with
    | (none, tr1) =>
      { buffer := p.2.2, disconnected := false, error := err, trace := tr1, stalled := true }
    | (some (len, disconnected), tr1) =>
      let err1 :=
        if disconnected then
          some ⟨"ssh_channel_write() returned an error: %s", [env.ssh_get_error tr1]⟩
        else err
      if len = 0 then
        { buffer := p.2.2, disconnected := true
          error := some ⟨"read on tunnel listening socket returned an error: %s",
            [env.ssh_get_error tr1]⟩
          trace := tr1, stalled := false }
      else
        { buffer := p.2.2, disconnected := disconnected, error := err1, trace := tr1,
          stalled := false }
  else { buffer := p.2.2, disconnected := false, error := err, trace := tr, stalled := false }

/-- The first half of the body of the second relay pass: with no buffer pending, the
channel is polled and what it has is read into a new buffer. -/
def chan_to_sock_poll (env : Env) (p : Pair) (err : Option ErrorText) (tr : List Event) :
    PairOut :=
  match p.2.2 with
  | some b => { buffer := some b, disconnected := false, error := err, trace := tr,
                stalled := false }
  | none =>
    let len := env.ssh_channel_poll tr p.1 0
    let tr1 := tr ++ [Event.ssh_channel_poll p.1 0]
    if len = SSH_ERROR ∨ len = SSH_EOF then
      { buffer := none, disconnected := true
        error := some ⟨"ssh_channel_poll() returned an error: %s", [env.ssh_get_error tr1]⟩
        trace := tr1, stalled := false }
    else if len > 0 then
      let rd := env.ssh_channel_read_nonblocking tr1 p.1 len 0
      let tr2 := tr1 ++ [Event.ssh_channel_read_nonblocking p.1 len 0]
      if rd.1 ≤ 0 then
        { buffer := some { remmina_ssh_tunnel_buffer_new rd.2 with len := len }
          disconnected := true
          error := some ⟨"ssh_channel_read_nonblocking() returned an error: %s",
            [env.ssh_get_error tr2]⟩
          trace := tr2, stalled := false }
      else
        { buffer := some { remmina_ssh_tunnel_buffer_new rd.2 with len := rd.1 }
          disconnected := false, error := err, trace := tr2, stalled := false }
    else { buffer := none, disconnected := false, error := err, trace := tr1, stalled := false }

/-- The body of the second relay pass for one pair, up to `if (disconnected)`.  A
failing write leaves `len` positive, so nothing is traced after it and the error text
is read at the end of the flush. -/
def chan_to_sock_pair (env : Env) (running : Bool) (p : Pair) (err : Option ErrorText)
    (tr : List Event) : PairOut :=
  let s := chan_to_sock_poll env p err tr
  match s.buffer with
  | some b =>
    if s.disconnected then s
    else
      let r := socketbuffer_flush env running p.2.1 b s.trace
      { buffer := r.1, disconnected := r.2.1
        error :=
          if r.2.1 then
            some ⟨"write on tunnel listening socket returned an error: %s",
              [env.ssh_get_error r.2.2]⟩
          else s.error
        trace := r.2.2, stalled := false }
  | none => s

/-- What the body of a relay pass has written when it reaches `if (disconnected)`:
the slot `socketbuffers[i]`, the last-error, and the trace. -/
def relay_pair_done (ts : TSt) (i : Nat) (out : PairOut) : TSt :=
  { tunnel := { ts.tunnel with
      socketbuffers := ts.tunnel.socketbuffers.set i out.buffer
      ssh := { ts.tunnel.ssh with error := out.error } }
    trace := out.trace }

/-- The skeleton shared by the two relay passes: `i = 0; while (tunnel->running && i <
tunnel->num_channels) { body; if (disconnected) { remmina_ssh_tunnel_remove_channel
(tunnel, i); continue; } i++; }`.  The flag is `true` when the fuel ran out. -/
def relay_pass_loop (body : Pair → Option ErrorText → List Event → PairOut) :
    Nat → Nat → TSt → Bool × TSt
  | 0, _, ts => (true, ts)
  | fuel + 1, i, ts =>
    if ts.tunnel.running = true ∧ (i : Int) < ts.tunnel.num_channels then
      let out := body (pair_at ts.tunnel i) ts.tunnel.ssh.error ts.trace
      let ts1 := relay_pair_done ts i out
      if out.stalled then (true, ts1)
      else if out.disconnected then
        relay_pass_loop body fuel i (remmina_ssh_tunnel_remove_channel ts1 i)
      else relay_pass_loop body fuel (i + 1) ts1
    else (false, ts)

/-- One relay pass.  Every round either removes a pair or moves on to the next index,
so `num_channels + 1` rounds are enough. -/
def relay_pass (body : Pair → Option ErrorText → List Event → PairOut) (ts : TSt) :
    Bool × TSt :=
  relay_pass_loop body (ts.tunnel.num_channels.toNat + 1) 0 ts

/-- The local variables of `remmina_ssh_tunnel_main_thread_proc` that live across the
rounds of the relay loop. -/
structure LoopVars where
  first : Bool
  channel : Option Channel
  t2 : Int × Int
deriving Repr

/-- The `if (first) ... else if (tunnel->tunnel_type != REMMINA_SSH_TUNNEL_REVERSE) ...`
part of the relay loop, for the topologies other than local forward.  The result is
`none` when the worker has returned. -/
def tunnel_accept_incoming (env : Env) (v : LoopVars) (ts : TSt) : Option LoopVars × TSt :=
  if v.first then
    let accepted : Option Channel × TSt :=
      if ts.tunnel.tunnel_type = TunnelType.REMMINA_SSH_TUNNEL_X11 then
        (env.ssh_channel_accept_x11 ts.trace ts.tunnel.x11_channel 15000,
          ts.emit (Event.ssh_channel_accept_x11 ts.tunnel.x11_channel 15000))
      else
        match env.ssh_channel_accept_forward ts.trace 15000 with
        | some (c, port) =>
          (some c, { (ts.emit (Event.ssh_channel_accept_forward 15000)) with
            tunnel := { ts.tunnel with port := port } })
        | none => (none, ts.emit (Event.ssh_channel_accept_forward 15000))
    match accepted with
    | (none, ts1) =>
      let ts2 := remmina_ssh_tunnel_set_application_error ts1 "No response from the server." []
      (none, setup_returns (call_disconnect_func ts2))
    | (some c, ts1) =>
      let ts2 := call_connect_func ts1
      let ts3 :=
        if ts2.tunnel.tunnel_type = TunnelType.REMMINA_SSH_TUNNEL_REVERSE then
          ts2.emit (Event.ssh_channel_cancel_forward ts2.tunnel.port)
        else ts2
      (some { v with first := false, channel := some c }, ts3)
  else if ts.tunnel.tunnel_type ≠ TunnelType.REMMINA_SSH_TUNNEL_REVERSE then
    let t1 := env.g_get_current_time ts.trace
    let ts1 := ts.emit Event.g_get_current_time
    let diff := (t1.1 - v.t2.1) * 10 + (t1.2 - v.t2.2).tdiv 100000
    if diff > 1 then
      let accepted : Option Channel × TSt :=
        if ts1.tunnel.tunnel_type = TunnelType.REMMINA_SSH_TUNNEL_X11 then
          (env.ssh_channel_accept_x11 ts1.trace ts1.tunnel.x11_channel 0,
            ts1.emit (Event.ssh_channel_accept_x11 ts1.tunnel.x11_channel 0))
        else
          match env.ssh_channel_accept_forward ts1.trace 0 with
          | some (c, port) =>
            (some c, { (ts1.emit (Event.ssh_channel_accept_forward 0)) with
              tunnel := { ts1.tunnel with port := port } })
          | none => (none, ts1.emit (Event.ssh_channel_accept_forward 0))
      match accepted with
      | (none, ts2) => (some { v with t2 := t1 }, ts2)
      | (some c, ts2) => (some { v with channel := some c }, ts2)
    else (some v, ts1)
  else (some v, ts)

/-- The local socket for a channel just accepted: a connection to the local port in
reverse topology, the X display otherwise.  `socket` and `connect` are one oracle,
which answers the connected descriptor or a negative number; the `close` of a socket
that could not be connected is not traced. -/
def tunnel_open_local (env : Env) (ts : TSt) : Int × TSt :=
  if ts.tunnel.tunnel_type = TunnelType.REMMINA_SSH_TUNNEL_REVERSE then
    let r := env.connect_local_port ts.trace ts.tunnel.localport
    let ts1 := ts.emit (Event.connect_local_port ts.tunnel.localport)
    if r < 0 then
      (-1, remmina_ssh_tunnel_set_application_error ts1
        "Cannot connect to local port %i." [toString ts.tunnel.localport])
    else (r, ts1)
  else
    (env.remmina_public_open_xdisplay ts.trace ts.tunnel.localdisplay,
      ts.emit (Event.remmina_public_open_xdisplay ts.tunnel.localdisplay))

/-- The `if (channel) ...` part of the relay loop: the channel just accepted is paired
with a local socket. -/
def tunnel_attach_incoming (env : Env) (v : LoopVars) (ts : TSt) : LoopVars × TSt :=
  match v.channel with
  | none => (v, ts)
  | some c =>
    let opened := tunnel_open_local env ts
    let ts2 :=
      if opened.1 ≥ 0 then remmina_ssh_tunnel_add_channel opened.2 (some c) opened.1
      else
        ((opened.2.emit (Event.ssh_channel_close (some c))).emit
          (Event.ssh_channel_send_eof (some c))).emit (Event.ssh_channel_free (some c))
    ({ v with channel := none }, ts2)

/-- The end of a round of the relay loop: a further local connection is accepted
without blocking and, when there is one, given a forward channel. -/
def tunnel_accept_local (env : Env) (v : LoopVars) (ts : TSt) : LoopVars × TSt :=
  let a := remmina_ssh_tunnel_accept_local_connection env ts false
  if a.1 > 0 then
    let c := remmina_ssh_tunnel_create_forward_channel env a.2
    match c.1 with
    | none =>
      let ts1 := c.2.emit (Event.close a.1)
      ({ v with channel := none }, { ts1 with tunnel := { ts1.tunnel with running := false } })
    | some ch => ({ v with channel := some ch }, remmina_ssh_tunnel_add_channel c.2 (some ch) a.1)
  else (v, a.2)

/-- How a round of the relay loop ends: `again` goes on to the next round, `leave` is
`break`, `finish` is `return NULL` from inside the loop, `stall` is a round in which
the fuel of an inner loop ran out. -/
inductive Step where
  | again (v : LoopVars) (ts : TSt)
  | leave (ts : TSt)
  | finish (ts : TSt)
  | stall (ts : TSt)
deriving Repr

/-- The state a round ends in. -/
def Step.state : Step → TSt
  | Step.again _ ts => ts
  | Step.leave ts => ts
  | Step.finish ts => ts
  | Step.stall ts => ts

/-- The descriptors put in the `fd_set` before `ssh_select`. -/
def live_sockets (t : RemminaSSHTunnel) : List Int :=
  (List.range t.num_channels.toNat).map fun i => t.sockets.getD i 0

/-- The part of a round of the relay loop from `ssh_select` on. -/
def tunnel_relay_round (env : Env) (io_fuel : Nat) (v : LoopVars) (ts : TSt) : Step :=
  let sel := env.ssh_select ts.trace ts.tunnel.channels (live_sockets ts.tunnel)
  let ts1 := ts.emit (Event.ssh_select ts.tunnel.channels (live_sockets ts.tunnel))
  if ts1.tunnel.running = false then Step.leave ts1
  else if sel.1 = SSH_EINTR then Step.again v ts1
  else if sel.1 = -1 then Step.leave ts1
  else
    let p1 := relay_pass (sock_to_chan_pair env sel.2 ts1.tunnel.buffer_len io_fuel) ts1
    if p1.1 then Step.stall p1.2
    else if p1.2.tunnel.running = false then Step.leave p1.2
    else
      let p2 := relay_pass (chan_to_sock_pair env p1.2.tunnel.running) p1.2
      if p2.1 then Step.stall p2.2
      else
        let r := tunnel_accept_local env v p2.2
        Step.again r.1 r.2

/-- One round of `while (tunnel->running)`, entered with `running` set. -/
def tunnel_relay_iteration (env : Env) (io_fuel : Nat) (v : LoopVars) (ts : TSt) : Step :=
  let top : Option LoopVars × TSt :=
    if ts.tunnel.tunnel_type = TunnelType.REMMINA_SSH_TUNNEL_XPORT ∨
        ts.tunnel.tunnel_type = TunnelType.REMMINA_SSH_TUNNEL_X11 ∨
        ts.tunnel.tunnel_type = TunnelType.REMMINA_SSH_TUNNEL_REVERSE then
      match tunnel_accept_incoming env v ts with
      | (none, ts1) => (none, ts1)
      | (some v1, ts1) =>
        let r := tunnel_attach_incoming env v1 ts1
        (some r.1, r.2)
    else (some v, ts)
  match top with
  | (none, ts1) => Step.finish ts1
  | (some v1, ts1) =>
    if ts1.tunnel.num_channels ≤ 0 then Step.leave ts1
    else tunnel_relay_round env io_fuel v1 ts1

/-- The loop `while (tunnel->running)`.  The first argument bounds the rounds. -/
def tunnel_relay_loop (env : Env) (io_fuel : Nat) : Nat → LoopVars → TSt → Step
  | 0, _, ts => Step.stall ts
  | fuel + 1, v, ts =>
    if ts.tunnel.running = false then Step.leave ts
    else
      match tunnel_relay_iteration env io_fuel v ts with
      | Step.again v1 ts1 => tunnel_relay_loop env io_fuel fuel v1 ts1
      | other => other

/-- What follows the relay loop: after `break`, or with `running` cleared,
`remmina_ssh_tunnel_close_all_channels` and `return NULL`; a `return NULL` from inside
the loop skips the tear-down.  The flag is `true` when the fuel ran out. -/
def tunnel_worker_end : Step → Bool × TSt
  | Step.again _ ts => (true, ts)
  | Step.stall ts => (true, ts)
  | Step.finish ts => (false, ts)
  | Step.leave ts => (false, remmina_ssh_tunnel_close_all_channels ts)

/-- The set-up `switch` of `remmina_ssh_tunnel_main_thread_proc`.  The result is `none`
when the worker has returned, and otherwise the local variable `channel`. -/
def remmina_ssh_tunnel_setup (env : Env) (max_display : Int) (ts : TSt) :
    Option (Option Channel) × TSt :=
  match ts.tunnel.tunnel_type with
  | TunnelType.REMMINA_SSH_TUNNEL_OPEN => remmina_ssh_tunnel_setup_open env ts
  | TunnelType.REMMINA_SSH_TUNNEL_X11 =>
    let r := remmina_ssh_tunnel_setup_x11 env ts
    (if r.1 then some none else none, r.2)
  | TunnelType.REMMINA_SSH_TUNNEL_XPORT =>
    let r := remmina_ssh_tunnel_setup_xport env max_display ts
    (if r.1 then some none else none, r.2)
  | TunnelType.REMMINA_SSH_TUNNEL_REVERSE =>
    let r := remmina_ssh_tunnel_setup_reverse env ts
    (if r.1 then some none else none, r.2)

/-- `remmina_ssh_tunnel_main_thread_proc`; `max_display` is the constant
`MAX_X_DISPLAY_NUMBER`, `fuel` bounds the rounds of the relay loop and `io_fuel` the
reads of one socket in one round.  The flag is `true` when one of them ran out; the
state is then the one reached so far. -/
def remmina_ssh_tunnel_main_thread_proc (env : Env) (max_display : Int) (fuel io_fuel : Nat)
    (ts : TSt) : Bool × TSt :=
  let t1 := env.g_get_current_time ts.trace
  let ts0 := ts.emit Event.g_get_current_time
  match remmina_ssh_tunnel_setup env max_display ts0 with
  | (none, ts1) => (false, ts1)
  | (some channel, ts1) =>
    let ts2 : TSt := { ts1 with tunnel := { ts1.tunnel with buffer_len := 10240 } }
    tunnel_worker_end
      (tunnel_relay_loop env io_fuel fuel { first := true, channel := channel, t2 := t1 } ts2)

/-- The calls with which the worker asks the server for an incoming connection. -/
def Event.is_accept_forward : Event → Bool
  | Event.ssh_channel_accept_forward _ => true
  | _ => false

/-- The calls that move bytes between a socket and a channel. -/
def Event.is_relay_io : Event → Bool
  | Event.read _ _ => true
  | Event.write _ _ _ => true
  | Event.ssh_channel_write _ _ _ => true
  | Event.ssh_channel_read_nonblocking _ _ _ => true
  | _ => false

/-- The calls a round of the relay loop may make once the first connection is in. -/
def Event.is_relay_call : Event → Bool
  | Event.ssh_select _ _ => true
  | Event.read _ _ => true
  | Event.write _ _ _ => true
  | Event.ssh_channel_write _ _ _ => true
  | Event.ssh_channel_poll _ _ => true
  | Event.ssh_channel_read_nonblocking _ _ _ => true
  | Event.remmina_ssh_tunnel_buffer_free _ => true
  | Event.close _ => true
  | Event.ssh_channel_close _ => true
  | Event.ssh_channel_send_eof _ => true
  | Event.ssh_channel_free _ => true
  | Event.accept _ _ => true
  | Event.ssh_channel_new => true
  | Event.ssh_channel_open_forward _ _ _ => true
  | Event.fcntl_nonblock _ => true
  | Event.connect_local_port _ => true
  | Event.remmina_public_open_xdisplay _ => true
  | _ => false

/-- The trace `tr1` extends `tr` by relay calls only. -/
def RelayCalls (tr tr1 : List Event) : Prop :=
  ∃ l, tr1 = tr ++ l ∧ ∀ e ∈ l, Event.is_relay_call e = true

/-- The state `ts1` comes from `ts` by relay calls only, with the topology kept. -/
def Relays (ts ts1 : TSt) : Prop :=
  ts1.tunnel.tunnel_type = ts.tunnel.tunnel_type ∧ RelayCalls ts.trace ts1.trace

/-! ### The relay passes, pair by pair -/

/-- The calls `remmina_ssh_tunnel_remove_channel` makes for one pair. -/
def remove_pair_events (p : Pair) : List Event :=
  [Event.ssh_channel_close p.1, Event.ssh_channel_send_eof p.1, Event.ssh_channel_free p.1,
   Event.close p.2.1, Event.remmina_ssh_tunnel_buffer_free p.2.2]

/-- What a walk over a list of pairs leaves: the pairs still live, the last-error, the
trace, and whether the fuel of an inner loop ran out. -/
structure VisitOut where
  survivors : List Pair
  error : Option ErrorText
  trace : List Event
  stalled : Bool

/-- The pairs of a list handled one after the other, each by `body` alone: a pair that
is not flagged keeps its channel and its socket and gets the buffer `body` left for it;
a pair flagged disconnected is closed and dropped, and the walk goes on with the next
pair.  Nothing but the last-error and the trace passes from one pair to the next. -/
def visit_pairs (body : Pair → Option ErrorText → List Event → PairOut) :
    List Pair → Option ErrorText → List Event → VisitOut
  | [], err, tr => { survivors := [], error := err, trace := tr, stalled := false }
  | p :: rest, err, tr =>
    let out := body p err tr
    let p1 : Pair := (p.1, p.2.1, out.buffer)
    if out.stalled then
      { survivors := p1 :: rest, error := out.error, trace := out.trace, stalled := true }
    else if out.disconnected then
      visit_pairs body rest out.error (out.trace ++ remove_pair_events p1)
    else
      let r := visit_pairs body rest out.error out.trace
      { survivors := p1 :: r.survivors, error := r.error, trace := r.trace,
        stalled := r.stalled }

/-- The rounds of a relay pass, with the control flow of `relay_pass_loop`: the pairs
the body was run on, one for each round and in the order of the rounds, and whether
the pass ended because the fuel of a loop inside the body ran out. -/
def relay_pass_rounds (body : Pair → Option ErrorText → List Event → PairOut) :
    Nat → Nat → TSt → List Pair × Bool
  | 0, _, _ => ([], false)
  | fuel + 1, i, ts =>
    if ts.tunnel.running = true ∧ (i : Int) < ts.tunnel.num_channels then
      let out := body (pair_at ts.tunnel i) ts.tunnel.ssh.error ts.trace
      let ts1 := relay_pair_done ts i out
      if out.stalled then ([pair_at ts.tunnel i], true)
      else if out.disconnected then
        let r := relay_pass_rounds body fuel i (remmina_ssh_tunnel_remove_channel ts1 i)
        (pair_at ts.tunnel i :: r.1, r.2)
      else
        let r := relay_pass_rounds body fuel (i + 1) ts1
        (pair_at ts.tunnel i :: r.1, r.2)
    else ([], false)

/-- The rounds of `relay_pass`. -/
def relay_pass_examined (body : Pair → Option ErrorText → List Event → PairOut) (ts : TSt) :
    List Pair × Bool :=
  relay_pass_rounds body (ts.tunnel.num_channels.toNat + 1) 0 ts

/-- A call that changes the registered pairs: `remmina_ssh_tunnel_add_channel (tunnel,
channel, sock)` or `remmina_ssh_tunnel_remove_channel (tunnel, n)`. -/
inductive ChannelOp where
  | add (channel : Option Channel) (sock : Int)
  | remove (n : Nat)
deriving Repr

/-- One such call. -/
def apply_op (ts : TSt) : ChannelOp → TSt
  | ChannelOp.add channel sock => remmina_ssh_tunnel_add_channel ts channel sock
  | ChannelOp.remove n => remmina_ssh_tunnel_remove_channel ts n

/-- A sequence of such calls, in order. -/
def apply_ops (ts : TSt) (ops : List ChannelOp) : TSt :=
  ops.foldl apply_op ts

/-- Every removal of the sequence is made at the index of a pair live at that point. -/
def valid_ops : TSt → List ChannelOp → Prop
  | _, [] => True
  | ts, ChannelOp.add channel sock :: rest =>
    valid_ops (remmina_ssh_tunnel_add_channel ts channel sock) rest
  | ts, ChannelOp.remove n :: rest =>
    (n : Int) < ts.tunnel.num_channels ∧ valid_ops (remmina_ssh_tunnel_remove_channel ts n) rest

/-- The bookkeeping fields as `remmina_ssh_tunnel_new_from_file` sets them: no array,
`num_channels = 0`, `max_channels = 0`. -/
def is_new_tunnel (t : RemminaSSHTunnel) : Prop :=
  t.channels = [] ∧ t.sockets = [] ∧ t.socketbuffers = [] ∧ t.num_channels = 0 ∧
    t.max_channels = 0

/-- The bookkeeping is consistent: `0 <= num_channels <= max_channels`, the array of
channels has room for `num_channels + 1` entries, and the entry at `num_channels` is
NULL. -/
def bookkeeping_consistent (t : RemminaSSHTunnel) : Prop :=
  0 ≤ t.num_channels ∧ t.num_channels ≤ t.max_channels ∧
    t.num_channels.toNat + 1 ≤ t.channels.length ∧
    t.channels[t.num_channels.toNat]? = some none

/-! ## Interactive shell bridge -/

/-- A shell bridge together with the trace of collaborator calls. -/
structure SSt where
  shell : RemminaSSHShell
  trace : List Event
deriving Repr

/-- Record one collaborator call made on behalf of a shell bridge. -/
def SSt.emit (st : SSt) (e : Event) : SSt :=
  { st with trace := st.trace ++ [e] }

/-- `remmina_ssh_set_error (REMMINA_SSH (shell), fmt)`. -/
def remmina_ssh_shell_set_error (env : Env) (st : SSt) (fmt : String) : SSt :=
  { st with shell := { st.shell with
      ssh := { st.shell.ssh with error := some ⟨fmt, [env.ssh_get_error st.trace]⟩ } } }

/-- `remmina_ssh_shell_set_size`; `LOCK_SSH` and `UNLOCK_SSH` are the two mutex calls. -/
def remmina_ssh_shell_set_size (st : SSt) (columns rows : Int) : SSt :=
  let st1 := st.emit Event.pthread_mutex_lock
  let st2 :=
    match st.shell.channel with
    | some c => st1.emit (Event.ssh_channel_change_pty_size (some c) columns rows)
    | none => st1
  st2.emit Event.pthread_mutex_unlock

/-- The test `shell->exec && shell->exec[0]`. -/
def has_command (exec : Option String) : Bool :=
  match exec with
  | some cmd => decide (cmd ≠ "")
  | none => false

/-- The request that starts the remote program: `if (shell->exec && shell->exec[0])
ret = ssh_channel_request_exec (channel, shell->exec); else ret =
ssh_channel_request_shell (channel);`.  The result is `ret` and the call made. -/
def shell_start_request (env : Env) (tr : List Event) (exec : Option String)
    (ch : Channel) : Int × Event :=
  if has_command exec then
    (env.ssh_channel_request_exec tr (some ch) exec,
      Event.ssh_channel_request_exec (some ch) exec)
  else (env.ssh_channel_request_shell tr (some ch), Event.ssh_channel_request_shell (some ch))

/-- The opening phase of `remmina_ssh_shell_thread`, up to `UNLOCK_SSH` after
`shell->channel = channel`.  The result is the channel, or `none` when the worker has
returned. -/
def remmina_ssh_shell_thread_open (env : Env) (st : SSt) : Option Channel × SSt :=
  let st1 := st.emit Event.pthread_mutex_lock
  let channel := env.ssh_channel_new st1.trace
  let st2 := st1.emit Event.ssh_channel_new
  match channel with
  | none =>
    let st3 := st2.emit Event.pthread_mutex_unlock
    let st4 := remmina_ssh_shell_set_error env st3 "Failed to open channel: %s"
    (none, { st4 with shell := { st4.shell with thread := 0 } })
  | some ch =>
    let rc := env.ssh_channel_open_session st2.trace (some ch)
    let st3 := st2.emit (Event.ssh_channel_open_session (some ch))
    if rc ≠ 0 then
      let st4 := st3.emit Event.pthread_mutex_unlock
      let st5 := remmina_ssh_shell_set_error env st4 "Failed to open channel: %s"
      let st6 := st5.emit (Event.ssh_channel_free (some ch))
      (none, { st6 with shell := { st6.shell with thread := 0 } })
    else
      let st4 := st3.emit (Event.ssh_channel_request_pty (some ch))
      let rq := shell_start_request env st4.trace st.shell.exec ch
      let st5 := st4.emit rq.2
      if rq.1 ≠ 0 then
        let st6 := st5.emit Event.pthread_mutex_unlock
        let st7 := remmina_ssh_shell_set_error env st6 "Failed to request shell: %s"
        let st8 := ((st7.emit (Event.ssh_channel_close (some ch))).emit
          (Event.ssh_channel_send_eof (some ch))).emit (Event.ssh_channel_free (some ch))
        (none, { st8 with shell := { st8.shell with thread := 0 } })
      else
        let st6 : SSt := { st5 with shell := { st5.shell with channel := some ch } }
        (some ch, st6.emit Event.pthread_mutex_unlock)

/-- Channel to pty in the shell worker: `while (len > 0) { ret = write (shell->slave,
buf, len); if (ret <= 0) break; len -= ret; }`.  Every write starts at `buf`.  The
first argument bounds the iterations; `len` is enough. -/
def shell_write_loop (env : Env) (slave : Int) (buf : List Byte) :
    Nat → Int → List Event → Int × List Event
  | 0, len, tr => (len, tr)
  | fuel + 1, len, tr =>
    if len > 0 then
      let ret := (env.write tr slave (buf.take len.toNat)).1
      let tr1 := tr ++ [Event.write slave (buf.take len.toNat) ret]
      if ret ≤ 0 then (len, tr1)
      else shell_write_loop env slave buf fuel (len - ret) tr1
    else (len, tr)

/-- One round of `for (i = 0; i < 2; i++)` in the shell worker, for the stream `i`
(0 regular, 1 stderr).  The flag is `true` when the round ends in `break`; the number
is `buf_len` afterwards. -/
def shell_poll_stream (env : Env) (ch : Channel) (i : Int) (buf_len : Int) (st : SSt) :
    Bool × Int × SSt :=
  let st1 := st.emit Event.pthread_mutex_lock
  let len := env.ssh_channel_poll st1.trace (some ch) i
  let st2 := (st1.emit (Event.ssh_channel_poll (some ch) i)).emit Event.pthread_mutex_unlock
  if len = SSH_ERROR ∨ len = SSH_EOF then
    (true, buf_len, { st2 with shell := { st2.shell with closed := true } })
  else if len ≤ 0 then (false, buf_len, st2)
  else
    let buf_len1 := if len > buf_len then len else buf_len
    let st3 := st2.emit Event.pthread_mutex_lock
    let rd := env.ssh_channel_read_nonblocking st3.trace (some ch) len i
    let st4 := (st3.emit (Event.ssh_channel_read_nonblocking (some ch) len i)).emit
      Event.pthread_mutex_unlock
    if rd.1 ≤ 0 then
      (true, buf_len1, { st4 with shell := { st4.shell with closed := true } })
    else
      (false, buf_len1,
        { st4 with
          trace := (shell_write_loop env st.shell.slave rd.2 rd.1.toNat rd.1 st4.trace).2 })

/-- Pty to channel in the shell worker: the block under `FD_ISSET (shell->slave,
&fds)`, where `ready` are the descriptors `ssh_select` reported.  The flag is `true`
when the block ends in `break`. -/
def shell_pty_to_channel (env : Env) (ch : Channel) (buf_len : Int) (ready : List Int)
    (st : SSt) : Bool × SSt :=
  if st.shell.slave ∈ ready then
    let rd := env.read st.trace st.shell.slave buf_len
    let st1 := st.emit (Event.read st.shell.slave buf_len)
    if rd.1 ≤ 0 then (true, st1)
    else
      let st2 := st1.emit Event.pthread_mutex_lock
      let n := env.ssh_channel_write st2.trace (some ch) (rd.2.take rd.1.toNat)
      (false, (st2.emit (Event.ssh_channel_write (some ch) (rd.2.take rd.1.toNat) n)).emit
        Event.pthread_mutex_unlock)
  else (false, st)

/-- Channel to pty in the shell worker: `for (i = 0; i < 2; i++)`, both streams.  The
number is `buf_len` afterwards. -/
def shell_channel_to_pty (env : Env) (ch : Channel) (buf_len : Int) (st : SSt) :
    Int × SSt :=
  let r0 := shell_poll_stream env ch 0 buf_len st
  if r0.1 then r0.2
  else (shell_poll_stream env ch 1 r0.2.1 r0.2.2).2

/-- The `while (!shell->closed)` loop of the shell worker.  The first flag is `true`
when the fuel ran out before the loop ended. -/
def shell_relay_loop (env : Env) (ch : Channel) : Nat → Int → SSt → Bool × Int × SSt
  | 0, buf_len, st => (true, buf_len, st)
  | fuel + 1, buf_len, st =>
    if st.shell.closed then (false, buf_len, st)
    else
      let sel := env.ssh_select st.trace [some ch, none] [st.shell.slave]
      let st1 := st.emit (Event.ssh_select [some ch, none] [st.shell.slave])
      if sel.1 = SSH_EINTR then shell_relay_loop env ch fuel buf_len st1
      else if sel.1 = -1 then (false, buf_len, st1)
      else
        let r := shell_pty_to_channel env ch buf_len sel.2 st1
        if r.1 then (false, buf_len, r.2)
        else
          let p := shell_channel_to_pty env ch buf_len r.2
          shell_relay_loop env ch fuel p.1 p.2

/-- The end of `remmina_ssh_shell_thread`, after the relay loop. -/
def remmina_ssh_shell_thread_close (ch : Channel) (st : SSt) : SSt :=
  let st1 := st.emit Event.pthread_mutex_lock
  let st2 : SSt := { st1 with shell := { st1.shell with channel := none } }
  let st3 := (((st2.emit (Event.ssh_channel_close (some ch))).emit
    (Event.ssh_channel_send_eof (some ch))).emit (Event.ssh_channel_free (some ch))).emit
    Event.pthread_mutex_unlock
  let st4 : SSt := { st3 with shell := { st3.shell with thread := 0 } }
  if st4.shell.exit_callback then st4.emit Event.idle_add_exit_callback else st4

/-- `remmina_ssh_shell_thread`.  The flag is `true` when the fuel ran out inside the
relay loop; the state is then the one reached so far. -/
def remmina_ssh_shell_thread (env : Env) (fuel : Nat) (st : SSt) : Bool × SSt :=
  match remmina_ssh_shell_thread_open env st with
  | (none, st1) => (false, st1)
  | (some ch, st1) =>
    let r := shell_relay_loop env ch fuel 1000 st1
    if r.1 then (true, r.2.2) else (false, remmina_ssh_shell_thread_close ch r.2.2)

/-- How a call relates to the mutex of the session. -/
inductive LockRole where
  | lock
  | unlock
  | wait
  | transport
  | other
deriving DecidableEq, Repr

/-- The mutex calls, the multiplexed wait, and the calls on a channel or a forward of
the shared transport session. -/
def Event.lock_role : Event → LockRole
  | Event.pthread_mutex_lock => LockRole.lock
  | Event.pthread_mutex_unlock => LockRole.unlock
  | Event.ssh_select _ _ => LockRole.wait
  | Event.ssh_channel_new => LockRole.transport
  | Event.ssh_channel_open_session _ => LockRole.transport
  | Event.ssh_channel_request_pty _ => LockRole.transport
  | Event.ssh_channel_request_exec _ _ => LockRole.transport
  | Event.ssh_channel_request_shell _ => LockRole.transport
  | Event.ssh_channel_request_x11 _ _ => LockRole.transport
  | Event.ssh_channel_change_pty_size _ _ _ => LockRole.transport
  | Event.ssh_channel_write _ _ _ => LockRole.transport
  | Event.ssh_channel_poll _ _ => LockRole.transport
  | Event.ssh_channel_read_nonblocking _ _ _ => LockRole.transport
  | Event.ssh_channel_close _ => LockRole.transport
  | Event.ssh_channel_send_eof _ => LockRole.transport
  | Event.ssh_channel_free _ => LockRole.transport
  | Event.ssh_channel_open_forward _ _ _ => LockRole.transport
  | Event.ssh_channel_listen_forward _ _ => LockRole.transport
  | Event.ssh_channel_accept_forward _ => LockRole.transport
  | Event.ssh_channel_accept_x11 _ _ => LockRole.transport
  | Event.ssh_channel_cancel_forward _ => LockRole.transport
  | _ => LockRole.other

/-- The lock discipline over a stretch of the trace, starting with the mutex held or
not: a transport call needs the mutex held, the wait needs it free, it is locked only
when free and unlocked only when held.  The result is whether the mutex is held at the
end, or `none` when some call breaks the discipline. -/
def lock_discipline : Bool → List Event → Option Bool
  | held, [] => some held
  | held, e :: rest =>
    match Event.lock_role e with
    | LockRole.lock => if held then none else lock_discipline true rest
    | LockRole.unlock => if held then lock_discipline false rest else none
    | LockRole.wait => if held then none else lock_discipline false rest
    | LockRole.transport => if held then lock_discipline true rest else none
    | LockRole.other => lock_discipline held rest

/-- The channel clean-up calls: close, end of file, free. -/
def Event.is_channel_cleanup : Event → Bool
  | Event.ssh_channel_close _ => true
  | Event.ssh_channel_send_eof _ => true
  | Event.ssh_channel_free _ => true
  | _ => false

/-- The two requests that start the remote program: a command, or a shell. -/
def Event.is_start_request : Event → Bool
  | Event.ssh_channel_request_exec _ _ => true
  | Event.ssh_channel_request_shell _ => true
  | _ => false

/-- The pty-resize requests of a stretch of the trace: channel, columns, rows. -/
def resize_requests (tr : List Event) : List (Option Channel × Int × Int) :=
  tr.filterMap fun e =>
    match e with
    | Event.ssh_channel_change_pty_size c columns rows => some (c, columns, rows)
    | _ => none

/-- A stretch of the shell worker's trace that keeps the lock discipline, starting and
ending with the mutex free, and holds no request to start the remote program. -/
def shell_stretch (l : List Event) : Prop :=
  lock_discipline false l = some false ∧ ∀ e ∈ l, Event.is_start_request e = false

/-- The length a call asks to read: of `ssh_channel_read_nonblocking` and of `read`. -/
def Event.requested_length : Event → Option Int
  | Event.ssh_channel_read_nonblocking _ count _ => some count
  | Event.read _ count => some count
  | _ => none

/-- Every read of a stretch of the trace asks for at most `capacity` bytes. -/
def reads_within (capacity : Int) (l : List Event) : Prop :=
  ∀ e ∈ l, ∀ n, Event.requested_length e = some n → n ≤ capacity

/-! ## System information (`remmina_sysinfo.c`) -/

/-- `remmina_sysinfo_get_wm_name`.  The arguments are what `g_environ_getenv` returns
for `XDG_CURRENT_DESKTOP` and `GDMSESSION`, `none` for NULL; the result `none` is the
NULL pointer. -/
def remmina_sysinfo_get_wm_name (xdg_current_desktop gdmsession : Option String) :
    Option String :=
  if xdg_current_desktop = none ∨ xdg_current_desktop = some "" then
    if gdmsession = none ∨ gdmsession = some "" then none
    else gdmsession
  else if gdmsession = none ∨ gdmsession = some "" then xdg_current_desktop
  else if xdg_current_desktop = gdmsession then xdg_current_desktop
  else some (xdg_current_desktop.getD "" ++ " " ++ gdmsession.getD "")

/-- The value `b` that `remmina_sysinfo_get_unique_user_id` gives the character with
the code `c`: the hexadecimal digit it spells, 0 for any other character. -/
def hex_digit_value (c : Nat) : Nat :=
  if 48 ≤ c ∧ c ≤ 57 then c - 48
  else if 65 ≤ c ∧ c ≤ 70 then c - 65 + 10
  else if 97 ≤ c ∧ c ≤ 102 then c - 97 + 10
  else 0

/-- One round of the loop over the machine id, on `unsigned long long`:
`machineid = ((machineid >> 60) | (machineid << 4)) ^ b`. -/
def machineid_step (machineid : Nat) (c : Nat) : Nat :=
  ((machineid >>> 60) ||| ((machineid <<< 4) % 2 ^ 64)) ^^^ hex_digit_value c

/-- The loop `for (i = 0; i < 32; i++)` over the buffer read from `/etc/machine-id`,
starting from `machineid = 0`. -/
def machineid_fold (buf : List Nat) : Nat :=
  buf.foldl machineid_step 0

/-- `remmina_sysinfo_get_unique_user_id`.  `uid` is what `getuid` returns;
`machine_id` holds the bytes read from `/etc/machine-id` when the file could be
opened, so `read (fdmid, buf, 32) == 32` is `buf.length = 32`; `sdd_inode` is the
inode number of the first system data directory when there is one and `stat`
succeeds.  The casts to `unsigned long long` are the reductions modulo 2^64. -/
def remmina_sysinfo_get_unique_user_id (uid : Nat) (machine_id : Option (List Nat))
    (sdd_inode : Option Nat) : String :=
  let uid64 := uid % 2 ^ 64
  let machineid :=
    match machine_id with
    | some buf => if buf.length = 32 then machineid_fold buf else 0
    | none => 0
  let sddinodenumber :=
    match sdd_inode with
    | some ino => ino % 2 ^ 64
    | none => 0
  let id := machineid ^^^ ((uid64 <<< 32) % 2 ^ 64) ^^^ sddinodenumber
  "01-" ++ toString id

/-- The number spelled by a string of hexadecimal digits, most significant first, with
upper- and lower-case digits alike and any other character counting as the digit 0. -/
def hex_number (cs : List Nat) : Nat :=
  cs.foldl (fun acc c => acc * 16 + hex_digit_value c) 0

/-- The number with the base-16 digits `ds`, most significant first. -/
def base16 (ds : List Nat) : Nat :=
  ds.foldl (fun acc d => acc * 16 + d) 0

/-- The sixteen base-16 digits of a 64-bit value after one round of the machine-id
loop with the digit `d`: the top digit leaves, and comes back in as the lowest digit
combined with `d`. -/
def rotate_digit (ds : List Nat) (d : Nat) : List Nat :=
  ds.tail ++ [ds.headD 0 ^^^ d]

/-! ## Concrete collaborators and sessions used to instantiate the theorems -/

/-- A known host whose server offers no method and refuses every request; every
panel is cancelled and the profile stores nothing. -/
def env_refusing : Env where
  ssh_get_error := fun _ => "refused"
  ssh_is_server_known := fun _ => SSH_SERVER_KNOWN_OK
  ssh_userauth_list := fun _ => 0
  ssh_userauth_password := fun _ _ => SSH_AUTH_DENIED
  ssh_userauth_kbdint := fun _ => SSH_AUTH_DENIED
  ssh_userauth_kbdint_getnprompts := fun _ => 0
  g_file_test := fun _ _ => false
  ssh_pki_import_pubkey_file := fun _ _ => -1
  ssh_pki_import_privkey_file := fun _ _ _ => -1
  ssh_userauth_publickey := fun _ => SSH_AUTH_DENIED
  ssh_userauth_agent := fun _ => SSH_AUTH_DENIED
  ssh_userauth_publickey_auto := fun _ _ => SSH_AUTH_DENIED
  ssh_userauth_gssapi := fun _ => SSH_AUTH_DENIED
  ssh_get_server_publickey := fun _ => -1
  ssh_get_publickey_hash := fun _ => (-1, "")
  panel_question_yesno := fun _ _ => 0
  remmina_file_get_string := fun _ _ => none
  remmina_file_get_int := fun _ _ => 0
  panel_authpwd := fun _ _ => 0
  panel_authuserpwd_ssh_tunnel := fun _ _ => 0
  panel_authuserpwd := fun _ _ => 0
  get_savepassword := fun _ => false
  get_password := fun _ => none
  ssh_channel_listen_forward := fun _ _ _ => -1
  init_func := fun _ _ => true
  write := fun _ _ _ => (-1, EAGAIN)
  ssh_channel_write := fun _ _ _ => -1
  remmina_log_running := fun _ => false
  pref_ssh_loglevel := 1
  pref_ssh_parseconfig := false
  pref_ssh_tcp_keepidle := 20
  pref_ssh_tcp_keepcnt := 3
  pref_ssh_tcp_keepintvl := 10
  pref_ssh_tcp_usrtimeout := 60000
  ssh_connect := fun _ => -1
  ssh_get_fd := fun _ => -1
  ssh_userauth_none := fun _ => SSH_AUTH_DENIED
  remmina_public_get_server_port := fun _ server port => (server.getD "", port)
  g_get_user_name := fun _ => "user"
  g_get_home_dir := fun _ => "/home/user"
  auth_of_int := fun _ => AuthMethod.SSH_AUTH_PASSWORD
  g_convert := fun _ _ _ => none
  ssh_channel_new := fun _ => none
  ssh_channel_open_session := fun _ _ => -1
  ssh_channel_request_exec := fun _ _ _ => -1
  ssh_channel_request_shell := fun _ _ => -1
  ssh_select := fun _ _ _ => (-1, [])
  read := fun _ _ _ => (-1, [])
  ssh_channel_poll := fun _ _ _ => 0
  ssh_channel_read_nonblocking := fun _ _ _ _ => (-1, [])
  accept := fun _ _ _ => -1
  ssh_channel_open_forward := fun _ _ _ _ => -1
  ssh_channel_accept_x11 := fun _ _ _ => none
  ssh_channel_accept_forward := fun _ _ => none
  connect_local_port := fun _ _ => -1
  remmina_public_open_xdisplay := fun _ _ => -1
  g_get_current_time := fun _ => (0, 0)
  remmina_public_get_xauth_cookie := fun _ _ => (false, "no cookie")
  ssh_channel_request_x11 := fun _ _ _ => -1

/-- A fresh, unauthenticated session with the given auth method and key path. -/
def fresh_session (auth : AuthMethod) (privkeyfile : Option String) : St where
  ssh := { auth := auth, authenticated := false, password := none, passphrase := none,
           privkeyfile := privkeyfile, error := none }
  trace := []

/-- A server offering password and keyboard-interactive that denies the password. -/
def env_wrong_password : Env :=
  { env_refusing with
    ssh_userauth_list := fun _ => SSH_AUTH_METHOD_PASSWORD ||| SSH_AUTH_METHOD_INTERACTIVE }

/-- A server offering public-key authentication; private keys cannot be imported
(they are encrypted) and no `.pub` file exists. -/
def env_encrypted_key : Env :=
  { env_refusing with ssh_userauth_list := fun _ => SSH_AUTH_METHOD_PUBLICKEY }

/-- As `env_encrypted_key`, but a `.pub` file exists next to the private key and cannot
be imported. -/
def env_encrypted_key_bad_pub : Env :=
  { env_refusing with
    ssh_userauth_list := fun _ => SSH_AUTH_METHOD_PUBLICKEY
    g_file_test := fun _ _ => true }

/-- A server that offers public-key authentication only. -/
def env_publickey_only : Env :=
  { env_refusing with ssh_userauth_list := fun _ => SSH_AUTH_METHOD_PUBLICKEY }

/-- An unknown host whose key and fingerprint can be read; the user declines to
trust it. -/
def env_unknown_host_declined : Env :=
  { env_refusing with
    ssh_is_server_known := fun _ => SSH_SERVER_NOT_KNOWN
    ssh_get_server_publickey := fun _ => SSH_OK
    ssh_get_publickey_hash := fun _ => (0, "0a:1b:2c") }

/-- A host whose known-hosts state is not known-ok. -/
def env_changed_host : Env :=
  { env_refusing with ssh_is_server_known := fun _ => SSH_SERVER_KNOWN_CHANGED }

/-- A freshly created dynamic-remote-forward tunnel (`remmina_ssh_tunnel_new_from_file`
followed by the mode entry point) with all three callbacks set. -/
def fresh_xport_tunnel : TSt where
  tunnel :=
    { ssh := (fresh_session AuthMethod.SSH_AUTH_PASSWORD none).ssh
      tunnel_type := TunnelType.REMMINA_SSH_TUNNEL_XPORT
      channels := [], sockets := [], socketbuffers := []
      num_channels := 0, max_channels := 0
      thread := 1, running := true, bindlocalhost := false, port := 0
      remotedisplay := 0
      init_func := true, connect_func := true, disconnect_func := true }
  trace := []

/-- A server on which the ports 6010 and 6011 are taken and 6012 is free. -/
def env_two_ports_taken : Env :=
  { env_refusing with
    ssh_channel_listen_forward := fun _ _ port => if port = 6012 then 0 else -1 }

/-- A running local-forward tunnel with three live pairs; the second one has bytes
pending for its socket. -/
def three_pair_tunnel : TSt where
  tunnel :=
    { ssh := (fresh_session AuthMethod.SSH_AUTH_PASSWORD none).ssh
      tunnel_type := TunnelType.REMMINA_SSH_TUNNEL_OPEN
      channels := [some 1, some 2, some 3, none]
      sockets := [11, 12, 13]
      socketbuffers := [none, some { data := [104, 105], ptr := 1, len := 1 }, none]
      num_channels := 3, max_channels := 3
      thread := 1, running := true, bindlocalhost := false, port := 5900
      remotedisplay := 0
      init_func := true, connect_func := true, disconnect_func := true }
  trace := []

/-- A local socket that takes one byte per `write` (and reports would-block when
offered nothing), and a channel that does the same. -/
def env_one_byte : Env :=
  { env_refusing with
    write := fun _ _ d => if d = [] then (-1, EAGAIN) else (1, 0)
    ssh_channel_write := fun _ _ d => if d = [] then -1 else 1 }

/-- A server that accepts the private key of the session; the key file can be imported
and a `.pub` file stands next to it, but that file cannot be imported. -/
def env_good_key_bad_pub : Env :=
  { env_refusing with
    g_file_test := fun _ _ => true
    ssh_pki_import_pubkey_file := fun _ _ => -1
    ssh_pki_import_privkey_file := fun _ _ _ => SSH_OK
    ssh_userauth_publickey := fun _ => SSH_AUTH_SUCCESS }

/-- A server that can be reached and allows the "none" method. -/
def env_open_server : Env :=
  { env_refusing with
    ssh_connect := fun _ => SSH_OK
    ssh_userauth_none := fun _ => SSH_AUTH_SUCCESS }

/-- A shell bridge as `remmina_ssh_shell_open` hands it to the worker, with the pty
descriptors 3 and 4. -/
def fresh_shell (exec : Option String) (channel : Option Channel) : SSt where
  shell := { ssh := (fresh_session AuthMethod.SSH_AUTH_PASSWORD none).ssh
             master := 3, slave := 4, exec := exec, channel := channel }
  trace := []

/-- A server that opens the channel 7 and its session, and refuses every request on it. -/
def env_request_refused : Env :=
  { env_refusing with
    ssh_channel_new := fun _ => some 7
    ssh_channel_open_session := fun _ _ => 0 }

/-- A server and a local side on which a further local connection arrives on the
descriptor 9, the channel 5 is created for it, and the request to open the forward is
refused. -/
def env_forward_refused : Env :=
  { env_refusing with
    accept := fun _ _ _ => 9
    ssh_channel_new := fun _ => some 5 }

/-- The relay-loop variables after the first round. -/
def later_round : LoopVars := { first := false, channel := none, t2 := (0, 0) }

/-- A reverse tunnel as `remmina_ssh_tunnel_reverse` hands it to the worker: remote
port 5500, local port 5900, no pair yet. -/
def fresh_reverse_tunnel : TSt where
  tunnel :=
    { ssh := (fresh_session AuthMethod.SSH_AUTH_PASSWORD none).ssh
      tunnel_type := TunnelType.REMMINA_SSH_TUNNEL_REVERSE
      channels := [], sockets := [], socketbuffers := []
      num_channels := 0, max_channels := 0
      thread := 1, running := true, bindlocalhost := false, port := 5500
      remotedisplay := 0
      init_func := true, connect_func := true, disconnect_func := true
      localport := 5900 }
  trace := []

/-- A server that listens on request and hands over one incoming connection, on the
channel 7; the local port answers on the descriptor 12. -/
def env_reverse_accepts : Env :=
  { env_refusing with
    ssh_channel_listen_forward := fun _ _ _ => 0
    ssh_channel_accept_forward := fun _ _ => some (7, 5500)
    connect_local_port := fun _ _ => 12 }

/-- A local side on which the socket 12 has reached end of stream and no other socket
has anything to read. -/
def env_middle_socket_closed : Env :=
  { env_refusing with read := fun _ fd _ => if fd = 12 then (0, []) else (-1, []) }

/-- A home directory in which `.ssh/id_rsa` is the only conventional identity. -/
def env_only_rsa_key : Env :=
  { env_refusing with
    g_get_home_dir := fun _ => "/home/u"
    g_file_test := fun _ p => decide (p = "/home/u/.ssh/id_rsa") }

/-- A machine id of 32 characters, `0123456789abcdefFEDCBA9876543210`, as character
codes. -/
def sample_machine_id : List Nat :=
  [48, 49, 50, 51, 52, 53, 54, 55, 56, 57, 97, 98, 99, 100, 101, 102,
   70, 69, 68, 67, 66, 65, 57, 56, 55, 54, 53, 52, 51, 50, 49, 48]

/-- A pty that takes two bytes of the first write offered to it and one byte of every
later one. -/
def env_pty_partial_write : Env :=
  { env_refusing with write := fun h _ _ => if h.length = 0 then (2, 0) else (1, 0) }

/-- A server and a local side with nothing to relay: the multiplexed wait times out,
no channel has data, no connection comes. -/
def env_idle : Env :=
  { env_refusing with ssh_select := fun _ _ _ => (0, []) }

/-- A reverse tunnel with one live pair and, as in every topology other than local
forward, no listening socket. -/
def reverse_tunnel_one_pair : TSt where
  tunnel :=
    { ssh := (fresh_session AuthMethod.SSH_AUTH_PASSWORD none).ssh
      tunnel_type := TunnelType.REMMINA_SSH_TUNNEL_REVERSE
      channels := [some 7, none], sockets := [12], socketbuffers := [none]
      num_channels := 1, max_channels := 1
      thread := 1, running := true, bindlocalhost := false, port := 5500
      remotedisplay := 0
      init_func := true, connect_func := true, disconnect_func := true
      localport := 5900, buffer_len := 10240 }
  trace := []

/-- A local-forward tunnel as `remmina_ssh_tunnel_open` hands it to the worker: listening
on the descriptor 5, no pair yet. -/
def fresh_open_tunnel : TSt where
  tunnel :=
    { ssh := (fresh_session AuthMethod.SSH_AUTH_PASSWORD none).ssh
      tunnel_type := TunnelType.REMMINA_SSH_TUNNEL_OPEN
      channels := [], sockets := [], socketbuffers := []
      num_channels := 0, max_channels := 0
      thread := 1, running := true, bindlocalhost := false, port := 5900
      remotedisplay := 0
      init_func := true, connect_func := true, disconnect_func := true
      server_sock := 5, dest := some "10.0.0.2" }
  trace := []

/-- What the two bookkeeping calls keep: `0 <= num_channels <= max_channels`, the
arrays of sockets and buffers have `max_channels` cells, and the array of channels is
either not allocated yet, with `max_channels = 0`, or has `max_channels + 1` cells of
which the one at `num_channels` is NULL. -/
def bookkeeping_invariant (t : RemminaSSHTunnel) : Prop :=
  0 ≤ t.num_channels ∧ t.num_channels ≤ t.max_channels ∧
  t.sockets.length = t.max_channels.toNat ∧
  t.socketbuffers.length = t.max_channels.toNat ∧
  ((t.max_channels = 0 ∧ t.channels = []) ∨
    (0 < t.max_channels ∧ t.channels.length = t.max_channels.toNat + 1 ∧
      t.channels[t.num_channels.toNat]? = some none))

/-- What a sequence `ws` of writes on the socket of a pair makes of its pending buffer
`b`: every write offers the buffer from the first byte not yet taken, the socket has
taken the bytes from the cursor of `b` on, as many as the counts returned add up to,
and the buffer `ob` kept afterwards has its cursor advanced by that much and bytes
remaining, or is gone (`none`) with nothing remaining. -/
def drains (b : RemminaSSHTunnelBuffer) (ws : List (List Byte × Int))
    (ob : Option RemminaSSHTunnelBuffer) : Prop :=
  resumes b.data b.ptr ws ∧
  taken ws = (b.data.drop b.ptr).take (advance ws) ∧
  match ob with
  | some b1 => b1.data = b.data ∧ 0 < b1.len ∧ b1.ptr + b1.len.toNat = b.data.length ∧
      b1.ptr = b.ptr + advance ws
  | none => b.ptr + advance ws = b.data.length

/-- A local socket that takes one byte of every other `write` offered to it and reports
would-block on the writes in between, and when it is offered nothing. -/
def env_socket_blocks_in_turn : Env :=
  { env_refusing with
    write := fun h fd d =>
      if d = [] ∨ (socket_writes fd h).length % 2 = 1 then (-1, EAGAIN) else (1, 0) }

/-- A running local-forward tunnel with two live pairs; for the second one the three
bytes read from its channel are pending, none of them written to its socket yet. -/
def pending_pair_tunnel : TSt where
  tunnel :=
    { ssh := (fresh_session AuthMethod.SSH_AUTH_PASSWORD none).ssh
      tunnel_type := TunnelType.REMMINA_SSH_TUNNEL_OPEN
      channels := [some 1, some 2, none]
      sockets := [11, 12]
      socketbuffers := [none, some (remmina_ssh_tunnel_buffer_new [104, 105, 33])]
      num_channels := 2, max_channels := 2
      thread := 1, running := true, bindlocalhost := false, port := 5900
      remotedisplay := 0
      init_func := true, connect_func := true, disconnect_func := true }
  trace := []

/-! ## Theorems: session authentication and host trust -/

/-- C1: for a known-ok host, a session not yet authenticated with auth method password
and a non-empty secret, if the server offers both password and keyboard-interactive
and the password authentication of the transport does not succeed, then
`remmina_ssh_auth` returns -1 (negative, retry with credentials, not 0) and the
authenticated flag stays false. -/
theorem auth_password_failure_reprompts (env : Env) (fuel : Nat) (st : St) (secret : String)
    (_hsecret : secret ≠ "")
    (hknown : env.ssh_is_server_known st.trace = SSH_SERVER_KNOWN_OK)
    (hnot : st.ssh.authenticated = false)
    (hauth : st.ssh.auth = AuthMethod.SSH_AUTH_PASSWORD)
    (hpw : env.ssh_userauth_list (st.trace ++ [Event.ssh_is_server_known])
      &&& SSH_AUTH_METHOD_PASSWORD ≠ 0)
    (_hki : env.ssh_userauth_list (st.trace ++ [Event.ssh_is_server_known])
      &&& SSH_AUTH_METHOD_INTERACTIVE ≠ 0)
    (hfail : env.ssh_userauth_password
      (st.trace ++ [Event.ssh_is_server_known, Event.ssh_userauth_list]) secret
        ≠ SSH_AUTH_SUCCESS) :
    (∃ r : Int, (remmina_ssh_auth env fuel st (some secret)).1 = some r ∧ r < 0 ∧ r ≠ 0) ∧
    (remmina_ssh_auth env fuel st (some secret)).2.ssh.authenticated = false := by
  simp [remmina_ssh_auth, remmina_ssh_auth_switch, store_secret, remmina_ssh_auth_password, remmina_ssh_set_error, St.emit,
    hknown, hnot, hauth, hpw, hfail]

/-- Witness of C1: a non-empty wrong password against a server offering password and
keyboard-interactive. -/
theorem auth_password_failure_reprompts_witness :
    (∃ r : Int, (remmina_ssh_auth env_wrong_password 5
        (fresh_session AuthMethod.SSH_AUTH_PASSWORD none) (some "hunter2")).1 = some r
        ∧ r < 0 ∧ r ≠ 0) ∧
    (remmina_ssh_auth env_wrong_password 5
        (fresh_session AuthMethod.SSH_AUTH_PASSWORD none) (some "hunter2")).2.ssh.authenticated
      = false :=
  auth_password_failure_reprompts env_wrong_password 5
    (fresh_session AuthMethod.SSH_AUTH_PASSWORD none) "hunter2"
    (by decide) rfl rfl rfl (by decide) (by decide) (by decide)

/-- C2 as stated is false: with a private-key path set, public-key offered, no
passphrase and a private key that can never be imported, the result is 0 (fatal), not
negative, when a `.pub` file exists next to the key and cannot be imported. -/
theorem auth_pubkey_empty_passphrase_counterexample :
    ¬ ∀ (env : Env) (fuel : Nat) (st : St) (password : Option String) (keyfile : String),
        env.ssh_is_server_known st.trace = SSH_SERVER_KNOWN_OK →
        st.ssh.authenticated = false →
        st.ssh.auth = AuthMethod.SSH_AUTH_PUBLICKEY →
        st.ssh.privkeyfile = some keyfile →
        env.ssh_userauth_list (st.trace ++ [Event.ssh_is_server_known])
          &&& SSH_AUTH_METHOD_PUBLICKEY ≠ 0 →
        (match password with
          | some p => p = ""
          | none => st.ssh.passphrase = none ∨ st.ssh.passphrase = some "") →
        (∀ h, env.ssh_pki_import_privkey_file h keyfile "" ≠ SSH_OK) →
        ∃ r : Int, (remmina_ssh_auth env fuel st password).1 = some r ∧ r < 0 := by
  intro h
  have h1 := h env_encrypted_key_bad_pub 0
    (fresh_session AuthMethod.SSH_AUTH_PUBLICKEY (some "/home/u/.ssh/id_rsa")) none
    "/home/u/.ssh/id_rsa" rfl rfl rfl rfl (by decide) (Or.inl rfl) (fun _ => by show (-1 : Int) ≠ 0; decide)
  obtain ⟨r, hr, hneg⟩ := h1
  have h0 : (remmina_ssh_auth env_encrypted_key_bad_pub 0
      (fresh_session AuthMethod.SSH_AUTH_PUBLICKEY (some "/home/u/.ssh/id_rsa")) none).1
      = some 0 := by
    simp [remmina_ssh_auth, remmina_ssh_auth_switch, store_secret, remmina_ssh_auth_pubkey, returned, remmina_ssh_set_error,
      St.emit, env_encrypted_key_bad_pub, env_refusing, fresh_session]
  rw [h0] at hr
  simp at hr
  omega

/-- C2, amended: for a known-ok host, a session not yet authenticated with auth method
public-key whose private-key path is set and whose server offers public-key, if the
stored passphrase (the supplied secret, when one is supplied) is absent or empty, the
private key cannot be imported, and the matching `.pub` file is absent or imports
successfully, then `remmina_ssh_auth` returns -1 (negative, not 0). -/
theorem auth_pubkey_empty_passphrase_reprompts (env : Env) (fuel : Nat) (st : St)
    (password : Option String) (keyfile : String)
    (hknown : env.ssh_is_server_known st.trace = SSH_SERVER_KNOWN_OK)
    (hnot : st.ssh.authenticated = false)
    (hauth : st.ssh.auth = AuthMethod.SSH_AUTH_PUBLICKEY)
    (hkey : st.ssh.privkeyfile = some keyfile)
    (hoffer : env.ssh_userauth_list (st.trace ++ [Event.ssh_is_server_known])
      &&& SSH_AUTH_METHOD_PUBLICKEY ≠ 0)
    (hpass : match password with
      | some p => p = ""
      | none => st.ssh.passphrase = none ∨ st.ssh.passphrase = some "")
    (hpriv : ∀ h, env.ssh_pki_import_privkey_file h keyfile "" ≠ SSH_OK)
    (hpub : env.g_file_test
        (st.trace ++ [Event.ssh_is_server_known, Event.ssh_userauth_list])
        (pubkey_path keyfile) = false ∨
      env.ssh_pki_import_pubkey_file
        (st.trace ++ [Event.ssh_is_server_known, Event.ssh_userauth_list,
          Event.g_file_test (pubkey_path keyfile)])
        (pubkey_path keyfile) = SSH_OK) :
    ∃ r : Int, (remmina_ssh_auth env fuel st password).1 = some r ∧ r < 0 ∧ r ≠ 0 := by
  refine ⟨-1, ?_, by decide, by decide⟩
  cases password with
  | some p =>
    simp only at hpass
    subst hpass
    by_cases hex : env.g_file_test
        (st.trace ++ [Event.ssh_is_server_known, Event.ssh_userauth_list])
        (pubkey_path keyfile) = true
    · have hp : env.ssh_pki_import_pubkey_file
          (st.trace ++ [Event.ssh_is_server_known, Event.ssh_userauth_list,
            Event.g_file_test (pubkey_path keyfile)])
          (pubkey_path keyfile) = 0 := by
        rcases hpub with h | h
        · rw [hex] at h; cases h
        · exact h
      simp [remmina_ssh_auth, remmina_ssh_auth_switch, store_secret, remmina_ssh_auth_pubkey, remmina_ssh_auth_pubkey_privkey,
        returned, St.emit, hknown, hnot, hauth, hkey, hoffer, hex, hp, hpriv]
    · simp [remmina_ssh_auth, remmina_ssh_auth_switch, store_secret, remmina_ssh_auth_pubkey, remmina_ssh_auth_pubkey_privkey,
        returned, St.emit, hknown, hnot, hauth, hkey, hoffer, hex, hpriv]
  | none =>
    simp only at hpass
    have hgd : st.ssh.passphrase.getD "" = "" := by
      rcases hpass with h | h <;> simp [h]
    by_cases hex : env.g_file_test
        (st.trace ++ [Event.ssh_is_server_known, Event.ssh_userauth_list])
        (pubkey_path keyfile) = true
    · have hp : env.ssh_pki_import_pubkey_file
          (st.trace ++ [Event.ssh_is_server_known, Event.ssh_userauth_list,
            Event.g_file_test (pubkey_path keyfile)])
          (pubkey_path keyfile) = 0 := by
        rcases hpub with h | h
        · rw [hex] at h; cases h
        · exact h
      simp [remmina_ssh_auth, remmina_ssh_auth_switch, store_secret, remmina_ssh_auth_pubkey, remmina_ssh_auth_pubkey_privkey,
        returned, St.emit, hknown, hnot, hauth, hkey, hoffer, hex, hp, hpriv, hpass, hgd]
    · simp [remmina_ssh_auth, remmina_ssh_auth_switch, store_secret, remmina_ssh_auth_pubkey, remmina_ssh_auth_pubkey_privkey,
        returned, St.emit, hknown, hnot, hauth, hkey, hoffer, hex, hpriv, hpass, hgd]

/-- Witness of C2 amended: no passphrase, an encrypted key and no `.pub` file. -/
theorem auth_pubkey_empty_passphrase_reprompts_witness :
    ∃ r : Int, (remmina_ssh_auth env_encrypted_key 0
      (fresh_session AuthMethod.SSH_AUTH_PUBLICKEY (some "/home/u/.ssh/id_rsa")) none).1
        = some r ∧ r < 0 ∧ r ≠ 0 :=
  auth_pubkey_empty_passphrase_reprompts env_encrypted_key 0
    (fresh_session AuthMethod.SSH_AUTH_PUBLICKEY (some "/home/u/.ssh/id_rsa")) none
    "/home/u/.ssh/id_rsa" rfl rfl rfl rfl (by decide) (Or.inl rfl) (fun _ => by show (-1 : Int) ≠ 0; decide)
    (Or.inl rfl)

/-- C3 fails on the code: with auth method password and a server that offers neither
password nor keyboard-interactive (here public-key only), `remmina_ssh_auth` returns 1
although no authentication was attempted and the authenticated flag is still false. -/
theorem auth_success_without_authentication :
    (remmina_ssh_auth env_publickey_only 0
      (fresh_session AuthMethod.SSH_AUTH_PASSWORD none) (some "hunter2")).1 = some 1 ∧
    (remmina_ssh_auth env_publickey_only 0
      (fresh_session AuthMethod.SSH_AUTH_PASSWORD none) (some "hunter2")).2.ssh.authenticated
      = false ∧
    (remmina_ssh_auth env_publickey_only 0
      (fresh_session AuthMethod.SSH_AUTH_PASSWORD none) (some "hunter2")).2.trace
      = [Event.ssh_is_server_known, Event.ssh_userauth_list] := by
  refine ⟨by rfl, by rfl, by rfl⟩

/-- C5: whatever the session (authenticated or not) and the supplied secret, if the
transport reports a host-key state other than known-ok then `remmina_ssh_auth` returns
0, its only transport call is the host-key query, and the stored password, passphrase
and authenticated flag are unchanged. -/
theorem auth_refuses_host_not_known_ok (env : Env) (fuel : Nat) (st : St)
    (password : Option String)
    (hstate : env.ssh_is_server_known st.trace ≠ SSH_SERVER_KNOWN_OK) :
    (remmina_ssh_auth env fuel st password).1 = some 0 ∧
    (remmina_ssh_auth env fuel st password).2.trace
      = st.trace ++ [Event.ssh_is_server_known] ∧
    (remmina_ssh_auth env fuel st password).2.ssh.password = st.ssh.password ∧
    (remmina_ssh_auth env fuel st password).2.ssh.passphrase = st.ssh.passphrase ∧
    (remmina_ssh_auth env fuel st password).2.ssh.authenticated = st.ssh.authenticated := by
  simp [remmina_ssh_auth, remmina_ssh_set_application_error, St.emit, hstate]

/-- Witness of C5: an already authenticated session whose host key has changed. -/
theorem auth_refuses_host_not_known_ok_witness :
    (remmina_ssh_auth env_changed_host 0
      { ssh := { auth := AuthMethod.SSH_AUTH_PASSWORD, authenticated := true,
                 password := some "old", passphrase := some "old", privkeyfile := none,
                 error := none },
        trace := [] } (some "new")).1 = some 0 :=
  (auth_refuses_host_not_known_ok env_changed_host 0
    { ssh := { auth := AuthMethod.SSH_AUTH_PASSWORD, authenticated := true,
               password := some "old", passphrase := some "old", privkeyfile := none,
               error := none },
      trace := [] } (some "new") (by decide)).1

/-! ### The authentication code never touches the host-trust decision -/

theorem addsNoTrust_append (tr l : List Event) :
    AddsNoTrust tr (tr ++ l) ↔ ∀ e ∈ l, Event.is_host_trust e = false := by
  constructor
  · rintro ⟨l1, h, hl⟩
    have : l = l1 := List.append_cancel_left h
    subst this
    exact hl
  · intro h
    exact ⟨l, rfl, h⟩

theorem addsNoTrust_refl (tr : List Event) : AddsNoTrust tr tr :=
  ⟨[], by simp, by simp⟩

theorem addsNoTrust_trans {a b c : List Event} (h1 : AddsNoTrust a b) (h2 : AddsNoTrust b c) :
    AddsNoTrust a c := by
  obtain ⟨l1, rfl, hl1⟩ := h1
  obtain ⟨l2, rfl, hl2⟩ := h2
  refine ⟨l1 ++ l2, by simp, ?_⟩
  intro e he
  rcases List.mem_append.mp he with h | h
  · exact hl1 e h
  · exact hl2 e h

theorem addsNoTrust_more {a b : List Event} (l : List Event) (h1 : AddsNoTrust a b)
    (hl : ∀ e ∈ l, Event.is_host_trust e = false) : AddsNoTrust a (b ++ l) :=
  addsNoTrust_trans h1 ((addsNoTrust_append b l).mpr hl)

theorem kbdint_loop_addsNoTrust (env : Env) (pw : String) (fuel : Nat) (tr : List Event) :
    AddsNoTrust tr (kbdint_loop env pw fuel tr).2 := by
  induction fuel generalizing tr with
  | zero => exact addsNoTrust_refl tr
  | succ n ih =>
    unfold kbdint_loop
    simp only
    split
    · refine addsNoTrust_trans ?_ (ih _)
      simp only [List.append_assoc, addsNoTrust_append]
      intro e he
      simp only [List.mem_append, List.mem_singleton, List.mem_map] at he
      rcases he with rfl | rfl | ⟨i, _, rfl⟩ <;> rfl
    · simp [addsNoTrust_append, Event.is_host_trust]

theorem auth_interactive_addsNoTrust (env : Env) (fuel : Nat) (st : St) :
    AddsNoTrust st.trace (remmina_ssh_auth_interactive env fuel st).2.trace := by
  have h := kbdint_loop_addsNoTrust env
  unfold remmina_ssh_auth_interactive
  split
  · exact addsNoTrust_refl _
  · split
    · exact addsNoTrust_refl _
    · rename_i pw hpw
      have h1 := h pw fuel st.trace
      split
      · rename_i tr heq
        rw [heq] at h1
        exact h1
      · rename_i ret tr heq
        rw [heq] at h1
        split <;> exact h1

theorem auth_password_addsNoTrust (env : Env) (st : St) :
    AddsNoTrust st.trace (remmina_ssh_auth_password env st).2.trace := by
  unfold remmina_ssh_auth_password
  split
  · exact addsNoTrust_refl _
  · split
    · exact addsNoTrust_refl _
    · simp only [St.emit, remmina_ssh_set_error]
      split_ifs <;> simp [addsNoTrust_append, Event.is_host_trust]

theorem auth_pubkey_privkey_addsNoTrust (env : Env) (keyfile : String) (st : St) :
    AddsNoTrust st.trace (remmina_ssh_auth_pubkey_privkey env keyfile st).2.trace := by
  unfold remmina_ssh_auth_pubkey_privkey
  simp only [St.emit, remmina_ssh_set_error]
  split_ifs <;> simp [addsNoTrust_append, addsNoTrust_refl, Event.is_host_trust]

theorem auth_pubkey_addsNoTrust (env : Env) (st : St) :
    AddsNoTrust st.trace (remmina_ssh_auth_pubkey env st).2.trace := by
  unfold remmina_ssh_auth_pubkey
  split
  · exact addsNoTrust_refl _
  · split
    · simp [remmina_ssh_set_application_error, addsNoTrust_refl]
    · simp only
      split
      · split
        · simp [St.emit, remmina_ssh_set_error, addsNoTrust_append, Event.is_host_trust]
        · refine addsNoTrust_trans ?_ (auth_pubkey_privkey_addsNoTrust env _ _)
          simp [St.emit, addsNoTrust_append, Event.is_host_trust]
      · refine addsNoTrust_trans ?_ (auth_pubkey_privkey_addsNoTrust env _ _)
        simp [St.emit, addsNoTrust_append, Event.is_host_trust]

theorem auth_auto_pubkey_userauth_addsNoTrust (env : Env) (st : St) :
    AddsNoTrust st.trace (remmina_ssh_auth_auto_pubkey_userauth env st).2.trace := by
  unfold remmina_ssh_auth_auto_pubkey_userauth
  simp only [St.emit, remmina_ssh_set_error]
  split_ifs <;> simp [addsNoTrust_append, addsNoTrust_refl, Event.is_host_trust]

theorem auth_auto_pubkey_addsNoTrust (env : Env) (st : St) :
    AddsNoTrust st.trace (remmina_ssh_auth_auto_pubkey env st).2.trace := by
  unfold remmina_ssh_auth_auto_pubkey
  simp only
  split
  · exact auth_auto_pubkey_userauth_addsNoTrust env st
  · split
    · refine addsNoTrust_trans ?_ (auth_auto_pubkey_userauth_addsNoTrust env _)
      split <;> simp [St.emit, addsNoTrust_append, Event.is_host_trust]
    · simp [St.emit, addsNoTrust_append, Event.is_host_trust]

theorem auth_agent_addsNoTrust (env : Env) (st : St) :
    AddsNoTrust st.trace (remmina_ssh_auth_agent env st).2.trace := by
  unfold remmina_ssh_auth_agent
  simp only [St.emit, remmina_ssh_set_error]
  split_ifs <;> simp [addsNoTrust_append, addsNoTrust_refl, Event.is_host_trust]

theorem auth_gssapi_addsNoTrust (env : Env) (st : St) :
    AddsNoTrust st.trace (remmina_ssh_auth_gssapi env st).2.trace := by
  unfold remmina_ssh_auth_gssapi
  simp only [St.emit, remmina_ssh_set_error]
  split_ifs <;> simp [addsNoTrust_append, addsNoTrust_refl, Event.is_host_trust]

theorem auth_case_password_interactive_addsNoTrust (env : Env) (fuel method : Nat) (st : St) :
    AddsNoTrust st.trace
      (remmina_ssh_auth_case_password_interactive env fuel method st).2.trace := by
  have h := auth_interactive_addsNoTrust env fuel st
  unfold remmina_ssh_auth_case_password_interactive
  split
  · split
    · rename_i st1 heq
      rw [heq] at h
      exact h
    · rename_i r st1 heq
      rw [heq] at h
      split <;> exact h
  · exact addsNoTrust_refl _

theorem store_secret_trace (st : St) (password : Option String) :
    (store_secret st password).trace = st.trace := by
  cases password <;> rfl

theorem auth_switch_addsNoTrust (env : Env) (fuel method : Nat) (st : St) :
    AddsNoTrust st.trace (remmina_ssh_auth_switch env fuel method st).2.trace := by
  unfold remmina_ssh_auth_switch
  split
  · split
    · exact addsNoTrust_refl _
    · split
      · split
        · exact auth_password_addsNoTrust env st
        · exact addsNoTrust_trans (auth_password_addsNoTrust env st)
            (auth_case_password_interactive_addsNoTrust env fuel _ _)
      · exact auth_case_password_interactive_addsNoTrust env fuel _ _
  · split
    · exact auth_pubkey_addsNoTrust env _
    · exact auth_agent_addsNoTrust env _
  · exact auth_agent_addsNoTrust env _
  · exact auth_auto_pubkey_addsNoTrust env _
  · split
    · exact auth_gssapi_addsNoTrust env _
    · exact addsNoTrust_refl _
  · exact addsNoTrust_refl _

/-- `remmina_ssh_auth` neither asks the trust question nor writes the known-hosts
store. -/
theorem auth_addsNoTrust (env : Env) (fuel : Nat) (st : St) (password : Option String) :
    AddsNoTrust st.trace (remmina_ssh_auth env fuel st password).2.trace := by
  unfold remmina_ssh_auth
  simp only
  split
  · simp [St.emit, remmina_ssh_set_application_error, addsNoTrust_append,
      Event.is_host_trust]
  · refine addsNoTrust_trans ?_ (auth_switch_addsNoTrust env fuel _ _)
    simp [St.emit, store_secret_trace, addsNoTrust_append, Event.is_host_trust]

theorem auth_gui_prompt_addsNoTrust (env : Env) (pwdtype : String) (allow : Bool) (st : St) :
    AddsNoTrust st.trace (remmina_ssh_auth_gui_prompt env pwdtype allow st).2.trace := by
  unfold remmina_ssh_auth_gui_prompt
  split_ifs <;> simp [St.emit, addsNoTrust_append, Event.is_host_trust]

theorem auth_gui_result_state (r : Option Int × St) :
    (remmina_ssh_auth_gui_result r).2 = r.2 := by
  unfold remmina_ssh_auth_gui_result
  split
  · rfl
  · split <;> rfl

/-- After the host-trust check `remmina_ssh_auth_gui` neither asks the trust question
nor writes the known-hosts store. -/
theorem auth_gui_credentials_addsNoTrust (env : Env) (fuel : Nat) (st : St) :
    AddsNoTrust st.trace (remmina_ssh_auth_gui_credentials env fuel st).2.trace := by
  unfold remmina_ssh_auth_gui_credentials
  split
  · exact addsNoTrust_refl _
  · rename_i pwdtype _
    simp only
    have h1 : AddsNoTrust st.trace
        (remmina_ssh_auth env fuel (st.emit (Event.remmina_file_get_string pwdtype))
          (env.remmina_file_get_string st.trace pwdtype)).2.trace := by
      refine addsNoTrust_trans ?_ (auth_addsNoTrust env fuel _ _)
      simp [St.emit, addsNoTrust_append, Event.is_host_trust]
    split
    · exact h1
    · split
      · exact h1
      · split
        · have h2 : ∀ allow : Bool, AddsNoTrust st.trace
              (remmina_ssh_auth_gui_prompt env pwdtype allow
                ((remmina_ssh_auth env fuel (st.emit (Event.remmina_file_get_string pwdtype))
                  (env.remmina_file_get_string st.trace pwdtype)).2.emit
                    (Event.remmina_file_get_int "disablepasswordstoring"))).2.trace :=
            fun allow => addsNoTrust_trans
              (addsNoTrust_more [Event.remmina_file_get_int "disablepasswordstoring"] h1
                (by simp [Event.is_host_trust]))
              (auth_gui_prompt_addsNoTrust env pwdtype allow _)
          have h3 := fun allow => addsNoTrust_more [Event.get_savepassword] (h2 allow)
            (by simp [Event.is_host_trust])
          split
          · rw [auth_gui_result_state]
            refine addsNoTrust_trans ?_ (auth_addsNoTrust env fuel _ _)
            split
            · exact addsNoTrust_more [Event.get_password]
                (addsNoTrust_more [Event.remmina_file_set_string _ _]
                  (addsNoTrust_more [Event.get_password] (h3 _)
                    (by simp [Event.is_host_trust]))
                  (by simp [Event.is_host_trust]))
                (by simp [Event.is_host_trust])
            · exact addsNoTrust_more [Event.get_password] (h3 _)
                (by simp [Event.is_host_trust])
          · exact h3 _
        · exact h1

theorem new_events_append (tr l : List Event) : new_events tr (tr ++ l) = l := by
  simp [new_events]

theorem mem_new_events_of_addsNoTrust {tr pre tr1 : List Event}
    (h : AddsNoTrust (tr ++ pre) tr1) (e : Event) (he : Event.is_host_trust e = true) :
    e ∈ new_events tr tr1 ↔ e ∈ pre := by
  obtain ⟨l, rfl, hl⟩ := h
  rw [List.append_assoc, new_events_append, List.mem_append]
  constructor
  · rintro (h1 | h1)
    · exact h1
    · rw [hl e h1] at he
      cases he
  · exact Or.inl

/-- C4: in `remmina_ssh_auth_gui`, for a host-key state that is unknown, file-not-found,
changed or found-other, when the trust-decision collaborator is asked (the code asks
once the server key and its fingerprint were obtained) and answers anything other than
yes, the function returns -1; the only calls of the whole run are the host-key query,
the two key reads and the question itself, so no authentication primitive is invoked,
no credential prompt is shown and nothing is written to the known-hosts store; the
session is unchanged. -/
theorem auth_gui_trust_refused (env : Env) (fuel : Nat) (st : St)
    (hstate : env.ssh_is_server_known st.trace = SSH_SERVER_NOT_KNOWN ∨
      env.ssh_is_server_known st.trace = SSH_SERVER_FILE_NOT_FOUND ∨
      env.ssh_is_server_known st.trace = SSH_SERVER_KNOWN_CHANGED ∨
      env.ssh_is_server_known st.trace = SSH_SERVER_FOUND_OTHER)
    (hkey : env.ssh_get_server_publickey (st.trace ++ [Event.ssh_is_server_known]) = SSH_OK)
    (hhash : (env.ssh_get_publickey_hash
      (st.trace ++ [Event.ssh_is_server_known, Event.ssh_get_server_publickey])).1 = 0)
    (hno : env.panel_question_yesno
      (st.trace ++ [Event.ssh_is_server_known, Event.ssh_get_server_publickey,
        Event.ssh_get_publickey_hash])
      (trust_message (env.ssh_is_server_known st.trace)
        (env.ssh_get_publickey_hash
          (st.trace ++ [Event.ssh_is_server_known, Event.ssh_get_server_publickey])).2)
      ≠ GTK_RESPONSE_YES) :
    (∃ r : Int, (remmina_ssh_auth_gui env fuel st).1 = some r ∧ r < 0) ∧
    (remmina_ssh_auth_gui env fuel st).2.trace =
      st.trace ++ [Event.ssh_is_server_known, Event.ssh_get_server_publickey,
        Event.ssh_get_publickey_hash,
        Event.panel_question_yesno
          (trust_message (env.ssh_is_server_known st.trace)
            (env.ssh_get_publickey_hash
              (st.trace ++ [Event.ssh_is_server_known, Event.ssh_get_server_publickey])).2)] ∧
    (remmina_ssh_auth_gui env fuel st).2.ssh = st.ssh := by
  have hne : env.ssh_is_server_known st.trace ≠ SSH_SERVER_KNOWN_OK := by
    rcases hstate with h | h | h | h <;> rw [h] <;> decide
  have hin : env.ssh_is_server_known st.trace = SSH_SERVER_FILE_NOT_FOUND ∨
      env.ssh_is_server_known st.trace = SSH_SERVER_NOT_KNOWN ∨
      env.ssh_is_server_known st.trace = SSH_SERVER_KNOWN_CHANGED ∨
      env.ssh_is_server_known st.trace = SSH_SERVER_FOUND_OTHER := by
    rcases hstate with h | h | h | h <;> simp [h]
  simp only [remmina_ssh_auth_gui, remmina_ssh_auth_gui_trust, St.emit, List.append_assoc,
    List.singleton_append, if_neg hne, if_pos hin, hkey, hhash, hno, ne_eq, not_true_eq_false,
    not_false_eq_true, if_true, if_false, returned]
  simp [hno]

/-- Witness of C4: an unknown host whose key the user declines to trust. -/
theorem auth_gui_trust_refused_witness :
    (∃ r : Int, (remmina_ssh_auth_gui env_unknown_host_declined 3
        (fresh_session AuthMethod.SSH_AUTH_PASSWORD none)).1 = some r ∧ r < 0) ∧
    (remmina_ssh_auth_gui env_unknown_host_declined 3
        (fresh_session AuthMethod.SSH_AUTH_PASSWORD none)).2.trace =
      (fresh_session AuthMethod.SSH_AUTH_PASSWORD none).trace ++
        [Event.ssh_is_server_known, Event.ssh_get_server_publickey,
          Event.ssh_get_publickey_hash,
          Event.panel_question_yesno
            (trust_message (env_unknown_host_declined.ssh_is_server_known
                (fresh_session AuthMethod.SSH_AUTH_PASSWORD none).trace)
              (env_unknown_host_declined.ssh_get_publickey_hash
                ((fresh_session AuthMethod.SSH_AUTH_PASSWORD none).trace ++
                  [Event.ssh_is_server_known, Event.ssh_get_server_publickey])).2)] ∧
    (remmina_ssh_auth_gui env_unknown_host_declined 3
        (fresh_session AuthMethod.SSH_AUTH_PASSWORD none)).2.ssh =
      (fresh_session AuthMethod.SSH_AUTH_PASSWORD none).ssh :=
  auth_gui_trust_refused env_unknown_host_declined 3
    (fresh_session AuthMethod.SSH_AUTH_PASSWORD none) (Or.inl rfl) rfl rfl (by decide)

/-- The host-trust check of `remmina_ssh_auth_gui`, by outcome: which calls it made,
and whether the known-hosts store was written. -/
theorem auth_gui_trust_spec (env : Env) (st : St) :
    match remmina_ssh_auth_gui_trust env st with
    | Except.ok st1 =>
      ∃ pre, st1.trace = st.trace ++ pre ∧
        (env.ssh_is_server_known st.trace = SSH_SERVER_KNOWN_OK →
          pre = [Event.ssh_is_server_known]) ∧
        (Event.ssh_write_knownhost ∈ pre ↔
          ((env.ssh_is_server_known st.trace = SSH_SERVER_NOT_KNOWN ∨
            env.ssh_is_server_known st.trace = SSH_SERVER_FILE_NOT_FOUND ∨
            env.ssh_is_server_known st.trace = SSH_SERVER_KNOWN_CHANGED ∨
            env.ssh_is_server_known st.trace = SSH_SERVER_FOUND_OTHER) ∧
           env.ssh_get_server_publickey (st.trace ++ [Event.ssh_is_server_known]) = SSH_OK ∧
           (env.ssh_get_publickey_hash
              (st.trace ++ [Event.ssh_is_server_known, Event.ssh_get_server_publickey])).1 = 0 ∧
           env.panel_question_yesno
              (st.trace ++ [Event.ssh_is_server_known, Event.ssh_get_server_publickey,
                Event.ssh_get_publickey_hash])
              (trust_message (env.ssh_is_server_known st.trace)
                (env.ssh_get_publickey_hash
                  (st.trace ++ [Event.ssh_is_server_known, Event.ssh_get_server_publickey])).2)
              = GTK_RESPONSE_YES))
    | Except.error r =>
      ∃ pre, r.2.trace = st.trace ++ pre ∧
        env.ssh_is_server_known st.trace ≠ SSH_SERVER_KNOWN_OK ∧
        (env.ssh_is_server_known st.trace = SSH_SERVER_ERROR → r.1 = 0) ∧
        Event.ssh_write_knownhost ∉ pre ∧
        ¬ ((env.ssh_is_server_known st.trace = SSH_SERVER_NOT_KNOWN ∨
            env.ssh_is_server_known st.trace = SSH_SERVER_FILE_NOT_FOUND ∨
            env.ssh_is_server_known st.trace = SSH_SERVER_KNOWN_CHANGED ∨
            env.ssh_is_server_known st.trace = SSH_SERVER_FOUND_OTHER) ∧
           env.ssh_get_server_publickey (st.trace ++ [Event.ssh_is_server_known]) = SSH_OK ∧
           (env.ssh_get_publickey_hash
              (st.trace ++ [Event.ssh_is_server_known, Event.ssh_get_server_publickey])).1 = 0 ∧
           env.panel_question_yesno
              (st.trace ++ [Event.ssh_is_server_known, Event.ssh_get_server_publickey,
                Event.ssh_get_publickey_hash])
              (trust_message (env.ssh_is_server_known st.trace)
                (env.ssh_get_publickey_hash
                  (st.trace ++ [Event.ssh_is_server_known, Event.ssh_get_server_publickey])).2)
              = GTK_RESPONSE_YES) := by
  unfold remmina_ssh_auth_gui_trust
  simp only [St.emit, List.append_assoc, List.singleton_append, List.cons_append,
    List.nil_append]
  split_ifs with hok hin hkey hhash hno
  · exact ⟨[Event.ssh_is_server_known], rfl, fun _ => rfl, by simp [hok]⟩
  · refine ⟨[Event.ssh_is_server_known, Event.ssh_get_server_publickey], rfl, hok, ?_, ?_, ?_⟩
    · intro _
      rfl
    · simp
    · intro h
      exact hkey h.2.1
  · refine ⟨[Event.ssh_is_server_known, Event.ssh_get_server_publickey,
      Event.ssh_get_publickey_hash], rfl, hok, ?_, ?_, ?_⟩
    · intro _
      rfl
    · simp
    · intro h
      exact hhash h.2.2.1
  · refine ⟨[Event.ssh_is_server_known, Event.ssh_get_server_publickey,
      Event.ssh_get_publickey_hash, Event.panel_question_yesno _], rfl, hok, ?_, ?_, ?_⟩
    · intro h
      rcases hin with h1 | h1 | h1 | h1 <;> rw [h1] at h <;> cases h
    · simp
    · intro h
      exact hno h.2.2.2
  · refine ⟨[Event.ssh_is_server_known, Event.ssh_get_server_publickey,
      Event.ssh_get_publickey_hash, Event.panel_question_yesno _,
      Event.ssh_write_knownhost], rfl, fun h => absurd h hok, ?_⟩
    have hkey0 : env.ssh_get_server_publickey (st.trace ++ [Event.ssh_is_server_known])
        = SSH_OK := not_not.mp hkey
    have hhash0 : (env.ssh_get_publickey_hash
        (st.trace ++ [Event.ssh_is_server_known, Event.ssh_get_server_publickey])).1 = 0 :=
      not_not.mp hhash
    have hyes0 := not_not.mp hno
    have hin2 : env.ssh_is_server_known st.trace = SSH_SERVER_NOT_KNOWN ∨
        env.ssh_is_server_known st.trace = SSH_SERVER_FILE_NOT_FOUND ∨
        env.ssh_is_server_known st.trace = SSH_SERVER_KNOWN_CHANGED ∨
        env.ssh_is_server_known st.trace = SSH_SERVER_FOUND_OTHER := by
      rcases hin with h | h | h | h <;> simp [h]
    simp only [List.mem_cons, List.mem_singleton, true_or, or_true, true_iff]
    exact ⟨hin2, hkey0, hhash0, hyes0⟩
  · refine ⟨[Event.ssh_is_server_known], rfl, hok, fun _ => rfl, by simp, ?_⟩
    intro h
    apply hin
    rcases h.1 with h1 | h1 | h1 | h1 <;> simp [h1]

/-- C6: over a whole run of `remmina_ssh_auth_gui`, the known-hosts store is written
exactly when the host-key state is unknown, file-not-found, changed or found-other,
the server key and its fingerprint were obtained, and the collaborator answered yes;
for a known-ok host the collaborator is not asked and nothing is written; for the
error state the function returns 0. -/
theorem auth_gui_writes_knownhost_iff (env : Env) (fuel : Nat) (st : St) :
    (Event.ssh_write_knownhost ∈ new_events st.trace (remmina_ssh_auth_gui env fuel st).2.trace ↔
      ((env.ssh_is_server_known st.trace = SSH_SERVER_NOT_KNOWN ∨
        env.ssh_is_server_known st.trace = SSH_SERVER_FILE_NOT_FOUND ∨
        env.ssh_is_server_known st.trace = SSH_SERVER_KNOWN_CHANGED ∨
        env.ssh_is_server_known st.trace = SSH_SERVER_FOUND_OTHER) ∧
       env.ssh_get_server_publickey (st.trace ++ [Event.ssh_is_server_known]) = SSH_OK ∧
       (env.ssh_get_publickey_hash
          (st.trace ++ [Event.ssh_is_server_known, Event.ssh_get_server_publickey])).1 = 0 ∧
       env.panel_question_yesno
          (st.trace ++ [Event.ssh_is_server_known, Event.ssh_get_server_publickey,
            Event.ssh_get_publickey_hash])
          (trust_message (env.ssh_is_server_known st.trace)
            (env.ssh_get_publickey_hash
              (st.trace ++ [Event.ssh_is_server_known, Event.ssh_get_server_publickey])).2)
          = GTK_RESPONSE_YES)) ∧
    (env.ssh_is_server_known st.trace = SSH_SERVER_KNOWN_OK →
      (∀ message, Event.panel_question_yesno message ∉
        new_events st.trace (remmina_ssh_auth_gui env fuel st).2.trace) ∧
      Event.ssh_write_knownhost ∉
        new_events st.trace (remmina_ssh_auth_gui env fuel st).2.trace) ∧
    (env.ssh_is_server_known st.trace = SSH_SERVER_ERROR →
      (remmina_ssh_auth_gui env fuel st).1 = some 0) := by
  have hspec := auth_gui_trust_spec env st
  unfold remmina_ssh_auth_gui
  split at hspec
  · rename_i st1 heq
    rw [heq]
    simp only
    obtain ⟨pre, hpre, hokpre, hw⟩ := hspec
    have h1 := auth_gui_credentials_addsNoTrust env fuel st1
    rw [hpre] at h1
    refine ⟨?_, ?_, ?_⟩
    · rw [mem_new_events_of_addsNoTrust h1 Event.ssh_write_knownhost rfl]
      exact hw
    · intro hok
      constructor
      · intro message
        rw [mem_new_events_of_addsNoTrust h1 (Event.panel_question_yesno message) rfl,
          hokpre hok]
        simp
      · rw [mem_new_events_of_addsNoTrust h1 Event.ssh_write_knownhost rfl, hokpre hok]
        simp
    · intro herr
      have hpre1 := hw.mp
      exfalso
      have hne : env.ssh_is_server_known st.trace ≠ SSH_SERVER_KNOWN_OK := by
        rw [herr]; decide
      revert heq
      unfold remmina_ssh_auth_gui_trust
      simp only [if_neg hne]
      have hnin : ¬ (env.ssh_is_server_known st.trace = SSH_SERVER_FILE_NOT_FOUND ∨
          env.ssh_is_server_known st.trace = SSH_SERVER_NOT_KNOWN ∨
          env.ssh_is_server_known st.trace = SSH_SERVER_KNOWN_CHANGED ∨
          env.ssh_is_server_known st.trace = SSH_SERVER_FOUND_OTHER) := by
        rw [herr]; decide
      simp only [if_neg hnin]
      intro h
      cases h
  · rename_i r heq
    rw [heq]
    obtain ⟨pre, hpre, hne, herr0, hw, hncond⟩ := hspec
    simp only [returned]
    rw [hpre, new_events_append]
    refine ⟨?_, ?_, ?_⟩
    · constructor
      · intro h
        exact absurd h hw
      · intro h
        exact absurd h hncond
    · intro hok
      exact absurd hok hne
    · intro herr
      rw [herr0 herr]

/-! ## Theorems: tunnel multiplexer -/

theorem listen_events_length (b : Bool) (i : Int) (n : Nat) :
    (listen_events b i n).length = n := by
  induction n generalizing i with
  | zero => rfl
  | succ n ih => simp [listen_events, ih]

/-- The scan stops at the first display whose listen request succeeds. -/
theorem xport_listen_loop_found (env : Env) (max_display : Int) :
    ∀ (k fuel : Nat) (i : Int) (ts : TSt), k < fuel → i + k ≤ max_display →
      (∀ j : Nat, j < k →
        env.ssh_channel_listen_forward
          (ts.trace ++ listen_events ts.tunnel.bindlocalhost i j)
          ts.tunnel.bindlocalhost (6000 + (i + j)) ≠ 0) →
      env.ssh_channel_listen_forward
        (ts.trace ++ listen_events ts.tunnel.bindlocalhost i k)
        ts.tunnel.bindlocalhost (6000 + (i + k)) = 0 →
      xport_listen_loop env max_display fuel i ts =
        { tunnel := { ts.tunnel with remotedisplay := i + k },
          trace := ts.trace ++ listen_events ts.tunnel.bindlocalhost i (k + 1) } := by
  intro k
  induction k with
  | zero =>
    intro fuel i ts hfuel hle _ hok
    obtain ⟨f, rfl⟩ : ∃ f, fuel = f + 1 := ⟨fuel - 1, by omega⟩
    have hle1 : i ≤ max_display := by simpa using hle
    have hok1 : env.ssh_channel_listen_forward ts.trace ts.tunnel.bindlocalhost (6000 + i)
        = 0 := by
      simpa [listen_events] using hok
    simp [xport_listen_loop, hle1, hok1, TSt.emit, listen_events]
  | succ k ih =>
    intro fuel i ts hfuel hle hfail hok
    obtain ⟨f, rfl⟩ : ∃ f, fuel = f + 1 := ⟨fuel - 1, by omega⟩
    have hle1 : i ≤ max_display := by push_cast at hle; omega
    have h0 : env.ssh_channel_listen_forward ts.trace ts.tunnel.bindlocalhost (6000 + i)
        ≠ 0 := by
      have := hfail 0 (by omega)
      simpa [listen_events] using this
    have hrec := ih f (i + 1)
      (ts.emit (Event.ssh_channel_listen_forward ts.tunnel.bindlocalhost (6000 + i)))
      (by omega) (by push_cast at hle; omega)
      (by
        intro j hj
        have := hfail (j + 1) (by omega)
        have e : (6000 : Int) + (i + ((j + 1 : Nat) : Int)) = 6000 + (i + 1 + j) := by
          push_cast; ring
        rw [e] at this
        simpa [TSt.emit, listen_events] using this)
      (by
        have e : (6000 : Int) + (i + ((k + 1 : Nat) : Int)) = 6000 + (i + 1 + k) := by
          push_cast; ring
        rw [e] at hok
        simpa [TSt.emit, listen_events] using hok)
    have e2 : i + 1 + (k : Int) = i + ((k + 1 : Nat) : Int) := by push_cast; ring
    rw [xport_listen_loop]
    simp only [if_pos hle1, ne_eq, h0, not_false_eq_true, if_true]
    rw [hrec]
    simp [TSt.emit, listen_events, e2]

/-- When every listen request of the range fails the scan makes all of them and leaves
the tunnel as it was. -/
theorem xport_listen_loop_exhausted (env : Env) (max_display : Int) :
    ∀ (fuel : Nat) (i : Int) (ts : TSt), (max_display - i + 1).toNat ≤ fuel →
      (∀ j : Nat, i + j ≤ max_display →
        env.ssh_channel_listen_forward
          (ts.trace ++ listen_events ts.tunnel.bindlocalhost i j)
          ts.tunnel.bindlocalhost (6000 + (i + j)) ≠ 0) →
      xport_listen_loop env max_display fuel i ts =
        { tunnel := ts.tunnel,
          trace := ts.trace ++
            listen_events ts.tunnel.bindlocalhost i (max_display - i + 1).toNat } := by
  intro fuel
  induction fuel with
  | zero =>
    intro i ts hfuel _
    have h0 : (max_display - i + 1).toNat = 0 := by omega
    simp [xport_listen_loop, h0, listen_events]
  | succ f ih =>
    intro i ts hfuel hfail
    by_cases hle : i ≤ max_display
    · have h0 : env.ssh_channel_listen_forward ts.trace ts.tunnel.bindlocalhost (6000 + i)
          ≠ 0 := by
        have := hfail 0 (by simpa using hle)
        simpa [listen_events] using this
      have hrec := ih (i + 1)
        (ts.emit (Event.ssh_channel_listen_forward ts.tunnel.bindlocalhost (6000 + i)))
        (by omega)
        (by
          intro j hj
          have := hfail (j + 1) (by push_cast; omega)
          have e : (6000 : Int) + (i + ((j + 1 : Nat) : Int)) = 6000 + (i + 1 + j) := by
            push_cast; ring
          rw [e] at this
          simpa [TSt.emit, listen_events] using this)
      have hn : (max_display - i + 1).toNat = (max_display - (i + 1) + 1).toNat + 1 := by
        omega
      rw [xport_listen_loop]
      simp only [if_pos hle, ne_eq, h0, not_false_eq_true, if_true]
      rw [hrec, hn]
      simp [TSt.emit, listen_events]
    · have h0 : (max_display - i + 1).toNat = 0 := by omega
      simp [xport_listen_loop, hle, h0, listen_events]

/-- C7: dynamic-remote-forward setup on a fresh tunnel (`remotedisplay = 0`), for every
behaviour of the remote listen requests on the ports `6000 + i`, `10 ≤ i ≤
MAX_X_DISPLAY_NUMBER`.

* If display `10 + k` is the least one of the range whose request succeeds, the requests
  made are exactly those for the displays `10, ..., 10 + k` in increasing order,
  `remotedisplay` becomes `10 + k`, and the ready callback (when set) is the next call
  and sees the tunnel with that value.
* If no request of the range succeeds, all of them are made, the setup fails (the
  worker returns), the last-error is the port-forwarding template with the transport
  error text, the only further call is the teardown callback (when set), the ready
  callback is not called, and `thread` is 0. -/
theorem xport_setup_selects_first_free_display (env : Env) (max_display : Int) (ts : TSt)
    (hfresh : ts.tunnel.remotedisplay = 0) :
    (∀ k : Nat, 10 + (k : Int) ≤ max_display →
      (∀ j : Nat, j < k →
        env.ssh_channel_listen_forward
          (ts.trace ++ listen_events ts.tunnel.bindlocalhost 10 j)
          ts.tunnel.bindlocalhost (6000 + (10 + j)) ≠ 0) →
      env.ssh_channel_listen_forward
        (ts.trace ++ listen_events ts.tunnel.bindlocalhost 10 k)
        ts.tunnel.bindlocalhost (6000 + (10 + k)) = 0 →
      (remmina_ssh_tunnel_setup_xport env max_display ts).2.tunnel.remotedisplay = 10 + k ∧
      remmina_ssh_tunnel_setup_xport env max_display ts =
        call_init_func env
          { tunnel := { ts.tunnel with remotedisplay := 10 + k },
            trace := ts.trace ++ listen_events ts.tunnel.bindlocalhost 10 (k + 1) } ∧
      (remmina_ssh_tunnel_setup_xport env max_display ts).2.trace =
        ts.trace ++ listen_events ts.tunnel.bindlocalhost 10 (k + 1) ++
          (if ts.tunnel.init_func then
            Event.init_func { ts.tunnel with remotedisplay := 10 + k } ::
              (if env.init_func
                  (ts.trace ++ listen_events ts.tunnel.bindlocalhost 10 (k + 1))
                  { ts.tunnel with remotedisplay := 10 + k } then []
               else if ts.tunnel.disconnect_func then
                 [Event.disconnect_func { ts.tunnel with remotedisplay := 10 + k }]
               else [])
           else [])) ∧
    ((∀ j : Nat, 10 + (j : Int) ≤ max_display →
        env.ssh_channel_listen_forward
          (ts.trace ++ listen_events ts.tunnel.bindlocalhost 10 j)
          ts.tunnel.bindlocalhost (6000 + (10 + j)) ≠ 0) →
      (remmina_ssh_tunnel_setup_xport env max_display ts).1 = false ∧
      (remmina_ssh_tunnel_setup_xport env max_display ts).2.tunnel.thread = 0 ∧
      (remmina_ssh_tunnel_setup_xport env max_display ts).2.tunnel.ssh.error =
        some ⟨"Failed to request port forwarding: %s",
          [env.ssh_get_error (ts.trace ++
            listen_events ts.tunnel.bindlocalhost 10 (max_display - 10 + 1).toNat)]⟩ ∧
      (remmina_ssh_tunnel_setup_xport env max_display ts).2.trace =
        ts.trace ++ listen_events ts.tunnel.bindlocalhost 10 (max_display - 10 + 1).toNat ++
          (if ts.tunnel.disconnect_func then
            [Event.disconnect_func
              { ts.tunnel with
                ssh := { ts.tunnel.ssh with
                  error := some ⟨"Failed to request port forwarding: %s",
                    [env.ssh_get_error (ts.trace ++
                      listen_events ts.tunnel.bindlocalhost 10
                        (max_display - 10 + 1).toNat)]⟩ } }]
           else [])) := by
  constructor
  · intro k hk hfail hok
    have hloop := xport_listen_loop_found env max_display k (max_display - 10 + 1).toNat 10 ts
      (by omega) hk hfail hok
    have hsetup : remmina_ssh_tunnel_setup_xport env max_display ts =
        call_init_func env
          { tunnel := { ts.tunnel with remotedisplay := 10 + k },
            trace := ts.trace ++ listen_events ts.tunnel.bindlocalhost 10 (k + 1) } := by
      unfold remmina_ssh_tunnel_setup_xport
      simp only [hloop]
      have hge : ¬ (10 + (k : Int) < 1) := by omega
      simp only [if_neg hge]
    refine ⟨?_, hsetup, ?_⟩
    · rw [hsetup]
      unfold call_init_func call_disconnect_func
      simp only [TSt.emit]
      split_ifs <;> rfl
    · rw [hsetup]
      unfold call_init_func call_disconnect_func
      simp only [TSt.emit]
      split_ifs <;> simp
  · intro hfail
    have hloop := xport_listen_loop_exhausted env max_display (max_display - 10 + 1).toNat 10 ts
      (le_refl _) hfail
    unfold remmina_ssh_tunnel_setup_xport
    simp only [hloop, hfresh]
    simp only [show ((0 : Int) < 1) from by decide, if_true, call_disconnect_func,
      remmina_ssh_tunnel_set_error, TSt.emit]
    split_ifs <;> simp [hfresh]

/-- Witness of C7: with the ports 6010 and 6011 taken and 6012 free the setup selects
display 12; with every port of the range 10..12 refused it fails. -/
theorem xport_setup_selects_first_free_display_witness :
    (remmina_ssh_tunnel_setup_xport env_two_ports_taken 99 fresh_xport_tunnel).2.tunnel.remotedisplay
      = 10 + ((2 : Nat) : Int) ∧
    (remmina_ssh_tunnel_setup_xport env_refusing 12 fresh_xport_tunnel).1 = false :=
  ⟨((xport_setup_selects_first_free_display env_two_ports_taken 99 fresh_xport_tunnel rfl).1 2
      (by decide)
      (by
        intro j hj
        interval_cases j <;> simp [env_two_ports_taken, fresh_xport_tunnel])
      (by simp [env_two_ports_taken, fresh_xport_tunnel])).1,
   ((xport_setup_selects_first_free_display env_refusing 12 fresh_xport_tunnel rfl).2
      (by
        intro j _
        simp [env_refusing])).1⟩

theorem getD_set_ne {α : Type} (l : List α) (i j : Nat) (a d : α) (h : i ≠ j) :
    (l.set i a).getD j d = l.getD j d := by
  simp [List.getElem?_set_ne h]

theorem getD_set_self {α : Type} (l : List α) (i : Nat) (a d : α) (h : i < l.length) :
    (l.set i a).getD i d = a := by
  simp [List.getElem?_set, h]

theorem eraseIdx_map {α β : Type} (f : α → β) (l : List α) (n : Nat) :
    (l.map f).eraseIdx n = (l.eraseIdx n).map f := by
  induction l generalizing n with
  | nil => rfl
  | cons x xs ih =>
    cases n with
    | zero => rfl
    | succ m => simp [List.eraseIdx, ih]

/-- The indices left by a swap-remove at `n` among `k` entries are the indices other
than `n`. -/
theorem swap_remove_indices_perm (k n : Nat) (hn : n < k) :
    ((List.range (k - 1)).map (fun i => if i = n then k - 1 else i)).Perm
      ((List.range k).eraseIdx n) := by
  apply (List.perm_ext_iff_of_nodup ?_ ?_).2
  · intro a
    simp only [List.mem_map, List.mem_range, List.mem_eraseIdx_iff_getElem?,
      List.getElem?_range]
    constructor
    · rintro ⟨i, hi, rfl⟩
      by_cases h : i = n
      · refine ⟨k - 1, by omega, ?_⟩
        rw [if_pos h, List.getElem?_range (by omega)]
      · refine ⟨i, h, ?_⟩
        rw [if_neg h, List.getElem?_range (by omega)]
    · rintro ⟨i, hne, hi⟩
      have hlt : i < k := by
        by_contra hcon
        have hnone : (List.range k)[i]? = none := by
          apply List.getElem?_eq_none
          simp only [List.length_range]
          omega
        rw [hnone] at hi
        cases hi
      have hia : i = a := by
        rw [List.getElem?_range hlt] at hi
        exact Option.some.inj hi
      subst hia
      by_cases hlast : i = k - 1
      · refine ⟨n, by omega, ?_⟩
        rw [if_pos rfl]
        exact hlast.symm
      · refine ⟨i, by omega, ?_⟩
        rw [if_neg hne]
  · apply List.Nodup.map_on _ (List.nodup_range _)
    intro x hx y hy hxy
    simp only [List.mem_range] at hx hy
    by_cases h1 : x = n <;> by_cases h2 : y = n <;> simp [h1, h2] at hxy <;> omega
  · exact List.Nodup.eraseIdx _ (List.nodup_range _)

/-- C8: `remmina_ssh_tunnel_remove_channel` is a swap-remove on the index-aligned pairs.
For a tunnel with `k ≥ 1` live pairs held in the three arrays and an index `n < k`:
the live count becomes `k - 1`; the triple at `n` is the one formerly at `k - 1` (when
`n < k - 1`); the triple at every other index below `k - 1` is unchanged; and the live
pairs afterwards are, up to order, the original live pairs without the one at `n`.
The calls made close, end and free the channel at `n`, close its socket and free its
buffer. -/
theorem remove_channel_swap_remove (ts : TSt) (k n : Nat)
    (hk : ts.tunnel.num_channels = (k : Int)) (hn : n < k)
    (hch : k ≤ ts.tunnel.channels.length) (hso : k ≤ ts.tunnel.sockets.length)
    (hbu : k ≤ ts.tunnel.socketbuffers.length) :
    (remmina_ssh_tunnel_remove_channel ts n).tunnel.num_channels = (k : Int) - 1 ∧
    (n < k - 1 →
      pair_at (remmina_ssh_tunnel_remove_channel ts n).tunnel n = pair_at ts.tunnel (k - 1)) ∧
    (∀ i, i < k - 1 → i ≠ n →
      pair_at (remmina_ssh_tunnel_remove_channel ts n).tunnel i = pair_at ts.tunnel i) ∧
    (live_pairs (remmina_ssh_tunnel_remove_channel ts n).tunnel).Perm
      ((live_pairs ts.tunnel).eraseIdx n) ∧
    (remmina_ssh_tunnel_remove_channel ts n).trace =
      ts.trace ++
        [Event.ssh_channel_close (pair_at ts.tunnel n).1,
         Event.ssh_channel_send_eof (pair_at ts.tunnel n).1,
         Event.ssh_channel_free (pair_at ts.tunnel n).1,
         Event.close (pair_at ts.tunnel n).2.1,
         Event.remmina_ssh_tunnel_buffer_free (pair_at ts.tunnel n).2.2] := by
  have hlast : (ts.tunnel.num_channels - 1).toNat = k - 1 := by omega
  have hat_n : n < k - 1 →
      pair_at (remmina_ssh_tunnel_remove_channel ts n).tunnel n
        = pair_at ts.tunnel (k - 1) := by
    intro hlt
    have hne : n ≠ k - 1 := by omega
    simp only [pair_at, remmina_ssh_tunnel_remove_channel, TSt.emit, hlast]
    rw [getD_set_ne _ _ _ _ _ (Ne.symm hne), getD_set_self _ _ _ _ (by omega),
      getD_set_self _ _ _ _ (by omega), getD_set_self _ _ _ _ (by omega)]
  have hat_other : ∀ i, i < k - 1 → i ≠ n →
      pair_at (remmina_ssh_tunnel_remove_channel ts n).tunnel i = pair_at ts.tunnel i := by
    intro i hi hin
    have hne : k - 1 ≠ i := by omega
    simp only [pair_at, remmina_ssh_tunnel_remove_channel, TSt.emit, hlast]
    rw [getD_set_ne _ _ _ _ _ hne, getD_set_ne _ _ _ _ _ (Ne.symm hin),
      getD_set_ne _ _ _ _ _ (Ne.symm hin), getD_set_ne _ _ _ _ _ (Ne.symm hin)]
  refine ⟨?_, hat_n, hat_other, ?_, ?_⟩
  · simp [remmina_ssh_tunnel_remove_channel, TSt.emit, hk]
  · have hnum : (remmina_ssh_tunnel_remove_channel ts n).tunnel.num_channels.toNat = k - 1 := by
      simp only [remmina_ssh_tunnel_remove_channel, TSt.emit]
      exact hlast
    have hk' : ts.tunnel.num_channels.toNat = k := by omega
    have hlive : live_pairs (remmina_ssh_tunnel_remove_channel ts n).tunnel
        = ((List.range (k - 1)).map (fun i => if i = n then k - 1 else i)).map
            (pair_at ts.tunnel) := by
      unfold live_pairs
      rw [hnum, List.map_map]
      apply List.map_congr_left
      intro i hi
      simp only [List.mem_range] at hi
      by_cases h : i = n
      · subst h
        simp only [Function.comp, if_true]
        exact hat_n hi
      · simp only [Function.comp, if_neg h]
        exact hat_other i hi h
    rw [hlive]
    unfold live_pairs
    rw [hk', eraseIdx_map]
    exact (swap_remove_indices_perm k n hn).map _
  · simp [remmina_ssh_tunnel_remove_channel, TSt.emit, pair_at]

/-- Witness of C8: removing the first of three live pairs. -/
theorem remove_channel_swap_remove_witness :
    (remmina_ssh_tunnel_remove_channel three_pair_tunnel 0).tunnel.num_channels
      = ((3 : Nat) : Int) - 1 ∧
    pair_at (remmina_ssh_tunnel_remove_channel three_pair_tunnel 0).tunnel 0
      = pair_at three_pair_tunnel.tunnel (3 - 1) :=
  ⟨(remove_channel_swap_remove three_pair_tunnel 3 0 rfl (by decide) (by decide) (by decide)
      (by decide)).1,
   (remove_channel_swap_remove three_pair_tunnel 3 0 rfl (by decide) (by decide) (by decide)
      (by decide)).2.1 (by decide)⟩

/-! ### Channel to socket: the pending buffer -/

theorem socket_writes_append (fd : Int) (l1 l2 : List Event) :
    socket_writes fd (l1 ++ l2) = socket_writes fd l1 ++ socket_writes fd l2 := by
  simp [socket_writes, List.filterMap_append]

theorem channel_writes_append (c : Option Channel) (l1 l2 : List Event) :
    channel_writes c (l1 ++ l2) = channel_writes c l1 ++ channel_writes c l2 := by
  simp [channel_writes, List.filterMap_append]

theorem taken_append (w1 w2 : List (List Byte × Int)) :
    taken (w1 ++ w2) = taken w1 ++ taken w2 := by
  simp [taken]

theorem advance_append (w1 w2 : List (List Byte × Int)) :
    advance (w1 ++ w2) = advance w1 + advance w2 := by
  simp [advance]

theorem resumes_append (bytes : List Byte) (w1 w2 : List (List Byte × Int)) (pos : Nat) :
    resumes bytes pos (w1 ++ w2) ↔
      resumes bytes pos w1 ∧ resumes bytes (pos + advance w1) w2 := by
  induction w1 generalizing pos with
  | nil => simp [resumes, advance]
  | cons w ws ih =>
    have h := ih (pos + w.2.toNat)
    have e : pos + advance (w :: ws) = pos + w.2.toNat + advance ws := by
      simp [advance, Nat.add_assoc]
    show (w.1 = bytes.drop pos ∧ resumes bytes (pos + w.2.toNat) (ws ++ w2)) ↔
      (w.1 = bytes.drop pos ∧ resumes bytes (pos + w.2.toNat) ws) ∧
        resumes bytes (pos + advance (w :: ws)) w2
    rw [h, e, and_assoc]

/-- One run of the write loop on a consistent buffer, every `write` either taking a
positive number of the offered bytes or reporting would-block. -/
theorem socketbuffer_write_loop_spec (env : Env) (sock : Int) (B : List Byte)
    (hw : ∀ h d, (0 < (env.write h sock d).1 ∧ (env.write h sock d).1 ≤ d.length) ∨
      ((env.write h sock d).1 = -1 ∧ (env.write h sock d).2 = EAGAIN)) :
    ∀ (fuel : Nat) (b : RemminaSSHTunnelBuffer) (tr : List Event),
      b.data = B → 0 ≤ b.len → b.ptr + b.len.toNat = B.length → b.len.toNat ≤ fuel →
      ∃ b1 l, socketbuffer_write_loop env true sock fuel b tr = (b1, false, tr ++ l) ∧
        b1.data = B ∧ 0 ≤ b1.len ∧ b1.ptr + b1.len.toNat = B.length ∧
        b1.ptr = b.ptr + advance (socket_writes sock l) ∧
        taken (socket_writes sock l) = (B.drop b.ptr).take (advance (socket_writes sock l)) ∧
        resumes B b.ptr (socket_writes sock l) := by
  intro fuel
  induction fuel with
  | zero =>
    intro b tr hd h0 hinv hfuel
    exact ⟨b, [], by simp [socketbuffer_write_loop], hd, h0, hinv,
      by simp [socket_writes, advance], by simp [socket_writes, advance, taken],
      by simp [socket_writes, resumes]⟩
  | succ f ih =>
    intro b tr hd h0 hinv hfuel
    by_cases hpos : b.len > 0
    · have hpend : b.pending = B.drop b.ptr := by
        unfold RemminaSSHTunnelBuffer.pending
        rw [hd]
        apply List.take_of_length_le
        simp only [List.length_drop]
        omega
      have hplen : b.pending.length = b.len.toNat := by
        rw [hpend, List.length_drop]
        omega
      rcases hw tr b.pending with ⟨hr0, hr1⟩ | ⟨hr0, hr1⟩
      · -- a positive count
        have hnb : ¬ ((env.write tr sock b.pending).1 = -1 ∧
            (env.write tr sock b.pending).2 = EAGAIN ∧ true = true) := by
          intro h
          omega
        have hnle : ¬ (env.write tr sock b.pending).1 ≤ 0 := by omega
        obtain ⟨b1, l, hrun, hd1, h01, hinv1, hptr1, htaken1, hres1⟩ :=
          ih { b with len := b.len - (env.write tr sock b.pending).1,
                      ptr := b.ptr + (env.write tr sock b.pending).1.toNat }
            (tr ++ [Event.write sock b.pending (env.write tr sock b.pending).1])
            hd (by simp only; omega) (by simp only; omega) (by simp only; omega)
        refine ⟨b1, Event.write sock b.pending (env.write tr sock b.pending).1 :: l,
          ?_, hd1, h01, hinv1, ?_, ?_, ?_⟩
        · rw [socketbuffer_write_loop]
          simp only [if_pos hpos]
          split_ifs with h1
          · exact absurd h1.1 (by omega)
          · rw [hrun]
            simp
        · simp only at hptr1
          rw [hptr1]
          simp [socket_writes, advance, Nat.add_assoc]
        · simp only at htaken1
          have hsw : socket_writes sock
              (Event.write sock b.pending (env.write tr sock b.pending).1 :: l)
              = (b.pending, (env.write tr sock b.pending).1) :: socket_writes sock l := by
            simp [socket_writes]
          rw [hsw]
          simp only [taken, List.map_cons, List.flatten_cons, advance, List.sum_cons]
          simp only [taken, advance] at htaken1
          rw [htaken1, hpend, List.take_add, List.drop_drop]
        · have hsw : socket_writes sock
              (Event.write sock b.pending (env.write tr sock b.pending).1 :: l)
              = (b.pending, (env.write tr sock b.pending).1) :: socket_writes sock l := by
            simp [socket_writes]
          rw [hsw]
          exact ⟨hpend, hres1⟩
      · -- would-block
        refine ⟨b, [Event.write sock b.pending (env.write tr sock b.pending).1],
          ?_, hd, h0, hinv, ?_, ?_, ?_⟩
        · rw [socketbuffer_write_loop]
          simp [hpos, hr0, hr1]
        · simp [socket_writes, advance, hr0]
        · simp [socket_writes, advance, taken, hr0]
        · simp [socket_writes, resumes, hpend]
    · exact ⟨b, [], by rw [socketbuffer_write_loop]; simp [hpos], hd, h0, hinv,
        by simp [socket_writes, advance], by simp [socket_writes, advance, taken],
        by simp [socket_writes, resumes]⟩

/-- One relay iteration for a pair whose buffer is pending and consistent. -/
theorem socketbuffer_flush_spec (env : Env) (sock : Int) (B : List Byte)
    (hw : ∀ h d, (0 < (env.write h sock d).1 ∧ (env.write h sock d).1 ≤ d.length) ∨
      ((env.write h sock d).1 = -1 ∧ (env.write h sock d).2 = EAGAIN))
    (b : RemminaSSHTunnelBuffer) (tr : List Event)
    (hd : b.data = B) (h0 : 0 < b.len) (hinv : b.ptr + b.len.toNat = B.length) :
    ∃ ob1 l, socketbuffer_flush env true sock b tr = (ob1, false, tr ++ l) ∧
      taken (socket_writes sock l) = (B.drop b.ptr).take (advance (socket_writes sock l)) ∧
      resumes B b.ptr (socket_writes sock l) ∧
      (match ob1 with
        | some b1 => b1.data = B ∧ 0 < b1.len ∧ b1.ptr + b1.len.toNat = B.length ∧
            b1.ptr = b.ptr + advance (socket_writes sock l)
        | none => b.ptr + advance (socket_writes sock l) = B.length) := by
  obtain ⟨b1, l, hrun, hd1, h01, hinv1, hptr1, htaken1, hres1⟩ :=
    socketbuffer_write_loop_spec env sock B hw b.len.toNat b tr hd (le_of_lt h0) hinv (le_refl _)
  unfold socketbuffer_flush
  rw [hrun]
  simp only
  by_cases hz : b1.len ≤ 0
  · refine ⟨none, l ++ [Event.remmina_ssh_tunnel_buffer_free (some b1)], ?_, ?_, ?_, ?_⟩
    · simp [hz]
    · simpa [socket_writes_append, socket_writes] using htaken1
    · simpa [socket_writes_append, socket_writes] using hres1
    · have : advance (socket_writes sock
          (l ++ [Event.remmina_ssh_tunnel_buffer_free (some b1)]))
          = advance (socket_writes sock l) := by
        simp [socket_writes_append, socket_writes]
      simp only [this]
      omega
  · refine ⟨some b1, l, ?_, htaken1, hres1, ?_⟩
    · simp [hz]
    · exact ⟨hd1, by omega, hinv1, hptr1⟩

/-! ### Socket to channel: one chunk -/

/-- The write loop over the rest of a chunk: `N` bytes were read into `buffer`, `ptr`
of them are written and `len` remain. -/
theorem channel_write_loop_spec (env : Env) (channel : Option Channel) (buffer : List Byte)
    (N : Nat) (hN : N ≤ buffer.length)
    (hc : ∀ h d, d ≠ [] → 0 < env.ssh_channel_write h channel d ∧
      env.ssh_channel_write h channel d ≤ d.length) :
    ∀ (fuel ptr : Nat) (len : Int) (tr : List Event),
      0 ≤ len → ptr + len.toNat = N → len.toNat ≤ fuel →
      ∃ l, channel_write_loop env channel buffer fuel ptr len tr = (0, false, tr ++ l) ∧
        resumes (buffer.take N) ptr (channel_writes channel l) ∧
        taken (channel_writes channel l) = (buffer.take N).drop ptr ∧
        (∀ w ∈ channel_writes channel l, 0 < w.2 ∧ w.2 ≤ w.1.length) ∧
        ((channel_writes channel l).map fun w => w.2).sum = len := by
  intro fuel
  induction fuel with
  | zero =>
    intro ptr len tr h0 hinv hfuel
    have hl : len = 0 := by omega
    subst hl
    refine ⟨[], by simp [channel_write_loop], by simp [channel_writes, resumes], ?_,
      by simp [channel_writes], by simp [channel_writes]⟩
    have : ptr = N := by simpa using hinv
    subst this
    simp [channel_writes, taken, List.length_take, hN]
  | succ f ih =>
    intro ptr len tr h0 hinv hfuel
    by_cases hpos : len > 0
    · have hoff : (buffer.drop ptr).take len.toNat = (buffer.take N).drop ptr := by
        rw [List.drop_take]
        congr 1
        omega
      have hlen : ((buffer.drop ptr).take len.toNat).length = len.toNat := by
        rw [List.length_take, List.length_drop]
        omega
      have hne : (buffer.drop ptr).take len.toNat ≠ [] := by
        intro h
        rw [h] at hlen
        simp at hlen
        omega
      obtain ⟨hr0, hr1⟩ := hc tr _ hne
      rw [hlen] at hr1
      obtain ⟨l, hrun, hres, htaken, hall, hsum⟩ :=
        ih (ptr + (env.ssh_channel_write tr channel
              ((buffer.drop ptr).take len.toNat)).toNat)
          (len - env.ssh_channel_write tr channel ((buffer.drop ptr).take len.toNat))
          (tr ++ [Event.ssh_channel_write channel ((buffer.drop ptr).take len.toNat)
            (env.ssh_channel_write tr channel ((buffer.drop ptr).take len.toNat))])
          (by omega) (by omega) (by omega)
      have hcw : channel_writes channel
          (Event.ssh_channel_write channel ((buffer.drop ptr).take len.toNat)
            (env.ssh_channel_write tr channel ((buffer.drop ptr).take len.toNat)) :: l)
          = ((buffer.drop ptr).take len.toNat,
              env.ssh_channel_write tr channel ((buffer.drop ptr).take len.toNat))
            :: channel_writes channel l := by
        simp [channel_writes]
      refine ⟨Event.ssh_channel_write channel ((buffer.drop ptr).take len.toNat)
          (env.ssh_channel_write tr channel ((buffer.drop ptr).take len.toNat)) :: l,
        ?_, ?_, ?_, ?_, ?_⟩
      · rw [channel_write_loop]
        have hnle : ¬ env.ssh_channel_write tr channel
            ((buffer.drop ptr).take len.toNat) ≤ 0 := by omega
        simp only [if_pos hpos, if_neg hnle]
        rw [hrun]
        simp
      · rw [hcw]
        exact ⟨hoff, hres⟩
      · rw [hcw]
        simp only [taken, List.map_cons, List.flatten_cons]
        simp only [taken] at htaken
        rw [htaken, hoff, ← List.drop_drop, List.take_append_drop]
      · rw [hcw]
        intro w hw
        rcases List.mem_cons.mp hw with h | h
        · subst h
          simp only [hlen]
          exact ⟨hr0, hr1⟩
        · exact hall w h
      · rw [hcw]
        simp only [List.map_cons, List.sum_cons, hsum]
        omega
    · have hl : len = 0 := by omega
      subst hl
      refine ⟨[], by rw [channel_write_loop]; simp, by simp [channel_writes, resumes], ?_,
        by simp [channel_writes], by simp [channel_writes]⟩
      have : ptr = N := by simpa using hinv
      subst this
      simp [channel_writes, taken, List.length_take, hN]

/-- C10: socket-to-channel byte fidelity.  A chunk of `len > 0` bytes was read from the
local socket into `tunnel->buffer`; every `ssh_channel_write` returns a positive
count not above the length it was offered.  Then the write loop ends with nothing left
and the pair not flagged disconnected; each write carries the chunk from where the
previous one stopped (`resumes`: contiguous slices, in order, without overlap); every
count is positive and at most what was offered; the counts sum to `len`; and the
channel has taken exactly the chunk, each byte once, in order. -/
theorem forward_chunk_fidelity (env : Env) (channel : Option Channel) (buffer : List Byte)
    (len : Int) (tr : List Event)
    (hlen : 0 < len) (hfit : len ≤ buffer.length)
    (hc : ∀ h d, d ≠ [] → 0 < env.ssh_channel_write h channel d ∧
      env.ssh_channel_write h channel d ≤ d.length) :
    ∃ l, forward_chunk env channel buffer len tr = (0, false, tr ++ l) ∧
      resumes (buffer.take len.toNat) 0 (channel_writes channel l) ∧
      (∀ w ∈ channel_writes channel l, 0 < w.2 ∧ w.2 ≤ w.1.length) ∧
      ((channel_writes channel l).map fun w => w.2).sum = len ∧
      channel_received channel l = buffer.take len.toNat := by
  obtain ⟨l, hrun, hres, htaken, hall, hsum⟩ :=
    channel_write_loop_spec env channel buffer len.toNat (by omega) hc len.toNat 0 len tr
      (le_of_lt hlen) (by omega) (le_refl _)
  refine ⟨l, hrun, hres, hall, hsum, ?_⟩
  unfold channel_received
  rw [htaken, List.drop_zero]

/-- Witness of C10: a chunk of three bytes, in a larger buffer, to a channel that takes
one byte per write. -/
theorem forward_chunk_fidelity_witness :
    ∃ l, forward_chunk env_one_byte (some 7) [104, 105, 33, 0, 0] 3 [] = (0, false, [] ++ l) ∧
      resumes (([104, 105, 33, 0, 0] : List Byte).take (3 : Int).toNat) 0
        (channel_writes (some 7) l) ∧
      (∀ w ∈ channel_writes (some 7) l, 0 < w.2 ∧ w.2 ≤ w.1.length) ∧
      ((channel_writes (some 7) l).map fun w => w.2).sum = 3 ∧
      channel_received (some 7) l = ([104, 105, 33, 0, 0] : List Byte).take (3 : Int).toNat :=
  forward_chunk_fidelity env_one_byte (some 7) [104, 105, 33, 0, 0] 3 [] (by decide)
    (by decide)
    (by
      intro h d hd
      cases d with
      | nil => exact absurd rfl hd
      | cons x xs =>
        refine ⟨?_, ?_⟩
        · show (0 : Int) < 1
          decide
        · show (1 : Int) ≤ ((xs.length + 1 : Nat) : Int)
          omega)

/-! ## Theorems: session set-up, connection and text conversion -/

/-- C15: for every session and every present input, `remmina_ssh_convert` and
`remmina_ssh_unconvert` return the input when the session has no character set or the
conversion fails, and the conversion result otherwise; the result is never absent. -/
theorem convert_falls_back_to_input (env : Env) (ssh : RemminaSSH) (bytes : List Byte) :
    (ssh.charset = none →
      remmina_ssh_convert env ssh (some bytes) = some bytes ∧
      remmina_ssh_unconvert env ssh (some bytes) = some bytes) ∧
    (∀ charset, ssh.charset = some charset →
      (env.g_convert bytes "UTF-8" charset = none →
        remmina_ssh_convert env ssh (some bytes) = some bytes) ∧
      (env.g_convert bytes charset "UTF-8" = none →
        remmina_ssh_unconvert env ssh (some bytes) = some bytes) ∧
      (∀ t, env.g_convert bytes "UTF-8" charset = some t →
        remmina_ssh_convert env ssh (some bytes) = some t) ∧
      (∀ t, env.g_convert bytes charset "UTF-8" = some t →
        remmina_ssh_unconvert env ssh (some bytes) = some t)) ∧
    remmina_ssh_convert env ssh (some bytes) ≠ none ∧
    remmina_ssh_unconvert env ssh (some bytes) ≠ none := by
  refine ⟨?_, ?_, ?_, ?_⟩
  · intro h
    simp [remmina_ssh_convert, remmina_ssh_unconvert, h]
  · intro charset h
    refine ⟨?_, ?_, ?_, ?_⟩
    · intro hc
      simp [remmina_ssh_convert, h, hc]
    · intro hc
      simp [remmina_ssh_unconvert, h, hc]
    · intro t hc
      simp [remmina_ssh_convert, h, hc]
    · intro t hc
      simp [remmina_ssh_unconvert, h, hc]
  · unfold remmina_ssh_convert
    cases ssh.charset with
    | none => simp
    | some cs => cases h : env.g_convert bytes "UTF-8" cs <;> simp [h]
  · unfold remmina_ssh_unconvert
    cases ssh.charset with
    | none => simp
    | some cs => cases h : env.g_convert bytes cs "UTF-8" <;> simp [h]

theorem addsNone_append (p : Event → Bool) (tr l : List Event) :
    AddsNone p tr (tr ++ l) ↔ ∀ e ∈ l, p e = false := by
  constructor
  · rintro ⟨l1, h, hl⟩
    have : l = l1 := List.append_cancel_left h
    subst this
    exact hl
  · intro h
    exact ⟨l, rfl, h⟩

theorem addsNone_refl (p : Event → Bool) (tr : List Event) : AddsNone p tr tr :=
  ⟨[], by simp, by simp⟩

theorem addsNone_trans {p : Event → Bool} {a b c : List Event} (h1 : AddsNone p a b)
    (h2 : AddsNone p b c) : AddsNone p a c := by
  obtain ⟨l1, rfl, hl1⟩ := h1
  obtain ⟨l2, rfl, hl2⟩ := h2
  refine ⟨l1 ++ l2, by simp, ?_⟩
  intro e he
  rcases List.mem_append.mp he with h | h
  · exact hl1 e h
  · exact hl2 e h

theorem addsNone_more {p : Event → Bool} {a b : List Event} (l : List Event)
    (h1 : AddsNone p a b) (hl : ∀ e ∈ l, p e = false) : AddsNone p a (b ++ l) :=
  addsNone_trans h1 ((addsNone_append p b l).mpr hl)

theorem addsNone_new_events {p : Event → Bool} {a b : List Event} (h : AddsNone p a b) :
    ∀ e ∈ new_events a b, p e = false := by
  obtain ⟨l, rfl, hl⟩ := h
  rw [new_events_append]
  exact hl

theorem init_session_identity_spec (st : St) :
    AddsNone Event.is_auth_primitive st.trace (remmina_ssh_init_session_identity st).trace ∧
    (remmina_ssh_init_session_identity st).ssh = st.ssh := by
  unfold remmina_ssh_init_session_identity
  cases st.ssh.user <;> cases st.ssh.privkeyfile <;>
    simp only [St.emit, List.append_assoc] <;>
    (try split_ifs) <;>
    simp [addsNone_append, Event.is_auth_primitive]

theorem init_session_algorithms_spec (st : St) :
    AddsNone Event.is_auth_primitive st.trace (remmina_ssh_init_session_algorithms st).trace ∧
    (remmina_ssh_init_session_algorithms st).ssh = st.ssh := by
  unfold remmina_ssh_init_session_algorithms
  simp [St.emit, addsNone_append, Event.is_auth_primitive]

theorem init_session_callbacks_spec (env : Env) (st : St) :
    AddsNone Event.is_auth_primitive st.trace
      (remmina_ssh_init_session_callbacks env st).trace ∧
    (remmina_ssh_init_session_callbacks env st).ssh = st.ssh := by
  unfold remmina_ssh_init_session_callbacks
  simp only [St.emit, List.append_assoc]
  split_ifs <;> simp [addsNone_append, Event.is_auth_primitive]

/-- The calls made before `ssh_connect` are not authentication primitives, and the
authenticated flag is untouched. -/
theorem init_session_options_spec (env : Env) (st : St) :
    AddsNone Event.is_auth_primitive st.trace (remmina_ssh_init_session_options env st).trace ∧
    (remmina_ssh_init_session_options env st).ssh.authenticated = st.ssh.authenticated := by
  have h1 := init_session_identity_spec st
  have h2 := init_session_algorithms_spec (remmina_ssh_init_session_identity st)
  have h3 := init_session_callbacks_spec env
    (remmina_ssh_init_session_algorithms (remmina_ssh_init_session_identity st))
  unfold remmina_ssh_init_session_options
  constructor
  · exact addsNone_trans h1.1 (addsNone_trans h2.1 h3.1)
  · simp only [h3.2, h2.2, h1.2]

theorem init_session_keepalive_spec (env : Env) (st : St) :
    AddsNone Event.is_auth_primitive st.trace
      (remmina_ssh_init_session_keepalive env st).trace ∧
    (remmina_ssh_init_session_keepalive env st).ssh = st.ssh := by
  unfold remmina_ssh_init_session_keepalive
  simp only [St.emit, List.append_assoc]
  split_ifs <;> simp [addsNone_append, Event.is_auth_primitive]

/-- C17: `remmina_ssh_init_session` returns FALSE exactly when `ssh_connect` fails (a
non-zero result).  In that case the last-error is the connectivity template with the
error text of the transport, no call of the run is an authentication primitive (the
"none" method included) and the authenticated flag is unchanged.  Otherwise it returns
TRUE, and the authenticated flag is true when the "none" authentication succeeds and
unchanged when it does not. -/
theorem init_session_fails_iff_connect_fails (env : Env) (st : St) :
    ((remmina_ssh_init_session env st).1 = false ↔
      env.ssh_connect (remmina_ssh_init_session_options env st).trace ≠ 0) ∧
    (env.ssh_connect (remmina_ssh_init_session_options env st).trace ≠ 0 →
      (remmina_ssh_init_session env st).2.ssh.error =
        some ⟨"Failed to startup SSH session: %s",
          [env.ssh_get_error
            ((remmina_ssh_init_session_options env st).trace ++ [Event.ssh_connect])]⟩ ∧
      (∀ e ∈ new_events st.trace (remmina_ssh_init_session env st).2.trace,
        Event.is_auth_primitive e = false) ∧
      (remmina_ssh_init_session env st).2.ssh.authenticated = st.ssh.authenticated) ∧
    (env.ssh_connect (remmina_ssh_init_session_options env st).trace = 0 →
      (remmina_ssh_init_session env st).1 = true ∧
      (env.ssh_userauth_none
          (remmina_ssh_init_session_keepalive env
            ((remmina_ssh_init_session_options env st).emit Event.ssh_connect)).trace
          = SSH_AUTH_SUCCESS →
        (remmina_ssh_init_session env st).2.ssh.authenticated = true) ∧
      (env.ssh_userauth_none
          (remmina_ssh_init_session_keepalive env
            ((remmina_ssh_init_session_options env st).emit Event.ssh_connect)).trace
          ≠ SSH_AUTH_SUCCESS →
        (remmina_ssh_init_session env st).2.ssh.authenticated = st.ssh.authenticated)) := by
  have hopt := init_session_options_spec env st
  have hka := init_session_keepalive_spec env
    ((remmina_ssh_init_session_options env st).emit Event.ssh_connect)
  refine ⟨?_, ?_, ?_⟩
  · unfold remmina_ssh_init_session
    simp only
    by_cases hc : env.ssh_connect (remmina_ssh_init_session_options env st).trace = 0
    · simp only [hc, ne_eq, not_true_eq_false, if_false]
      split_ifs <;> simp
    · simp [hc]
  · intro hc
    unfold remmina_ssh_init_session
    simp only [if_pos hc]
    refine ⟨?_, ?_, ?_⟩
    · simp [remmina_ssh_set_error, St.emit]
    · apply addsNone_new_events
      have : (remmina_ssh_set_error env
          ((remmina_ssh_init_session_options env st).emit Event.ssh_connect)
          "Failed to startup SSH session: %s").trace
          = (remmina_ssh_init_session_options env st).trace ++ [Event.ssh_connect] := rfl
      rw [this]
      exact addsNone_more _ hopt.1 (by simp [Event.is_auth_primitive])
    · simp only [remmina_ssh_set_error, St.emit]
      exact hopt.2
  · intro hc
    unfold remmina_ssh_init_session
    have hnc : ¬ env.ssh_connect (remmina_ssh_init_session_options env st).trace ≠ 0 := by
      simp [hc]
    simp only [if_neg hnc]
    refine ⟨?_, ?_, ?_⟩
    · split_ifs <;> rfl
    · intro hs
      simp only [if_pos hs]
    · intro hs
      rw [if_neg hs]
      show (remmina_ssh_init_session_keepalive env
        ((remmina_ssh_init_session_options env st).emit Event.ssh_connect)).ssh.authenticated
          = st.ssh.authenticated
      rw [hka.2]
      exact hopt.2

/-- C18 as stated is false: with a key that imports and authenticates, the result is 0
when a `.pub` file exists and cannot be imported, and 1 when no such file exists. -/
theorem auth_pubkey_bad_pub_counterexample :
    ¬ ∀ (env : Env) (st : St) (keyfile : String),
        st.ssh.privkeyfile = some keyfile →
        env.g_file_test st.trace (pubkey_path keyfile) = true →
        env.ssh_pki_import_pubkey_file
          (st.trace ++ [Event.g_file_test (pubkey_path keyfile)]) (pubkey_path keyfile)
            ≠ SSH_OK →
        (remmina_ssh_auth_pubkey env st).1 =
          (remmina_ssh_auth_pubkey { env with g_file_test := fun _ _ => false } st).1 := by
  intro h
  have h1 := h env_good_key_bad_pub
    (fresh_session AuthMethod.SSH_AUTH_PUBLICKEY (some "/home/u/.ssh/id_rsa"))
    "/home/u/.ssh/id_rsa" rfl rfl (by show (-1 : Int) ≠ 0; decide)
  have h2 : (remmina_ssh_auth_pubkey env_good_key_bad_pub
      (fresh_session AuthMethod.SSH_AUTH_PUBLICKEY (some "/home/u/.ssh/id_rsa"))).1 = 0 := by
    simp [remmina_ssh_auth_pubkey, remmina_ssh_set_error, St.emit, env_good_key_bad_pub,
      env_refusing, fresh_session]
  have h3 : (remmina_ssh_auth_pubkey
      { env_good_key_bad_pub with g_file_test := fun _ _ => false }
      (fresh_session AuthMethod.SSH_AUTH_PUBLICKEY (some "/home/u/.ssh/id_rsa"))).1 = 1 := by
    simp [remmina_ssh_auth_pubkey, remmina_ssh_auth_pubkey_privkey, St.emit,
      env_good_key_bad_pub, env_refusing, fresh_session]
  rw [h2, h3] at h1
  cases h1

/-- C18, amended: for a session not yet authenticated whose private-key path is set, if
the matching `.pub` file exists but cannot be imported, `remmina_ssh_auth_pubkey`
returns 0 with the last-error set from the public-key-import template; its only calls
are the file test and the public-key import, so the private key is not imported and no
authentication is attempted. -/
theorem auth_pubkey_bad_pub_is_fatal (env : Env) (st : St) (keyfile : String)
    (hnot : st.ssh.authenticated = false)
    (hkey : st.ssh.privkeyfile = some keyfile)
    (hexists : env.g_file_test st.trace (pubkey_path keyfile) = true)
    (hbad : env.ssh_pki_import_pubkey_file
      (st.trace ++ [Event.g_file_test (pubkey_path keyfile)]) (pubkey_path keyfile)
        ≠ SSH_OK) :
    (remmina_ssh_auth_pubkey env st).1 = 0 ∧
    (remmina_ssh_auth_pubkey env st).2.ssh.error =
      some ⟨"SSH public key cannot be imported: %s",
        [env.ssh_get_error (st.trace ++ [Event.g_file_test (pubkey_path keyfile),
          Event.ssh_pki_import_pubkey_file (pubkey_path keyfile)])]⟩ ∧
    (remmina_ssh_auth_pubkey env st).2.trace =
      st.trace ++ [Event.g_file_test (pubkey_path keyfile),
        Event.ssh_pki_import_pubkey_file (pubkey_path keyfile)] ∧
    (remmina_ssh_auth_pubkey env st).2.ssh.authenticated = false := by
  simp [remmina_ssh_auth_pubkey, remmina_ssh_set_error, St.emit, hnot, hkey, hexists, hbad]

/-- Witness of C18 amended: a key that would authenticate, next to a `.pub` file that
cannot be imported. -/
theorem auth_pubkey_bad_pub_is_fatal_witness :
    (remmina_ssh_auth_pubkey env_good_key_bad_pub
      (fresh_session AuthMethod.SSH_AUTH_PUBLICKEY (some "/home/u/.ssh/id_rsa"))).1 = 0 :=
  (auth_pubkey_bad_pub_is_fatal env_good_key_bad_pub
    (fresh_session AuthMethod.SSH_AUTH_PUBLICKEY (some "/home/u/.ssh/id_rsa"))
    "/home/u/.ssh/id_rsa" rfl rfl rfl (by show (-1 : Int) ≠ 0; decide)).1

theorem identity_path_trace (env : Env) (st : St) (id : String) :
    ∃ l, (remmina_ssh_identity_path env st id).2.trace = st.trace ++ l := by
  unfold remmina_ssh_identity_path
  split_ifs
  · exact ⟨[], by simp⟩
  · exact ⟨[Event.g_get_home_dir], rfl⟩

theorem find_identity_from_trace (env : Env) (ids : List String) (st : St) :
    ∃ l, (remmina_ssh_find_identity_from env ids st).2.trace = st.trace ++ l := by
  induction ids generalizing st with
  | nil => exact ⟨[], by simp [remmina_ssh_find_identity_from]⟩
  | cons id rest ih =>
    obtain ⟨l1, h1⟩ := identity_path_trace env st id
    unfold remmina_ssh_find_identity_from
    simp only
    split_ifs
    · exact ⟨l1 ++ [Event.g_file_test (remmina_ssh_identity_path env st id).1],
        by simp [St.emit, h1]⟩
    · obtain ⟨l2, h2⟩ := ih ((remmina_ssh_identity_path env st id).2.emit
        (Event.g_file_test (remmina_ssh_identity_path env st id).1))
      exact ⟨l1 ++ [Event.g_file_test (remmina_ssh_identity_path env st id).1] ++ l2,
        by rw [h2]; simp [St.emit, h1]⟩

theorem init_from_file_privkey_trace (env : Env) (key : Option String) (st : St) :
    ∃ l, (remmina_ssh_init_from_file_privkey env key st).2.trace = st.trace ++ l := by
  unfold remmina_ssh_init_from_file_privkey
  cases key with
  | some k =>
    simp only
    exact identity_path_trace env st k
  | none =>
    simp only
    obtain ⟨l1, h1⟩ := find_identity_from_trace env common_identities st
    cases hf : (remmina_ssh_find_identity env st).1 with
    | none =>
      simp only
      exact ⟨l1, h1⟩
    | some name =>
      simp only
      obtain ⟨l2, h2⟩ := identity_path_trace env (remmina_ssh_find_identity env st).2 name
      refine ⟨l1 ++ l2, ?_⟩
      rw [h2]
      unfold remmina_ssh_find_identity
      rw [h1, List.append_assoc]

theorem init_from_file_address_spec (env : Env) (ssh_server server : Option String) (st : St) :
    (∃ l, (remmina_ssh_init_from_file_address env ssh_server server st).2.trace
      = st.trace ++ l) ∧
    (ssh_server = none →
      (remmina_ssh_init_from_file_address env ssh_server server st).1.2 = 22) ∧
    (ssh_server = none → server = none →
      (remmina_ssh_init_from_file_address env ssh_server server st).1.1 = some "localhost") := by
  unfold remmina_ssh_init_from_file_address
  cases ssh_server with
  | some s =>
    simp only
    refine ⟨?_, (fun h => nomatch h), (fun h => nomatch h)⟩
    split_ifs
    · exact ⟨[Event.remmina_public_get_server_port (some s) 22,
        Event.remmina_public_get_server_port server 0], by simp [St.emit]⟩
    · exact ⟨[Event.remmina_public_get_server_port (some s) 22], by simp [St.emit]⟩
  | none =>
    cases server with
    | none => exact ⟨⟨[], by simp⟩, fun _ => rfl, fun _ _ => rfl⟩
    | some v =>
      exact ⟨⟨[Event.remmina_public_get_server_port (some v) 0], by simp [St.emit]⟩,
        fun _ => rfl, by intro _ h; cases h⟩

theorem init_from_file_options_trace (env : Env) (st : St) :
    (remmina_ssh_init_from_file_options env st).2.trace =
      st.trace ++ [Event.remmina_file_get_int "ssh_auth",
        Event.remmina_file_get_string "ssh_charset",
        Event.remmina_file_get_string "ssh_kex_algorithms",
        Event.remmina_file_get_string "ssh_ciphers",
        Event.remmina_file_get_string "ssh_hostkeytypes",
        Event.remmina_file_get_string "ssh_proxycommand",
        Event.remmina_file_get_int "ssh_stricthostkeycheck"] ++
        Event.remmina_file_get_int "ssh_compression" :: [] := by
  simp [remmina_ssh_init_from_file_options, St.emit]

theorem init_from_file_options_compression (env : Env) (st : St) :
    (remmina_ssh_init_from_file_options env st).1.2.2.2.2.2.2.2 =
      env.remmina_file_get_int
        (st.trace ++ [Event.remmina_file_get_int "ssh_auth",
          Event.remmina_file_get_string "ssh_charset",
          Event.remmina_file_get_string "ssh_kex_algorithms",
          Event.remmina_file_get_string "ssh_ciphers",
          Event.remmina_file_get_string "ssh_hostkeytypes",
          Event.remmina_file_get_string "ssh_proxycommand",
          Event.remmina_file_get_int "ssh_stricthostkeycheck"]) "ssh_compression" := by
  simp [remmina_ssh_init_from_file_options, St.emit]

theorem init_from_file_user_spec (env : Env) (ssh_username : Option String) (st : St) :
    (∀ u, ssh_username = some u →
      remmina_ssh_init_from_file_user env ssh_username st = (u, st)) ∧
    (ssh_username = none →
      remmina_ssh_init_from_file_user env ssh_username st
        = (env.g_get_user_name st.trace, st.emit Event.g_get_user_name)) := by
  constructor
  · intro u h
    subst h
    rfl
  · intro h
    subst h
    rfl

theorem init_from_file_user_trace (env : Env) (ssh_username : Option String) (st : St) :
    ∃ l, (remmina_ssh_init_from_file_user env ssh_username st).2.trace = st.trace ++ l := by
  cases ssh_username with
  | some u => exact ⟨[], by simp [remmina_ssh_init_from_file_user]⟩
  | none => exact ⟨[Event.g_get_user_name], rfl⟩

/-- C20: `remmina_ssh_init_from_file` never fails.  For every configuration it returns
TRUE with the session handle absent, `authenticated = false` and no last-error; without
`ssh_server` the port is 22, and with neither `ssh_server` nor `server` the host is
"localhost"; the user is the configured `ssh_username`, or else what `g_get_user_name`
answers at the point it is asked; compression is "yes" exactly when the profile
answers 1 for `ssh_compression` at the point it is asked, and "no" otherwise. -/
theorem init_from_file_never_fails (env : Env) (st : St) :
    (remmina_ssh_init_from_file env st).1 = true ∧
    (remmina_ssh_init_from_file env st).2.ssh.session = false ∧
    (remmina_ssh_init_from_file env st).2.ssh.authenticated = false ∧
    (remmina_ssh_init_from_file env st).2.ssh.error = none ∧
    (env.remmina_file_get_string st.trace "ssh_server" = none →
      (remmina_ssh_init_from_file env st).2.ssh.port = 22) ∧
    (env.remmina_file_get_string st.trace "ssh_server" = none →
      env.remmina_file_get_string
        (st.trace ++ [Event.remmina_file_get_string "ssh_server",
          Event.remmina_file_get_string "ssh_username",
          Event.remmina_file_get_string "ssh_privatekey"]) "server" = none →
      (remmina_ssh_init_from_file env st).2.ssh.server = some "localhost") ∧
    (∀ u, env.remmina_file_get_string
        (st.trace ++ [Event.remmina_file_get_string "ssh_server"]) "ssh_username" = some u →
      (remmina_ssh_init_from_file env st).2.ssh.user = some u) ∧
    (env.remmina_file_get_string
        (st.trace ++ [Event.remmina_file_get_string "ssh_server"]) "ssh_username" = none →
      ∃ l rest, (remmina_ssh_init_from_file env st).2.trace
          = st.trace ++ l ++ Event.g_get_user_name :: rest ∧
        (remmina_ssh_init_from_file env st).2.ssh.user
          = some (env.g_get_user_name (st.trace ++ l))) ∧
    (∃ l rest, (remmina_ssh_init_from_file env st).2.trace
        = st.trace ++ l ++ Event.remmina_file_get_int "ssh_compression" :: rest ∧
      ((remmina_ssh_init_from_file env st).2.ssh.compression = some "yes" ↔
        env.remmina_file_get_int (st.trace ++ l) "ssh_compression" = 1) ∧
      ((remmina_ssh_init_from_file env st).2.ssh.compression = some "yes" ∨
        (remmina_ssh_init_from_file env st).2.ssh.compression = some "no")) := by
  have h4 : ((((st.emit (Event.remmina_file_get_string "ssh_server")).emit
      (Event.remmina_file_get_string "ssh_username")).emit
      (Event.remmina_file_get_string "ssh_privatekey")).emit
      (Event.remmina_file_get_string "server")).trace
      = st.trace ++ [Event.remmina_file_get_string "ssh_server",
          Event.remmina_file_get_string "ssh_username",
          Event.remmina_file_get_string "ssh_privatekey",
          Event.remmina_file_get_string "server"] := by
    simp [St.emit]
  have h1 : (st.emit (Event.remmina_file_get_string "ssh_server")).trace
      = st.trace ++ [Event.remmina_file_get_string "ssh_server"] := rfl
  have h3 : (((st.emit (Event.remmina_file_get_string "ssh_server")).emit
      (Event.remmina_file_get_string "ssh_username")).emit
      (Event.remmina_file_get_string "ssh_privatekey")).trace
      = st.trace ++ [Event.remmina_file_get_string "ssh_server",
          Event.remmina_file_get_string "ssh_username",
          Event.remmina_file_get_string "ssh_privatekey"] := by
    simp [St.emit]
  obtain ⟨⟨la, hla⟩, hport, hhost⟩ := init_from_file_address_spec env
    (env.remmina_file_get_string st.trace "ssh_server")
    (env.remmina_file_get_string
      (st.trace ++ [Event.remmina_file_get_string "ssh_server",
        Event.remmina_file_get_string "ssh_username",
        Event.remmina_file_get_string "ssh_privatekey"]) "server")
    ((((st.emit (Event.remmina_file_get_string "ssh_server")).emit
      (Event.remmina_file_get_string "ssh_username")).emit
      (Event.remmina_file_get_string "ssh_privatekey")).emit
      (Event.remmina_file_get_string "server"))
  rw [h4] at hla
  unfold remmina_ssh_init_from_file
  simp only [h1, h3]
  generalize remmina_ssh_init_from_file_address env _ _ _ = A at hla hport hhost ⊢
  generalize env.remmina_file_get_string _ "ssh_privatekey" = pk
  refine ⟨trivial, trivial, trivial, trivial, hport, hhost, ?_, ?_, ?_⟩
  · intro u hu
    rw [(init_from_file_user_spec env _ _).1 u hu]
  · intro hu
    rw [(init_from_file_user_spec env _ A.2).2 hu]
    obtain ⟨lk, hlk⟩ := init_from_file_privkey_trace env pk
      (remmina_ssh_init_from_file_options env (A.2.emit Event.g_get_user_name)).2
    rw [hlk, init_from_file_options_trace]
    refine ⟨[Event.remmina_file_get_string "ssh_server",
        Event.remmina_file_get_string "ssh_username",
        Event.remmina_file_get_string "ssh_privatekey",
        Event.remmina_file_get_string "server"] ++ la,
      [Event.remmina_file_get_int "ssh_auth",
        Event.remmina_file_get_string "ssh_charset",
        Event.remmina_file_get_string "ssh_kex_algorithms",
        Event.remmina_file_get_string "ssh_ciphers",
        Event.remmina_file_get_string "ssh_hostkeytypes",
        Event.remmina_file_get_string "ssh_proxycommand",
        Event.remmina_file_get_int "ssh_stricthostkeycheck",
        Event.remmina_file_get_int "ssh_compression"] ++ lk, ?_, ?_⟩
    · simp [St.emit, hla]
    · simp [hla]
  · obtain ⟨lu, hlu⟩ := init_from_file_user_trace env
      (env.remmina_file_get_string
        (st.trace ++ [Event.remmina_file_get_string "ssh_server"]) "ssh_username") A.2
    generalize remmina_ssh_init_from_file_user env _ A.2 = U at hlu ⊢
    obtain ⟨lk, hlk⟩ := init_from_file_privkey_trace env pk
      (remmina_ssh_init_from_file_options env U.2).2
    rw [hlk, init_from_file_options_trace, init_from_file_options_compression, hlu, hla]
    refine ⟨[Event.remmina_file_get_string "ssh_server",
        Event.remmina_file_get_string "ssh_username",
        Event.remmina_file_get_string "ssh_privatekey",
        Event.remmina_file_get_string "server"] ++ la ++ lu ++
        [Event.remmina_file_get_int "ssh_auth",
          Event.remmina_file_get_string "ssh_charset",
          Event.remmina_file_get_string "ssh_kex_algorithms",
          Event.remmina_file_get_string "ssh_ciphers",
          Event.remmina_file_get_string "ssh_hostkeytypes",
          Event.remmina_file_get_string "ssh_proxycommand",
          Event.remmina_file_get_int "ssh_stricthostkeycheck"], lk, ?_, ?_, ?_⟩
    · simp
    · simp only [List.append_assoc]
      split_ifs with hc
      · exact ⟨fun _ => hc, fun _ => rfl⟩
      · exact ⟨fun h => by simp at h, fun h => absurd h hc⟩
    · split_ifs
      · exact Or.inl rfl
      · exact Or.inr rfl

/-! ## Theorems: interactive shell bridge -/

theorem lock_discipline_append (l1 l2 : List Event) (held : Bool) :
    lock_discipline held (l1 ++ l2) =
      (lock_discipline held l1).bind (fun h1 => lock_discipline h1 l2) := by
  induction l1 generalizing held with
  | nil => simp [lock_discipline]
  | cons e l ih =>
    simp only [List.cons_append, lock_discipline]
    cases Event.lock_role e <;> cases held <;> simp [ih]

theorem lock_discipline_of_other (l : List Event) (held : Bool)
    (h : ∀ e ∈ l, Event.lock_role e = LockRole.other) : lock_discipline held l = some held := by
  induction l with
  | nil => rfl
  | cons e l ih =>
    have he := h e (List.mem_cons_self _ _)
    simp only [lock_discipline, he]
    exact ih (fun x hx => h x (List.mem_cons_of_mem _ hx))

theorem shell_stretch_nil : shell_stretch [] := ⟨rfl, fun _ h => nomatch h⟩

theorem shell_stretch_append (l1 l2 : List Event) (h1 : shell_stretch l1)
    (h2 : shell_stretch l2) : shell_stretch (l1 ++ l2) := by
  refine ⟨?_, ?_⟩
  · rw [lock_discipline_append, h1.1]
    exact h2.1
  · intro e he
    rcases List.mem_append.1 he with h | h
    · exact h1.2 e h
    · exact h2.2 e h

theorem shell_write_loop_trace (env : Env) (slave : Int) (buf : List Byte) (fuel : Nat)
    (len : Int) (tr : List Event) :
    ∃ l, (shell_write_loop env slave buf fuel len tr).2 = tr ++ l ∧
      ∀ e ∈ l, ∃ fd bytes n, e = Event.write fd bytes n := by
  induction fuel generalizing len tr with
  | zero => exact ⟨[], by simp [shell_write_loop]⟩
  | succ f ih =>
    unfold shell_write_loop
    simp only []
    split_ifs with h1 h2
    · exact ⟨[Event.write slave (buf.take len.toNat)
        (env.write tr slave (buf.take len.toNat)).1], rfl,
        fun e he => ⟨_, _, _, List.mem_singleton.1 he⟩⟩
    · obtain ⟨l, hl, hall⟩ := ih (len - (env.write tr slave (buf.take len.toNat)).1)
        (tr ++ [Event.write slave (buf.take len.toNat)
          (env.write tr slave (buf.take len.toNat)).1])
      refine ⟨Event.write slave (buf.take len.toNat)
          (env.write tr slave (buf.take len.toNat)).1 :: l, ?_, ?_⟩
      · rw [hl]; simp
      · intro e he
        rcases List.mem_cons.1 he with h | h
        · exact ⟨_, _, _, h⟩
        · exact hall e h
    · exact ⟨[], by simp, fun _ h => nomatch h⟩

theorem shell_write_loop_stretch (env : Env) (slave : Int) (buf : List Byte) (fuel : Nat)
    (len : Int) (tr : List Event) :
    ∃ l, (shell_write_loop env slave buf fuel len tr).2 = tr ++ l ∧ shell_stretch l := by
  obtain ⟨l, hl, hall⟩ := shell_write_loop_trace env slave buf fuel len tr
  refine ⟨l, hl, ?_, ?_⟩
  · apply lock_discipline_of_other
    intro e he
    obtain ⟨fd, b, n, rfl⟩ := hall e he
    rfl
  · intro e he
    obtain ⟨fd, b, n, rfl⟩ := hall e he
    rfl

theorem shell_poll_stream_stretch (env : Env) (ch : Channel) (i buf_len : Int) (st : SSt) :
    ∃ l, (shell_poll_stream env ch i buf_len st).2.2.trace = st.trace ++ l ∧
      shell_stretch l := by
  have hpoll : shell_stretch [Event.pthread_mutex_lock, Event.ssh_channel_poll (some ch) i,
      Event.pthread_mutex_unlock] :=
    ⟨by simp [lock_discipline, Event.lock_role], by simp [Event.is_start_request]⟩
  have hread : ∀ n, shell_stretch [Event.pthread_mutex_lock,
      Event.ssh_channel_poll (some ch) i, Event.pthread_mutex_unlock,
      Event.pthread_mutex_lock, Event.ssh_channel_read_nonblocking (some ch) n i,
      Event.pthread_mutex_unlock] := fun n =>
    ⟨by simp [lock_discipline, Event.lock_role], by simp [Event.is_start_request]⟩
  unfold shell_poll_stream
  simp only [SSt.emit]
  generalize env.ssh_channel_poll (st.trace ++ [Event.pthread_mutex_lock]) (some ch) i = p
  generalize (if p > buf_len then p else buf_len) = bl1
  generalize env.ssh_channel_read_nonblocking _ _ _ _ = rd
  split_ifs
  · exact ⟨_, by simp, hpoll⟩
  · exact ⟨_, by simp, hpoll⟩
  · exact ⟨_, by simp, hread p⟩
  · obtain ⟨l, hl, hs⟩ := shell_write_loop_stretch env st.shell.slave rd.2 rd.1.toNat rd.1
      (st.trace ++ [Event.pthread_mutex_lock] ++
          [Event.ssh_channel_poll (some ch) i] ++ [Event.pthread_mutex_unlock] ++
          [Event.pthread_mutex_lock] ++
          [Event.ssh_channel_read_nonblocking (some ch) p i] ++
          [Event.pthread_mutex_unlock])
    refine ⟨[Event.pthread_mutex_lock, Event.ssh_channel_poll (some ch) i,
      Event.pthread_mutex_unlock, Event.pthread_mutex_lock,
      Event.ssh_channel_read_nonblocking (some ch) p i,
      Event.pthread_mutex_unlock] ++ l, ?_, shell_stretch_append _ _ (hread _) hs⟩
    show (shell_write_loop _ _ _ _ _ _).2 = _
    rw [hl]; simp

theorem shell_pty_to_channel_stretch (env : Env) (ch : Channel) (buf_len : Int)
    (ready : List Int) (st : SSt) :
    ∃ l, (shell_pty_to_channel env ch buf_len ready st).2.trace = st.trace ++ l ∧
      shell_stretch l := by
  unfold shell_pty_to_channel
  simp only [SSt.emit]
  generalize env.ssh_channel_write _ _ _ = n
  split_ifs
  · exact ⟨[Event.read st.shell.slave buf_len], rfl, rfl, by simp [Event.is_start_request]⟩
  · exact ⟨[Event.read st.shell.slave buf_len, Event.pthread_mutex_lock,
        Event.ssh_channel_write (some ch)
          ((env.read st.trace st.shell.slave buf_len).2.take
            (env.read st.trace st.shell.slave buf_len).1.toNat) n,
        Event.pthread_mutex_unlock], by simp,
      by simp [lock_discipline, Event.lock_role], by simp [Event.is_start_request]⟩
  · exact ⟨[], by simp, shell_stretch_nil⟩

theorem shell_channel_to_pty_stretch (env : Env) (ch : Channel) (buf_len : Int) (st : SSt) :
    ∃ l, (shell_channel_to_pty env ch buf_len st).2.trace = st.trace ++ l ∧
      shell_stretch l := by
  unfold shell_channel_to_pty
  simp only []
  obtain ⟨l0, h0, hs0⟩ := shell_poll_stream_stretch env ch 0 buf_len st
  split_ifs
  · exact ⟨l0, h0, hs0⟩
  · obtain ⟨l1, h1, hs1⟩ := shell_poll_stream_stretch env ch 1
      (shell_poll_stream env ch 0 buf_len st).2.1 (shell_poll_stream env ch 0 buf_len st).2.2
    exact ⟨l0 ++ l1, by rw [h1, h0, List.append_assoc], shell_stretch_append _ _ hs0 hs1⟩

theorem shell_relay_loop_stretch (env : Env) (ch : Channel) (fuel : Nat) (buf_len : Int)
    (st : SSt) :
    ∃ l, (shell_relay_loop env ch fuel buf_len st).2.2.trace = st.trace ++ l ∧
      shell_stretch l := by
  induction fuel generalizing buf_len st with
  | zero => exact ⟨[], by simp [shell_relay_loop], shell_stretch_nil⟩
  | succ f ih =>
    have hsel : shell_stretch [Event.ssh_select [some ch, none] [st.shell.slave]] :=
      ⟨rfl, by simp [Event.is_start_request]⟩
    unfold shell_relay_loop
    simp only []
    split_ifs
    · exact ⟨[], by simp, shell_stretch_nil⟩
    · obtain ⟨l, hl, hs⟩ := ih buf_len
        (st.emit (Event.ssh_select [some ch, none] [st.shell.slave]))
      exact ⟨_ ++ l, by rw [hl]; simp [SSt.emit], shell_stretch_append _ _ hsel hs⟩
    · exact ⟨_, rfl, hsel⟩
    · obtain ⟨l, hl, hs⟩ := shell_pty_to_channel_stretch env ch buf_len
        (env.ssh_select st.trace [some ch, none] [st.shell.slave]).2
        (st.emit (Event.ssh_select [some ch, none] [st.shell.slave]))
      exact ⟨_ ++ l, by rw [hl]; simp [SSt.emit], shell_stretch_append _ _ hsel hs⟩
    · obtain ⟨l, hl, hs⟩ := shell_pty_to_channel_stretch env ch buf_len
        (env.ssh_select st.trace [some ch, none] [st.shell.slave]).2
        (st.emit (Event.ssh_select [some ch, none] [st.shell.slave]))
      obtain ⟨l2, hl2, hs2⟩ := shell_channel_to_pty_stretch env ch buf_len
        (shell_pty_to_channel env ch buf_len
          (env.ssh_select st.trace [some ch, none] [st.shell.slave]).2
          (st.emit (Event.ssh_select [some ch, none] [st.shell.slave]))).2
      obtain ⟨l3, hl3, hs3⟩ := ih
        (shell_channel_to_pty env ch buf_len
          (shell_pty_to_channel env ch buf_len
            (env.ssh_select st.trace [some ch, none] [st.shell.slave]).2
            (st.emit (Event.ssh_select [some ch, none] [st.shell.slave]))).2).1
        (shell_channel_to_pty env ch buf_len
          (shell_pty_to_channel env ch buf_len
            (env.ssh_select st.trace [some ch, none] [st.shell.slave]).2
            (st.emit (Event.ssh_select [some ch, none] [st.shell.slave]))).2).2
      refine ⟨[Event.ssh_select [some ch, none] [st.shell.slave]] ++ l ++ l2 ++ l3, ?_,
        shell_stretch_append _ _ (shell_stretch_append _ _
          (shell_stretch_append _ _ hsel hs) hs2) hs3⟩
      rw [hl3, hl2, hl]
      simp [SSt.emit]

theorem shell_thread_close_stretch (ch : Channel) (st : SSt) :
    ∃ l, (remmina_ssh_shell_thread_close ch st).trace = st.trace ++ l ∧ shell_stretch l := by
  unfold remmina_ssh_shell_thread_close
  simp only [SSt.emit]
  split_ifs
  · exact ⟨[Event.pthread_mutex_lock, Event.ssh_channel_close (some ch),
        Event.ssh_channel_send_eof (some ch), Event.ssh_channel_free (some ch),
        Event.pthread_mutex_unlock, Event.idle_add_exit_callback], by simp,
      by simp [lock_discipline, Event.lock_role], by simp [Event.is_start_request]⟩
  · exact ⟨[Event.pthread_mutex_lock, Event.ssh_channel_close (some ch),
        Event.ssh_channel_send_eof (some ch), Event.ssh_channel_free (some ch),
        Event.pthread_mutex_unlock], by simp,
      by simp [lock_discipline, Event.lock_role], by simp [Event.is_start_request]⟩

theorem shell_thread_close_shell (ch : Channel) (st : SSt) :
    (remmina_ssh_shell_thread_close ch st).shell.channel = none ∧
    (remmina_ssh_shell_thread_close ch st).shell.thread = 0 := by
  unfold remmina_ssh_shell_thread_close
  simp only [SSt.emit]
  split_ifs <;> exact ⟨rfl, rfl⟩

theorem has_command_iff (exec : Option String) :
    has_command exec = true ↔ ∃ cmd, exec = some cmd ∧ cmd ≠ "" := by
  cases exec with
  | none => simp [has_command]
  | some c => simp [has_command]

theorem shell_start_request_event (env : Env) (tr : List Event) (exec : Option String)
    (ch : Channel) :
    (has_command exec = true →
      (shell_start_request env tr exec ch).2 = Event.ssh_channel_request_exec (some ch) exec) ∧
    (has_command exec = false →
      (shell_start_request env tr exec ch).2 = Event.ssh_channel_request_shell (some ch)) := by
  unfold shell_start_request
  constructor <;> intro h <;> simp [h]

theorem shell_start_request_shape (env : Env) (tr : List Event) (exec : Option String)
    (ch : Channel) :
    (shell_start_request env tr exec ch).2 = Event.ssh_channel_request_exec (some ch) exec ∨
    (shell_start_request env tr exec ch).2 = Event.ssh_channel_request_shell (some ch) := by
  unfold shell_start_request
  split_ifs
  · exact Or.inl rfl
  · exact Or.inr rfl

/-- What the opening phase adds to the trace, in each of its four outcomes. -/
theorem shell_thread_open_trace (env : Env) (st : SSt) :
    ((remmina_ssh_shell_thread_open env st).1 = none ∧
      (remmina_ssh_shell_thread_open env st).2.trace =
        st.trace ++ [Event.pthread_mutex_lock, Event.ssh_channel_new,
          Event.pthread_mutex_unlock]) ∨
    (∃ ch, (remmina_ssh_shell_thread_open env st).1 = none ∧
      (remmina_ssh_shell_thread_open env st).2.trace =
        st.trace ++ [Event.pthread_mutex_lock, Event.ssh_channel_new,
          Event.ssh_channel_open_session (some ch), Event.pthread_mutex_unlock] ++
          [Event.ssh_channel_free (some ch)]) ∨
    (∃ ch rq, (rq = Event.ssh_channel_request_exec (some ch) st.shell.exec ∨
        rq = Event.ssh_channel_request_shell (some ch)) ∧
      (remmina_ssh_shell_thread_open env st).1 = none ∧
      (remmina_ssh_shell_thread_open env st).2.trace =
        st.trace ++ [Event.pthread_mutex_lock, Event.ssh_channel_new,
          Event.ssh_channel_open_session (some ch), Event.ssh_channel_request_pty (some ch),
          rq, Event.pthread_mutex_unlock] ++
          [Event.ssh_channel_close (some ch), Event.ssh_channel_send_eof (some ch),
            Event.ssh_channel_free (some ch)]) ∨
    (∃ ch rq, (rq = Event.ssh_channel_request_exec (some ch) st.shell.exec ∨
        rq = Event.ssh_channel_request_shell (some ch)) ∧
      (remmina_ssh_shell_thread_open env st).1 = some ch ∧
      (remmina_ssh_shell_thread_open env st).2.trace =
        st.trace ++ [Event.pthread_mutex_lock, Event.ssh_channel_new,
          Event.ssh_channel_open_session (some ch), Event.ssh_channel_request_pty (some ch),
          rq, Event.pthread_mutex_unlock]) := by
  unfold remmina_ssh_shell_thread_open
  simp only [SSt.emit, remmina_ssh_shell_set_error]
  cases hnew : env.ssh_channel_new (st.trace ++ [Event.pthread_mutex_lock]) with
  | none => left; simp
  | some ch =>
    right
    simp only []
    generalize hrq : shell_start_request env _ st.shell.exec ch = rq
    have hrole : rq.2 = Event.ssh_channel_request_exec (some ch) st.shell.exec ∨
        rq.2 = Event.ssh_channel_request_shell (some ch) := by
      rw [← hrq]; exact shell_start_request_shape env _ st.shell.exec ch
    split_ifs with h1 h2
    · left; exact ⟨ch, rfl, by simp⟩
    · right; left
      exact ⟨ch, rq.2, hrole, rfl, by simp⟩
    · right; right
      exact ⟨ch, rq.2, hrole, rfl, by simp⟩

/-- C14 as stated is false: on a bridge with no remote channel recorded, as it is before
the worker has opened one and after the worker has ended, `remmina_ssh_shell_set_size`
sends no pty-resize request at all. -/
theorem shell_set_size_without_channel_counterexample :
    ¬ ∀ (st : SSt) (columns rows : Int),
        resize_requests
          (new_events st.trace (remmina_ssh_shell_set_size st columns rows).trace) =
          [(st.shell.channel, columns, rows)] := by
  intro h
  have h1 := h (fresh_shell none none) 80 24
  simp [remmina_ssh_shell_set_size, fresh_shell, SSt.emit, new_events, resize_requests] at h1

/-- C14, amended: for every shell bridge whose remote channel is live and every pair of
column and row values, `remmina_ssh_shell_set_size` sends exactly one pty-resize
request, on that channel and with those values, between taking and releasing the
mutex, and leaves every field of the bridge unchanged. -/
theorem shell_set_size_resizes_live_channel (st : SSt) (columns rows : Int) (c : Channel)
    (hlive : st.shell.channel = some c) :
    (remmina_ssh_shell_set_size st columns rows).trace =
      st.trace ++ [Event.pthread_mutex_lock,
        Event.ssh_channel_change_pty_size (some c) columns rows,
        Event.pthread_mutex_unlock] ∧
    resize_requests
      (new_events st.trace (remmina_ssh_shell_set_size st columns rows).trace) =
      [(some c, columns, rows)] ∧
    (remmina_ssh_shell_set_size st columns rows).shell = st.shell := by
  have htr : (remmina_ssh_shell_set_size st columns rows).trace =
      st.trace ++ [Event.pthread_mutex_lock,
        Event.ssh_channel_change_pty_size (some c) columns rows,
        Event.pthread_mutex_unlock] := by
    simp [remmina_ssh_shell_set_size, SSt.emit, hlive]
  refine ⟨htr, ?_, ?_⟩
  · rw [htr, new_events_append]
    simp [resize_requests]
  · simp [remmina_ssh_shell_set_size, SSt.emit, hlive]

/-- Witness of C14 amended: a bridge with the live channel 7, resized to 132 by 43. -/
theorem shell_set_size_resizes_live_channel_witness :
    resize_requests (new_events (fresh_shell none (some 7)).trace
      (remmina_ssh_shell_set_size (fresh_shell none (some 7)) 132 43).trace) =
      [(some 7, 132, 43)] :=
  (shell_set_size_resizes_live_channel (fresh_shell none (some 7)) 132 43 7 rfl).2.1

/-- C19 as stated is false: when the transport cannot create the channel, the worker
ends without issuing either request. -/
theorem shell_thread_without_request_counterexample :
    ¬ ∀ (env : Env) (fuel : Nat) (st : SSt),
        ((new_events st.trace (remmina_ssh_shell_thread env fuel st).2.trace).filter
          Event.is_start_request).length = 1 := by
  intro h
  have h1 := h env_refusing 0 (fresh_shell none none)
  simp [remmina_ssh_shell_thread, remmina_ssh_shell_thread_open, remmina_ssh_shell_set_error,
    SSt.emit, env_refusing, fresh_shell, new_events, Event.is_start_request] at h1

/-- C19, amended: the shell worker requests remote command execution exactly when the
bridge's remote command is present and non-empty, and an interactive shell otherwise.
In every run, started on a bridge with no channel recorded, in which the channel is
created and its session opened, exactly one of the two requests is issued, right after
the pty request; a failing request ends the worker, after close, end-of-file and free of
the channel, with the request error set, `thread` cleared and no channel recorded on
the bridge. -/
theorem shell_thread_single_request (env : Env) (fuel : Nat) (st : SSt) (ch : Channel)
    (hfresh : st.shell.channel = none)
    (hnew : env.ssh_channel_new (st.trace ++ [Event.pthread_mutex_lock]) = some ch)
    (hopen : env.ssh_channel_open_session
      (st.trace ++ [Event.pthread_mutex_lock, Event.ssh_channel_new]) (some ch) = 0) :
    (has_command st.shell.exec = true ↔ ∃ cmd, st.shell.exec = some cmd ∧ cmd ≠ "") ∧
    (has_command st.shell.exec = true →
      (shell_start_request env (st.trace ++ [Event.pthread_mutex_lock, Event.ssh_channel_new,
        Event.ssh_channel_open_session (some ch), Event.ssh_channel_request_pty (some ch)])
        st.shell.exec ch).2 = Event.ssh_channel_request_exec (some ch) st.shell.exec) ∧
    (has_command st.shell.exec = false →
      (shell_start_request env (st.trace ++ [Event.pthread_mutex_lock, Event.ssh_channel_new,
        Event.ssh_channel_open_session (some ch), Event.ssh_channel_request_pty (some ch)])
        st.shell.exec ch).2 = Event.ssh_channel_request_shell (some ch)) ∧
    (∃ rest, (remmina_ssh_shell_thread env fuel st).2.trace =
        st.trace ++ [Event.pthread_mutex_lock, Event.ssh_channel_new,
          Event.ssh_channel_open_session (some ch), Event.ssh_channel_request_pty (some ch),
          (shell_start_request env (st.trace ++ [Event.pthread_mutex_lock,
            Event.ssh_channel_new, Event.ssh_channel_open_session (some ch),
            Event.ssh_channel_request_pty (some ch)]) st.shell.exec ch).2] ++ rest ∧
      ∀ e ∈ rest, Event.is_start_request e = false) ∧
    ((shell_start_request env (st.trace ++ [Event.pthread_mutex_lock, Event.ssh_channel_new,
        Event.ssh_channel_open_session (some ch), Event.ssh_channel_request_pty (some ch)])
        st.shell.exec ch).1 ≠ 0 →
      (remmina_ssh_shell_thread env fuel st).1 = false ∧
      (remmina_ssh_shell_thread env fuel st).2.trace =
        st.trace ++ [Event.pthread_mutex_lock, Event.ssh_channel_new,
          Event.ssh_channel_open_session (some ch), Event.ssh_channel_request_pty (some ch),
          (shell_start_request env (st.trace ++ [Event.pthread_mutex_lock,
            Event.ssh_channel_new, Event.ssh_channel_open_session (some ch),
            Event.ssh_channel_request_pty (some ch)]) st.shell.exec ch).2,
          Event.pthread_mutex_unlock, Event.ssh_channel_close (some ch),
          Event.ssh_channel_send_eof (some ch), Event.ssh_channel_free (some ch)] ∧
      (remmina_ssh_shell_thread env fuel st).2.shell.channel = none ∧
      (remmina_ssh_shell_thread env fuel st).2.shell.thread = 0 ∧
      ∃ text, (remmina_ssh_shell_thread env fuel st).2.shell.ssh.error =
        some ⟨"Failed to request shell: %s", [text]⟩) := by
  have hopen1 : env.ssh_channel_open_session
      (st.trace ++ [Event.pthread_mutex_lock] ++ [Event.ssh_channel_new]) (some ch) = 0 := by
    rw [← hopen]; simp
  have htr : st.trace ++ [Event.pthread_mutex_lock] ++ [Event.ssh_channel_new] ++
      [Event.ssh_channel_open_session (some ch)] ++ [Event.ssh_channel_request_pty (some ch)] =
      st.trace ++ [Event.pthread_mutex_lock, Event.ssh_channel_new,
        Event.ssh_channel_open_session (some ch), Event.ssh_channel_request_pty (some ch)] := by
    simp
  refine ⟨has_command_iff _, (shell_start_request_event env _ _ ch).1,
    (shell_start_request_event env _ _ ch).2, ?_, ?_⟩
  · unfold remmina_ssh_shell_thread remmina_ssh_shell_thread_open
    simp only [SSt.emit, remmina_ssh_shell_set_error, hnew, hopen1, htr, ne_eq,
      not_true_eq_false, if_false]
    generalize shell_start_request env _ st.shell.exec ch = rq
    by_cases h1 : rq.1 = 0
    swap
    · rw [if_pos h1]
      exact ⟨[Event.pthread_mutex_unlock, Event.ssh_channel_close (some ch),
        Event.ssh_channel_send_eof (some ch), Event.ssh_channel_free (some ch)],
        by simp, by simp [Event.is_start_request]⟩
    · rw [if_neg (not_not.2 h1)]
      simp only []
      obtain ⟨l, hl, hs⟩ := shell_relay_loop_stretch env ch fuel 1000
        { shell := { st.shell with channel := some ch },
          trace := st.trace ++ [Event.pthread_mutex_lock, Event.ssh_channel_new,
            Event.ssh_channel_open_session (some ch),
            Event.ssh_channel_request_pty (some ch)] ++ [rq.2] ++
            [Event.pthread_mutex_unlock] }
      split_ifs with h2
      · refine ⟨Event.pthread_mutex_unlock :: l, ?_, ?_⟩
        · rw [hl]; simp
        · intro e he
          rcases List.mem_cons.1 he with h | h
          · rw [h]; rfl
          · exact hs.2 e h
      · obtain ⟨l2, hl2, hs2⟩ := shell_thread_close_stretch ch
          (shell_relay_loop env ch fuel 1000
            { shell := { st.shell with channel := some ch },
              trace := st.trace ++ [Event.pthread_mutex_lock, Event.ssh_channel_new,
                Event.ssh_channel_open_session (some ch),
                Event.ssh_channel_request_pty (some ch)] ++ [rq.2] ++
                [Event.pthread_mutex_unlock] }).2.2
        refine ⟨Event.pthread_mutex_unlock :: (l ++ l2), ?_, ?_⟩
        · rw [hl2, hl]; simp
        · intro e he
          rcases List.mem_cons.1 he with h | h
          · rw [h]; rfl
          · rcases List.mem_append.1 h with h | h
            · exact hs.2 e h
            · exact hs2.2 e h
  · intro hfail
    unfold remmina_ssh_shell_thread remmina_ssh_shell_thread_open
    simp only [SSt.emit, remmina_ssh_shell_set_error, hnew, hopen1, htr, ne_eq,
      not_true_eq_false, if_false]
    rw [if_pos hfail]
    exact ⟨rfl, by simp, hfresh, rfl, ⟨_, rfl⟩⟩

/-- Witness of C19 amended: a server that opens the channel and refuses the shell
request. -/
theorem shell_thread_single_request_witness :
    (remmina_ssh_shell_thread env_request_refused 5 (fresh_shell none none)).2.shell.channel
      = none :=
  ((shell_thread_single_request env_request_refused 5 (fresh_shell none none) 7 rfl rfl rfl).2.2.2.2
    (by decide)).2.2.1

theorem shell_thread_open_discipline (env : Env) (st : SSt) :
    ∃ main cleanup,
      (remmina_ssh_shell_thread_open env st).2.trace = st.trace ++ main ++ cleanup ∧
      lock_discipline false main = some false ∧
      (∀ e ∈ cleanup, Event.is_channel_cleanup e = true) ∧
      ((remmina_ssh_shell_thread_open env st).1 ≠ none → cleanup = []) := by
  rcases shell_thread_open_trace env st with h | ⟨ch, h⟩ | ⟨ch, rq, hrq, h⟩ | ⟨ch, rq, hrq, h⟩
  · exact ⟨[Event.pthread_mutex_lock, Event.ssh_channel_new, Event.pthread_mutex_unlock], [],
      by rw [h.2]; simp, by simp [lock_discipline, Event.lock_role],
      (fun _ he => nomatch he), fun _ => rfl⟩
  · exact ⟨[Event.pthread_mutex_lock, Event.ssh_channel_new,
        Event.ssh_channel_open_session (some ch), Event.pthread_mutex_unlock],
      [Event.ssh_channel_free (some ch)], h.2, by simp [lock_discipline, Event.lock_role],
      by simp [Event.is_channel_cleanup], fun hne => absurd h.1 hne⟩
  · refine ⟨[Event.pthread_mutex_lock, Event.ssh_channel_new,
        Event.ssh_channel_open_session (some ch), Event.ssh_channel_request_pty (some ch),
        rq, Event.pthread_mutex_unlock],
      [Event.ssh_channel_close (some ch), Event.ssh_channel_send_eof (some ch),
        Event.ssh_channel_free (some ch)], h.2, ?_,
      by simp [Event.is_channel_cleanup], fun hne => absurd h.1 hne⟩
    rcases hrq with rfl | rfl <;> simp [lock_discipline, Event.lock_role]
  · refine ⟨[Event.pthread_mutex_lock, Event.ssh_channel_new,
        Event.ssh_channel_open_session (some ch), Event.ssh_channel_request_pty (some ch),
        rq, Event.pthread_mutex_unlock], [], by rw [h.2]; simp, ?_,
      (fun _ he => nomatch he), fun _ => rfl⟩
    rcases hrq with rfl | rfl <;> simp [lock_discipline, Event.lock_role]

/-- C16, amended: every transport call of the shell worker on the shared session
(channel new, open, pty and start requests, write, poll, read, and the close,
end-of-file and free after the relay loop) is made while the session's mutex is held,
and the multiplexed wait is made with the mutex free, the channel clean-up that ends a
run whose channel could not be opened or started excepted: the calls of a run are a
stretch that keeps the lock discipline, followed by clean-up calls only, and by none
when the opening succeeded.  `remmina_ssh_shell_set_size` keeps the discipline as
well. -/
theorem shell_worker_lock_discipline (env : Env) (fuel : Nat) (st : SSt)
    (columns rows : Int) :
    (∃ main cleanup,
      (remmina_ssh_shell_thread env fuel st).2.trace = st.trace ++ main ++ cleanup ∧
      lock_discipline false main = some false ∧
      (∀ e ∈ cleanup, Event.is_channel_cleanup e = true) ∧
      ((remmina_ssh_shell_thread_open env st).1 ≠ none → cleanup = [])) ∧
    lock_discipline false
      (new_events st.trace (remmina_ssh_shell_set_size st columns rows).trace) =
        some false := by
  constructor
  · obtain ⟨main, cleanup, htr, hmain, hclean, hnone⟩ := shell_thread_open_discipline env st
    unfold remmina_ssh_shell_thread
    generalize hop : remmina_ssh_shell_thread_open env st = op at htr hnone
    obtain ⟨c, st1⟩ := op
    cases c with
    | none => exact ⟨main, cleanup, htr, hmain, hclean, hnone⟩
    | some ch =>
      have hc : cleanup = [] := hnone (fun h => nomatch h)
      subst hc
      simp only [List.append_nil] at htr
      obtain ⟨l, hl, hs⟩ := shell_relay_loop_stretch env ch fuel 1000 st1
      simp only []
      split_ifs
      · refine ⟨main ++ l, [], ?_, ?_, (fun _ he => nomatch he), fun _ => rfl⟩
        · show (shell_relay_loop env ch fuel 1000 st1).2.2.trace = _
          rw [hl]
          rw [htr]; simp
        · rw [lock_discipline_append, hmain]
          exact hs.1
      · obtain ⟨l2, hl2, hs2⟩ := shell_thread_close_stretch ch
          (shell_relay_loop env ch fuel 1000 st1).2.2
        refine ⟨main ++ (l ++ l2), [], ?_, ?_, (fun _ he => nomatch he), fun _ => rfl⟩
        · show (remmina_ssh_shell_thread_close ch _).trace = _
          rw [hl2, hl]
          rw [htr]; simp
        · rw [lock_discipline_append, hmain]
          exact (shell_stretch_append _ _ hs hs2).1
  · unfold remmina_ssh_shell_set_size
    cases st.shell.channel with
    | none => simp [SSt.emit, new_events, lock_discipline, Event.lock_role]
    | some c => simp [SSt.emit, new_events, lock_discipline, Event.lock_role]

/-! ## Theorems: the tunnel worker -/

theorem create_forward_channel_frame (env : Env) (ts : TSt) :
    (remmina_ssh_tunnel_create_forward_channel env ts).2.tunnel =
      { ts.tunnel with ssh := (remmina_ssh_tunnel_create_forward_channel env ts).2.tunnel.ssh } ∧
    ∃ l, (remmina_ssh_tunnel_create_forward_channel env ts).2.trace = ts.trace ++ l := by
  unfold remmina_ssh_tunnel_create_forward_channel
  simp only [TSt.emit, remmina_ssh_tunnel_set_error]
  cases env.ssh_channel_new ts.trace with
  | none => exact ⟨rfl, [Event.ssh_channel_new], rfl⟩
  | some ch =>
    simp only []
    split_ifs
    · refine ⟨rfl, ?_⟩
      simp only [List.append_assoc]
      exact ⟨_, rfl⟩
    · refine ⟨rfl, ?_⟩
      simp only [List.append_assoc]
      exact ⟨_, rfl⟩

theorem close_all_channels_spec (ts : TSt) :
    (remmina_ssh_tunnel_close_all_channels ts).tunnel.num_channels = 0 ∧
    (remmina_ssh_tunnel_close_all_channels ts).tunnel.channels = [] ∧
    (remmina_ssh_tunnel_close_all_channels ts).tunnel.sockets = [] ∧
    ∃ l, (remmina_ssh_tunnel_close_all_channels ts).trace =
      ts.trace ++ ((List.range ts.tunnel.num_channels.toNat).map
        (close_pair_events ts.tunnel)).flatten ++ l := by
  unfold remmina_ssh_tunnel_close_all_channels
  simp only [TSt.emit]
  split
  · refine ⟨rfl, rfl, rfl, ?_⟩
    simp only [List.append_assoc]
    exact ⟨_, rfl⟩
  · exact ⟨rfl, rfl, rfl, [], by simp⟩

/-- C12 as stated is false: with three live pairs, a further local connection whose
forward channel the server refuses clears the running flag. -/
theorem forward_failure_stops_tunnel_counterexample :
    ¬ ∀ (env : Env) (v : LoopVars) (ts : TSt),
        ts.tunnel.tunnel_type = TunnelType.REMMINA_SSH_TUNNEL_OPEN →
        ts.tunnel.running = true →
        0 < ts.tunnel.num_channels →
        0 < (remmina_ssh_tunnel_accept_local_connection env ts false).1 →
        (remmina_ssh_tunnel_create_forward_channel env
          (remmina_ssh_tunnel_accept_local_connection env ts false).2).1 = none →
        (tunnel_accept_local env v ts).2.tunnel.running = true := by
  intro h
  have h1 := h env_forward_refused later_round three_pair_tunnel rfl rfl (by decide)
    (by decide) (by decide)
  revert h1
  decide

/-- C12, amended: in a tunnel, running and with live pairs or not, if a further local
connection is accepted at the end of a round of the relay loop and opening its forward
channel fails, the newly accepted socket is closed and the running flag is cleared.
The step itself leaves the live pairs as they are, but the relay loop is then left at
once, for every number of rounds it is given, and the tear-down that follows the loop
closes the socket and the channel of every live pair and leaves no pair. -/
theorem forward_failure_stops_tunnel (env : Env) (io_fuel fuel : Nat) (v : LoopVars)
    (ts : TSt)
    (hsock : 0 < (remmina_ssh_tunnel_accept_local_connection env ts false).1)
    (hfail : (remmina_ssh_tunnel_create_forward_channel env
      (remmina_ssh_tunnel_accept_local_connection env ts false).2).1 = none) :
    (tunnel_accept_local env v ts).2.tunnel.running = false ∧
    live_pairs (tunnel_accept_local env v ts).2.tunnel = live_pairs ts.tunnel ∧
    (tunnel_accept_local env v ts).2.trace =
      (remmina_ssh_tunnel_create_forward_channel env
        (remmina_ssh_tunnel_accept_local_connection env ts false).2).2.trace ++
      [Event.close (remmina_ssh_tunnel_accept_local_connection env ts false).1] ∧
    tunnel_relay_loop env io_fuel (fuel + 1) (tunnel_accept_local env v ts).1
      (tunnel_accept_local env v ts).2 = Step.leave (tunnel_accept_local env v ts).2 ∧
    (remmina_ssh_tunnel_close_all_channels (tunnel_accept_local env v ts).2).tunnel.num_channels
      = 0 ∧
    ∀ i, i < ts.tunnel.num_channels.toNat →
      Event.close (pair_at ts.tunnel i).2.1 ∈
        new_events (tunnel_accept_local env v ts).2.trace
          (remmina_ssh_tunnel_close_all_channels (tunnel_accept_local env v ts).2).trace ∧
      Event.ssh_channel_close (pair_at ts.tunnel i).1 ∈
        new_events (tunnel_accept_local env v ts).2.trace
          (remmina_ssh_tunnel_close_all_channels (tunnel_accept_local env v ts).2).trace := by
  have hstate : (tunnel_accept_local env v ts).2 =
      { tunnel := { (remmina_ssh_tunnel_create_forward_channel env
            (remmina_ssh_tunnel_accept_local_connection env ts false).2).2.tunnel with
          running := false }
        trace := (remmina_ssh_tunnel_create_forward_channel env
            (remmina_ssh_tunnel_accept_local_connection env ts false).2).2.trace ++
          [Event.close (remmina_ssh_tunnel_accept_local_connection env ts false).1] } := by
    unfold tunnel_accept_local
    simp only [gt_iff_lt, hsock, if_true, hfail, TSt.emit]
  have hframe := (create_forward_channel_frame env
    (remmina_ssh_tunnel_accept_local_connection env ts false).2).1
  have haccept : ∃ e, (remmina_ssh_tunnel_accept_local_connection env ts false).2.tunnel =
      { ts.tunnel with ssh := e } := by
    unfold remmina_ssh_tunnel_accept_local_connection
    simp only [TSt.emit, remmina_ssh_tunnel_set_application_error]
    split_ifs
    · exact ⟨_, rfl⟩
    · exact ⟨_, rfl⟩
  obtain ⟨e, he⟩ := haccept
  have hpairs : ∀ i, pair_at (tunnel_accept_local env v ts).2.tunnel i = pair_at ts.tunnel i := by
    intro i
    rw [hstate]
    simp only [pair_at]
    rw [hframe, he]
  have hnum : (tunnel_accept_local env v ts).2.tunnel.num_channels = ts.tunnel.num_channels := by
    rw [hstate]
    simp only []
    rw [hframe, he]
  have hrunning : (tunnel_accept_local env v ts).2.tunnel.running = false := by
    rw [hstate]
  refine ⟨hrunning, ?_, by rw [hstate], ?_, (close_all_channels_spec _).1, ?_⟩
  · unfold live_pairs
    rw [hnum]
    exact List.map_congr_left (fun i _ => hpairs i)
  · simp only [tunnel_relay_loop, hrunning, if_true]
  · intro i hi
    obtain ⟨l, hl⟩ := (close_all_channels_spec (tunnel_accept_local env v ts).2).2.2.2
    rw [hl, List.append_assoc, new_events_append, hnum]
    have hmem : close_pair_events (tunnel_accept_local env v ts).2.tunnel i ∈
        (List.range ts.tunnel.num_channels.toNat).map
          (close_pair_events (tunnel_accept_local env v ts).2.tunnel) :=
      List.mem_map.2 ⟨i, List.mem_range.2 hi, rfl⟩
    have hp := hpairs i
    simp only [pair_at, Prod.mk.injEq] at hp
    have hev : close_pair_events (tunnel_accept_local env v ts).2.tunnel i =
        close_pair_events ts.tunnel i := by
      simp only [close_pair_events, hp.1, hp.2.1, hp.2.2]
    rw [hev] at hmem
    constructor
    · apply List.mem_append_left
      refine List.mem_flatten.2 ⟨_, hmem, ?_⟩
      simp [close_pair_events, pair_at]
    · apply List.mem_append_left
      refine List.mem_flatten.2 ⟨_, hmem, ?_⟩
      simp [close_pair_events, pair_at]

/-- Witness of C12 amended: three live pairs, a further connection on the descriptor 9,
and a server that refuses to open the forward. -/
theorem forward_failure_stops_tunnel_witness :
    (tunnel_accept_local env_forward_refused later_round three_pair_tunnel).2.tunnel.running
      = false :=
  (forward_failure_stops_tunnel env_forward_refused 0 0 later_round three_pair_tunnel
    (by decide) (by decide)).1

theorem relayCalls_refl (tr : List Event) : RelayCalls tr tr :=
  ⟨[], by simp, fun _ h => nomatch h⟩

theorem relayCalls_trans {a b c : List Event} (h1 : RelayCalls a b) (h2 : RelayCalls b c) :
    RelayCalls a c := by
  obtain ⟨l1, rfl, hl1⟩ := h1
  obtain ⟨l2, rfl, hl2⟩ := h2
  refine ⟨l1 ++ l2, by simp, ?_⟩
  intro e he
  rcases List.mem_append.mp he with h | h
  · exact hl1 e h
  · exact hl2 e h

theorem relayCalls_one (tr : List Event) (e : Event) (h : Event.is_relay_call e = true) :
    RelayCalls tr (tr ++ [e]) :=
  ⟨[e], rfl, fun x hx => by rw [List.mem_singleton.1 hx]; exact h⟩

theorem relays_refl (ts : TSt) : Relays ts ts := ⟨rfl, relayCalls_refl _⟩

theorem relays_trans {a b c : TSt} (h1 : Relays a b) (h2 : Relays b c) : Relays a c :=
  ⟨h2.1.trans h1.1, relayCalls_trans h1.2 h2.2⟩

theorem channel_write_loop_relayCalls (env : Env) (channel : Option Channel)
    (buffer : List Byte) (fuel ptr : Nat) (len : Int) (tr : List Event) :
    RelayCalls tr (channel_write_loop env channel buffer fuel ptr len tr).2.2 := by
  induction fuel generalizing ptr len tr with
  | zero => exact relayCalls_refl _
  | succ f ih =>
    unfold channel_write_loop
    simp only []
    split_ifs
    · exact relayCalls_one _ _ (by rfl)
    · exact relayCalls_trans (relayCalls_one _ _ (by rfl)) (ih _ _ _)
    · exact relayCalls_refl _

theorem socket_read_loop_relayCalls (env : Env) (channel : Option Channel) (sock : Int)
    (buffer_len : Int) (fuel : Nat) (tr : List Event) :
    RelayCalls tr (socket_read_loop env channel sock buffer_len fuel tr).2 := by
  induction fuel generalizing tr with
  | zero => exact relayCalls_refl _
  | succ f ih =>
    unfold socket_read_loop
    simp only []
    have hchunk := channel_write_loop_relayCalls env channel
      (env.read tr sock buffer_len).2 (env.read tr sock buffer_len).1.toNat 0
      (env.read tr sock buffer_len).1 (tr ++ [Event.read sock buffer_len])
    split_ifs
    · exact relayCalls_trans (relayCalls_one _ _ (by rfl)) hchunk
    · exact relayCalls_trans (relayCalls_trans (relayCalls_one _ _ (by rfl)) hchunk) (ih _)
    · exact relayCalls_one _ _ (by rfl)

theorem sock_to_chan_pair_relayCalls (env : Env) (ready : List Int) (buffer_len : Int)
    (fuel : Nat) (p : Pair) (err : Option ErrorText) (tr : List Event) :
    RelayCalls tr (sock_to_chan_pair env ready buffer_len fuel p err tr).trace := by
  unfold sock_to_chan_pair
  have h := socket_read_loop_relayCalls env p.1 p.2.1 buffer_len fuel tr
  split_ifs
  · generalize socket_read_loop env p.1 p.2.1 buffer_len fuel tr = r at h
    obtain ⟨o, tr1⟩ := r
    cases o with
    | none => exact h
    | some x =>
      obtain ⟨len, d⟩ := x
      simp only []
      split_ifs <;> exact h
  · exact relayCalls_refl _

theorem socketbuffer_write_loop_relayCalls (env : Env) (running : Bool) (sock : Int)
    (fuel : Nat) (b : RemminaSSHTunnelBuffer) (tr : List Event) :
    RelayCalls tr (socketbuffer_write_loop env running sock fuel b tr).2.2 := by
  induction fuel generalizing b tr with
  | zero => exact relayCalls_refl _
  | succ f ih =>
    unfold socketbuffer_write_loop
    simp only []
    split_ifs
    · exact relayCalls_one _ _ (by rfl)
    · exact relayCalls_one _ _ (by rfl)
    · exact relayCalls_trans (relayCalls_one _ _ (by rfl)) (ih _ _)
    · exact relayCalls_refl _

theorem socketbuffer_flush_relayCalls (env : Env) (running : Bool) (sock : Int)
    (b : RemminaSSHTunnelBuffer) (tr : List Event) :
    RelayCalls tr (socketbuffer_flush env running sock b tr).2.2 := by
  unfold socketbuffer_flush
  have h := socketbuffer_write_loop_relayCalls env running sock b.len.toNat b tr
  generalize socketbuffer_write_loop env running sock b.len.toNat b tr = r at h
  obtain ⟨b1, d, tr1⟩ := r
  simp only []
  split_ifs
  · exact relayCalls_trans h (relayCalls_one _ _ (by rfl))
  · exact h

theorem chan_to_sock_poll_relayCalls (env : Env) (p : Pair) (err : Option ErrorText)
    (tr : List Event) : RelayCalls tr (chan_to_sock_poll env p err tr).trace := by
  unfold chan_to_sock_poll
  cases p.2.2 with
  | some b => exact relayCalls_refl _
  | none =>
    simp only []
    split_ifs
    · exact relayCalls_one _ _ (by rfl)
    · exact relayCalls_trans (relayCalls_one _ _ (by rfl)) (relayCalls_one _ _ (by rfl))
    · exact relayCalls_trans (relayCalls_one _ _ (by rfl)) (relayCalls_one _ _ (by rfl))
    · exact relayCalls_one _ _ (by rfl)

theorem chan_to_sock_pair_relayCalls (env : Env) (running : Bool) (p : Pair)
    (err : Option ErrorText) (tr : List Event) :
    RelayCalls tr (chan_to_sock_pair env running p err tr).trace := by
  unfold chan_to_sock_pair
  have h := chan_to_sock_poll_relayCalls env p err tr
  simp only []
  split
  · split_ifs <;> first
      | exact h
      | exact relayCalls_trans h (socketbuffer_flush_relayCalls _ _ _ _ _)
  · exact h

theorem remove_channel_relays (ts : TSt) (n : Nat) :
    Relays ts (remmina_ssh_tunnel_remove_channel ts n) := by
  refine ⟨rfl, ?_⟩
  simp only [remmina_ssh_tunnel_remove_channel, TSt.emit, List.append_assoc]
  exact ⟨_, rfl, by simp [Event.is_relay_call]⟩

theorem relay_pass_loop_relays (body : Pair → Option ErrorText → List Event → PairOut)
    (hbody : ∀ p err tr, RelayCalls tr (body p err tr).trace)
    (fuel i : Nat) (ts : TSt) : Relays ts (relay_pass_loop body fuel i ts).2 := by
  induction fuel generalizing i ts with
  | zero => exact relays_refl _
  | succ f ih =>
    unfold relay_pass_loop
    simp only []
    have hstep : Relays ts
        (relay_pair_done ts i (body (pair_at ts.tunnel i) ts.tunnel.ssh.error ts.trace)) :=
      ⟨rfl, hbody _ _ _⟩
    split_ifs
    · exact hstep
    · exact relays_trans hstep (relays_trans (remove_channel_relays _ _) (ih _ _))
    · exact relays_trans hstep (ih _ _)
    · exact relays_refl _

theorem add_channel_relays (ts : TSt) (channel : Option Channel) (sock : Int) :
    Relays ts (remmina_ssh_tunnel_add_channel ts channel sock) :=
  ⟨rfl, relayCalls_one _ _ (by rfl)⟩

theorem accept_local_connection_relays (env : Env) (ts : TSt) (blocking : Bool) :
    Relays ts (remmina_ssh_tunnel_accept_local_connection env ts blocking).2 := by
  unfold remmina_ssh_tunnel_accept_local_connection
  simp only []
  split_ifs <;> exact ⟨rfl, relayCalls_one _ _ (by rfl)⟩

theorem create_forward_channel_relays (env : Env) (ts : TSt) :
    Relays ts (remmina_ssh_tunnel_create_forward_channel env ts).2 := by
  unfold remmina_ssh_tunnel_create_forward_channel
  simp only []
  split
  · exact ⟨rfl, relayCalls_one _ _ (by rfl)⟩
  · split_ifs
    · refine ⟨rfl, ?_⟩
      simp only [TSt.emit, remmina_ssh_tunnel_set_error, List.append_assoc]
      exact ⟨_, rfl, by simp [Event.is_relay_call]⟩
    · refine ⟨rfl, ?_⟩
      simp only [TSt.emit, List.append_assoc]
      exact ⟨_, rfl, by simp [Event.is_relay_call]⟩

theorem tunnel_accept_local_relays (env : Env) (v : LoopVars) (ts : TSt) :
    Relays ts (tunnel_accept_local env v ts).2 := by
  unfold tunnel_accept_local
  simp only []
  have ha := accept_local_connection_relays env ts false
  have hc := create_forward_channel_relays env
    (remmina_ssh_tunnel_accept_local_connection env ts false).2
  split_ifs
  · split
    · exact relays_trans ha (relays_trans hc ⟨rfl, relayCalls_one _ _ (by rfl)⟩)
    · exact relays_trans ha (relays_trans hc (add_channel_relays _ _ _))
  · exact ha

theorem tunnel_open_local_relays (env : Env) (ts : TSt) :
    Relays ts (tunnel_open_local env ts).2 := by
  unfold tunnel_open_local
  simp only []
  split_ifs <;> exact ⟨rfl, relayCalls_one _ _ (by rfl)⟩

theorem tunnel_attach_incoming_relays (env : Env) (v : LoopVars) (ts : TSt) :
    Relays ts (tunnel_attach_incoming env v ts).2 := by
  unfold tunnel_attach_incoming
  split
  · exact relays_refl _
  · simp only []
    have hopen := tunnel_open_local_relays env ts
    split_ifs
    · exact relays_trans hopen (add_channel_relays _ _ _)
    · refine relays_trans hopen ⟨rfl, ?_⟩
      simp only [TSt.emit, List.append_assoc]
      exact ⟨_, rfl, by simp [Event.is_relay_call]⟩

theorem relay_pass_relays (body : Pair → Option ErrorText → List Event → PairOut)
    (hbody : ∀ p err tr, RelayCalls tr (body p err tr).trace) (ts : TSt) :
    Relays ts (relay_pass body ts).2 :=
  relay_pass_loop_relays body hbody _ _ ts

theorem tunnel_accept_local_first (env : Env) (v : LoopVars) (ts : TSt) :
    (tunnel_accept_local env v ts).1.first = v.first := by
  unfold tunnel_accept_local
  simp only []
  split_ifs
  · split <;> rfl
  · rfl

theorem tunnel_attach_incoming_first (env : Env) (v : LoopVars) (ts : TSt) :
    (tunnel_attach_incoming env v ts).1.first = v.first := by
  unfold tunnel_attach_incoming
  split <;> rfl

theorem tunnel_relay_round_relays (env : Env) (io_fuel : Nat) (v : LoopVars) (ts : TSt) :
    Relays ts (tunnel_relay_round env io_fuel v ts).state ∧
    (∀ t, tunnel_relay_round env io_fuel v ts ≠ Step.finish t) ∧
    ∀ v1 ts1, tunnel_relay_round env io_fuel v ts = Step.again v1 ts1 → v1.first = v.first := by
  have hsel : Relays ts (ts.emit (Event.ssh_select ts.tunnel.channels (live_sockets ts.tunnel))) :=
    ⟨rfl, relayCalls_one _ _ (by rfl)⟩
  have hp1 := fun ready => relay_pass_relays
    (sock_to_chan_pair env ready
      (ts.emit (Event.ssh_select ts.tunnel.channels (live_sockets ts.tunnel))).tunnel.buffer_len
      io_fuel)
    (fun p err tr => sock_to_chan_pair_relayCalls env _ _ _ p err tr)
    (ts.emit (Event.ssh_select ts.tunnel.channels (live_sockets ts.tunnel)))
  have hp2 := fun running t => relay_pass_relays (chan_to_sock_pair env running)
    (fun p err tr => chan_to_sock_pair_relayCalls env _ p err tr) t
  unfold tunnel_relay_round
  simp only []
  split_ifs
  all_goals refine ⟨?_, (by intro t h; cases h),
    (by intro v1 ts1 h; cases h <;> first | rfl | exact tunnel_accept_local_first _ _ _)⟩
  · exact hsel
  · exact hsel
  · exact hsel
  · exact relays_trans hsel (hp1 _)
  · exact relays_trans hsel (hp1 _)
  · exact relays_trans hsel (relays_trans (hp1 _) (hp2 _ _))
  · exact relays_trans hsel (relays_trans (hp1 _) (relays_trans (hp2 _ _)
      (tunnel_accept_local_relays _ _ _)))

/-- A round of the relay loop in reverse topology after the first one. -/
theorem tunnel_relay_iteration_later (env : Env) (io_fuel : Nat) (v : LoopVars) (ts : TSt)
    (htype : ts.tunnel.tunnel_type = TunnelType.REMMINA_SSH_TUNNEL_REVERSE)
    (hfirst : v.first = false) :
    Relays ts (tunnel_relay_iteration env io_fuel v ts).state ∧
    (∀ t, tunnel_relay_iteration env io_fuel v ts ≠ Step.finish t) ∧
    ∀ v1 ts1, tunnel_relay_iteration env io_fuel v ts = Step.again v1 ts1 →
      v1.first = false := by
  have hinc : tunnel_accept_incoming env v ts = (some v, ts) := by
    unfold tunnel_accept_incoming
    simp [hfirst, htype]
  have hatt := tunnel_attach_incoming_relays env v ts
  have hatf := tunnel_attach_incoming_first env v ts
  have hround := tunnel_relay_round_relays env io_fuel (tunnel_attach_incoming env v ts).1
    (tunnel_attach_incoming env v ts).2
  unfold tunnel_relay_iteration
  simp only [htype, or_true, if_true, hinc]
  split_ifs
  · exact ⟨hatt, (by intro t h; cases h), (by intro v1 ts1 h; cases h)⟩
  · exact ⟨relays_trans hatt hround.1, hround.2.1,
      fun v1 ts1 h => (hround.2.2 v1 ts1 h).trans (hatf.trans hfirst)⟩

/-- The relay loop in reverse topology after the first round. -/
theorem tunnel_relay_loop_later (env : Env) (io_fuel fuel : Nat) (v : LoopVars) (ts : TSt)
    (htype : ts.tunnel.tunnel_type = TunnelType.REMMINA_SSH_TUNNEL_REVERSE)
    (hfirst : v.first = false) :
    Relays ts (tunnel_relay_loop env io_fuel fuel v ts).state ∧
    (∀ t, tunnel_relay_loop env io_fuel fuel v ts ≠ Step.finish t) ∧
    (∀ v1 t, tunnel_relay_loop env io_fuel fuel v ts ≠ Step.again v1 t) := by
  induction fuel generalizing v ts with
  | zero =>
    exact ⟨relays_refl _, (by intro t h; cases h), (by intro v1 t h; cases h)⟩
  | succ f ih =>
    have hit := tunnel_relay_iteration_later env io_fuel v ts htype hfirst
    unfold tunnel_relay_loop
    split_ifs
    · exact ⟨relays_refl _, (by intro t h; cases h), (by intro v1 t h; cases h)⟩
    · generalize tunnel_relay_iteration env io_fuel v ts = step at hit
      cases step with
      | again v1 ts1 =>
        simp only []
        have h1 := ih v1 ts1 (hit.1.1.trans htype) (hit.2.2 v1 ts1 rfl)
        exact ⟨relays_trans hit.1 h1.1, h1.2⟩
      | leave t => exact ⟨hit.1, (by intro t h; cases h), (by intro v1 t h; cases h)⟩
      | finish t => exact absurd rfl (hit.2.1 t)
      | stall t => exact ⟨hit.1, (by intro t h; cases h), (by intro v1 t h; cases h)⟩

theorem relay_call_not_accept_forward (e : Event) (h : Event.is_relay_call e = true) :
    Event.is_accept_forward e = false := by
  unfold Event.is_accept_forward
  split
  · simp [Event.is_relay_call] at h
  · rfl

theorem relay_calls_filter_accept (l : List Event)
    (h : ∀ e ∈ l, Event.is_relay_call e = true) : l.filter Event.is_accept_forward = [] := by
  rw [List.filter_eq_nil_iff]
  intro e he
  rw [relay_call_not_accept_forward e (h e he)]
  simp

theorem call_disconnect_func_spec (ts : TSt) :
    (call_disconnect_func ts).tunnel = ts.tunnel ∧
    (call_disconnect_func ts).trace =
      ts.trace ++ (if ts.tunnel.disconnect_func then [Event.disconnect_func ts.tunnel] else []) := by
  unfold call_disconnect_func
  split_ifs
  · exact ⟨rfl, rfl⟩
  · exact ⟨rfl, by simp⟩

theorem call_connect_func_spec (ts : TSt) :
    (call_connect_func ts).tunnel = ts.tunnel ∧
    (call_connect_func ts).trace =
      ts.trace ++ (if ts.tunnel.connect_func then [Event.connect_func ts.tunnel] else []) := by
  unfold call_connect_func
  split_ifs
  · exact ⟨rfl, rfl⟩
  · exact ⟨rfl, by simp⟩

theorem call_connect_func_tunnel (ts : TSt) : (call_connect_func ts).tunnel = ts.tunnel :=
  (call_connect_func_spec ts).1

/-- The set-up of a reverse tunnel asks the server to listen and calls the ready
callback; it relays nothing and accepts nothing, and when it succeeds it leaves the
tunnel as it was. -/
theorem setup_reverse_spec (env : Env) (ts : TSt) :
    (∃ l, (remmina_ssh_tunnel_setup_reverse env ts).2.trace = ts.trace ++ l ∧
      ∀ e ∈ l, Event.is_relay_io e = false ∧ Event.is_accept_forward e = false) ∧
    ((remmina_ssh_tunnel_setup_reverse env ts).1 = true →
      (remmina_ssh_tunnel_setup_reverse env ts).2.tunnel = ts.tunnel) := by
  unfold remmina_ssh_tunnel_setup_reverse call_init_func call_disconnect_func
  simp only [TSt.emit, remmina_ssh_tunnel_set_error, setup_returns]
  split_ifs <;> refine ⟨?_, ?_⟩ <;>
    first
      | (intro h; first | rfl | simp at h)
      | (simp only [List.append_assoc]
         exact ⟨_, rfl, by simp [Event.is_relay_io, Event.is_accept_forward]⟩)


/-- The first round of the relay loop of a reverse tunnel when no connection comes. -/
theorem reverse_first_round_none (env : Env) (io_fuel fuel : Nat) (v : LoopVars) (ts : TSt)
    (htype : ts.tunnel.tunnel_type = TunnelType.REMMINA_SSH_TUNNEL_REVERSE)
    (hrun : ts.tunnel.running = true) (hfirst : v.first = true)
    (hacc : env.ssh_channel_accept_forward ts.trace 15000 = none) :
    tunnel_relay_loop env io_fuel (fuel + 1) v ts =
      Step.finish (setup_returns (call_disconnect_func
        (remmina_ssh_tunnel_set_application_error
          (ts.emit (Event.ssh_channel_accept_forward 15000))
          "No response from the server." []))) := by
  have hinc : tunnel_accept_incoming env v ts =
      (none, setup_returns (call_disconnect_func
        (remmina_ssh_tunnel_set_application_error
          (ts.emit (Event.ssh_channel_accept_forward 15000))
          "No response from the server." []))) := by
    unfold tunnel_accept_incoming
    simp [hfirst, htype, hacc]
  unfold tunnel_relay_loop
  simp only [hrun, Bool.true_eq_false, if_false]
  unfold tunnel_relay_iteration
  simp only [htype, or_true, if_true, hinc]

/-- The first round of the relay loop of a reverse tunnel when a connection comes: the
accept, the connect callback when set, the cancel, and from then on relay calls only. -/
theorem reverse_first_round_some (env : Env) (io_fuel fuel : Nat) (v : LoopVars) (ts : TSt)
    (c : Channel) (port : Int)
    (htype : ts.tunnel.tunnel_type = TunnelType.REMMINA_SSH_TUNNEL_REVERSE)
    (hrun : ts.tunnel.running = true) (hfirst : v.first = true)
    (hacc : env.ssh_channel_accept_forward ts.trace 15000 = some (c, port)) :
    ∃ mid rest,
      (tunnel_relay_loop env io_fuel (fuel + 1) v ts).state.trace =
        ts.trace ++ [Event.ssh_channel_accept_forward 15000] ++ mid ++
          [Event.ssh_channel_cancel_forward port] ++ rest ∧
      (∀ e ∈ mid, Event.is_relay_io e = false ∧ Event.is_accept_forward e = false) ∧
      (∀ e ∈ rest, Event.is_relay_call e = true) ∧
      ∀ t, tunnel_relay_loop env io_fuel (fuel + 1) v ts ≠ Step.finish t := by
  have hcf := call_connect_func_spec
    { tunnel := { ts.tunnel with port := port }
      trace := ts.trace ++ [Event.ssh_channel_accept_forward 15000] }
  have hinc : tunnel_accept_incoming env v ts =
      (some { v with first := false, channel := some c },
        (call_connect_func
          { tunnel := { ts.tunnel with port := port }
            trace := ts.trace ++ [Event.ssh_channel_accept_forward 15000] }).emit
          (Event.ssh_channel_cancel_forward port)) := by
    have hne : ¬ ts.tunnel.tunnel_type = TunnelType.REMMINA_SSH_TUNNEL_X11 := by
      rw [htype]; decide
    unfold tunnel_accept_incoming
    simp only [hfirst, hne, hacc, TSt.emit, call_connect_func_tunnel, if_true, if_false]
    rw [if_pos htype]
  generalize hts3 : (call_connect_func
          { tunnel := { ts.tunnel with port := port }
            trace := ts.trace ++ [Event.ssh_channel_accept_forward 15000] }).emit
          (Event.ssh_channel_cancel_forward port) = ts3 at hinc
  have htype3 : ts3.tunnel.tunnel_type = TunnelType.REMMINA_SSH_TUNNEL_REVERSE := by
    rw [← hts3]
    simp only [TSt.emit, hcf.1]
    exact htype
  have htr3 : ts3.trace = ts.trace ++ [Event.ssh_channel_accept_forward 15000] ++
      (if ts.tunnel.connect_func then
        [Event.connect_func { ts.tunnel with port := port }] else []) ++
      [Event.ssh_channel_cancel_forward port] := by
    rw [← hts3]
    simp only [TSt.emit, hcf.2]
  have hatt := tunnel_attach_incoming_relays env { v with first := false, channel := some c } ts3
  have hatf := tunnel_attach_incoming_first env { v with first := false, channel := some c } ts3
  have hround := tunnel_relay_round_relays env io_fuel
    (tunnel_attach_incoming env { v with first := false, channel := some c } ts3).1
    (tunnel_attach_incoming env { v with first := false, channel := some c } ts3).2
  have hrest : Relays ts3 (tunnel_relay_loop env io_fuel (fuel + 1) v ts).state ∧
      ∀ t, tunnel_relay_loop env io_fuel (fuel + 1) v ts ≠ Step.finish t := by
    unfold tunnel_relay_loop
    simp only [hrun, Bool.true_eq_false, if_false]
    unfold tunnel_relay_iteration
    simp only [htype, or_true, if_true, hinc]
    split_ifs
    · exact ⟨hatt, (by intro t h; cases h)⟩
    · generalize tunnel_relay_round env io_fuel
        (tunnel_attach_incoming env { v with first := false, channel := some c } ts3).1
        (tunnel_attach_incoming env { v with first := false, channel := some c } ts3).2
          = step at hround
      cases step with
      | again v1 ts1 =>
        simp only []
        have hl := tunnel_relay_loop_later env io_fuel fuel v1 ts1
          ((hround.1.1.trans hatt.1).trans htype3)
          ((hround.2.2 v1 ts1 rfl).trans hatf)
        exact ⟨relays_trans hatt (relays_trans hround.1 hl.1), hl.2.1⟩
      | leave t => exact ⟨relays_trans hatt hround.1, (by intro t h; cases h)⟩
      | finish t => exact absurd rfl (hround.2.1 t)
      | stall t => exact ⟨relays_trans hatt hround.1, (by intro t h; cases h)⟩
  obtain ⟨⟨_, rest, hrest1, hrest2⟩, hnf⟩ := hrest
  refine ⟨if ts.tunnel.connect_func then
    [Event.connect_func { ts.tunnel with port := port }] else [], rest, ?_, ?_, hrest2, hnf⟩
  · rw [hrest1, htr3]
  · intro e he
    split_ifs at he
    · rw [List.mem_singleton.1 he]
      exact ⟨rfl, rfl⟩
    · cases he

theorem close_all_channels_relays (ts : TSt) :
    Relays ts (remmina_ssh_tunnel_close_all_channels ts) := by
  have hpairs : ∀ e ∈ ((List.range ts.tunnel.num_channels.toNat).map
      (close_pair_events ts.tunnel)).flatten, Event.is_relay_call e = true := by
    intro e he
    obtain ⟨l, hl, hel⟩ := List.mem_flatten.1 he
    obtain ⟨i, _, rfl⟩ := List.mem_map.1 hl
    simp only [close_pair_events, List.mem_cons, List.mem_singleton, List.not_mem_nil,
      or_false] at hel
    rcases hel with h | h | h | h | h <;> rw [h] <;> rfl
  unfold remmina_ssh_tunnel_close_all_channels
  simp only [TSt.emit]
  split
  · refine ⟨rfl, ?_⟩
    simp only [List.append_assoc]
    refine ⟨_, rfl, ?_⟩
    intro e he
    rcases List.mem_append.1 he with h | h
    · exact hpairs e h
    · simp only [List.cons_append, List.nil_append, List.mem_cons, List.mem_singleton,
        List.not_mem_nil, or_false] at h
      rcases h with h | h | h <;> rw [h] <;> rfl
  · exact ⟨rfl, _, rfl, hpairs⟩

/-- C13: in every run of the tunnel worker in reverse topology the accept-forward
primitive is called at most once.  When the set-up succeeds and the accept yields a
channel, the calls of the run are: calls that relay no byte, among them the one
accept; the cancel of the remote listen; and calls none of which is an accept.  When
the accept yields none, the worker returns with the no-response error, `thread`
cleared and the arrays of pairs as they were, and its last call is the teardown
callback when that is set. -/
theorem reverse_tunnel_single_accept (env : Env) (max_display : Int) (fuel io_fuel : Nat)
    (ts : TSt)
    (htype : ts.tunnel.tunnel_type = TunnelType.REMMINA_SSH_TUNNEL_REVERSE) :
    ((new_events ts.trace
      (remmina_ssh_tunnel_main_thread_proc env max_display fuel io_fuel ts).2.trace).filter
        Event.is_accept_forward).length ≤ 1 ∧
    (∀ c port,
      (remmina_ssh_tunnel_setup_reverse env (ts.emit Event.g_get_current_time)).1 = true →
      ts.tunnel.running = true →
      env.ssh_channel_accept_forward
        (remmina_ssh_tunnel_setup_reverse env (ts.emit Event.g_get_current_time)).2.trace 15000
          = some (c, port) →
      ∃ pre rest,
        new_events ts.trace
          (remmina_ssh_tunnel_main_thread_proc env max_display (fuel + 1) io_fuel ts).2.trace =
            pre ++ [Event.ssh_channel_cancel_forward port] ++ rest ∧
        pre.filter Event.is_accept_forward = [Event.ssh_channel_accept_forward 15000] ∧
        (∀ e ∈ pre, Event.is_relay_io e = false) ∧
        ∀ e ∈ rest, Event.is_accept_forward e = false) ∧
    ((remmina_ssh_tunnel_setup_reverse env (ts.emit Event.g_get_current_time)).1 = true →
      ts.tunnel.running = true →
      env.ssh_channel_accept_forward
        (remmina_ssh_tunnel_setup_reverse env (ts.emit Event.g_get_current_time)).2.trace 15000
          = none →
      (remmina_ssh_tunnel_main_thread_proc env max_display (fuel + 1) io_fuel ts).1 = false ∧
      (remmina_ssh_tunnel_main_thread_proc env max_display (fuel + 1) io_fuel ts).2.tunnel.thread
        = 0 ∧
      (remmina_ssh_tunnel_main_thread_proc env max_display (fuel + 1) io_fuel
        ts).2.tunnel.num_channels = ts.tunnel.num_channels ∧
      (remmina_ssh_tunnel_main_thread_proc env max_display (fuel + 1) io_fuel
        ts).2.tunnel.channels = ts.tunnel.channels ∧
      (remmina_ssh_tunnel_main_thread_proc env max_display (fuel + 1) io_fuel
        ts).2.tunnel.sockets = ts.tunnel.sockets ∧
      (remmina_ssh_tunnel_main_thread_proc env max_display (fuel + 1) io_fuel
        ts).2.tunnel.ssh.error = some ⟨"No response from the server.", []⟩ ∧
      (ts.tunnel.disconnect_func = true →
        ∃ pre t,
          (remmina_ssh_tunnel_main_thread_proc env max_display (fuel + 1) io_fuel ts).2.trace =
            ts.trace ++ pre ++ [Event.disconnect_func t])) := by
  obtain ⟨⟨ls, hls, hlsq⟩, hsetup_tunnel⟩ :=
    setup_reverse_spec env (ts.emit Event.g_get_current_time)
  have hsetup : remmina_ssh_tunnel_setup env max_display (ts.emit Event.g_get_current_time) =
      (if (remmina_ssh_tunnel_setup_reverse env (ts.emit Event.g_get_current_time)).1
        then some none else none,
       (remmina_ssh_tunnel_setup_reverse env (ts.emit Event.g_get_current_time)).2) := by
    unfold remmina_ssh_tunnel_setup
    have : (ts.emit Event.g_get_current_time).tunnel.tunnel_type =
        TunnelType.REMMINA_SSH_TUNNEL_REVERSE := htype
    rw [this]
  generalize hS : remmina_ssh_tunnel_setup_reverse env (ts.emit Event.g_get_current_time) = S
    at hls hsetup_tunnel hsetup
  obtain ⟨ok, ts1⟩ := S
  simp only [TSt.emit] at hls hsetup_tunnel
  obtain ⟨ts2, hts2, htr2, hty2, hrn2, hnum2, hch2, hso2, hdf2⟩ :
      ∃ ts2 : TSt, ts2 = { ts1 with tunnel := { ts1.tunnel with buffer_len := 10240 } } ∧
        ts2.trace = ts1.trace ∧ ts2.tunnel.tunnel_type = ts1.tunnel.tunnel_type ∧
        ts2.tunnel.running = ts1.tunnel.running ∧
        ts2.tunnel.num_channels = ts1.tunnel.num_channels ∧
        ts2.tunnel.channels = ts1.tunnel.channels ∧
        ts2.tunnel.sockets = ts1.tunnel.sockets ∧
        ts2.tunnel.disconnect_func = ts1.tunnel.disconnect_func :=
    ⟨_, rfl, rfl, rfl, rfl, rfl, rfl, rfl, rfl⟩
  have hmain : ∀ f, remmina_ssh_tunnel_main_thread_proc env max_display f io_fuel ts =
      if ok then
        tunnel_worker_end (tunnel_relay_loop env io_fuel f
            { first := true, channel := none, t2 := env.g_get_current_time ts.trace } ts2)
      else (false, ts1) := by
    intro f
    rw [hts2]
    unfold remmina_ssh_tunnel_main_thread_proc
    simp only [hsetup]
    cases ok <;> rfl
  clear hts2
  have hpre_accept : ∀ l : List Event,
      (∀ e ∈ l, Event.is_relay_io e = false ∧ Event.is_accept_forward e = false) →
      l.filter Event.is_accept_forward = [] := by
    intro l hl
    rw [List.filter_eq_nil_iff]
    intro e he
    rw [(hl e he).2]
    simp
  have hls0 : ∀ e ∈ Event.g_get_current_time :: ls,
      Event.is_relay_io e = false ∧ Event.is_accept_forward e = false := by
    intro e he
    rcases List.mem_cons.1 he with h | h
    · rw [h]; exact ⟨rfl, rfl⟩
    · exact hlsq e h
  have htr1 : ts1.trace = ts.trace ++ (Event.g_get_current_time :: ls) := by
    rw [hls]; simp
  have hend : ∀ st : Step, RelayCalls st.state.trace (tunnel_worker_end st).2.trace := by
    intro st
    cases st with
    | again v t => exact relayCalls_refl _
    | stall t => exact relayCalls_refl _
    | finish t => exact relayCalls_refl _
    | leave t => exact (close_all_channels_relays t).2
  cases ok with
  | false =>
    refine ⟨?_, (fun _ _ h => nomatch h), (fun h => nomatch h)⟩
    rw [hmain]
    simp only [Bool.false_eq_true, if_false]
    rw [htr1, new_events_append, hpre_accept _ hls0]
    exact Nat.zero_le _
  | true =>
    have htun : ts1.tunnel = ts.tunnel := hsetup_tunnel rfl
    have htype2 : ts2.tunnel.tunnel_type = TunnelType.REMMINA_SSH_TUNNEL_REVERSE := by
      rw [hty2, htun]; exact htype
    have hrun2 : ts.tunnel.running = true → ts2.tunnel.running = true := by
      intro h
      rw [hrn2, htun]; exact h
    have hsome : ∀ f c port, ts.tunnel.running = true →
        env.ssh_channel_accept_forward ts2.trace 15000 = some (c, port) →
        ∃ pre rest,
          new_events ts.trace
            (remmina_ssh_tunnel_main_thread_proc env max_display (f + 1) io_fuel ts).2.trace =
              pre ++ [Event.ssh_channel_cancel_forward port] ++ rest ∧
          pre.filter Event.is_accept_forward = [Event.ssh_channel_accept_forward 15000] ∧
          (∀ e ∈ pre, Event.is_relay_io e = false) ∧
          ∀ e ∈ rest, Event.is_relay_call e = true := by
      intro f c port hrun hacc
      obtain ⟨mid, rest, htr, hmid, hrest, _⟩ := reverse_first_round_some env io_fuel f
        { first := true, channel := none, t2 := env.g_get_current_time ts.trace }
        ts2 c port htype2
        (hrun2 hrun) rfl hacc
      obtain ⟨l2, hl2, hl2q⟩ := hend (tunnel_relay_loop env io_fuel (f + 1)
        { first := true, channel := none, t2 := env.g_get_current_time ts.trace } ts2)
      refine ⟨(Event.g_get_current_time :: ls) ++ [Event.ssh_channel_accept_forward 15000] ++ mid,
        rest ++ l2, ?_, ?_, ?_, ?_⟩
      · rw [hmain]
        simp only [if_true]
        rw [hl2, htr]
        simp only [htr2, htr1, List.append_assoc]
        rw [new_events_append]
      · rw [List.filter_append, List.filter_append, hpre_accept _ hls0,
          hpre_accept mid hmid]
        rfl
      · intro e he
        rcases List.mem_append.1 he with h | h
        · rcases List.mem_append.1 h with h | h
          · exact (hls0 e h).1
          · rw [List.mem_singleton.1 h]; rfl
        · exact (hmid e h).1
      · intro e he
        rcases List.mem_append.1 he with h | h
        · exact hrest e h
        · exact hl2q e h
    have hnone : ∀ f, ts.tunnel.running = true →
        env.ssh_channel_accept_forward ts2.trace 15000 = none →
        remmina_ssh_tunnel_main_thread_proc env max_display (f + 1) io_fuel ts =
          (false, setup_returns (call_disconnect_func
            (remmina_ssh_tunnel_set_application_error
              (ts2.emit (Event.ssh_channel_accept_forward 15000))
              "No response from the server." []))) := by
      intro f hrun hacc
      rw [hmain]
      simp only [if_true]
      rw [reverse_first_round_none env io_fuel f _ _ htype2 (hrun2 hrun) rfl hacc]
      rfl
    refine ⟨?_, ?_, ?_⟩
    · cases fuel with
      | zero =>
        rw [hmain]
        simp only [if_true, tunnel_relay_loop, tunnel_worker_end]
        rw [htr2, htr1, new_events_append, hpre_accept _ hls0]
        exact Nat.zero_le _
      | succ f =>
        by_cases hrun : ts.tunnel.running = true
        · cases hacc : env.ssh_channel_accept_forward ts2.trace 15000 with
          | none =>
            rw [hnone f hrun hacc]
            simp only [setup_returns, (call_disconnect_func_spec _).2,
              remmina_ssh_tunnel_set_application_error, TSt.emit, htr2, htr1,
              List.append_assoc]
            rw [new_events_append]
            simp only [List.filter_append, hpre_accept _ hls0, List.nil_append]
            split_ifs <;> simp [Event.is_accept_forward]
          | some x =>
            obtain ⟨c, port⟩ := x
            obtain ⟨pre, rest, htr, hpre, _, hrest⟩ := hsome f c port hrun hacc
            rw [htr, List.filter_append, List.filter_append, hpre,
              relay_calls_filter_accept rest hrest]
            simp [Event.is_accept_forward]
        · have hrunf : ts2.tunnel.running = false := by
            rw [hrn2, htun]
            simpa using hrun
          rw [hmain]
          simp only [if_true, tunnel_relay_loop, hrunf, tunnel_worker_end]
          obtain ⟨l2, hl2, hl2q⟩ := (close_all_channels_relays ts2).2
          rw [hl2]
          simp only [htr2, htr1, List.append_assoc]
          rw [new_events_append, List.filter_append, hpre_accept _ hls0,
            relay_calls_filter_accept l2 hl2q]
          exact Nat.zero_le _
    · intro c port _ hrun hacc
      rw [← htr2] at hacc
      obtain ⟨pre, rest, htr, hpre, hio, hrest⟩ := hsome fuel c port hrun hacc
      exact ⟨pre, rest, htr, hpre, hio,
        fun e he => relay_call_not_accept_forward e (hrest e he)⟩
    · intro _ hrun hacc
      rw [← htr2] at hacc
      rw [hnone fuel hrun hacc]
      refine ⟨rfl, rfl, ?_, ?_, ?_, ?_, ?_⟩
      · simp only [setup_returns, (call_disconnect_func_spec _).1,
          remmina_ssh_tunnel_set_application_error, TSt.emit, hnum2, htun]
      · simp only [setup_returns, (call_disconnect_func_spec _).1,
          remmina_ssh_tunnel_set_application_error, TSt.emit, hch2, htun]
      · simp only [setup_returns, (call_disconnect_func_spec _).1,
          remmina_ssh_tunnel_set_application_error, TSt.emit, hso2, htun]
      · simp only [setup_returns, (call_disconnect_func_spec _).1,
          remmina_ssh_tunnel_set_application_error, TSt.emit]
      · intro hd
        rw [← htun, ← hdf2] at hd
        refine ⟨(Event.g_get_current_time :: ls) ++ [Event.ssh_channel_accept_forward 15000],
          (remmina_ssh_tunnel_set_application_error
            (ts2.emit (Event.ssh_channel_accept_forward 15000))
            "No response from the server." []).tunnel, ?_⟩
        have hd2 : (remmina_ssh_tunnel_set_application_error
            (ts2.emit (Event.ssh_channel_accept_forward 15000))
            "No response from the server." []).tunnel.disconnect_func = true := hd
        simp only [setup_returns, (call_disconnect_func_spec _).2,
          hd2, if_true]
        simp only [remmina_ssh_tunnel_set_application_error, TSt.emit, htr2, htr1,
          List.append_assoc]

/-- Witness of C13: a reverse tunnel to which one connection comes. -/
theorem reverse_tunnel_single_accept_witness :
    ((new_events fresh_reverse_tunnel.trace
      (remmina_ssh_tunnel_main_thread_proc env_reverse_accepts 99 3 3
        fresh_reverse_tunnel).2.trace).filter Event.is_accept_forward).length ≤ 1 :=
  (reverse_tunnel_single_accept env_reverse_accepts 99 3 3 fresh_reverse_tunnel rfl).1

/-- C16 as stated is false: the tunnel worker makes its transport calls without taking
the mutex.  In this run of a reverse tunnel it asks the server to listen, accepts and
cancels the forward and closes the channel, and the trace holds no mutex call. -/
theorem tunnel_worker_takes_no_lock_counterexample :
    ¬ ∀ (env : Env) (max_display : Int) (fuel io_fuel : Nat) (ts : TSt),
        ∃ held, lock_discipline false
          (new_events ts.trace
            (remmina_ssh_tunnel_main_thread_proc env max_display fuel io_fuel ts).2.trace) =
              some held := by
  intro h
  obtain ⟨held, hh⟩ := h env_reverse_accepts 99 3 3 fresh_reverse_tunnel
  have hrun : lock_discipline false
      (new_events fresh_reverse_tunnel.trace
        (remmina_ssh_tunnel_main_thread_proc env_reverse_accepts 99 3 3
          fresh_reverse_tunnel).2.trace) = none := by
    decide
  rw [hrun] at hh
  cases hh

/-! ### The relay passes handle the pairs one by one -/

theorem remove_channel_frame (ts : TSt) (k n : Nat)
    (hk : ts.tunnel.num_channels = (k : Int)) (hn : n < k)
    (hch : k ≤ ts.tunnel.channels.length) (hso : k ≤ ts.tunnel.sockets.length)
    (hbu : k ≤ ts.tunnel.socketbuffers.length) :
    (remmina_ssh_tunnel_remove_channel ts n).tunnel.num_channels = ((k - 1 : Nat) : Int) ∧
    (n < k - 1 →
      pair_at (remmina_ssh_tunnel_remove_channel ts n).tunnel n = pair_at ts.tunnel (k - 1)) ∧
    (∀ i, i < k - 1 → i ≠ n →
      pair_at (remmina_ssh_tunnel_remove_channel ts n).tunnel i = pair_at ts.tunnel i) ∧
    (remmina_ssh_tunnel_remove_channel ts n).trace =
      ts.trace ++ remove_pair_events (pair_at ts.tunnel n) ∧
    (remmina_ssh_tunnel_remove_channel ts n).tunnel.channels.length =
      ts.tunnel.channels.length ∧
    (remmina_ssh_tunnel_remove_channel ts n).tunnel.sockets.length =
      ts.tunnel.sockets.length ∧
    (remmina_ssh_tunnel_remove_channel ts n).tunnel.socketbuffers.length =
      ts.tunnel.socketbuffers.length ∧
    (remmina_ssh_tunnel_remove_channel ts n).tunnel.running = ts.tunnel.running ∧
    (remmina_ssh_tunnel_remove_channel ts n).tunnel.ssh = ts.tunnel.ssh := by
  have hlast : (ts.tunnel.num_channels - 1).toNat = k - 1 := by omega
  refine ⟨?_, ?_, ?_, ?_, ?_, ?_, ?_, rfl, rfl⟩
  · simp only [remmina_ssh_tunnel_remove_channel, TSt.emit, hk]
    omega
  · intro hlt
    have hne : n ≠ k - 1 := by omega
    simp only [pair_at, remmina_ssh_tunnel_remove_channel, TSt.emit, hlast]
    rw [getD_set_ne _ _ _ _ _ (Ne.symm hne), getD_set_self _ _ _ _ (by omega),
      getD_set_self _ _ _ _ (by omega), getD_set_self _ _ _ _ (by omega)]
  · intro i hi hin
    have hne : k - 1 ≠ i := by omega
    simp only [pair_at, remmina_ssh_tunnel_remove_channel, TSt.emit, hlast]
    rw [getD_set_ne _ _ _ _ _ hne, getD_set_ne _ _ _ _ _ (Ne.symm hin),
      getD_set_ne _ _ _ _ _ (Ne.symm hin), getD_set_ne _ _ _ _ _ (Ne.symm hin)]
  · simp [remmina_ssh_tunnel_remove_channel, TSt.emit, pair_at, remove_pair_events]
  · simp [remmina_ssh_tunnel_remove_channel, TSt.emit]
  · simp [remmina_ssh_tunnel_remove_channel, TSt.emit]
  · simp [remmina_ssh_tunnel_remove_channel, TSt.emit]

/-- The pairs from index `i` on after the pair at `i` has been removed are, up to
order, the pairs from `i + 1` on before. -/
theorem remove_channel_pending (ts : TSt) (k i : Nat)
    (hk : ts.tunnel.num_channels = (k : Int)) (hi : i < k)
    (hch : k ≤ ts.tunnel.channels.length) (hso : k ≤ ts.tunnel.sockets.length)
    (hbu : k ≤ ts.tunnel.socketbuffers.length) :
    ((List.range' i (k - 1 - i)).map
      (pair_at (remmina_ssh_tunnel_remove_channel ts i).tunnel)).Perm
      ((List.range' (i + 1) (k - i - 1)).map (pair_at ts.tunnel)) ∧
    (List.range i).map (pair_at (remmina_ssh_tunnel_remove_channel ts i).tunnel) =
      (List.range i).map (pair_at ts.tunnel) := by
  obtain ⟨_, hat_n, hat_other, _⟩ := remove_channel_frame ts k i hk hi hch hso hbu
  constructor
  · by_cases hlast : i = k - 1
    · have h1 : k - 1 - i = 0 := by omega
      have h2 : k - i - 1 = 0 := by omega
      rw [h1, h2]
      exact List.Perm.refl _
    · have hlt : i < k - 1 := by omega
      have h1 : k - 1 - i = (k - 2 - i) + 1 := by omega
      have h2 : k - i - 1 = (k - 2 - i) + 1 := by omega
      rw [h1, List.range'_succ, h2, List.range'_concat]
      simp only [List.map_cons, List.map_append, List.map_nil, Nat.one_mul]
      rw [hat_n hlt]
      have hmid : (List.range' (i + 1) (k - 2 - i)).map
          (pair_at (remmina_ssh_tunnel_remove_channel ts i).tunnel) =
          (List.range' (i + 1) (k - 2 - i)).map (pair_at ts.tunnel) := by
        apply List.map_congr_left
        intro j hj
        rw [List.mem_range'_1] at hj
        exact hat_other j (by omega) (by omega)
      rw [hmid]
      have hidx : i + 1 + (k - 2 - i) = k - 1 := by omega
      rw [hidx]
      exact (List.perm_append_singleton _ _).symm
  · apply List.map_congr_left
    intro j hj
    rw [List.mem_range] at hj
    exact hat_other j (by omega) (by omega)

/-- Writing the buffer a round left for the pair at `i` back to its slot changes that
pair's buffer and nothing else. -/
theorem relay_pair_done_pair_at (ts : TSt) (i : Nat) (out : PairOut)
    (hbu : i < ts.tunnel.socketbuffers.length) :
    pair_at (relay_pair_done ts i out).tunnel i
      = ((pair_at ts.tunnel i).1, (pair_at ts.tunnel i).2.1, out.buffer) ∧
    ∀ j, j ≠ i → pair_at (relay_pair_done ts i out).tunnel j = pair_at ts.tunnel j := by
  constructor
  · simp only [pair_at, relay_pair_done]
    rw [getD_set_self _ _ _ _ hbu]
  · intro j hj
    simp only [pair_at, relay_pair_done]
    rw [getD_set_ne _ _ _ _ _ (Ne.symm hj)]

/-- A relay pass is a walk over the pairs in some order, each handled by the body
alone. -/
theorem relay_pass_loop_visit (body : Pair → Option ErrorText → List Event → PairOut) :
    ∀ (fuel i k : Nat) (ts : TSt),
      ts.tunnel.num_channels = (k : Int) → ts.tunnel.running = true →
      k ≤ ts.tunnel.channels.length → k ≤ ts.tunnel.sockets.length →
      k ≤ ts.tunnel.socketbuffers.length → i ≤ k → k - i < fuel →
      ∃ order, order.Perm ((List.range' i (k - i)).map (pair_at ts.tunnel)) ∧
        (relay_pass_loop body fuel i ts).1 =
          (visit_pairs body order ts.tunnel.ssh.error ts.trace).stalled ∧
        (live_pairs (relay_pass_loop body fuel i ts).2.tunnel).Perm
          ((List.range i).map (pair_at ts.tunnel) ++
            (visit_pairs body order ts.tunnel.ssh.error ts.trace).survivors) ∧
        (relay_pass_loop body fuel i ts).2.trace =
          (visit_pairs body order ts.tunnel.ssh.error ts.trace).trace ∧
        (relay_pass_loop body fuel i ts).2.tunnel.ssh.error =
          (visit_pairs body order ts.tunnel.ssh.error ts.trace).error ∧
        (relay_pass_loop body fuel i ts).2.tunnel.running = true := by
  intro fuel
  induction fuel with
  | zero =>
    intro i k ts _ _ _ _ _ _ hfuel
    exact absurd hfuel (Nat.not_lt_zero _)
  | succ f ih =>
    intro i k ts hk hrun hch hso hbu hik hfuel
    have hknat : ts.tunnel.num_channels.toNat = k := by omega
    by_cases hlt : i < k
    · have hcond : ts.tunnel.running = true ∧ (i : Int) < ts.tunnel.num_channels :=
        ⟨hrun, by rw [hk]; exact_mod_cast hlt⟩
      have hpend : (List.range' i (k - i)).map (pair_at ts.tunnel) =
          pair_at ts.tunnel i :: (List.range' (i + 1) (k - i - 1)).map (pair_at ts.tunnel) := by
        have h1 : k - i = (k - i - 1) + 1 := by omega
        rw [h1, List.range'_succ]
        simp
      obtain ⟨hslot_i, hslot_other⟩ := relay_pair_done_pair_at ts i
        (body (pair_at ts.tunnel i) ts.tunnel.ssh.error ts.trace) (by omega)
      unfold relay_pass_loop
      rw [if_pos hcond]
      simp only []
      generalize hout : body (pair_at ts.tunnel i) ts.tunnel.ssh.error ts.trace = out
        at hslot_i hslot_other
      generalize hts1 : relay_pair_done ts i out = ts1
      have hslot_i1 : pair_at ts1.tunnel i =
          ((pair_at ts.tunnel i).1, (pair_at ts.tunnel i).2.1, out.buffer) := by
        rw [← hts1]; exact hslot_i
      have hslot_o1 : ∀ j, j ≠ i → pair_at ts1.tunnel j = pair_at ts.tunnel j := by
        rw [← hts1]; exact hslot_other
      have hk1 : ts1.tunnel.num_channels = (k : Int) := by rw [← hts1]; exact hk
      have hrun1 : ts1.tunnel.running = true := by rw [← hts1]; exact hrun
      have hch1 : k ≤ ts1.tunnel.channels.length := by rw [← hts1]; exact hch
      have hso1 : k ≤ ts1.tunnel.sockets.length := by rw [← hts1]; exact hso
      have hbu1 : k ≤ ts1.tunnel.socketbuffers.length := by
        rw [← hts1]; simp only [relay_pair_done, List.length_set]; exact hbu
      have htr1 : ts1.trace = out.trace := by rw [← hts1]; rfl
      have herr1 : ts1.tunnel.ssh.error = out.error := by rw [← hts1]; rfl
      have hdone1 : (List.range i).map (pair_at ts1.tunnel) =
          (List.range i).map (pair_at ts.tunnel) := by
        apply List.map_congr_left
        intro j hj
        rw [List.mem_range] at hj
        exact hslot_o1 j (by omega)
      have hrest1 : (List.range' (i + 1) (k - i - 1)).map (pair_at ts1.tunnel) =
          (List.range' (i + 1) (k - i - 1)).map (pair_at ts.tunnel) := by
        apply List.map_congr_left
        intro j hj
        rw [List.mem_range'_1] at hj
        exact hslot_o1 j (by omega)
      have hlive1 : live_pairs ts1.tunnel =
          (List.range i).map (pair_at ts.tunnel) ++
            ((pair_at ts.tunnel i).1, (pair_at ts.tunnel i).2.1, out.buffer) ::
              (List.range' (i + 1) (k - i - 1)).map (pair_at ts.tunnel) := by
        unfold live_pairs
        have hk1n : ts1.tunnel.num_channels.toNat = k := by omega
        have hsplit : List.range k = List.range i ++ i :: List.range' (i + 1) (k - i - 1) := by
          obtain ⟨m, hm⟩ : ∃ m, k - i = m + 1 := ⟨k - i - 1, by omega⟩
          have hm1 : k - i - 1 = m := by omega
          have h2 : k = m + 1 + i := by omega
          rw [hm1, h2, List.range_eq_range', List.range_eq_range', ← List.range'_append_1,
            Nat.zero_add, List.range'_succ]
        rw [hk1n, hsplit, List.map_append, List.map_cons, hdone1, hrest1, hslot_i1]
      by_cases hst : out.stalled = true
      · rw [if_pos hst]
        refine ⟨pair_at ts.tunnel i ::
          (List.range' (i + 1) (k - i - 1)).map (pair_at ts.tunnel), by rw [hpend], ?_⟩
        simp only [visit_pairs, hout, hst, if_true]
        exact ⟨trivial, by rw [hlive1], htr1, herr1, hrun1⟩
      · rw [if_neg hst]
        by_cases hdis : out.disconnected = true
        · rw [if_pos hdis]
          obtain ⟨hnum', _, _, htr', hch', hso', hbu', hrun', hssh'⟩ :=
            remove_channel_frame ts1 k i hk1 hlt hch1 hso1 hbu1
          obtain ⟨hpend', hdone'⟩ := remove_channel_pending ts1 k i hk1 hlt hch1 hso1 hbu1
          obtain ⟨order', hperm', hstall', hlive', htrace', herror', hrunning'⟩ :=
            ih i (k - 1) (remmina_ssh_tunnel_remove_channel ts1 i) hnum'
              (by rw [hrun']; exact hrun1) (by omega) (by omega) (by omega) (by omega)
              (by omega)
          refine ⟨pair_at ts.tunnel i :: order', ?_, ?_⟩
          · rw [hpend]
            exact List.Perm.cons _ (hperm'.trans (hpend'.trans (by rw [hrest1])))
          · simp only [visit_pairs, hout, hst, hdis, if_true, if_false, Bool.false_eq_true]
            rw [hssh', htr', herr1, htr1, hslot_i1] at hstall' hlive' htrace' herror'
            rw [hdone', hdone1] at hlive'
            exact ⟨hstall', hlive', htrace', herror', hrunning'⟩
        · rw [if_neg hdis]
          obtain ⟨order', hperm', hstall', hlive', htrace', herror', hrunning'⟩ :=
            ih (i + 1) k ts1 hk1 hrun1 hch1 hso1 hbu1 (by omega) (by omega)
          refine ⟨pair_at ts.tunnel i :: order', ?_, ?_⟩
          · rw [hpend]
            have h1 : k - (i + 1) = k - i - 1 := by omega
            rw [h1, hrest1] at hperm'
            exact List.Perm.cons _ hperm'
          · simp only [visit_pairs, hout, hst, hdis, if_false, Bool.false_eq_true]
            rw [herr1, htr1] at hstall' hlive' htrace' herror'
            refine ⟨hstall', ?_, htrace', herror', hrunning'⟩
            rw [List.range_succ, List.map_append, List.map_cons, List.map_nil, hdone1,
              hslot_i1, List.append_assoc] at hlive'
            exact hlive'
    · have hcond : ¬ (ts.tunnel.running = true ∧ (i : Int) < ts.tunnel.num_channels) := by
        rw [hk]
        intro h
        exact hlt (by exact_mod_cast h.2)
      unfold relay_pass_loop
      rw [if_neg hcond]
      have hik' : k - i = 0 := by omega
      have hi : i = k := by omega
      refine ⟨[], by rw [hik']; exact List.Perm.refl _, ?_⟩
      simp only [visit_pairs, List.append_nil]
      refine ⟨trivial, ?_, trivial, trivial, hrun⟩
      unfold live_pairs
      rw [hknat, hi]

theorem chan_to_sock_pair_not_stalled (env : Env) (running : Bool) (p : Pair)
    (err : Option ErrorText) (tr : List Event) :
    (chan_to_sock_pair env running p err tr).stalled = false := by
  have hpoll : (chan_to_sock_poll env p err tr).stalled = false := by
    unfold chan_to_sock_poll
    split
    · rfl
    · simp only []
      split_ifs <;> rfl
  unfold chan_to_sock_pair
  simp only []
  split
  · split_ifs <;> first | exact hpoll | rfl
  · exact hpoll

theorem visit_pairs_not_stalled (body : Pair → Option ErrorText → List Event → PairOut)
    (hbody : ∀ p err tr, (body p err tr).stalled = false) (order : List Pair)
    (err : Option ErrorText) (tr : List Event) :
    (visit_pairs body order err tr).stalled = false := by
  induction order generalizing err tr with
  | nil => rfl
  | cons p rest ih =>
    unfold visit_pairs
    simp only [hbody, Bool.false_eq_true, if_false]
    split_ifs
    · exact ih _ _
    · exact ih _ _

theorem relay_pass_visit (body : Pair → Option ErrorText → List Event → PairOut) (ts : TSt)
    (k : Nat) (hk : ts.tunnel.num_channels = (k : Int)) (hrun : ts.tunnel.running = true)
    (hch : k ≤ ts.tunnel.channels.length) (hso : k ≤ ts.tunnel.sockets.length)
    (hbu : k ≤ ts.tunnel.socketbuffers.length) :
    ∃ order, order.Perm (live_pairs ts.tunnel) ∧
      (relay_pass body ts).1 =
        (visit_pairs body order ts.tunnel.ssh.error ts.trace).stalled ∧
      (live_pairs (relay_pass body ts).2.tunnel).Perm
        (visit_pairs body order ts.tunnel.ssh.error ts.trace).survivors ∧
      (relay_pass body ts).2.trace =
        (visit_pairs body order ts.tunnel.ssh.error ts.trace).trace ∧
      (relay_pass body ts).2.tunnel.ssh.error =
        (visit_pairs body order ts.tunnel.ssh.error ts.trace).error ∧
      (relay_pass body ts).2.tunnel.running = true := by
  have hknat : ts.tunnel.num_channels.toNat = k := by omega
  obtain ⟨order, hperm, h1, h2, h3, h4, h5⟩ :=
    relay_pass_loop_visit body (k + 1) 0 k ts hk hrun hch hso hbu (Nat.zero_le _) (by omega)
  refine ⟨order, ?_, ?_, ?_, ?_, ?_, ?_⟩
  · unfold live_pairs
    rw [hknat, List.range_eq_range']
    exact hperm
  · unfold relay_pass
    rw [hknat]
    exact h1
  · unfold relay_pass
    rw [hknat]
    simpa using h2
  · unfold relay_pass
    rw [hknat]
    exact h3
  · unfold relay_pass
    rw [hknat]
    exact h4
  · unfold relay_pass
    rw [hknat]
    exact h5

/-- C11: pair isolation in the two relay passes.  For a running tunnel whose `k` live
pairs are held in the three arrays, each pass is a walk over the live pairs in some
order in which every pair is handled by the body of the pass alone: a pair flagged
disconnected is closed and removed, and every other pair stays live with its channel,
its socket and the pending buffer its own round left; only the last-error and the
trace pass from one pair to the next.  The pass ends, the running flag stays set, and
this holds whichever and however many pairs are flagged.  The first conjunct is the
pass from the sockets to the channels, the second the pass from the channels to the
sockets. -/
theorem relay_pass_isolates_pairs (env : Env) (ready : List Int) (io_fuel : Nat) (ts : TSt)
    (k : Nat) (hk : ts.tunnel.num_channels = (k : Int)) (hrun : ts.tunnel.running = true)
    (hch : k ≤ ts.tunnel.channels.length) (hso : k ≤ ts.tunnel.sockets.length)
    (hbu : k ≤ ts.tunnel.socketbuffers.length) :
    (∃ order, order.Perm (live_pairs ts.tunnel) ∧
      (relay_pass (sock_to_chan_pair env ready ts.tunnel.buffer_len io_fuel) ts).1 =
        (visit_pairs (sock_to_chan_pair env ready ts.tunnel.buffer_len io_fuel) order
          ts.tunnel.ssh.error ts.trace).stalled ∧
      (live_pairs
        (relay_pass (sock_to_chan_pair env ready ts.tunnel.buffer_len io_fuel) ts).2.tunnel).Perm
        (visit_pairs (sock_to_chan_pair env ready ts.tunnel.buffer_len io_fuel) order
          ts.tunnel.ssh.error ts.trace).survivors ∧
      (relay_pass (sock_to_chan_pair env ready ts.tunnel.buffer_len io_fuel) ts).2.trace =
        (visit_pairs (sock_to_chan_pair env ready ts.tunnel.buffer_len io_fuel) order
          ts.tunnel.ssh.error ts.trace).trace ∧
      (relay_pass (sock_to_chan_pair env ready ts.tunnel.buffer_len io_fuel)
        ts).2.tunnel.running = true) ∧
    (∃ order, order.Perm (live_pairs ts.tunnel) ∧
      (relay_pass (chan_to_sock_pair env ts.tunnel.running) ts).1 = false ∧
      (visit_pairs (chan_to_sock_pair env ts.tunnel.running) order
          ts.tunnel.ssh.error ts.trace).stalled = false ∧
      (live_pairs (relay_pass (chan_to_sock_pair env ts.tunnel.running) ts).2.tunnel).Perm
        (visit_pairs (chan_to_sock_pair env ts.tunnel.running) order
          ts.tunnel.ssh.error ts.trace).survivors ∧
      (relay_pass (chan_to_sock_pair env ts.tunnel.running) ts).2.trace =
        (visit_pairs (chan_to_sock_pair env ts.tunnel.running) order
          ts.tunnel.ssh.error ts.trace).trace ∧
      (relay_pass (chan_to_sock_pair env ts.tunnel.running) ts).2.tunnel.running = true) := by
  constructor
  · obtain ⟨order, h0, h1, h2, h3, _, h5⟩ := relay_pass_visit
      (sock_to_chan_pair env ready ts.tunnel.buffer_len io_fuel) ts k hk hrun hch hso hbu
    exact ⟨order, h0, h1, h2, h3, h5⟩
  · obtain ⟨order, h0, h1, h2, h3, _, h5⟩ := relay_pass_visit
      (chan_to_sock_pair env ts.tunnel.running) ts k hk hrun hch hso hbu
    have hns := visit_pairs_not_stalled (chan_to_sock_pair env ts.tunnel.running)
      (chan_to_sock_pair_not_stalled env ts.tunnel.running) order ts.tunnel.ssh.error ts.trace
    exact ⟨order, h0, h1.trans hns, hns, h2, h3, h5⟩

/-- Witness of C11: three live pairs, of which the second has its socket at end of
stream; the pass from the sockets to the channels. -/
theorem relay_pass_isolates_pairs_witness :
    ∃ order, order.Perm (live_pairs three_pair_tunnel.tunnel) ∧
      (relay_pass (sock_to_chan_pair env_middle_socket_closed [12]
        three_pair_tunnel.tunnel.buffer_len 4) three_pair_tunnel).1 =
        (visit_pairs (sock_to_chan_pair env_middle_socket_closed [12]
          three_pair_tunnel.tunnel.buffer_len 4) order three_pair_tunnel.tunnel.ssh.error
            three_pair_tunnel.trace).stalled ∧
      (live_pairs (relay_pass (sock_to_chan_pair env_middle_socket_closed [12]
        three_pair_tunnel.tunnel.buffer_len 4) three_pair_tunnel).2.tunnel).Perm
        (visit_pairs (sock_to_chan_pair env_middle_socket_closed [12]
          three_pair_tunnel.tunnel.buffer_len 4) order three_pair_tunnel.tunnel.ssh.error
            three_pair_tunnel.trace).survivors ∧
      (relay_pass (sock_to_chan_pair env_middle_socket_closed [12]
        three_pair_tunnel.tunnel.buffer_len 4) three_pair_tunnel).2.trace =
        (visit_pairs (sock_to_chan_pair env_middle_socket_closed [12]
          three_pair_tunnel.tunnel.buffer_len 4) order three_pair_tunnel.tunnel.ssh.error
            three_pair_tunnel.trace).trace ∧
      (relay_pass (sock_to_chan_pair env_middle_socket_closed [12]
        three_pair_tunnel.tunnel.buffer_len 4) three_pair_tunnel).2.tunnel.running = true :=
  (relay_pass_isolates_pairs env_middle_socket_closed [12] 4 three_pair_tunnel 3 rfl rfl
    (by decide) (by decide) (by decide)).1

/-! ## Theorems: identity files and the dispatch on the auth method -/

theorem find_identity_from_find (env : Env) (home : String) (is_file : String → Bool)
    (hhome : ∀ h, env.g_get_home_dir h = home)
    (hfile : ∀ h p, env.g_file_test h p = is_file p)
    (ids : List String) (hrel : ∀ id ∈ ids, id.data.head? ≠ some '/') (st : St) :
    (remmina_ssh_find_identity_from env ids st).1 =
      (ids.map (fun id => home ++ "/" ++ id)).find? is_file := by
  induction ids generalizing st with
  | nil => rfl
  | cons id rest ih =>
    have hid : ¬ id.data.head? = some '/' := hrel id (List.mem_cons_self _ _)
    unfold remmina_ssh_find_identity_from
    simp only [remmina_ssh_identity_path, hid, if_false, hhome, hfile,
      List.map_cons, List.find?_cons]
    cases hf : is_file (home ++ "/" ++ id) with
    | true => simp
    | false =>
      simp only [Bool.false_eq_true, if_false]
      exact ih (fun x hx => hrel x (List.mem_cons_of_mem _ hx)) _

/-- C21: with the home directory and the files unchanged during the call,
`remmina_ssh_find_identity` returns the path under the home directory of the first of
`.ssh/id_ed25519`, `.ssh/id_rsa`, `.ssh/id_dsa`, `.ssh/identity`, in this order, for
which the file test succeeds, and nothing when it succeeds for none.  The private-key
step of `remmina_ssh_init_from_file` takes a configured name as it is, resolved by
`remmina_ssh_identity_path`, without testing any file; only without a configured
name does it take what `remmina_ssh_find_identity` returns. -/
theorem find_identity_first_existing (env : Env) (st : St) (home : String)
    (is_file : String → Bool)
    (hhome : ∀ h, env.g_get_home_dir h = home)
    (hfile : ∀ h p, env.g_file_test h p = is_file p) :
    (remmina_ssh_find_identity env st).1 =
      ([".ssh/id_ed25519", ".ssh/id_rsa", ".ssh/id_dsa", ".ssh/identity"].map
        (fun id => home ++ "/" ++ id)).find? is_file ∧
    ((remmina_ssh_find_identity env st).1 = none ↔
      ∀ id ∈ [".ssh/id_ed25519", ".ssh/id_rsa", ".ssh/id_dsa", ".ssh/identity"],
        is_file (home ++ "/" ++ id) = false) ∧
    (∀ k, (remmina_ssh_init_from_file_privkey env (some k) st).1 =
        some (remmina_ssh_identity_path env st k).1 ∧
      ∀ e ∈ new_events st.trace (remmina_ssh_init_from_file_privkey env (some k) st).2.trace,
        e = Event.g_get_home_dir) ∧
    (remmina_ssh_init_from_file_privkey env none st).1 =
      (remmina_ssh_find_identity env st).1.map
        (fun p => (remmina_ssh_identity_path env (remmina_ssh_find_identity env st).2 p).1) := by
  have hfind := find_identity_from_find env home is_file hhome hfile common_identities
    (by decide) st
  refine ⟨hfind, ?_, ?_, ?_⟩
  · unfold remmina_ssh_find_identity
    rw [hfind]
    simp [common_identities]
  · intro k
    refine ⟨rfl, ?_⟩
    unfold remmina_ssh_init_from_file_privkey
    simp only [remmina_ssh_identity_path]
    split_ifs
    · intro e he
      simp [new_events] at he
    · intro e he
      simp only [St.emit, new_events_append, List.mem_singleton] at he
      exact he
  · unfold remmina_ssh_init_from_file_privkey
    simp only []
    cases (remmina_ssh_find_identity env st).1 <;> rfl

/-- Witness of C21: only `.ssh/id_rsa` exists under `/home/u`. -/
theorem find_identity_first_existing_witness :
    (remmina_ssh_find_identity env_only_rsa_key
      (fresh_session AuthMethod.SSH_AUTH_PUBLICKEY none)).1 =
      ([".ssh/id_ed25519", ".ssh/id_rsa", ".ssh/id_dsa", ".ssh/identity"].map
        (fun id => "/home/u" ++ "/" ++ id)).find?
          (fun p => decide (p = "/home/u/.ssh/id_rsa")) :=
  (find_identity_first_existing env_only_rsa_key
    (fresh_session AuthMethod.SSH_AUTH_PUBLICKEY none) "/home/u"
    (fun p => decide (p = "/home/u/.ssh/id_rsa")) (fun _ => rfl) (fun _ _ => rfl)).1

/-- C25: the dispatch on the auth method falls through.  With the host key known-ok:
for the method public-key on a server that does not offer public-key authentication,
`remmina_ssh_auth` makes the agent call and returns 1 with `authenticated` set when it
succeeds, 0 otherwise; for the method GSSAPI on a server that does not offer it, the
result is 0 and the calls made are the host-key query and the list of methods only, so
the GSSAPI primitive is not called. -/
theorem auth_dispatch_falls_through (env : Env) (fuel : Nat) (st : St)
    (password : Option String)
    (hknown : env.ssh_is_server_known st.trace = SSH_SERVER_KNOWN_OK) :
    (st.ssh.auth = AuthMethod.SSH_AUTH_PUBLICKEY →
      env.ssh_userauth_list (st.trace ++ [Event.ssh_is_server_known]) &&&
        SSH_AUTH_METHOD_PUBLICKEY = 0 →
      (remmina_ssh_auth env fuel st password).1 =
        some (if env.ssh_userauth_agent
          (st.trace ++ [Event.ssh_is_server_known, Event.ssh_userauth_list]) =
            SSH_AUTH_SUCCESS then 1 else 0) ∧
      (remmina_ssh_auth env fuel st password).2.trace =
        st.trace ++ [Event.ssh_is_server_known, Event.ssh_userauth_list,
          Event.ssh_userauth_agent] ∧
      (env.ssh_userauth_agent
          (st.trace ++ [Event.ssh_is_server_known, Event.ssh_userauth_list]) =
            SSH_AUTH_SUCCESS →
        (remmina_ssh_auth env fuel st password).2.ssh.authenticated = true)) ∧
    (st.ssh.auth = AuthMethod.SSH_AUTH_GSSAPI →
      env.ssh_userauth_list (st.trace ++ [Event.ssh_is_server_known]) &&&
        SSH_AUTH_METHOD_GSSAPI_MIC = 0 →
      (remmina_ssh_auth env fuel st password).1 = some 0 ∧
      (remmina_ssh_auth env fuel st password).2.trace =
        st.trace ++ [Event.ssh_is_server_known, Event.ssh_userauth_list]) := by
  have hauth : ∀ s : St, (store_secret s password).ssh.auth = s.ssh.auth := by
    intro s; cases password <;> rfl
  have htrace : ∀ s : St, (store_secret s password).trace = s.trace := by
    intro s; cases password <;> rfl
  constructor
  · intro ha hm
    have hm1 : ¬ env.ssh_userauth_list (st.trace ++ [Event.ssh_is_server_known]) &&&
        SSH_AUTH_METHOD_PUBLICKEY ≠ 0 := by
      rw [hm]; simp
    unfold remmina_ssh_auth
    simp only [hknown, ne_eq, not_true_eq_false, if_false]
    unfold remmina_ssh_auth_switch
    simp only [St.emit, hauth, ha, htrace, hm1, if_false, returned, remmina_ssh_auth_agent,
      remmina_ssh_set_error, List.append_assoc, List.singleton_append]
    by_cases h1 : env.ssh_userauth_agent
        (st.trace ++ [Event.ssh_is_server_known, Event.ssh_userauth_list]) = SSH_AUTH_SUCCESS
    · simp [h1]
    · simp [h1]
  · intro ha hm
    have hm1 : ¬ env.ssh_userauth_list (st.trace ++ [Event.ssh_is_server_known]) &&&
        SSH_AUTH_METHOD_GSSAPI_MIC ≠ 0 := by
      rw [hm]; simp
    unfold remmina_ssh_auth
    simp only [hknown, ne_eq, not_true_eq_false, if_false]
    unfold remmina_ssh_auth_switch
    simp [St.emit, hauth, ha, htrace, hm1]

/-- Witness of C25: the method public-key on a server that offers password and
keyboard-interactive only, with no agent key accepted. -/
theorem auth_dispatch_falls_through_witness :
    (remmina_ssh_auth env_wrong_password 0
      (fresh_session AuthMethod.SSH_AUTH_PUBLICKEY none) none).1 = some 0 :=
  ((auth_dispatch_falls_through env_wrong_password 0
    (fresh_session AuthMethod.SSH_AUTH_PUBLICKEY none) none rfl).1 rfl (by decide)).1

/-! ## Theorems: system information -/

/-- C26 fails in the code: the comment above `remmina_sysinfo_get_wm_name` says that it
returns a string, the empty one (`\0`) "if nothing has been found".  With neither
variable set, or set to the empty string, the code assigns `ret = NULL` and returns
NULL, which is no string at all. -/
theorem wm_name_null_when_nothing_found :
    remmina_sysinfo_get_wm_name none none = none ∧
    remmina_sysinfo_get_wm_name (some "") (some "") = none ∧
    remmina_sysinfo_get_wm_name none (some "") = none ∧
    remmina_sysinfo_get_wm_name (some "") none = none ∧
    remmina_sysinfo_get_wm_name none none ≠ some "" := by
  decide

/-- Where a name is found, `remmina_sysinfo_get_wm_name` composes it from
`XDG_CURRENT_DESKTOP` (X) and `GDMSESSION` (G), an unset and an empty variable alike:
X when only X is non-empty, G when only G is non-empty, X when both are non-empty and
equal, X and G joined by one space when both are non-empty and different. -/
theorem wm_name_found (xdg gdm : Option String) (x g : String)
    (hx : x ≠ "") (hg : g ≠ "") :
    ((gdm = none ∨ gdm = some "") → remmina_sysinfo_get_wm_name (some x) gdm = some x) ∧
    ((xdg = none ∨ xdg = some "") → remmina_sysinfo_get_wm_name xdg (some g) = some g) ∧
    remmina_sysinfo_get_wm_name (some x) (some x) = some x ∧
    (x ≠ g → remmina_sysinfo_get_wm_name (some x) (some g) = some (x ++ " " ++ g)) := by
  refine ⟨?_, ?_, ?_, ?_⟩
  · intro h
    simp [remmina_sysinfo_get_wm_name, hx, h]
  · intro h
    simp [remmina_sysinfo_get_wm_name, hg, h]
  · simp [remmina_sysinfo_get_wm_name, hx]
  · intro hne
    simp [remmina_sysinfo_get_wm_name, hx, hg, hne]

theorem xor_base16 (a b x y : Nat) (hx : x < 16) (hy : y < 16) :
    (a * 16 + x) ^^^ (b * 16 + y) = (a ^^^ b) * 16 + (x ^^^ y) := by
  have hxy : x ^^^ y < 2 ^ 4 := Nat.xor_lt_two_pow (by omega) (by omega)
  have h1 : a * 16 + x = 2 ^ 4 * a + x := by omega
  have h2 : b * 16 + y = 2 ^ 4 * b + y := by omega
  have h3 : (a ^^^ b) * 16 + (x ^^^ y) = 2 ^ 4 * (a ^^^ b) + (x ^^^ y) := by omega
  rw [h1, h2, h3]
  apply Nat.eq_of_testBit_eq
  intro i
  rw [Nat.testBit_xor, Nat.testBit_mul_pow_two_add a (by omega : x < 2 ^ 4),
    Nat.testBit_mul_pow_two_add b (by omega : y < 2 ^ 4),
    Nat.testBit_mul_pow_two_add (a ^^^ b) hxy]
  by_cases hi : i < 4
  · simp [hi, Nat.testBit_xor]
  · simp [hi, Nat.testBit_xor]

theorem hex_digit_value_lt (c : Nat) : hex_digit_value c < 16 := by
  unfold hex_digit_value
  split_ifs <;> omega

/-- One round on a 64-bit value: the top digit comes down, combined with the new
digit, and the other fifteen move up. -/
theorem machineid_step_digits (h n c : Nat) (hh : h < 16) (hn : n < 2 ^ 60) :
    machineid_step (h * 2 ^ 60 + n) c = n * 16 + (h ^^^ hex_digit_value c) := by
  unfold machineid_step
  have hb := hex_digit_value_lt c
  have hhi : (h * 2 ^ 60 + n) >>> 60 = h := by
    rw [Nat.shiftRight_eq_div_pow]
    omega
  have hlo : ((h * 2 ^ 60 + n) <<< 4) % 2 ^ 64 = n * 16 := by
    rw [Nat.shiftLeft_eq]
    omega
  rw [hhi, hlo]
  have hor : h ||| n * 16 = n * 16 + h := by
    rw [Nat.or_comm]
    have hor1 := Nat.mul_add_lt_is_or (by omega : h < 2 ^ 4) n
    have h16 : 2 ^ 4 * n = n * 16 := by omega
    rw [h16] at hor1
    exact hor1.symm
  rw [hor]
  have := xor_base16 n 0 h (hex_digit_value c) hh hb
  simpa using this

theorem foldl_base16 (a : Nat) (ds : List Nat) :
    ds.foldl (fun acc d => acc * 16 + d) a = a * 16 ^ ds.length + base16 ds := by
  induction ds generalizing a with
  | nil => simp [base16]
  | cons x t ih =>
    simp only [List.foldl_cons, List.length_cons, base16]
    rw [ih (a * 16 + x), ih (0 * 16 + x)]
    ring

theorem base16_cons (h : Nat) (t : List Nat) :
    base16 (h :: t) = h * 16 ^ t.length + base16 t := by
  have := foldl_base16 (0 * 16 + h) t
  simpa [base16] using this

theorem base16_concat (ds : List Nat) (x : Nat) : base16 (ds ++ [x]) = base16 ds * 16 + x := by
  simp [base16, List.foldl_append]

theorem base16_lt (ds : List Nat) (h : ∀ d ∈ ds, d < 16) : base16 ds < 16 ^ ds.length := by
  induction ds using List.reverseRecOn with
  | nil => simp [base16]
  | append_singleton t x ih =>
    have hx : x < 16 := h x (by simp)
    have ht := ih (fun d hd => h d (by simp [hd]))
    rw [base16_concat, List.length_append, List.length_singleton, Nat.pow_succ]
    omega

theorem machineid_step_base16 (h : Nat) (t : List Nat) (c : Nat) (hh : h < 16)
    (ht : ∀ d ∈ t, d < 16) (hlen : t.length = 15) :
    machineid_step (base16 (h :: t)) c = base16 (rotate_digit (h :: t) (hex_digit_value c)) := by
  have hlt := base16_lt t ht
  rw [hlen] at hlt
  rw [base16_cons, hlen]
  have h60 : (16 : Nat) ^ 15 = 2 ^ 60 := by norm_num
  rw [h60] at hlt ⊢
  rw [machineid_step_digits h (base16 t) c hh hlt]
  simp [rotate_digit, base16_concat]

theorem rotate_digit_inv (ds : List Nat) (d : Nat) (hlen : ds.length = 16)
    (hds : ∀ x ∈ ds, x < 16) (hd : d < 16) :
    (rotate_digit ds d).length = 16 ∧ ∀ x ∈ rotate_digit ds d, x < 16 := by
  cases ds with
  | nil => simp at hlen
  | cons h t =>
    simp only [rotate_digit, List.tail_cons, List.headD_cons, List.length_append,
      List.length_singleton]
    simp only [List.length_cons] at hlen
    refine ⟨by omega, ?_⟩
    intro x hx
    rcases List.mem_append.1 hx with hx1 | hx1
    · exact hds x (List.mem_cons_of_mem _ hx1)
    · rw [List.mem_singleton.1 hx1]
      have h1 : h < 2 ^ 4 := by
        have := hds h (List.mem_cons_self _ _)
        omega
      have h2 : d < 2 ^ 4 := by omega
      have := Nat.xor_lt_two_pow h1 h2
      omega

theorem machineid_fold_base16 (cs : List Nat) (ds : List Nat) (hlen : ds.length = 16)
    (hds : ∀ x ∈ ds, x < 16) :
    cs.foldl machineid_step (base16 ds) =
      base16 ((cs.map hex_digit_value).foldl rotate_digit ds) := by
  induction cs generalizing ds with
  | nil => rfl
  | cons c rest ih =>
    obtain ⟨hlen1, hds1⟩ := rotate_digit_inv ds (hex_digit_value c) hlen hds
      (hex_digit_value_lt c)
    cases ds with
    | nil => simp at hlen
    | cons h t =>
      simp only [List.foldl_cons, List.map_cons]
      rw [machineid_step_base16 h t c (hds h (List.mem_cons_self _ _))
        (fun d hd => hds d (List.mem_cons_of_mem _ hd)) (by simpa using hlen)]
      exact ih _ hlen1 hds1

theorem foldl_rotate_digit (es ds : List Nat) (hle : es.length ≤ ds.length) :
    es.foldl rotate_digit ds =
      ds.drop es.length ++ List.zipWith (fun x y => x ^^^ y) (ds.take es.length) es := by
  induction es generalizing ds with
  | nil => simp
  | cons e rest ih =>
    cases ds with
    | nil => simp at hle
    | cons h t =>
      simp only [List.length_cons] at hle
      have hk : rest.length ≤ t.length := by omega
      simp only [List.foldl_cons, rotate_digit, List.tail_cons, List.headD_cons,
        List.length_cons, List.drop_succ_cons, List.take_succ_cons, List.zipWith_cons_cons]
      rw [ih (t ++ [h ^^^ e]) (by simp; omega)]
      rw [List.drop_append_of_le_length hk, List.take_append_of_le_length hk]
      simp

theorem foldl_base16_xor (ds es : List Nat) (a b : Nat) (hlen : ds.length = es.length)
    (hds : ∀ x ∈ ds, x < 16) (hes : ∀ x ∈ es, x < 16) :
    (List.zipWith (fun x y => x ^^^ y) ds es).foldl (fun acc d => acc * 16 + d) (a ^^^ b) =
      ds.foldl (fun acc d => acc * 16 + d) a ^^^ es.foldl (fun acc d => acc * 16 + d) b := by
  induction ds generalizing es a b with
  | nil =>
    cases es with
    | nil => rfl
    | cons e rest => simp at hlen
  | cons d t ih =>
    cases es with
    | nil => simp at hlen
    | cons e rest =>
      simp only [List.zipWith_cons_cons, List.foldl_cons]
      rw [← xor_base16 a b d e (hds d (List.mem_cons_self _ _)) (hes e (List.mem_cons_self _ _))]
      exact ih rest _ _ (by simpa using hlen) (fun x hx => hds x (List.mem_cons_of_mem _ hx))
        (fun x hx => hes x (List.mem_cons_of_mem _ hx))

theorem base16_zipWith_xor (ds es : List Nat) (hlen : ds.length = es.length)
    (hds : ∀ x ∈ ds, x < 16) (hes : ∀ x ∈ es, x < 16) :
    base16 (List.zipWith (fun x y => x ^^^ y) ds es) = base16 ds ^^^ base16 es := by
  have := foldl_base16_xor ds es 0 0 hlen hds hes
  simpa [base16] using this

theorem hex_number_eq (cs : List Nat) : hex_number cs = base16 (cs.map hex_digit_value) := by
  simp [hex_number, base16, List.foldl_map]

theorem zipWith_xor_zeros (ds : List Nat) :
    List.zipWith (fun x y => x ^^^ y) (List.replicate ds.length 0) ds = ds := by
  induction ds with
  | nil => rfl
  | cons d t ih => simp [List.replicate_succ, ih]

theorem machineid_fold_xor (buf : List Nat) (hlen : buf.length = 32) :
    machineid_fold buf = hex_number (buf.take 16) ^^^ hex_number (buf.drop 16) := by
  have hzero : base16 (List.replicate 16 0) = 0 := by decide
  have h1len : ((buf.take 16).map hex_digit_value).length = 16 := by simp [hlen]
  have h2len : ((buf.drop 16).map hex_digit_value).length = 16 := by simp [hlen]
  have hdig : ∀ cs : List Nat, ∀ x ∈ cs.map hex_digit_value, x < 16 := by
    intro cs x hx
    obtain ⟨c, _, rfl⟩ := List.mem_map.1 hx
    exact hex_digit_value_lt c
  unfold machineid_fold
  rw [← hzero, machineid_fold_base16 buf _ (by simp) (by simp)]
  have hsplit : buf.map hex_digit_value =
      (buf.take 16).map hex_digit_value ++ (buf.drop 16).map hex_digit_value := by
    rw [← List.map_append, List.take_append_drop]
  rw [hsplit, List.foldl_append]
  have hfirst : ((buf.take 16).map hex_digit_value).foldl rotate_digit (List.replicate 16 0) =
      (buf.take 16).map hex_digit_value := by
    rw [foldl_rotate_digit _ _ (by simp [hlen])]
    rw [h1len]
    have hz := zipWith_xor_zeros ((buf.take 16).map hex_digit_value)
    rw [h1len] at hz
    simpa using hz
  rw [hfirst, foldl_rotate_digit _ _ (by rw [h1len, h2len])]
  rw [h2len]
  have hdrop : ((buf.take 16).map hex_digit_value).drop 16 = [] := by
    apply List.drop_eq_nil_of_le
    rw [h1len]
  have htake : ((buf.take 16).map hex_digit_value).take 16 =
      (buf.take 16).map hex_digit_value := by
    apply List.take_of_length_le
    rw [h1len]
  rw [hdrop, htake, List.nil_append,
    base16_zipWith_xor _ _ (by rw [h1len, h2len]) (hdig _) (hdig _), hex_number_eq, hex_number_eq]

/-- C29: for every 32-character machine-id buffer, the value folded by the loop of
`remmina_sysinfo_get_unique_user_id` is the XOR of the number spelled by the first 16
hexadecimal digits and the number spelled by the last 16, upper- and lower-case digits
alike and any other character counting as the digit 0; the identifier returned is
"01-" followed by the decimal of that value XOR (`uid` shifted left by 32, modulo
2^64) XOR the inode number of the first system data directory, 0 when there is
none. -/
theorem unique_user_id_fold (uid : Nat) (buf : List Nat) (sdd_inode : Option Nat)
    (hlen : buf.length = 32) (huid : uid < 2 ^ 64)
    (hino : ∀ ino, sdd_inode = some ino → ino < 2 ^ 64) :
    machineid_fold buf = hex_number (buf.take 16) ^^^ hex_number (buf.drop 16) ∧
    remmina_sysinfo_get_unique_user_id uid (some buf) sdd_inode =
      "01-" ++ toString ((hex_number (buf.take 16) ^^^ hex_number (buf.drop 16)) ^^^
        ((uid <<< 32) % 2 ^ 64) ^^^ sdd_inode.getD 0) := by
  have hfold := machineid_fold_xor buf hlen
  refine ⟨hfold, ?_⟩
  unfold remmina_sysinfo_get_unique_user_id
  simp only [hlen, if_true, hfold, Nat.mod_eq_of_lt huid]
  cases sdd_inode with
  | none => rfl
  | some ino =>
    simp only [Option.getD_some, Nat.mod_eq_of_lt (hino ino rfl)]

/-- Witness of C29: the machine id `0123456789abcdefFEDCBA9876543210`. -/
theorem unique_user_id_fold_witness :
    machineid_fold sample_machine_id =
      hex_number (sample_machine_id.take 16) ^^^ hex_number (sample_machine_id.drop 16) :=
  (unique_user_id_fold 1000 sample_machine_id (some 2) rfl (by decide)
    (by intro ino h; cases h; decide)).1

/-! ## Theorems: the shell buffer, the tail accept, the local-forward set-up -/

/-- C22 fails in the code: the loop from the channel to the pty offers the chunk from
its first byte on every write.  With the chunk `[104, 105, 33]` and a pty that takes 2
bytes and then 1, both within the remaining length, the second write offers `[104]`
again: the pty receives `[104, 105, 104]`, and the byte 33 is never written. -/
theorem shell_partial_write_repeats_prefix :
    socket_writes 4 (shell_write_loop env_pty_partial_write 4 [104, 105, 33] 3 3 []).2 =
      [([104, 105, 33], 2), ([104], 1)] ∧
    socket_received 4 (shell_write_loop env_pty_partial_write 4 [104, 105, 33] 3 3 []).2 =
      [104, 105, 104] ∧
    (shell_write_loop env_pty_partial_write 4 [104, 105, 33] 3 3 []).1 = 0 := by
  decide

theorem reads_within_mono {a b : Int} (hab : a ≤ b) (l : List Event) (h : reads_within a l) :
    reads_within b l :=
  fun e he n hn => le_trans (h e he n hn) hab

theorem reads_within_append {c : Int} (l1 l2 : List Event) (h1 : reads_within c l1)
    (h2 : reads_within c l2) : reads_within c (l1 ++ l2) := by
  intro e he n hn
  rcases List.mem_append.1 he with h | h
  · exact h1 e h n hn
  · exact h2 e h n hn

theorem reads_within_nil (c : Int) : reads_within c [] := fun _ h => nomatch h

theorem shell_write_loop_reads (env : Env) (slave : Int) (buf : List Byte) (fuel : Nat)
    (len : Int) (tr : List Event) (c : Int) :
    ∃ l, (shell_write_loop env slave buf fuel len tr).2 = tr ++ l ∧ reads_within c l := by
  obtain ⟨l, hl, hall⟩ := shell_write_loop_trace env slave buf fuel len tr
  refine ⟨l, hl, ?_⟩
  intro e he n hn
  obtain ⟨fd, b, k, rfl⟩ := hall e he
  cases hn

/-- One poll of a stream in the shell worker: the capacity does not decrease, a poll
that reports `len > 0` pending bytes leaves the larger of the capacity and `len`, and
every read of the round asks for at most the capacity it leaves. -/
theorem shell_poll_stream_capacity (env : Env) (ch : Channel) (i buf_len : Int) (st : SSt) :
    buf_len ≤ (shell_poll_stream env ch i buf_len st).2.1 ∧
    (0 < env.ssh_channel_poll (st.trace ++ [Event.pthread_mutex_lock]) (some ch) i →
      (shell_poll_stream env ch i buf_len st).2.1 =
        max buf_len (env.ssh_channel_poll (st.trace ++ [Event.pthread_mutex_lock]) (some ch) i)) ∧
    (env.ssh_channel_poll (st.trace ++ [Event.pthread_mutex_lock]) (some ch) i ≤ 0 →
      (shell_poll_stream env ch i buf_len st).2.1 = buf_len) ∧
    ∃ l, (shell_poll_stream env ch i buf_len st).2.2.trace = st.trace ++ l ∧
      reads_within (shell_poll_stream env ch i buf_len st).2.1 l := by
  unfold shell_poll_stream
  simp only [SSt.emit]
  generalize env.ssh_channel_poll (st.trace ++ [Event.pthread_mutex_lock]) (some ch) i = p
  generalize hrd : env.ssh_channel_read_nonblocking _ _ _ _ = rd
  have hpoll : ∀ c : Int, reads_within c [Event.pthread_mutex_lock,
      Event.ssh_channel_poll (some ch) i, Event.pthread_mutex_unlock] := by
    intro c e he n hn
    simp only [List.mem_cons, List.mem_singleton, List.not_mem_nil, or_false] at he
    rcases he with h | h | h <;> rw [h] at hn <;> cases hn
  have hread : ∀ c : Int, p ≤ c → reads_within c [Event.pthread_mutex_lock,
      Event.ssh_channel_poll (some ch) i, Event.pthread_mutex_unlock,
      Event.pthread_mutex_lock, Event.ssh_channel_read_nonblocking (some ch) p i,
      Event.pthread_mutex_unlock] := by
    intro c hc e he n hn
    simp only [List.mem_cons, List.mem_singleton, List.not_mem_nil, or_false] at he
    rcases he with h | h | h | h | h | h <;> rw [h] at hn <;> cases hn
    exact hc
  by_cases h1 : p = SSH_ERROR ∨ p = SSH_EOF
  · rw [if_pos h1]
    have hneg : p ≤ 0 := by
      rcases h1 with h | h <;> rw [h] <;> decide
    exact ⟨le_refl _, fun hp => absurd hp (by omega), fun _ => rfl, _, by simp, hpoll _⟩
  · rw [if_neg h1]
    by_cases h2 : p ≤ 0
    · rw [if_pos h2]
      exact ⟨le_refl _, fun hp => absurd hp (by omega), fun _ => rfl, _, by simp, hpoll _⟩
    · rw [if_neg h2]
      have hmax : (if p > buf_len then p else buf_len) = max buf_len p := by
        split_ifs with h
        · exact (max_eq_right (le_of_lt h)).symm
        · exact (max_eq_left (by omega)).symm
      rw [hmax]
      have hle : buf_len ≤ max buf_len p := le_max_left _ _
      have hple : p ≤ max buf_len p := le_max_right _ _
      by_cases h3 : rd.1 ≤ 0
      · rw [if_pos h3]
        exact ⟨hle, fun _ => rfl, fun hp => absurd hp h2, _, by simp, hread _ hple⟩
      · rw [if_neg h3]
        refine ⟨hle, fun _ => rfl, fun hp => absurd hp h2, ?_⟩
        obtain ⟨l, hl, hw⟩ := shell_write_loop_reads env st.shell.slave rd.2 rd.1.toNat rd.1
          (st.trace ++ [Event.pthread_mutex_lock] ++
            [Event.ssh_channel_poll (some ch) i] ++ [Event.pthread_mutex_unlock] ++
            [Event.pthread_mutex_lock] ++
            [Event.ssh_channel_read_nonblocking (some ch) p i] ++
            [Event.pthread_mutex_unlock]) (max buf_len p)
        refine ⟨[Event.pthread_mutex_lock, Event.ssh_channel_poll (some ch) i,
          Event.pthread_mutex_unlock, Event.pthread_mutex_lock,
          Event.ssh_channel_read_nonblocking (some ch) p i,
          Event.pthread_mutex_unlock] ++ l, ?_, reads_within_append _ _ (hread _ hple) hw⟩
        show (shell_write_loop _ _ _ _ _ _).2 = _
        rw [hl]; simp

theorem shell_pty_to_channel_reads (env : Env) (ch : Channel) (buf_len : Int)
    (ready : List Int) (st : SSt) :
    ∃ l, (shell_pty_to_channel env ch buf_len ready st).2.trace = st.trace ++ l ∧
      reads_within buf_len l := by
  unfold shell_pty_to_channel
  simp only [SSt.emit]
  split_ifs with h1 h2
  · refine ⟨[Event.read st.shell.slave buf_len], rfl, ?_⟩
    intro e he n hn
    rw [List.mem_singleton.1 he] at hn
    cases hn
    exact le_refl _
  · refine ⟨[Event.read st.shell.slave buf_len, Event.pthread_mutex_lock,
      Event.ssh_channel_write (some ch)
        ((env.read st.trace st.shell.slave buf_len).2.take
          (env.read st.trace st.shell.slave buf_len).1.toNat)
        (env.ssh_channel_write
          (st.trace ++ [Event.read st.shell.slave buf_len] ++ [Event.pthread_mutex_lock])
          (some ch)
          ((env.read st.trace st.shell.slave buf_len).2.take
            (env.read st.trace st.shell.slave buf_len).1.toNat)),
      Event.pthread_mutex_unlock], by simp, ?_⟩
    intro e he n hn
    simp only [List.mem_cons, List.mem_singleton, List.not_mem_nil, or_false] at he
    rcases he with h | h | h | h <;> rw [h] at hn <;> cases hn
    exact le_refl _
  · exact ⟨[], by simp, reads_within_nil _⟩

theorem shell_channel_to_pty_capacity (env : Env) (ch : Channel) (buf_len : Int) (st : SSt) :
    buf_len ≤ (shell_channel_to_pty env ch buf_len st).1 ∧
    ∃ l, (shell_channel_to_pty env ch buf_len st).2.trace = st.trace ++ l ∧
      reads_within (shell_channel_to_pty env ch buf_len st).1 l := by
  unfold shell_channel_to_pty
  simp only []
  obtain ⟨h0, -, -, l0, hl0, hr0⟩ := shell_poll_stream_capacity env ch 0 buf_len st
  split_ifs with h
  · exact ⟨h0, l0, hl0, hr0⟩
  · obtain ⟨h1, -, -, l1, hl1, hr1⟩ := shell_poll_stream_capacity env ch 1
      (shell_poll_stream env ch 0 buf_len st).2.1 (shell_poll_stream env ch 0 buf_len st).2.2
    refine ⟨le_trans h0 h1, l0 ++ l1, ?_, ?_⟩
    · rw [hl1, hl0, List.append_assoc]
    · exact reads_within_append _ _ (reads_within_mono h1 _ hr0) hr1

theorem shell_relay_loop_capacity (env : Env) (ch : Channel) (fuel : Nat) (buf_len : Int)
    (st : SSt) :
    buf_len ≤ (shell_relay_loop env ch fuel buf_len st).2.1 ∧
    ∃ l, (shell_relay_loop env ch fuel buf_len st).2.2.trace = st.trace ++ l ∧
      reads_within (shell_relay_loop env ch fuel buf_len st).2.1 l := by
  induction fuel generalizing buf_len st with
  | zero => exact ⟨le_refl _, [], by simp [shell_relay_loop], reads_within_nil _⟩
  | succ f ih =>
    unfold shell_relay_loop
    simp only []
    have hsel : ∀ c : Int, reads_within c [Event.ssh_select [some ch, none] [st.shell.slave]] := by
      intro c e he n hn
      rw [List.mem_singleton.1 he] at hn
      cases hn
    split_ifs with h1 h2 h3 h4
    · exact ⟨le_refl _, [], by simp, reads_within_nil _⟩
    · obtain ⟨hle, l, hl, hr⟩ := ih buf_len
        (st.emit (Event.ssh_select [some ch, none] [st.shell.slave]))
      refine ⟨hle, Event.ssh_select [some ch, none] [st.shell.slave] :: l, ?_, ?_⟩
      · rw [hl]; simp [SSt.emit]
      · exact reads_within_append [_] l (hsel _) hr
    · exact ⟨le_refl _, [Event.ssh_select [some ch, none] [st.shell.slave]], rfl, hsel _⟩
    · obtain ⟨l, hl, hr⟩ := shell_pty_to_channel_reads env ch buf_len
        (env.ssh_select st.trace [some ch, none] [st.shell.slave]).2
        (st.emit (Event.ssh_select [some ch, none] [st.shell.slave]))
      refine ⟨le_refl _, Event.ssh_select [some ch, none] [st.shell.slave] :: l, ?_, ?_⟩
      · rw [hl]; simp [SSt.emit]
      · exact reads_within_append [_] l (hsel _) hr
    · obtain ⟨l, hl, hr⟩ := shell_pty_to_channel_reads env ch buf_len
        (env.ssh_select st.trace [some ch, none] [st.shell.slave]).2
        (st.emit (Event.ssh_select [some ch, none] [st.shell.slave]))
      generalize shell_pty_to_channel env ch buf_len
        (env.ssh_select st.trace [some ch, none] [st.shell.slave]).2
        (st.emit (Event.ssh_select [some ch, none] [st.shell.slave])) = r at hl ⊢
      obtain ⟨hc, lc, hlc, hrc⟩ := shell_channel_to_pty_capacity env ch buf_len r.2
      generalize shell_channel_to_pty env ch buf_len r.2 = p at hc hlc hrc ⊢
      obtain ⟨hle, l2, hl2, hr2⟩ := ih p.1 p.2
      refine ⟨le_trans hc hle,
        Event.ssh_select [some ch, none] [st.shell.slave] :: (l ++ (lc ++ l2)), ?_, ?_⟩
      · rw [hl2, hlc, hl]; simp [SSt.emit]
      · refine reads_within_append [_] _ (hsel _) (reads_within_append _ _ ?_
          (reads_within_append _ _ ?_ hr2))
        · exact reads_within_mono (le_trans hc hle) _ hr
        · exact reads_within_mono hle _ hrc

/-- C23: in the shell worker the transfer buffer holds what is read into it.  The read
from the pty asks for the capacity `buf_len`.  One poll of a stream never lowers the
capacity, leaves `max buf_len len` after a poll reporting `len > 0` pending bytes, and
its channel read asks for at most the capacity it leaves.  Over the whole relay loop,
for any fuel, the capacity never ends below where it started and every read of the
loop asks for at most the final capacity. -/
theorem shell_buffer_holds_reads (env : Env) (ch : Channel) (buf_len : Int) (st : SSt) :
    (∀ ready, ∃ l, (shell_pty_to_channel env ch buf_len ready st).2.trace = st.trace ++ l ∧
      reads_within buf_len l) ∧
    (∀ i, buf_len ≤ (shell_poll_stream env ch i buf_len st).2.1 ∧
      (0 < env.ssh_channel_poll (st.trace ++ [Event.pthread_mutex_lock]) (some ch) i →
        (shell_poll_stream env ch i buf_len st).2.1 =
          max buf_len
            (env.ssh_channel_poll (st.trace ++ [Event.pthread_mutex_lock]) (some ch) i)) ∧
      ∃ l, (shell_poll_stream env ch i buf_len st).2.2.trace = st.trace ++ l ∧
        reads_within (shell_poll_stream env ch i buf_len st).2.1 l) ∧
    (buf_len ≤ (shell_channel_to_pty env ch buf_len st).1) ∧
    (∀ fuel, buf_len ≤ (shell_relay_loop env ch fuel buf_len st).2.1 ∧
      ∃ l, (shell_relay_loop env ch fuel buf_len st).2.2.trace = st.trace ++ l ∧
        reads_within (shell_relay_loop env ch fuel buf_len st).2.1 l) := by
  refine ⟨fun ready => shell_pty_to_channel_reads env ch buf_len ready st, ?_,
    (shell_channel_to_pty_capacity env ch buf_len st).1,
    fun fuel => shell_relay_loop_capacity env ch fuel buf_len st⟩
  intro i
  obtain ⟨h1, h2, -, h4⟩ := shell_poll_stream_capacity env ch i buf_len st
  exact ⟨h1, h2, h4⟩

/-- C24 fails in the code: the non-blocking accept at the end of a round of the relay
loop is not guarded by the topology.  A reverse tunnel with one live pair and no
listening socket (`server_sock = -1`), in a round with nothing to relay, still calls
`accept`, and the failed call replaces the last-error string, which was unset, by
"Failed to accept local socket". -/
theorem relay_round_accepts_in_reverse_topology :
    reverse_tunnel_one_pair.tunnel.tunnel_type = TunnelType.REMMINA_SSH_TUNNEL_REVERSE ∧
    reverse_tunnel_one_pair.tunnel.ssh.error = none ∧
    (tunnel_relay_iteration env_idle 2 later_round reverse_tunnel_one_pair).state.trace =
      [Event.ssh_select [some 7, none] [12], Event.ssh_channel_poll (some 7) 0,
       Event.accept (-1) false] ∧
    (tunnel_relay_iteration env_idle 2 later_round reverse_tunnel_one_pair).state.tunnel.ssh.error =
      some ⟨"Failed to accept local socket", []⟩ := by
  refine ⟨rfl, rfl, ?_, ?_⟩ <;> rfl

/-- C27 fails in the code: the test after the forward channel is created reads
`if (!tunnel)`, not `if (!channel)`.  When the first local connection is accepted on
the descriptor 9 and the server refuses the forward, the set-up goes on to the relay
loop: the socket 9 is not closed, the pair (NULL, 9) is registered, so the channel at
index 0, below the live pair count 1, is NULL, and `thread` keeps its value. -/
theorem setup_open_registers_null_channel :
    (remmina_ssh_tunnel_setup_open env_forward_refused fresh_open_tunnel).1 = some none ∧
    (remmina_ssh_tunnel_setup_open env_forward_refused fresh_open_tunnel).2.tunnel.num_channels
      = 1 ∧
    pair_at (remmina_ssh_tunnel_setup_open env_forward_refused fresh_open_tunnel).2.tunnel 0
      = (none, 9, none) ∧
    (remmina_ssh_tunnel_setup_open env_forward_refused fresh_open_tunnel).2.tunnel.thread = 1 ∧
    (remmina_ssh_tunnel_setup_open env_forward_refused fresh_open_tunnel).2.trace =
      [Event.accept 5 true, Event.ssh_channel_new,
       Event.ssh_channel_open_forward (some 5) (some "10.0.0.2") 5900,
       Event.ssh_channel_close (some 5), Event.ssh_channel_send_eof (some 5),
       Event.ssh_channel_free (some 5), Event.fcntl_nonblock 9] := by
  refine ⟨rfl, rfl, ?_, rfl, ?_⟩ <;> rfl

/-! ## Theorems: the rounds of a relay pass -/

/-! ### Every live pair gets one round of a relay pass -/

theorem relay_pass_rounds_not_stalled
    (body : Pair → Option ErrorText → List Event → PairOut)
    (hbody : ∀ p err tr, (body p err tr).stalled = false) (fuel i : Nat) (ts : TSt) :
    (relay_pass_rounds body fuel i ts).2 = false := by
  induction fuel generalizing i ts with
  | zero => rfl
  | succ f ih =>
    unfold relay_pass_rounds
    simp only [hbody, Bool.false_eq_true, if_false]
    split_ifs
    · exact ih _ _
    · exact ih _ _
    · rfl

/-- The rounds of a relay pass from the index `i` on: the pairs they examine, followed
when a round stalls by the pairs not reached, are the pairs at `i .. k - 1`, each once;
there are at most `k - i` rounds, and the fuel `k - i + 1` of the pass never runs out. -/
theorem relay_pass_rounds_spec (body : Pair → Option ErrorText → List Event → PairOut) :
    ∀ (fuel i k : Nat) (ts : TSt),
      ts.tunnel.num_channels = (k : Int) → ts.tunnel.running = true →
      k ≤ ts.tunnel.channels.length → k ≤ ts.tunnel.sockets.length →
      k ≤ ts.tunnel.socketbuffers.length → i ≤ k → k - i < fuel →
      ∃ rest, ((relay_pass_rounds body fuel i ts).1 ++ rest).Perm
          ((List.range' i (k - i)).map (pair_at ts.tunnel)) ∧
        ((relay_pass_rounds body fuel i ts).2 = false → rest = []) ∧
        (relay_pass_loop body fuel i ts).1 = (relay_pass_rounds body fuel i ts).2 ∧
        (relay_pass_rounds body fuel i ts).1.length ≤ k - i := by
  intro fuel
  induction fuel with
  | zero =>
    intro i k ts _ _ _ _ _ _ hfuel
    exact absurd hfuel (Nat.not_lt_zero _)
  | succ f ih =>
    intro i k ts hk hrun hch hso hbu hik hfuel
    by_cases hlt : i < k
    · have hcond : ts.tunnel.running = true ∧ (i : Int) < ts.tunnel.num_channels :=
        ⟨hrun, by rw [hk]; exact_mod_cast hlt⟩
      have hpend : (List.range' i (k - i)).map (pair_at ts.tunnel) =
          pair_at ts.tunnel i :: (List.range' (i + 1) (k - i - 1)).map (pair_at ts.tunnel) := by
        have h1 : k - i = (k - i - 1) + 1 := by omega
        rw [h1, List.range'_succ]
        simp
      obtain ⟨-, hslot_other⟩ := relay_pair_done_pair_at ts i
        (body (pair_at ts.tunnel i) ts.tunnel.ssh.error ts.trace) (by omega)
      unfold relay_pass_loop relay_pass_rounds
      rw [if_pos hcond, if_pos hcond]
      simp only []
      generalize body (pair_at ts.tunnel i) ts.tunnel.ssh.error ts.trace = out
        at hslot_other
      generalize hts1 : relay_pair_done ts i out = ts1
      have hslot_o1 : ∀ j, j ≠ i → pair_at ts1.tunnel j = pair_at ts.tunnel j := by
        rw [← hts1]; exact hslot_other
      have hk1 : ts1.tunnel.num_channels = (k : Int) := by rw [← hts1]; exact hk
      have hrun1 : ts1.tunnel.running = true := by rw [← hts1]; exact hrun
      have hch1 : k ≤ ts1.tunnel.channels.length := by rw [← hts1]; exact hch
      have hso1 : k ≤ ts1.tunnel.sockets.length := by rw [← hts1]; exact hso
      have hbu1 : k ≤ ts1.tunnel.socketbuffers.length := by
        rw [← hts1]; simp only [relay_pair_done, List.length_set]; exact hbu
      have hrest1 : (List.range' (i + 1) (k - i - 1)).map (pair_at ts1.tunnel) =
          (List.range' (i + 1) (k - i - 1)).map (pair_at ts.tunnel) := by
        apply List.map_congr_left
        intro j hj
        rw [List.mem_range'_1] at hj
        exact hslot_o1 j (by omega)
      by_cases hst : out.stalled = true
      · rw [if_pos hst, if_pos hst]
        refine ⟨(List.range' (i + 1) (k - i - 1)).map (pair_at ts.tunnel), ?_, ?_, rfl, ?_⟩
        · rw [hpend]
          exact List.Perm.refl _
        · intro h
          cases h
        · simp only [List.length_singleton]
          omega
      · rw [if_neg hst, if_neg hst]
        by_cases hdis : out.disconnected = true
        · rw [if_pos hdis, if_pos hdis]
          obtain ⟨hnum', _, _, _, hch', hso', hbu', hrun', _⟩ :=
            remove_channel_frame ts1 k i hk1 hlt hch1 hso1 hbu1
          obtain ⟨hpend', _⟩ := remove_channel_pending ts1 k i hk1 hlt hch1 hso1 hbu1
          obtain ⟨rest, hperm, hnone, hflag, hlen⟩ :=
            ih i (k - 1) (remmina_ssh_tunnel_remove_channel ts1 i) hnum'
              (by rw [hrun']; exact hrun1) (by omega) (by omega) (by omega) (by omega)
              (by omega)
          refine ⟨rest, ?_, hnone, hflag, ?_⟩
          · rw [hpend]
            simp only [List.cons_append]
            exact List.Perm.cons _ (hperm.trans (hpend'.trans (by rw [hrest1])))
          · simp only [List.length_cons]
            omega
        · rw [if_neg hdis, if_neg hdis]
          obtain ⟨rest, hperm, hnone, hflag, hlen⟩ :=
            ih (i + 1) k ts1 hk1 hrun1 hch1 hso1 hbu1 (by omega) (by omega)
          refine ⟨rest, ?_, hnone, hflag, ?_⟩
          · rw [hpend]
            have h1 : k - (i + 1) = k - i - 1 := by omega
            rw [h1, hrest1] at hperm
            simp only [List.cons_append]
            exact List.Perm.cons _ hperm
          · simp only [List.length_cons]
            omega
    · have hcond : ¬ (ts.tunnel.running = true ∧ (i : Int) < ts.tunnel.num_channels) := by
        rw [hk]
        intro h
        exact hlt (by exact_mod_cast h.2)
      unfold relay_pass_loop relay_pass_rounds
      rw [if_neg hcond, if_neg hcond]
      have hik' : k - i = 0 := by omega
      refine ⟨[], ?_, fun _ => rfl, rfl, Nat.zero_le _⟩
      rw [hik']
      exact List.Perm.refl _

theorem relay_pass_examined_spec (body : Pair → Option ErrorText → List Event → PairOut)
    (ts : TSt) (k : Nat) (hk : ts.tunnel.num_channels = (k : Int))
    (hrun : ts.tunnel.running = true)
    (hch : k ≤ ts.tunnel.channels.length) (hso : k ≤ ts.tunnel.sockets.length)
    (hbu : k ≤ ts.tunnel.socketbuffers.length) :
    ∃ rest, ((relay_pass_examined body ts).1 ++ rest).Perm (live_pairs ts.tunnel) ∧
      ((relay_pass_examined body ts).2 = false → rest = []) ∧
      (relay_pass body ts).1 = (relay_pass_examined body ts).2 ∧
      (relay_pass_examined body ts).1.length ≤ k := by
  have hknat : ts.tunnel.num_channels.toNat = k := by omega
  obtain ⟨rest, h1, h2, h3, h4⟩ :=
    relay_pass_rounds_spec body (k + 1) 0 k ts hk hrun hch hso hbu (Nat.zero_le _) (by omega)
  refine ⟨rest, ?_, ?_, ?_, ?_⟩
  · unfold live_pairs relay_pass_examined
    rw [hknat, List.range_eq_range']
    exact h1
  · unfold relay_pass_examined
    rw [hknat]
    exact h2
  · unfold relay_pass relay_pass_examined
    rw [hknat]
    exact h3
  · unfold relay_pass_examined
    rw [hknat]
    exact h4

/-- C28: the rounds of the two relay passes.  For a running tunnel whose `k` live pairs
are held in the three arrays, the pass from the sockets to the channels examines one
pair in each round and makes at most `k` rounds; the pairs examined, followed by the
pairs not reached when the read loop of a round does not end within its fuel, are the
pairs live at the start, each exactly once, whichever pairs are removed and moved on
the way; the pass itself never runs out of its `k + 1` steps, and with no such round
every live pair is examined.  The pass from the channels to the sockets always ends:
it makes exactly `k` rounds and examines every pair live at its start exactly once.
Both leave the running flag set. -/
theorem relay_pass_examines_each_pair_once (env : Env) (ready : List Int) (io_fuel : Nat)
    (ts : TSt) (k : Nat) (hk : ts.tunnel.num_channels = (k : Int))
    (hrun : ts.tunnel.running = true)
    (hch : k ≤ ts.tunnel.channels.length) (hso : k ≤ ts.tunnel.sockets.length)
    (hbu : k ≤ ts.tunnel.socketbuffers.length) :
    (∃ rest,
      ((relay_pass_examined (sock_to_chan_pair env ready ts.tunnel.buffer_len io_fuel) ts).1
        ++ rest).Perm (live_pairs ts.tunnel) ∧
      ((relay_pass_examined (sock_to_chan_pair env ready ts.tunnel.buffer_len io_fuel) ts).2
        = false → rest = []) ∧
      (relay_pass (sock_to_chan_pair env ready ts.tunnel.buffer_len io_fuel) ts).1 =
        (relay_pass_examined (sock_to_chan_pair env ready ts.tunnel.buffer_len io_fuel) ts).2 ∧
      (relay_pass_examined (sock_to_chan_pair env ready ts.tunnel.buffer_len io_fuel)
        ts).1.length ≤ k ∧
      (relay_pass (sock_to_chan_pair env ready ts.tunnel.buffer_len io_fuel)
        ts).2.tunnel.running = true) ∧
    ((relay_pass_examined (chan_to_sock_pair env ts.tunnel.running) ts).1.Perm
        (live_pairs ts.tunnel) ∧
      (relay_pass (chan_to_sock_pair env ts.tunnel.running) ts).1 = false ∧
      (relay_pass_examined (chan_to_sock_pair env ts.tunnel.running) ts).1.length = k ∧
      (relay_pass (chan_to_sock_pair env ts.tunnel.running) ts).2.tunnel.running = true) := by
  have hknat : ts.tunnel.num_channels.toNat = k := by omega
  constructor
  · obtain ⟨rest, h1, h2, h3, h4⟩ := relay_pass_examined_spec
      (sock_to_chan_pair env ready ts.tunnel.buffer_len io_fuel) ts k hk hrun hch hso hbu
    obtain ⟨_, _, _, _, _, _, h5⟩ := relay_pass_visit
      (sock_to_chan_pair env ready ts.tunnel.buffer_len io_fuel) ts k hk hrun hch hso hbu
    exact ⟨rest, h1, h2, h3, h4, h5⟩
  · obtain ⟨rest, h1, h2, h3, _⟩ := relay_pass_examined_spec
      (chan_to_sock_pair env ts.tunnel.running) ts k hk hrun hch hso hbu
    obtain ⟨_, _, _, _, _, _, h5⟩ := relay_pass_visit
      (chan_to_sock_pair env ts.tunnel.running) ts k hk hrun hch hso hbu
    have hns : (relay_pass_examined (chan_to_sock_pair env ts.tunnel.running) ts).2 = false :=
      relay_pass_rounds_not_stalled _ (chan_to_sock_pair_not_stalled env ts.tunnel.running) _ _ _
    have hrest : rest = [] := h2 hns
    rw [hrest, List.append_nil] at h1
    refine ⟨h1, h3.trans hns, ?_, h5⟩
    rw [h1.length_eq]
    unfold live_pairs
    simp [hknat]

/-- Witness of C28: three live pairs, of which the second has its socket at end of
stream and is removed, so that the third is moved into its slot. -/
theorem relay_pass_examines_each_pair_once_witness :
    (∃ rest,
      ((relay_pass_examined (sock_to_chan_pair env_middle_socket_closed [12]
        three_pair_tunnel.tunnel.buffer_len 4) three_pair_tunnel).1
        ++ rest).Perm (live_pairs three_pair_tunnel.tunnel) ∧
      ((relay_pass_examined (sock_to_chan_pair env_middle_socket_closed [12]
        three_pair_tunnel.tunnel.buffer_len 4) three_pair_tunnel).2 = false → rest = []) ∧
      (relay_pass (sock_to_chan_pair env_middle_socket_closed [12]
        three_pair_tunnel.tunnel.buffer_len 4) three_pair_tunnel).1 =
        (relay_pass_examined (sock_to_chan_pair env_middle_socket_closed [12]
          three_pair_tunnel.tunnel.buffer_len 4) three_pair_tunnel).2 ∧
      (relay_pass_examined (sock_to_chan_pair env_middle_socket_closed [12]
        three_pair_tunnel.tunnel.buffer_len 4) three_pair_tunnel).1.length ≤ 3 ∧
      (relay_pass (sock_to_chan_pair env_middle_socket_closed [12]
        three_pair_tunnel.tunnel.buffer_len 4) three_pair_tunnel).2.tunnel.running = true) ∧
    ((relay_pass_examined (chan_to_sock_pair env_middle_socket_closed
        three_pair_tunnel.tunnel.running) three_pair_tunnel).1.Perm
        (live_pairs three_pair_tunnel.tunnel) ∧
      (relay_pass (chan_to_sock_pair env_middle_socket_closed
        three_pair_tunnel.tunnel.running) three_pair_tunnel).1 = false ∧
      (relay_pass_examined (chan_to_sock_pair env_middle_socket_closed
        three_pair_tunnel.tunnel.running) three_pair_tunnel).1.length = 3 ∧
      (relay_pass (chan_to_sock_pair env_middle_socket_closed
        three_pair_tunnel.tunnel.running) three_pair_tunnel).2.tunnel.running = true) :=
  relay_pass_examines_each_pair_once env_middle_socket_closed [12] 4 three_pair_tunnel 3
    rfl rfl (by decide) (by decide) (by decide)

/-! ## Theorems: the bookkeeping of the registered pairs -/

theorem realloc_cells_length {α : Type} (l : List α) (n : Nat) (d : α) :
    (realloc_cells l n d).length = n := by
  simp only [realloc_cells, List.length_append, List.length_take, List.length_replicate]
  omega

theorem add_channel_invariant (ts : TSt) (channel : Option Channel) (sock : Int)
    (h : bookkeeping_invariant ts.tunnel) :
    bookkeeping_invariant (remmina_ssh_tunnel_add_channel ts channel sock).tunnel ∧
    0 < (remmina_ssh_tunnel_add_channel ts channel sock).tunnel.max_channels ∧
    ts.tunnel.max_channels ≤
      (remmina_ssh_tunnel_add_channel ts channel sock).tunnel.max_channels ∧
    (remmina_ssh_tunnel_add_channel ts channel sock).tunnel.num_channels =
      ts.tunnel.num_channels + 1 ∧
    pair_at (remmina_ssh_tunnel_add_channel ts channel sock).tunnel
      ts.tunnel.num_channels.toNat = (channel, sock, none) := by
  obtain ⟨h0, hle, hso, hbu, hch⟩ := h
  by_cases hg : ts.tunnel.num_channels + 1 > ts.tunnel.max_channels
  · have hnum : (ts.tunnel.num_channels + 1).toNat = ts.tunnel.num_channels.toNat + 1 := by
      omega
    simp only [remmina_ssh_tunnel_add_channel, TSt.emit, hg, decide_True, if_true,
      bookkeeping_invariant, pair_at, hnum]
    refine ⟨⟨by omega, le_refl _, ?_, ?_, Or.inr ⟨by omega, ?_, ?_⟩⟩, by omega, by omega,
      trivial, ?_⟩
    · simp only [List.length_set, realloc_cells_length]
    · simp only [List.length_set, realloc_cells_length]
    · simp only [List.length_set, realloc_cells_length]
    · rw [List.getElem?_set_self]
      simp only [List.length_set, realloc_cells_length]
      omega
    · rw [getD_set_ne _ _ _ _ _ (by omega), getD_set_self _ _ _ _ (by
        rw [realloc_cells_length]; omega), getD_set_self _ _ _ _ (by
        rw [realloc_cells_length]; omega), getD_set_self _ _ _ _ (by
        rw [realloc_cells_length]; omega)]
  · have hmax : 0 < ts.tunnel.max_channels := by omega
    rcases hch with ⟨hz, _⟩ | ⟨_, hlen, _⟩
    · omega
    · have hnum : (ts.tunnel.num_channels + 1).toNat = ts.tunnel.num_channels.toNat + 1 := by
        omega
      simp only [remmina_ssh_tunnel_add_channel, TSt.emit, hg, decide_False, if_false,
        bookkeeping_invariant, pair_at, hnum, Bool.false_eq_true]
      refine ⟨⟨by omega, by omega, ?_, ?_, Or.inr ⟨hmax, ?_, ?_⟩⟩, hmax, le_refl _,
        trivial, ?_⟩
      · simp only [List.length_set]; exact hso
      · simp only [List.length_set]; exact hbu
      · simp only [List.length_set]; exact hlen
      · rw [List.getElem?_set_self]
        simp only [List.length_set]
        omega
      · rw [getD_set_ne _ _ _ _ _ (by omega), getD_set_self _ _ _ _ (by omega),
          getD_set_self _ _ _ _ (by omega), getD_set_self _ _ _ _ (by omega)]

theorem remove_channel_invariant (ts : TSt) (n : Nat)
    (h : bookkeeping_invariant ts.tunnel) (hn : (n : Int) < ts.tunnel.num_channels) :
    bookkeeping_invariant (remmina_ssh_tunnel_remove_channel ts n).tunnel ∧
    0 < (remmina_ssh_tunnel_remove_channel ts n).tunnel.max_channels ∧
    ts.tunnel.max_channels ≤ (remmina_ssh_tunnel_remove_channel ts n).tunnel.max_channels := by
  obtain ⟨h0, hle, hso, hbu, hch⟩ := h
  have hmax : 0 < ts.tunnel.max_channels := by omega
  rcases hch with ⟨hz, _⟩ | ⟨_, hlen, _⟩
  · omega
  · simp only [remmina_ssh_tunnel_remove_channel, TSt.emit, bookkeeping_invariant]
    refine ⟨⟨by omega, by omega, ?_, ?_, Or.inr ⟨hmax, ?_, ?_⟩⟩, hmax, le_refl _⟩
    · simp only [List.length_set]; exact hso
    · simp only [List.length_set]; exact hbu
    · simp only [List.length_set]; exact hlen
    · rw [List.getElem?_set_self]
      simp only [List.length_set]
      omega

theorem new_tunnel_invariant (t : RemminaSSHTunnel) (h : is_new_tunnel t) :
    bookkeeping_invariant t := by
  obtain ⟨hch, hso, hbu, hnum, hmax⟩ := h
  refine ⟨by omega, by omega, ?_, ?_, Or.inl ⟨hmax, hch⟩⟩
  · rw [hso, hmax]; rfl
  · rw [hbu, hmax]; rfl

theorem invariant_consistent (t : RemminaSSHTunnel) (h : bookkeeping_invariant t)
    (hmax : 0 < t.max_channels) : bookkeeping_consistent t := by
  obtain ⟨h0, hle, _, _, hch⟩ := h
  rcases hch with ⟨hz, _⟩ | ⟨_, hlen, hnull⟩
  · omega
  · exact ⟨h0, hle, by omega, hnull⟩

theorem apply_op_invariant (ts : TSt) (op : ChannelOp) (rest : List ChannelOp)
    (h : bookkeeping_invariant ts.tunnel) (hv : valid_ops ts (op :: rest)) :
    bookkeeping_invariant (apply_op ts op).tunnel ∧
    0 < (apply_op ts op).tunnel.max_channels ∧
    ts.tunnel.max_channels ≤ (apply_op ts op).tunnel.max_channels ∧
    valid_ops (apply_op ts op) rest := by
  cases op with
  | add channel sock =>
    obtain ⟨h1, h2, h3, _⟩ := add_channel_invariant ts channel sock h
    exact ⟨h1, h2, h3, hv⟩
  | remove n =>
    obtain ⟨h1, h2, h3⟩ := remove_channel_invariant ts n h hv.1
    exact ⟨h1, h2, h3, hv.2⟩

theorem apply_ops_invariant (ops : List ChannelOp) (ts : TSt)
    (h : bookkeeping_invariant ts.tunnel) (hv : valid_ops ts ops) :
    bookkeeping_invariant (apply_ops ts ops).tunnel ∧
    ts.tunnel.max_channels ≤ (apply_ops ts ops).tunnel.max_channels ∧
    (ops ≠ [] → 0 < (apply_ops ts ops).tunnel.max_channels) := by
  induction ops generalizing ts with
  | nil => exact ⟨h, le_refl _, fun hne => absurd rfl hne⟩
  | cons op rest ih =>
    obtain ⟨h1, h2, h3, h4⟩ := apply_op_invariant ts op rest h hv
    obtain ⟨i1, i2, _⟩ := ih (apply_op ts op) h1 h4
    exact ⟨i1, le_trans h3 i2, fun _ => lt_of_lt_of_le h2 i2⟩

theorem valid_ops_append (pre post : List ChannelOp) (ts : TSt)
    (hv : valid_ops ts (pre ++ post)) :
    valid_ops ts pre ∧ valid_ops (apply_ops ts pre) post := by
  induction pre generalizing ts with
  | nil => exact ⟨trivial, hv⟩
  | cons op rest ih =>
    cases op with
    | add channel sock => exact ih _ hv
    | remove n =>
      obtain ⟨h1, h2⟩ := ih _ hv.2
      exact ⟨⟨hv.1, h1⟩, h2⟩

theorem apply_ops_append (pre post : List ChannelOp) (ts : TSt) :
    apply_ops ts (pre ++ post) = apply_ops (apply_ops ts pre) post := by
  simp [apply_ops, List.foldl_append]

/-- The claim C30 as stated fails for the empty sequence of calls: a tunnel just
created has no array of channels, so there is no room for `num_channels + 1 = 1` entry
and no NULL entry at index 0. -/
theorem bookkeeping_consistent_counterexample :
    ¬ ∀ (ts : TSt) (ops : List ChannelOp), is_new_tunnel ts.tunnel → valid_ops ts ops →
      bookkeeping_consistent (apply_ops ts ops).tunnel := by
  intro h
  have hc := h fresh_open_tunnel [] ⟨rfl, rfl, rfl, rfl, rfl⟩ trivial
  have hroom := hc.2.2.1
  revert hroom
  decide

/-- C30, amended: starting from a tunnel just created, after every non-empty sequence
of `remmina_ssh_tunnel_add_channel` and `remmina_ssh_tunnel_remove_channel` calls with
valid indices the bookkeeping is consistent: `0 <= num_channels <= max_channels`, the
array of channels has room for `num_channels + 1` entries and the entry at index
`num_channels` is NULL.  Along the sequence `max_channels` never decreases, and a pair
just added sits at the last live index with its channel, its socket and no pending
buffer. -/
theorem bookkeeping_stays_consistent (ts : TSt) (ops : List ChannelOp)
    (hnew : is_new_tunnel ts.tunnel) (hvalid : valid_ops ts ops) (hne : ops ≠ []) :
    bookkeeping_consistent (apply_ops ts ops).tunnel ∧
    (∀ pre post, ops = pre ++ post →
      (apply_ops ts pre).tunnel.max_channels ≤ (apply_ops ts ops).tunnel.max_channels) ∧
    (∀ pre channel sock, ops = pre ++ [ChannelOp.add channel sock] →
      (apply_ops ts ops).tunnel.num_channels = (apply_ops ts pre).tunnel.num_channels + 1 ∧
      pair_at (apply_ops ts ops).tunnel ((apply_ops ts ops).tunnel.num_channels.toNat - 1) =
        (channel, sock, none)) := by
  have hinv := new_tunnel_invariant ts.tunnel hnew
  obtain ⟨h1, _, h3⟩ := apply_ops_invariant ops ts hinv hvalid
  refine ⟨invariant_consistent _ h1 (h3 hne), ?_, ?_⟩
  · intro pre post hsplit
    subst hsplit
    obtain ⟨hvpre, hvpost⟩ := valid_ops_append pre post ts hvalid
    obtain ⟨hipre, _, _⟩ := apply_ops_invariant pre ts hinv hvpre
    rw [apply_ops_append]
    exact (apply_ops_invariant post (apply_ops ts pre) hipre hvpost).2.1
  · intro pre channel sock hsplit
    subst hsplit
    obtain ⟨hvpre, _⟩ := valid_ops_append pre [ChannelOp.add channel sock] ts hvalid
    obtain ⟨hipre, _, _⟩ := apply_ops_invariant pre ts hinv hvpre
    obtain ⟨_, _, _, hnum, hpair⟩ := add_channel_invariant (apply_ops ts pre) channel sock hipre
    have hstep : apply_ops ts (pre ++ [ChannelOp.add channel sock]) =
        remmina_ssh_tunnel_add_channel (apply_ops ts pre) channel sock := by
      rw [apply_ops_append]; rfl
    rw [hstep, hnum]
    refine ⟨rfl, ?_⟩
    have h0 := hipre.1
    have hidx : ((apply_ops ts pre).tunnel.num_channels + 1).toNat - 1 =
        (apply_ops ts pre).tunnel.num_channels.toNat := by omega
    rw [hidx]
    exact hpair

/-- Witness of C30: two pairs are added to a new tunnel and the first is removed. -/
theorem bookkeeping_stays_consistent_witness :
    bookkeeping_consistent (apply_ops fresh_open_tunnel
      [ChannelOp.add (some 1) 11, ChannelOp.remove 0, ChannelOp.add (some 2) 12]).tunnel ∧
    (∀ pre post,
      [ChannelOp.add (some 1) 11, ChannelOp.remove 0, ChannelOp.add (some 2) 12] = pre ++ post →
      (apply_ops fresh_open_tunnel pre).tunnel.max_channels ≤
        (apply_ops fresh_open_tunnel
          [ChannelOp.add (some 1) 11, ChannelOp.remove 0,
            ChannelOp.add (some 2) 12]).tunnel.max_channels) ∧
    (∀ pre channel sock,
      [ChannelOp.add (some 1) 11, ChannelOp.remove 0, ChannelOp.add (some 2) 12] =
        pre ++ [ChannelOp.add channel sock] →
      (apply_ops fresh_open_tunnel
        [ChannelOp.add (some 1) 11, ChannelOp.remove 0,
          ChannelOp.add (some 2) 12]).tunnel.num_channels =
        (apply_ops fresh_open_tunnel pre).tunnel.num_channels + 1 ∧
      pair_at (apply_ops fresh_open_tunnel
        [ChannelOp.add (some 1) 11, ChannelOp.remove 0, ChannelOp.add (some 2) 12]).tunnel
        ((apply_ops fresh_open_tunnel
          [ChannelOp.add (some 1) 11, ChannelOp.remove 0,
            ChannelOp.add (some 2) 12]).tunnel.num_channels.toNat - 1) =
        (channel, sock, none)) :=
  bookkeeping_stays_consistent fresh_open_tunnel
    [ChannelOp.add (some 1) 11, ChannelOp.remove 0, ChannelOp.add (some 2) 12]
    ⟨rfl, rfl, rfl, rfl, rfl⟩ ⟨by decide, trivial⟩ (by simp)

/-! ## Theorems: the pending buffer across relay passes -/

theorem drains_nil (b : RemminaSSHTunnelBuffer) (h0 : 0 < b.len)
    (hinv : b.ptr + b.len.toNat = b.data.length) : drains b [] (some b) :=
  ⟨trivial, by simp [taken, advance], rfl, h0, hinv, by simp [advance]⟩

theorem drains_append (b b1 : RemminaSSHTunnelBuffer) (w1 w2 : List (List Byte × Int))
    (ob : Option RemminaSSHTunnelBuffer)
    (h1 : drains b w1 (some b1)) (h2 : drains b1 w2 ob) : drains b (w1 ++ w2) ob := by
  obtain ⟨hres1, htaken1, hd1, _, hinv1, hptr1⟩ := h1
  obtain ⟨hres2, htaken2, hob2⟩ := h2
  rw [hd1, hptr1] at hres2 htaken2
  refine ⟨?_, ?_, ?_⟩
  · rw [resumes_append]
    exact ⟨hres1, hres2⟩
  · rw [taken_append, advance_append, htaken1, htaken2, List.take_add, List.drop_drop]
  · rw [advance_append]
    cases ob with
    | none =>
      simp only at hob2 ⊢
      rw [hd1] at hob2
      omega
    | some b2 =>
      simp only at hob2 ⊢
      rw [hd1] at hob2
      refine ⟨hob2.1, hob2.2.1, hob2.2.2.1, ?_⟩
      omega

theorem socketbuffer_write_loop_other (env : Env) (running : Bool) (s sock : Int)
    (hne : s ≠ sock) (fuel : Nat) (b : RemminaSSHTunnelBuffer) (tr : List Event) :
    ∃ l, (socketbuffer_write_loop env running s fuel b tr).2.2 = tr ++ l ∧
      socket_writes sock l = [] := by
  induction fuel generalizing b tr with
  | zero => exact ⟨[], by simp [socketbuffer_write_loop], rfl⟩
  | succ f ih =>
    unfold socketbuffer_write_loop
    simp only []
    split_ifs
    · exact ⟨[_], rfl, by simp [socket_writes, hne]⟩
    · exact ⟨[_], rfl, by simp [socket_writes, hne]⟩
    · obtain ⟨l, hl, hs⟩ := ih
        { b with len := b.len - (env.write tr s b.pending).1,
                 ptr := b.ptr + (env.write tr s b.pending).1.toNat }
        (tr ++ [Event.write s b.pending (env.write tr s b.pending).1])
      refine ⟨Event.write s b.pending (env.write tr s b.pending).1 :: l, ?_, ?_⟩
      · rw [hl]; simp
      · have h1 : socket_writes sock
            (Event.write s b.pending (env.write tr s b.pending).1 :: l) =
            socket_writes sock [Event.write s b.pending (env.write tr s b.pending).1] ++
              socket_writes sock l := by
          rw [← socket_writes_append]; rfl
        rw [h1, hs]
        simp [socket_writes, hne]
    · exact ⟨[], by simp, rfl⟩

theorem socketbuffer_flush_other (env : Env) (running : Bool) (s sock : Int)
    (hne : s ≠ sock) (b : RemminaSSHTunnelBuffer) (tr : List Event) :
    ∃ l, (socketbuffer_flush env running s b tr).2.2 = tr ++ l ∧
      socket_writes sock l = [] := by
  obtain ⟨l, hl, hs⟩ := socketbuffer_write_loop_other env running s sock hne b.len.toNat b tr
  unfold socketbuffer_flush
  generalize socketbuffer_write_loop env running s b.len.toNat b tr = r at hl
  obtain ⟨b1, d, tr1⟩ := r
  simp only at hl ⊢
  split_ifs
  · refine ⟨l ++ [Event.remmina_ssh_tunnel_buffer_free (some b1)], ?_, ?_⟩
    · simp only [hl, List.append_assoc]
    · rw [socket_writes_append, hs]; rfl
  · exact ⟨l, hl, hs⟩

theorem socketbuffer_flush_first (env : Env) (running : Bool) (sock : Int)
    (b : RemminaSSHTunnelBuffer) (tr : List Event) (h0 : 0 < b.len) :
    ∃ l, (socketbuffer_flush env running sock b tr).2.2 =
      tr ++ Event.write sock b.pending (env.write tr sock b.pending).1 :: l := by
  obtain ⟨f, hf⟩ : ∃ f, b.len.toNat = f + 1 := ⟨b.len.toNat - 1, by omega⟩
  have hloop : ∃ l, (socketbuffer_write_loop env running sock (f + 1) b tr).2.2 =
      tr ++ Event.write sock b.pending (env.write tr sock b.pending).1 :: l := by
    unfold socketbuffer_write_loop
    simp only [if_pos h0]
    split_ifs
    · exact ⟨[], rfl⟩
    · exact ⟨[], rfl⟩
    · obtain ⟨l, hl, _⟩ := socketbuffer_write_loop_other env running sock (sock + 1)
        (by omega) f
        { b with len := b.len - (env.write tr sock b.pending).1,
                 ptr := b.ptr + (env.write tr sock b.pending).1.toNat }
        (tr ++ [Event.write sock b.pending (env.write tr sock b.pending).1])
      exact ⟨l, by rw [hl]; simp⟩
  obtain ⟨l, hl⟩ := hloop
  unfold socketbuffer_flush
  rw [hf]
  generalize socketbuffer_write_loop env running sock (f + 1) b tr = r at hl
  obtain ⟨b1, d, tr1⟩ := r
  simp only at hl ⊢
  split_ifs
  · exact ⟨l ++ [Event.remmina_ssh_tunnel_buffer_free (some b1)], by simp [hl]⟩
  · exact ⟨l, hl⟩

theorem chan_to_sock_poll_other (env : Env) (p : Pair) (err : Option ErrorText)
    (tr : List Event) (sock : Int) :
    ∃ l, (chan_to_sock_poll env p err tr).trace = tr ++ l ∧ socket_writes sock l = [] := by
  unfold chan_to_sock_poll
  cases p.2.2 with
  | some b => exact ⟨[], by simp, rfl⟩
  | none =>
    simp only []
    split_ifs
    · exact ⟨[Event.ssh_channel_poll p.1 0], rfl, rfl⟩
    · exact ⟨[Event.ssh_channel_poll p.1 0,
        Event.ssh_channel_read_nonblocking p.1 (env.ssh_channel_poll tr p.1 0) 0],
        by simp, rfl⟩
    · exact ⟨[Event.ssh_channel_poll p.1 0,
        Event.ssh_channel_read_nonblocking p.1 (env.ssh_channel_poll tr p.1 0) 0],
        by simp, rfl⟩
    · exact ⟨[Event.ssh_channel_poll p.1 0], rfl, rfl⟩

theorem chan_to_sock_pair_other (env : Env) (running : Bool) (p : Pair)
    (err : Option ErrorText) (tr : List Event) (sock : Int) (hne : p.2.1 ≠ sock) :
    ∃ l, (chan_to_sock_pair env running p err tr).trace = tr ++ l ∧
      socket_writes sock l = [] := by
  obtain ⟨l0, hl0, hs0⟩ := chan_to_sock_poll_other env p err tr sock
  unfold chan_to_sock_pair
  simp only []
  split
  · rename_i b hb
    by_cases hd : (chan_to_sock_poll env p err tr).disconnected = true
    · rw [if_pos hd]
      exact ⟨l0, hl0, hs0⟩
    · rw [if_neg hd]
      obtain ⟨l1, hl1, hs1⟩ := socketbuffer_flush_other env running p.2.1 sock hne b
        (chan_to_sock_poll env p err tr).trace
      refine ⟨l0 ++ l1, ?_, ?_⟩
      · show (socketbuffer_flush env running p.2.1 b
          (chan_to_sock_poll env p err tr).trace).2.2 = _
        rw [hl1, hl0, List.append_assoc]
      · rw [socket_writes_append, hs0, hs1]; rfl
  · exact ⟨l0, hl0, hs0⟩

/-- The body of the second relay pass on a pair whose buffer is pending: the remainder
is offered to the socket at once, and what the writes leave is what the body hands
back for the slot of the pair. -/
theorem chan_to_sock_pair_pending (env : Env) (c : Option Channel) (sock : Int)
    (hw : ∀ h d, (0 < (env.write h sock d).1 ∧ (env.write h sock d).1 ≤ d.length) ∨
      ((env.write h sock d).1 = -1 ∧ (env.write h sock d).2 = EAGAIN))
    (b : RemminaSSHTunnelBuffer) (err : Option ErrorText) (tr : List Event)
    (h0 : 0 < b.len) (hinv : b.ptr + b.len.toNat = b.data.length) :
    ∃ ob l, chan_to_sock_pair env true (c, sock, some b) err tr =
        { buffer := ob, disconnected := false, error := err, trace := tr ++ l,
          stalled := false } ∧
      drains b (socket_writes sock l) ob ∧ 1 ≤ (socket_writes sock l).length := by
  obtain ⟨ob, l, hrun, htaken, hres, hob⟩ :=
    socketbuffer_flush_spec env sock b.data hw b tr rfl h0 hinv
  obtain ⟨l1, hl1⟩ := socketbuffer_flush_first env true sock b tr h0
  rw [hrun] at hl1
  have hl : l = Event.write sock b.pending (env.write tr sock b.pending).1 :: l1 :=
    List.append_cancel_left hl1
  refine ⟨ob, l, ?_, ⟨hres, htaken, ?_⟩, ?_⟩
  · simp [chan_to_sock_pair, chan_to_sock_poll, hrun]
  · cases ob with
    | none => exact hob
    | some b1 => exact hob
  · rw [hl]
    simp [socket_writes]

theorem visit_pairs_other (env : Env) (running : Bool) (sock : Int) (order : List Pair)
    (hall : ∀ p ∈ order, p.2.1 ≠ sock) (err : Option ErrorText) (tr : List Event) :
    ∃ l, (visit_pairs (chan_to_sock_pair env running) order err tr).trace = tr ++ l ∧
      socket_writes sock l = [] ∧
      (visit_pairs (chan_to_sock_pair env running) order err tr).survivors.filter
        (fun p => decide (p.2.1 = sock)) = [] := by
  induction order generalizing err tr with
  | nil => exact ⟨[], by simp [visit_pairs], rfl, rfl⟩
  | cons p rest ih =>
    have hp : p.2.1 ≠ sock := hall p (List.mem_cons_self _ _)
    have hrest : ∀ q ∈ rest, q.2.1 ≠ sock := fun q hq => hall q (List.mem_cons_of_mem _ hq)
    obtain ⟨l0, hl0, hs0⟩ := chan_to_sock_pair_other env running p err tr sock hp
    unfold visit_pairs
    simp only [chan_to_sock_pair_not_stalled, Bool.false_eq_true, if_false]
    generalize chan_to_sock_pair env running p err tr = out at hl0
    by_cases hd : out.disconnected = true
    · rw [if_pos hd]
      obtain ⟨l1, hl1, hs1, hf1⟩ := ih hrest out.error
        (out.trace ++ remove_pair_events (p.1, p.2.1, out.buffer))
      refine ⟨l0 ++ (remove_pair_events (p.1, p.2.1, out.buffer) ++ l1), ?_, ?_, hf1⟩
      · rw [hl1, hl0]
        simp only [List.append_assoc]
      · rw [socket_writes_append, socket_writes_append, hs0, hs1]
        simp [remove_pair_events, socket_writes]
    · rw [if_neg hd]
      obtain ⟨l1, hl1, hs1, hf1⟩ := ih hrest out.error out.trace
      refine ⟨l0 ++ l1, ?_, ?_, ?_⟩
      · show (visit_pairs (chan_to_sock_pair env running) rest out.error out.trace).trace = _
        rw [hl1, hl0, List.append_assoc]
      · rw [socket_writes_append, hs0, hs1]
        rfl
      · show ((p.1, p.2.1, out.buffer) ::
          (visit_pairs (chan_to_sock_pair env running) rest out.error
            out.trace).survivors).filter (fun p => decide (p.2.1 = sock)) = []
        rw [List.filter_cons_of_neg (by simpa using hp)]
        exact hf1

theorem visit_pairs_pending (env : Env) (c : Option Channel) (sock : Int)
    (hw : ∀ h d, (0 < (env.write h sock d).1 ∧ (env.write h sock d).1 ≤ d.length) ∨
      ((env.write h sock d).1 = -1 ∧ (env.write h sock d).2 = EAGAIN))
    (b : RemminaSSHTunnelBuffer) (h0 : 0 < b.len)
    (hinv : b.ptr + b.len.toNat = b.data.length) (order : List Pair)
    (hone : order.filter (fun p => decide (p.2.1 = sock)) = [(c, sock, some b)])
    (err : Option ErrorText) (tr : List Event) :
    ∃ ob l, (visit_pairs (chan_to_sock_pair env true) order err tr).trace = tr ++ l ∧
      drains b (socket_writes sock l) ob ∧ 1 ≤ (socket_writes sock l).length ∧
      (visit_pairs (chan_to_sock_pair env true) order err tr).survivors.filter
        (fun p => decide (p.2.1 = sock)) = [(c, sock, ob)] := by
  induction order generalizing err tr with
  | nil => cases hone
  | cons p rest ih =>
    by_cases hp : p.2.1 = sock
    · rw [List.filter_cons_of_pos (by simpa using hp)] at hone
      have hpeq : p = (c, sock, some b) := (List.cons.inj hone).1
      have hnil : rest.filter (fun p => decide (p.2.1 = sock)) = [] := (List.cons.inj hone).2
      have hrest : ∀ q ∈ rest, q.2.1 ≠ sock := by
        intro q hq hqs
        have := List.filter_eq_nil_iff.1 hnil q hq
        simp [hqs] at this
      subst hpeq
      obtain ⟨ob, l, hout, hdr, hlen⟩ := chan_to_sock_pair_pending env c sock hw b err tr h0 hinv
      obtain ⟨l1, hl1, hs1, hf1⟩ := visit_pairs_other env true sock rest hrest err (tr ++ l)
      unfold visit_pairs
      simp only [hout, Bool.false_eq_true, if_false]
      refine ⟨ob, l ++ l1, ?_, ?_, ?_, ?_⟩
      · rw [hl1, List.append_assoc]
      · rw [socket_writes_append, hs1, List.append_nil]
        exact hdr
      · rw [socket_writes_append, hs1, List.append_nil]
        exact hlen
      · rw [List.filter_cons_of_pos (by simp), hf1]
    · rw [List.filter_cons_of_neg (by simpa using hp)] at hone
      obtain ⟨l0, hl0, hs0⟩ := chan_to_sock_pair_other env true p err tr sock hp
      unfold visit_pairs
      simp only [chan_to_sock_pair_not_stalled, Bool.false_eq_true, if_false]
      generalize chan_to_sock_pair env true p err tr = out at hl0
      by_cases hd : out.disconnected = true
      · rw [if_pos hd]
        obtain ⟨ob, l1, hl1, hdr, hlen, hf1⟩ := ih hone out.error
          (out.trace ++ remove_pair_events (p.1, p.2.1, out.buffer))
        have hsw : socket_writes sock
            (l0 ++ (remove_pair_events (p.1, p.2.1, out.buffer) ++ l1)) =
            socket_writes sock l1 := by
          rw [socket_writes_append, socket_writes_append, hs0]
          simp [remove_pair_events, socket_writes]
        refine ⟨ob, l0 ++ (remove_pair_events (p.1, p.2.1, out.buffer) ++ l1), ?_, ?_, ?_,
          hf1⟩
        · rw [hl1, hl0]
          simp only [List.append_assoc]
        · rw [hsw]; exact hdr
        · rw [hsw]; exact hlen
      · rw [if_neg hd]
        obtain ⟨ob, l1, hl1, hdr, hlen, hf1⟩ := ih hone out.error out.trace
        have hsw : socket_writes sock (l0 ++ l1) = socket_writes sock l1 := by
          rw [socket_writes_append, hs0]
          rfl
        refine ⟨ob, l0 ++ l1, ?_, ?_, ?_, ?_⟩
        · show (visit_pairs (chan_to_sock_pair env true) rest out.error out.trace).trace = _
          rw [hl1, hl0, List.append_assoc]
        · rw [hsw]; exact hdr
        · rw [hsw]; exact hlen
        · show ((p.1, p.2.1, out.buffer) ::
            (visit_pairs (chan_to_sock_pair env true) rest out.error
              out.trace).survivors).filter (fun p => decide (p.2.1 = sock)) = _
          rw [List.filter_cons_of_neg (by simpa using hp)]
          exact hf1

/-- A relay pass keeps the three arrays as long as they were and never raises the
count of live pairs. -/
theorem relay_pass_loop_shape (body : Pair → Option ErrorText → List Event → PairOut) :
    ∀ (fuel i k : Nat) (ts : TSt),
      ts.tunnel.num_channels = (k : Int) →
      k ≤ ts.tunnel.channels.length → k ≤ ts.tunnel.sockets.length →
      k ≤ ts.tunnel.socketbuffers.length →
      ∃ k1, k1 ≤ k ∧ (relay_pass_loop body fuel i ts).2.tunnel.num_channels = (k1 : Int) ∧
        (relay_pass_loop body fuel i ts).2.tunnel.channels.length =
          ts.tunnel.channels.length ∧
        (relay_pass_loop body fuel i ts).2.tunnel.sockets.length =
          ts.tunnel.sockets.length ∧
        (relay_pass_loop body fuel i ts).2.tunnel.socketbuffers.length =
          ts.tunnel.socketbuffers.length := by
  intro fuel
  induction fuel with
  | zero =>
    intro i k ts hk _ _ _
    exact ⟨k, le_refl _, hk, rfl, rfl, rfl⟩
  | succ f ih =>
    intro i k ts hk hch hso hbu
    unfold relay_pass_loop
    by_cases hcond : ts.tunnel.running = true ∧ (i : Int) < ts.tunnel.num_channels
    · rw [if_pos hcond]
      simp only []
      have hlt : i < k := by
        have := hcond.2
        rw [hk] at this
        exact_mod_cast this
      generalize body (pair_at ts.tunnel i) ts.tunnel.ssh.error ts.trace = out
      generalize hts1 : relay_pair_done ts i out = ts1
      have hk1 : ts1.tunnel.num_channels = (k : Int) := by rw [← hts1]; exact hk
      have hch1 : ts1.tunnel.channels.length = ts.tunnel.channels.length := by
        rw [← hts1]; rfl
      have hso1 : ts1.tunnel.sockets.length = ts.tunnel.sockets.length := by
        rw [← hts1]; rfl
      have hbu1 : ts1.tunnel.socketbuffers.length = ts.tunnel.socketbuffers.length := by
        rw [← hts1]; simp only [relay_pair_done, List.length_set]
      by_cases hst : out.stalled = true
      · rw [if_pos hst]
        exact ⟨k, le_refl _, hk1, hch1, hso1, hbu1⟩
      · rw [if_neg hst]
        by_cases hdis : out.disconnected = true
        · rw [if_pos hdis]
          obtain ⟨hnum2, _, _, _, hch2, hso2, hbu2, _, _⟩ :=
            remove_channel_frame ts1 k i hk1 hlt (by omega) (by omega) (by omega)
          obtain ⟨k1, hle, h1, h2, h3, h4⟩ :=
            ih i (k - 1) (remmina_ssh_tunnel_remove_channel ts1 i) hnum2
              (by omega) (by omega) (by omega)
          exact ⟨k1, by omega, h1, by omega, by omega, by omega⟩
        · rw [if_neg hdis]
          obtain ⟨k1, hle, h1, h2, h3, h4⟩ :=
            ih (i + 1) k ts1 hk1 (by omega) (by omega) (by omega)
          exact ⟨k1, hle, h1, by omega, by omega, by omega⟩
    · rw [if_neg hcond]
      exact ⟨k, le_refl _, hk, rfl, rfl, rfl⟩

/-- One pass from the channels to the sockets over a running tunnel in which one live
pair owns the socket `sock` and has the buffer `b` pending. -/
theorem relay_pass_pending (env : Env) (ts : TSt) (k : Nat) (c : Option Channel)
    (sock : Int) (b : RemminaSSHTunnelBuffer)
    (hk : ts.tunnel.num_channels = (k : Int)) (hrun : ts.tunnel.running = true)
    (hch : k ≤ ts.tunnel.channels.length) (hso : k ≤ ts.tunnel.sockets.length)
    (hbu : k ≤ ts.tunnel.socketbuffers.length)
    (hone : (live_pairs ts.tunnel).filter (fun p => decide (p.2.1 = sock)) =
      [(c, sock, some b)])
    (h0 : 0 < b.len) (hinv : b.ptr + b.len.toNat = b.data.length)
    (hw : ∀ h d, (0 < (env.write h sock d).1 ∧ (env.write h sock d).1 ≤ d.length) ∨
      ((env.write h sock d).1 = -1 ∧ (env.write h sock d).2 = EAGAIN)) :
    ∃ ob l,
      (relay_pass (chan_to_sock_pair env ts.tunnel.running) ts).2.trace = ts.trace ++ l ∧
      drains b (socket_writes sock l) ob ∧ 1 ≤ (socket_writes sock l).length ∧
      (live_pairs (relay_pass (chan_to_sock_pair env ts.tunnel.running) ts).2.tunnel).filter
        (fun p => decide (p.2.1 = sock)) = [(c, sock, ob)] ∧
      (relay_pass (chan_to_sock_pair env ts.tunnel.running) ts).2.tunnel.running = true ∧
      ∃ k1 : Nat,
        (relay_pass (chan_to_sock_pair env ts.tunnel.running) ts).2.tunnel.num_channels
          = (k1 : Int) ∧
        k1 ≤ (relay_pass (chan_to_sock_pair env ts.tunnel.running)
          ts).2.tunnel.channels.length ∧
        k1 ≤ (relay_pass (chan_to_sock_pair env ts.tunnel.running)
          ts).2.tunnel.sockets.length ∧
        k1 ≤ (relay_pass (chan_to_sock_pair env ts.tunnel.running)
          ts).2.tunnel.socketbuffers.length := by
  rw [hrun]
  obtain ⟨order, hperm, _, hlive, htrace, _, hrunning⟩ :=
    relay_pass_visit (chan_to_sock_pair env true) ts k hk hrun hch hso hbu
  have hord : order.filter (fun p => decide (p.2.1 = sock)) = [(c, sock, some b)] := by
    have hp := List.Perm.filter (fun p : Pair => decide (p.2.1 = sock)) hperm
    rw [hone] at hp
    exact List.perm_singleton.1 hp
  obtain ⟨ob, l, hl, hdr, hlen, hsurv⟩ :=
    visit_pairs_pending env c sock hw b h0 hinv order hord ts.tunnel.ssh.error ts.trace
  obtain ⟨k1, hle, hnum1, hch1, hso1, hbu1⟩ :=
    relay_pass_loop_shape (chan_to_sock_pair env true) (ts.tunnel.num_channels.toNat + 1) 0 k
      ts hk hch hso hbu
  refine ⟨ob, l, htrace.trans hl, hdr, hlen, ?_, hrunning, k1, hnum1, ?_, ?_, ?_⟩
  · have hp := List.Perm.filter (fun p : Pair => decide (p.2.1 = sock)) hlive
    rw [hsurv] at hp
    exact List.perm_singleton.1 hp
  · unfold relay_pass; omega
  · unfold relay_pass; omega
  · unfold relay_pass; omega

/-- Any number of successive passes from the channels to the sockets, each reading the
slot of the pair back from the tunnel where the pass before stored it. -/
theorem relay_passes_pending (env : Env) (c : Option Channel) (sock : Int)
    (hw : ∀ h d, (0 < (env.write h sock d).1 ∧ (env.write h sock d).1 ≤ d.length) ∨
      ((env.write h sock d).1 = -1 ∧ (env.write h sock d).2 = EAGAIN)) :
    ∀ (n : Nat) (ts : TSt) (k : Nat) (b : RemminaSSHTunnelBuffer),
      ts.tunnel.num_channels = (k : Int) → ts.tunnel.running = true →
      k ≤ ts.tunnel.channels.length → k ≤ ts.tunnel.sockets.length →
      k ≤ ts.tunnel.socketbuffers.length →
      (live_pairs ts.tunnel).filter (fun p => decide (p.2.1 = sock)) = [(c, sock, some b)] →
      0 < b.len → b.ptr + b.len.toNat = b.data.length →
      ∃ m, m ≤ n ∧ ∃ ob l,
        ((fun s => (relay_pass (chan_to_sock_pair env s.tunnel.running) s).2)^[m] ts).trace =
          ts.trace ++ l ∧
        (live_pairs ((fun s => (relay_pass (chan_to_sock_pair env s.tunnel.running)
          s).2)^[m] ts).tunnel).filter (fun p => decide (p.2.1 = sock)) = [(c, sock, ob)] ∧
        drains b (socket_writes sock l) ob ∧ m ≤ (socket_writes sock l).length ∧
        (ob ≠ none → m = n) := by
  intro n
  induction n with
  | zero =>
    intro ts k b _ _ _ _ _ hone h0 hinv
    exact ⟨0, le_refl _, some b, [], by simp, hone, drains_nil b h0 hinv, Nat.zero_le _,
      fun _ => rfl⟩
  | succ n ih =>
    intro ts k b hk hrun hch hso hbu hone h0 hinv
    obtain ⟨ob1, l1, htr1, hdr1, hlen1, hone1, hrun1, k1, hk1, hch1, hso1, hbu1⟩ :=
      relay_pass_pending env ts k c sock b hk hrun hch hso hbu hone h0 hinv hw
    cases ob1 with
    | none =>
      refine ⟨1, by omega, none, l1, ?_, ?_, hdr1, hlen1, fun h => absurd rfl h⟩
      · simp only [Function.iterate_succ, Function.iterate_zero, Function.comp, id]
        exact htr1
      · simp only [Function.iterate_succ, Function.iterate_zero, Function.comp, id]
        exact hone1
    | some b1 =>
      obtain ⟨m, hm, ob, l2, htr2, hone2, hdr2, hlen2, hlast⟩ :=
        ih (relay_pass (chan_to_sock_pair env ts.tunnel.running) ts).2 k1 b1 hk1 hrun1
          hch1 hso1 hbu1 hone1 hdr1.2.2.2.1 (by
            have h1 := hdr1.2.2.2.2.1
            have h2 := hdr1.2.2.1
            rw [h2]
            exact h1)
      refine ⟨m + 1, by omega, ob, l1 ++ l2, ?_, ?_, ?_, ?_, ?_⟩
      · rw [Function.iterate_succ_apply, htr2, htr1, List.append_assoc]
      · rw [Function.iterate_succ_apply]
        exact hone2
      · rw [socket_writes_append]
        exact drains_append b b1 _ _ ob hdr1 hdr2
      · rw [socket_writes_append, List.length_append]
        omega
      · intro h
        rw [hlast h]

/-- C9: channel-to-socket backpressure.  In a running tunnel one live pair owns the
socket `sock` and has the buffer `b` pending, with `len > 0` bytes remaining from the
cursor on; every `write` on that socket either takes a positive number of the bytes
offered, not more than offered, or reports would-block (-1 with `EAGAIN`).  Then for
every number `n` of successive passes from the channels to the sockets, each working
on the slot `socketbuffers[i]` the pass before left in the tunnel, there is a number
`m <= n` of passes after which:

* the pair is still live, the only one on its socket, with what is left of the buffer
  in its slot;
* every write on the socket offered the buffer from the first byte not yet taken
  (`resumes`), the cursor advancing by the count returned and not at all on
  would-block, and every pass made at least one write;
* if the buffer is still kept, all `n` passes are done, bytes remain, the cursor stands
  at the length of the data minus the remaining length, and the socket has been handed
  exactly the first `len - remaining` of the pending bytes;
* if the buffer is discarded, nothing remains: the socket has been handed exactly the
  pending bytes.

Moreover the body of the pass, when the first write on a pending buffer reports
would-block, leaves the buffer for the slot as it was, cursor and remaining length
unchanged, and does not flag the pair. -/
theorem socketbuffer_backpressure (env : Env) (ts : TSt) (k : Nat) (c : Option Channel)
    (sock : Int) (b : RemminaSSHTunnelBuffer)
    (hk : ts.tunnel.num_channels = (k : Int)) (hrun : ts.tunnel.running = true)
    (hch : k ≤ ts.tunnel.channels.length) (hso : k ≤ ts.tunnel.sockets.length)
    (hbu : k ≤ ts.tunnel.socketbuffers.length)
    (hpair : (live_pairs ts.tunnel).filter (fun p => decide (p.2.1 = sock)) =
      [(c, sock, some b)])
    (hlen : 0 < b.len) (hcur : b.ptr + b.len.toNat = b.data.length)
    (hw : ∀ h d, (0 < (env.write h sock d).1 ∧ (env.write h sock d).1 ≤ d.length) ∨
      ((env.write h sock d).1 = -1 ∧ (env.write h sock d).2 = EAGAIN)) :
    (∀ n : Nat, ∃ m, m ≤ n ∧ ∃ ob l,
      ((fun s => (relay_pass (chan_to_sock_pair env s.tunnel.running) s).2)^[m] ts).trace =
        ts.trace ++ l ∧
      (live_pairs ((fun s => (relay_pass (chan_to_sock_pair env s.tunnel.running)
        s).2)^[m] ts).tunnel).filter (fun p => decide (p.2.1 = sock)) = [(c, sock, ob)] ∧
      resumes b.data b.ptr (socket_writes sock l) ∧
      m ≤ (socket_writes sock l).length ∧
      (match ob with
        | some b1 =>
          m = n ∧ b1.data = b.data ∧ 0 < b1.len ∧ b1.len ≤ b.len ∧
          b1.ptr = b.data.length - b1.len.toNat ∧
          socket_received sock l =
            (b.data.drop b.ptr).take (b.len.toNat - b1.len.toNat)
        | none => socket_received sock l = b.data.drop b.ptr)) ∧
    (∀ (b1 : RemminaSSHTunnelBuffer) (err : Option ErrorText) (tr1 : List Event),
      0 < b1.len → (env.write tr1 sock b1.pending).1 = -1 →
      chan_to_sock_pair env true (c, sock, some b1) err tr1 =
        { buffer := some b1, disconnected := false, error := err,
          trace := tr1 ++ [Event.write sock b1.pending (-1)], stalled := false }) := by
  constructor
  · intro n
    obtain ⟨m, hm, ob, l, htr, hone, hdr, hcount, hlast⟩ :=
      relay_passes_pending env c sock hw n ts k b hk hrun hch hso hbu hpair hlen hcur
    obtain ⟨hres, htaken, hob⟩ := hdr
    refine ⟨m, hm, ob, l, htr, hone, hres, hcount, ?_⟩
    cases ob with
    | none =>
      simp only at hob ⊢
      unfold socket_received
      rw [htaken]
      apply List.take_of_length_le
      rw [List.length_drop]
      omega
    | some b1 =>
      simp only at hob ⊢
      obtain ⟨hd, h0, hinv, hptr⟩ := hob
      refine ⟨hlast (by simp), hd, h0, by omega, by omega, ?_⟩
      unfold socket_received
      rw [htaken]
      congr 1
      omega
  · intro b1 err tr1 h0 hr
    have herr : (env.write tr1 sock b1.pending).2 = EAGAIN := by
      rcases hw tr1 b1.pending with ⟨h1, _⟩ | ⟨_, h2⟩
      · omega
      · exact h2
    obtain ⟨f, hf⟩ : ∃ f, b1.len.toNat = f + 1 := ⟨b1.len.toNat - 1, by omega⟩
    have hnz : ¬ b1.len ≤ 0 := by omega
    have hflush : socketbuffer_flush env true sock b1 tr1 =
        (some b1, false, tr1 ++ [Event.write sock b1.pending (-1)]) := by
      unfold socketbuffer_flush
      rw [hf, socketbuffer_write_loop]
      simp [h0, hr, herr, hnz]
    simp [chan_to_sock_pair, chan_to_sock_poll, hflush]

/-- Witness of C9: three bytes pending for a socket that takes one byte and then
reports would-block, over two passes. -/
theorem socketbuffer_backpressure_witness :
    ∃ m, m ≤ 2 ∧ ∃ ob l,
      ((fun s => (relay_pass (chan_to_sock_pair env_socket_blocks_in_turn
        s.tunnel.running) s).2)^[m] pending_pair_tunnel).trace =
        pending_pair_tunnel.trace ++ l ∧
      (live_pairs ((fun s => (relay_pass (chan_to_sock_pair env_socket_blocks_in_turn
        s.tunnel.running) s).2)^[m] pending_pair_tunnel).tunnel).filter
          (fun p => decide (p.2.1 = 12)) = [(some 2, 12, ob)] ∧
      resumes (remmina_ssh_tunnel_buffer_new [104, 105, 33]).data
        (remmina_ssh_tunnel_buffer_new [104, 105, 33]).ptr (socket_writes 12 l) ∧
      m ≤ (socket_writes 12 l).length ∧
      (match ob with
        | some b1 =>
          m = 2 ∧ b1.data = (remmina_ssh_tunnel_buffer_new [104, 105, 33]).data ∧
          0 < b1.len ∧ b1.len ≤ (remmina_ssh_tunnel_buffer_new [104, 105, 33]).len ∧
          b1.ptr = (remmina_ssh_tunnel_buffer_new [104, 105, 33]).data.length -
            b1.len.toNat ∧
          socket_received 12 l =
            ((remmina_ssh_tunnel_buffer_new [104, 105, 33]).data.drop
              (remmina_ssh_tunnel_buffer_new [104, 105, 33]).ptr).take
                ((remmina_ssh_tunnel_buffer_new [104, 105, 33]).len.toNat - b1.len.toNat)
        | none => socket_received 12 l =
            (remmina_ssh_tunnel_buffer_new [104, 105, 33]).data.drop
              (remmina_ssh_tunnel_buffer_new [104, 105, 33]).ptr) :=
  (socketbuffer_backpressure env_socket_blocks_in_turn pending_pair_tunnel 2 (some 2) 12
    (remmina_ssh_tunnel_buffer_new [104, 105, 33]) rfl rfl (by decide) (by decide)
    (by decide) (by decide) (by decide) (by decide)
    (by
      intro h d
      by_cases hc : d = [] ∨ (socket_writes 12 h).length % 2 = 1
      · exact Or.inr (by simp [env_socket_blocks_in_turn, hc])
      · refine Or.inl ?_
        have hd : d ≠ [] := fun hd => hc (Or.inl hd)
        have hpos : 0 < d.length := List.length_pos.2 hd
        simp only [env_socket_blocks_in_turn, hc, if_false]
        omega)).1 2

end Remmina
